import Mathlib

/-!
# no-OS IIO core: a shallow embedding and its verified properties

The development follows `iio/iio.c` (device and trigger registries, the
streaming buffer manager, the trigger scheduler, the connection multiplexer,
the context-document generator and the value formatter and parser), the
ADXRS290 descriptor of `drivers/gyro/adxrs290/iio_adxrs290.c` and the transfer
functions of `drivers/platform/maxim/maxim_spi.c`.

Conventions of the embedding
* C strings are `List Char` (the terminating NUL is implicit); a nullable
  pointer is an `Option`.
* `uint32_t` values are `Nat` reduced `% 2^32` where the source can wrap;
  `int`/`int32_t` results are `Int`; a `uint32_t` returned through `int` goes
  through `int_of_u32`.
* Undefined behaviour of the C source (out-of-range shift, read past an array,
  null dereference, invalid `free`) makes a function return `none`.
* Driver callbacks are pure functions of their arguments; every call is recorded
  in `iio_desc.trace`.  Effects on driver-owned state are outside the model.
* A pointer to a storage block is the block's number in `heap`.
* Positions in attribute and channel arrays are naturals.  The scans of
  `iio_get_channel` and `iio_rd_wr_attribute` count in `int16_t`: a scan that
  would step past position 32767 is undefined, and the properties of these
  scans carry the bound.
* The build modelled is the one without `ENABLE_IIO_NETWORK`.
* The circular buffer is not among the sources followed: the ring is a FIFO
  byte queue after its description, and the reserve and commit steps of its
  two-phase transfers are parameters of `iio_env`.  What a failing `cb_cfg`
  leaves in the ring is not described: `cb_cfg` leaves it unchanged, and the
  property of storage ownership takes the whole call as a parameter
  (`iio_open_dev_over`).
* The C library is modelled after ISO C: the `%x` and `%u` conversions of
  `sscanf`, `strtol` with base 0 (the width of `long` is a parameter) and
  `strtok`.  The vendor SDK's SPI transaction is a parameter of the model.
-/

set_option linter.unusedVariables false

namespace IIO

/-! ## Constants

`SUCCESS`, `FAILURE` (`no-os/error.h`) and the `errno.h` codes the sources use,
with their usual values; the properties below only depend on their being
pairwise distinct and positive. -/

def SUCCESS : Int := 0
def FAILURE : Int := -1
def ENOENT : Int := 2
def EAGAIN : Int := 11
def ENOMEM : Int := 12
def EBUSY : Int := 16
def ENODEV : Int := 19
def EINVAL : Int := 22
def ENOTCONN : Int := 107

def UINT32_MOD : Nat := 4294967296
def INT32_MAX : Int := 2147483647

/-- The largest value of the `int16_t` counters of `iio_get_channel` and
`iio_rd_wr_attribute`. -/
def INT16_MAX : Nat := 32767

/-- The macro `NO_TRIGGER` (-1), compared against and stored in `uint32_t`. -/
def NO_TRIGGER : Nat := 4294967295

/-- The macro `IS_ERR_VALUE(ret)`. -/
def IS_ERR_VALUE (ret : Int) : Bool := decide (ret < 0)

/-- Conversion of a `uint32_t` to the `int` a function returns. -/
def int_of_u32 (x : Nat) : Int :=
  if x % UINT32_MOD < 2147483648 then ((x % UINT32_MOD : Nat) : Int)
  else ((x % UINT32_MOD : Nat) : Int) - 4294967296

/-- Conversion of an `int` to `uint32_t`. -/
def u32_of_int (x : Int) : Nat := (x % 4294967296).toNat

/-! ## printf conversions -/

def digit_char (d : Nat) : Char := Char.ofNat (48 + d)

/-- Decimal digits of `n`, most significant first, pushed in front of `acc`. -/
def fmt_u_loop : Nat → Nat → List Char → List Char
  | 0, _, acc => acc
  | fuel + 1, n, acc =>
    if n < 10 then digit_char n :: acc
    else fmt_u_loop fuel (n / 10) (digit_char (n % 10) :: acc)

/-- Conversion `%u` of a `uint32_t` (at most ten digits). -/
def fmt_u32 (n : Nat) : List Char := fmt_u_loop 10 (n % UINT32_MOD) []

/-- Conversion `%d` of an `int`. -/
def fmt_d (x : Int) : List Char :=
  if x < 0 then '-' :: fmt_u_loop 10 (x.natAbs % UINT32_MOD) []
  else fmt_u_loop 10 (x.natAbs % UINT32_MOD) []

/-- Value of a string of decimal digits. -/
def dec_val (s : List Char) : Nat :=
  s.foldl (fun a c => 10 * a + (c.toNat - 48)) 0

/-- Hexadecimal digit, lower case. -/
def hex_char (d : Nat) : Char := if d < 10 then Char.ofNat (48 + d) else Char.ofNat (87 + d)

/-- Hexadecimal digits of `n`, most significant first, pushed in front of
`acc`. -/
def fmt_x_loop : Nat → Nat → List Char → List Char
  | 0, _, acc => acc
  | fuel + 1, n, acc =>
    if n < 16 then hex_char n :: acc
    else fmt_x_loop fuel (n / 16) (hex_char (n % 16) :: acc)

/-- Conversion `%x` of a `uint32_t` (at most eight digits). -/
def fmt_x32 (n : Nat) : List Char := fmt_x_loop 8 (n % UINT32_MOD) []

/-- Library `snprintf(buf, len, ...)` for the formatted string `s`: the result
and the characters stored before the NUL. -/
def c_snprintf (len : Nat) (s : List Char) : Int × List Char :=
  (s.length, if len = 0 then [] else s.take (len - 1))

/-! ## scanf conversions

The conversions `%x` and `%u` of the C library, after ISO C 7.21.6.2 and the
subject sequence of `strtoul`: leading white space is skipped, a sign is
optional, for `%x` a prefix `0x`/`0X` is optional, and the item is the longest
run of digits that follows.  A value that does not fit the `uint32_t` target
is undefined there. -/

inductive scan_result
  | undefined
  | fail
  | ok (v : Nat) (rest : List Char)
  deriving DecidableEq, Repr

def is_space (c : Char) : Bool :=
  c = ' ' || c = '\t' || c = '\n' || c = '\r' || c.toNat = 11 || c.toNat = 12

def skip_space (s : List Char) : List Char := s.dropWhile is_space

/-- The value of a digit of the base, `none` for any other character. -/
def digit_of (base : Nat) (c : Char) : Option Nat :=
  if 48 ≤ c.toNat ∧ c.toNat ≤ 57 ∧ c.toNat - 48 < base then some (c.toNat - 48)
  else if 97 ≤ c.toNat ∧ c.toNat ≤ 102 ∧ c.toNat - 87 < base then some (c.toNat - 87)
  else if 65 ≤ c.toNat ∧ c.toNat ≤ 70 ∧ c.toNat - 55 < base then some (c.toNat - 55)
  else none

/-- The value of a run of digits of the base. -/
def digits_val (base : Nat) (ds : List Char) : Nat :=
  ds.foldl (fun a c => base * a + (digit_of base c).getD 0) 0

/-- The sign of a numeric item: whether it is negative, and the text after it. -/
def scan_sign : List Char → Bool × List Char
  | '-' :: r => (true, r)
  | '+' :: r => (false, r)
  | s => (false, s)

/-- The optional prefix of a hexadecimal item. -/
def scan_hex_prefix : List Char → List Char
  | '0' :: 'x' :: r => r
  | '0' :: 'X' :: r => r
  | s => s

/-- A conversion `%x` (`base` 16) or `%u` (`base` 10) into a `uint32_t`. -/
def scan_unsigned (base : Nat) (s : List Char) : scan_result :=
  let s2 := scan_sign (skip_space s)
  let s3 := if base = 16 then scan_hex_prefix s2.2 else s2.2
  let ds := s3.takeWhile (fun c => (digit_of base c).isSome)
  if ds = [] then scan_result.fail
  else if digits_val base ds < UINT32_MOD then
    scan_result.ok (if s2.1 then (UINT32_MOD - digits_val base ds) % UINT32_MOD
                    else digits_val base ds)
      (s3.dropWhile (fun c => (digit_of base c).isSome))
  else scan_result.undefined

/-- Library `sscanf(buf, "0x%x 0x%x", &addr, &value)`: `some (some (addr,
value))` when both conversions are filled, `some none` for any smaller
result. -/
def sscanf_addr_value (buf : List Char) : Option (Option (Nat × Nat)) :=
  match buf with
  | '0' :: 'x' :: r =>
    match scan_unsigned 16 r with
    | scan_result.undefined => none
    | scan_result.fail => some none
    | scan_result.ok addr r1 =>
      match skip_space r1 with
      | '0' :: 'x' :: r2 =>
        match scan_unsigned 16 r2 with
        | scan_result.undefined => none
        | scan_result.fail => some none
        | scan_result.ok value _ => some (some (addr, value))
      | _ => some none
  | _ => some none

/-- Library `sscanf(buf, "%u", &addr)`: `some (some addr)` when the conversion
is filled. -/
def sscanf_addr (buf : List Char) : Option (Option Nat) :=
  match scan_unsigned 10 buf with
  | scan_result.undefined => none
  | scan_result.fail => some none
  | scan_result.ok addr _ => some (some addr)

/-! ## Data model (`iio_types.h`, `iio.c`) -/

inductive iio_chan_type
  | IIO_VOLTAGE | IIO_CURRENT | IIO_ALTVOLTAGE | IIO_ANGL_VEL | IIO_TEMP
  | IIO_CAPACITANCE
  deriving DecidableEq, Repr

inductive iio_attr_shared
  | IIO_SEPARATE | IIO_SHARED_BY_TYPE | IIO_SHARED_BY_DIR | IIO_SHARED_BY_ALL
  deriving DecidableEq, Repr

inductive iio_attr_type
  | IIO_ATTR_TYPE_DEBUG | IIO_ATTR_TYPE_BUFFER | IIO_ATTR_TYPE_CH_OUT
  | IIO_ATTR_TYPE_CH_IN | IIO_ATTR_TYPE_DEVICE
  deriving DecidableEq, Repr

inductive iio_buffer_direction
  | IIO_DIRECTION_INPUT | IIO_DIRECTION_OUTPUT
  deriving DecidableEq, Repr

/-- Modelled from the spec: the enumerator `IIO_MOD_X` of `iio_types.h`, which
is not among the sources.  The spec fixes no value; the model uses it only as
the index of the name "x" in `iio_modifier_names`. -/
def IIO_MOD_X : Int := 1

/-- Modelled from the spec: the enumerator `IIO_MOD_Y` of `iio_types.h`, see
`IIO_MOD_X`; the index of the name "y". -/
def IIO_MOD_Y : Int := 2

structure iio_ch_info where
  ch_num : Int
  ch_out : Bool
  type : iio_chan_type
  differential : Bool
  address : Nat
  deriving DecidableEq, Repr

structure scan_type where
  sign : Char
  realbits : Nat
  storagebits : Nat
  shift : Nat
  is_big_endian : Bool
  deriving DecidableEq, Repr

/-- An entry of an attribute array; the array's null-name sentinel is the end
of the list.  A member an initializer leaves out is zero: a null callback, and
for `shared` the first enumerator, taken to be `IIO_SEPARATE`.  `show_cb`/`store_cb` are the `show`/`store` pointers, applied to
(device instance, [text,] length, channel info, private tag); `none` as a
result is undefined behaviour of the callback. -/
structure iio_attribute where
  name : List Char
  shared : iio_attr_shared := iio_attr_shared.IIO_SEPARATE
  priv : Int := 0
  show_cb : Option (Nat → Nat → Option iio_ch_info → Int → Option (Int × List Char)) := none
  store_cb : Option (Nat → List Char → Nat → Option iio_ch_info → Int → Option Int) := none

structure iio_channel where
  name : Option (List Char) := none
  ch_type : iio_chan_type
  channel : Int := 0
  channel2 : Int := 0
  address : Nat := 0
  scan_index : Int := 0
  scan_type : Option scan_type := none
  attributes : Option (List iio_attribute) := none
  ch_out : Bool := false
  modified : Bool := false
  indexed : Bool := false
  diferential : Bool := false

/-- Modelled from the spec: the circular buffer of
`no-os/circular_buffer.h`, whose implementation is not among the sources: a
fixed-capacity byte ring with synchronous write/read and a size query, held
as a FIFO byte queue.  `buff` is the storage block, `size` the capacity and
`data` the queued bytes, oldest first. -/
structure circular_buffer where
  size : Nat := 0
  buff : Option Nat := none
  data : List Nat := []
  deriving DecidableEq, Repr

/-- The public part `struct iio_buffer`; its `buf` member always points to the
`cb` of the enclosing `iio_buffer_priv`. -/
structure iio_buffer where
  active_mask : Nat := 0
  size : Nat := 0
  bytes_per_scan : Nat := 0
  dir : iio_buffer_direction := iio_buffer_direction.IIO_DIRECTION_INPUT
  deriving DecidableEq, Repr

structure iio_buffer_priv where
  pub : iio_buffer := {}
  cb : circular_buffer := {}
  raw_buf : Option Nat := none
  raw_buf_len : Nat := 0
  initalized : Bool := false
  allocated : Bool := false
  deriving DecidableEq, Repr

/-- The descriptor `struct iio_device`.  A callback that returns a value is a
function of its arguments (device instance first); a `void` callback is the
flag "pointer is not null". -/
structure iio_device where
  num_ch : Nat := 0
  channels : Option (List iio_channel) := none
  attributes : Option (List iio_attribute) := none
  debug_attributes : Option (List iio_attribute) := none
  buffer_attributes : Option (List iio_attribute) := none
  prepare_transfer : Option (Nat → Nat → Int) := none
  end_transfer : Option (Nat → Int) := none
  pre_enable : Option (Nat → Nat → Int) := none
  post_disable : Option (Nat → Int) := none
  submit : Option (Nat → Int) := none
  read_dev : Option (Nat → Nat → Int) := none
  write_dev : Option (Nat → Nat → Int) := none
  trigger_handler : Bool := false
  debug_reg_read : Option (Nat → Nat → Int × Nat) := none
  debug_reg_write : Option (Nat → Nat → Nat → Int) := none

structure iio_trigger where
  attributes : Option (List iio_attribute) := none
  enable : Bool := false
  disable : Bool := false
  trigger_handler : Bool := false

structure iio_device_init where
  name : List Char
  dev : Nat := 0
  dev_descriptor : iio_device
  raw_buf : Option Nat := none
  raw_buf_len : Nat := 0
  trigger_name : Option (List Char) := none

structure iio_trigger_init where
  name : List Char
  trig : Nat := 0
  descriptor : iio_trigger

structure iio_dev_priv where
  dev_id : List Char := []
  name : List Char := []
  dev_instance : Nat := 0
  active_reg_addr : Nat := 0
  dev_descriptor : iio_device := {}
  buffer : iio_buffer_priv := {}
  trig_idx : Nat := 0

structure iio_trig_priv where
  id : List Char := []
  name : List Char := []
  instance_ : Nat := 0
  descriptor : iio_trigger := {}
  triggered : Bool := false

/-- The allocator state: `next` numbers the next block, `live` lists the
blocks handed out and not yet freed. -/
structure heap where
  next : Nat := 0
  live : List Nat := []
  deriving DecidableEq, Repr

/-- A call that leaves the core: a driver or trigger callback, the codec, or
the asynchronous primitives of the circular buffer.
`attr_show k` and `attr_store k` are calls of the `show` and `store` members of
entry `k` of an attribute array, with the arguments passed. -/
inductive iio_call
  | pre_enable (dev : Nat) (mask : Nat)
  | post_disable (dev : Nat)
  | trig_enable (trig : Nat)
  | trig_disable (trig : Nat)
  | trigger_handler (dev : Nat)
  | conn_step (conn_id : Nat)
  | attr_show (k : Nat) (dev_instance : Nat) (len : Nat) (ch_info : Option iio_ch_info)
      (priv : Int)
  | attr_store (k : Nat) (dev_instance : Nat) (buf : List Char) (len : Nat)
      (ch_info : Option iio_ch_info) (priv : Int)
  | debug_reg_read (dev_instance : Nat) (addr : Nat)
  | debug_reg_write (dev_instance : Nat) (addr : Nat) (value : Nat)
  | submit (dev : Nat)
  | cb_prepare_async (dev : Nat) (dir : iio_buffer_direction) (requested : Nat)
  | read_dev (dev_instance : Nat) (nb_scans : Nat)
  | write_dev (dev_instance : Nat) (nb_scans : Nat)
  | cb_end_async (dev : Nat) (dir : iio_buffer_direction)
  deriving DecidableEq, Repr

/-- The parts of the program's surroundings the sources do not fix. -/
structure iio_env where
  /-- Whether `calloc(nmemb, size)` succeeds in the given allocator state -/
  calloc_ok : heap → Nat → Nat → Bool
  /-- Result of `cb_cfg(cb, buf, size)` for the given storage and size -/
  cb_cfg_ret : Option Nat → Nat → Int
  /-- Result of the codec's `iiod_conn_step` on a connection id -/
  iiod_conn_step : Nat → Int
  sizeof_dev_priv : Nat := 1
  sizeof_trig_priv : Nat := 1
  /-- Modelled from the spec: `cb_prepare_async_write(cb, requested, &addr,
  &size)`, the reserve step of the two-phase transfer into the ring: the result
  and the size of the contiguous region granted -/
  cb_prepare_async_write : circular_buffer → Nat → Int × Nat := fun _ n => (0, n)
  /-- Modelled from the spec: `cb_prepare_async_read(cb, requested, &addr,
  &size)`, the reserve step of the two-phase transfer out of the ring -/
  cb_prepare_async_read : circular_buffer → Nat → Int × Nat := fun _ n => (0, n)
  /-- Modelled from the spec: `cb_end_async_write(cb)`, the commit step: the
  result and the ring afterwards -/
  cb_end_async_write : circular_buffer → Int × circular_buffer := fun cb => (0, cb)
  /-- Modelled from the spec: `cb_end_async_read(cb)`, the commit step -/
  cb_end_async_read : circular_buffer → Int × circular_buffer := fun cb => (0, cb)

/-- The members of `struct iiod_attr` (`iiod.h`) that the core reads: the
category, the attribute name (empty for "all attributes") and the channel name
(null when the attribute is not a channel attribute). -/
structure iiod_attr where
  type : iio_attr_type
  name : List Char
  channel : Option (List Char) := none

/-- The structure `attr_fun_params`; `buf` is the text at the caller's buffer
on entry. -/
structure attr_fun_params where
  dev_instance : Nat
  buf : List Char
  len : Nat
  ch_info : Option iio_ch_info

structure iio_desc where
  xml_desc : Option (List Char) := none
  xml_size : Nat := 0
  devs : List iio_dev_priv := []
  trigs : List iio_trig_priv := []
  conns : circular_buffer := {}
  hp : heap := {}
  trace : List iio_call := []

/-! ## Allocation -/

/-- Library `calloc(nmemb, size)`: a fresh block, or `NULL`. -/
def calloc (env : iio_env) (h : heap) (nmemb size : Nat) : Option Nat × heap :=
  if env.calloc_ok h nmemb size then
    (some h.next, { next := h.next + 1, live := h.next :: h.live })
  else (none, h)

/-- Library `free(p)`: nothing for `NULL`, undefined for a block that is not live. -/
def free (h : heap) (p : Option Nat) : Option heap :=
  match p with
  | none => some h
  | some a => if a ∈ h.live then some { h with live := h.live.erase a } else none

/-! ## Registries -/

/-- Index of the first element satisfying `p`, counted from `i`: the linear
scans of `get_iio_device` and `iio_get_trig_idx`. -/
def find_from {α : Type} (p : α → Bool) : List α → Nat → Option Nat
  | [], _ => none
  | x :: xs, i => if p x then some i else find_from p xs (i + 1)

/-- Function `get_iio_device`: the index of the record found (the source returns
`&desc->devs[i]`), or `none` for `NULL`. -/
def get_iio_device (desc : iio_desc) (device_name : List Char) : Option Nat :=
  find_from (fun d => decide (d.dev_id = device_name)) desc.devs 0

/-- Function `iio_get_trig_idx`. -/
def iio_get_trig_idx (desc : iio_desc) (name : Option (List Char)) : Nat :=
  match name with
  | none => NO_TRIGGER
  | some nm =>
    match find_from (fun (t : iio_trig_priv) => decide (t.name = nm)) desc.trigs 0 with
    | some i => i % UINT32_MOD
    | none => NO_TRIGGER

/-- The record `iio_init_devs` builds at index `i` of the zeroed array. -/
def init_dev (desc : iio_desc) (ndev : iio_device_init) (i : Nat) : iio_dev_priv :=
  let capable := ndev.dev_descriptor.read_dev.isSome ||
    ndev.dev_descriptor.write_dev.isSome || ndev.dev_descriptor.submit.isSome
  { dev_id := "iio:device".toList ++ fmt_u32 i
    name := ndev.name
    dev_instance := ndev.dev
    active_reg_addr := 0
    dev_descriptor := ndev.dev_descriptor
    trig_idx := iio_get_trig_idx desc ndev.trigger_name
    buffer :=
      if capable then
        { raw_buf := ndev.raw_buf, raw_buf_len := ndev.raw_buf_len, initalized := true }
      else { initalized := false } }

def init_devs_loop (desc : iio_desc) : List iio_device_init → Nat → List iio_dev_priv
  | [], _ => []
  | nd :: nds, i => init_dev desc nd i :: init_devs_loop desc nds (i + 1)

/-- Function `iio_init_devs(desc, devs, n)`, the array and its count `n` being the list
`devs`. -/
def iio_init_devs (env : iio_env) (desc : iio_desc) (devs : List iio_device_init) :
    Int × iio_desc :=
  match calloc env desc.hp devs.length env.sizeof_dev_priv with
  | (none, h) => (-ENOMEM, { desc with devs := [], hp := h })
  | (some _, h) =>
    (SUCCESS, { desc with devs := init_devs_loop desc devs 0, hp := h })

def init_trigs_loop : List iio_trigger_init → Nat → List iio_trig_priv
  | [], _ => []
  | nt :: nts, i =>
    { id := "iio:trigger".toList ++ fmt_u32 i, name := nt.name, instance_ := nt.trig,
      descriptor := nt.descriptor, triggered := false } :: init_trigs_loop nts (i + 1)

/-- Function `iio_init_trigs(desc, trigs, n)`. -/
def iio_init_trigs (env : iio_env) (desc : iio_desc) (trigs : List iio_trigger_init) :
    Int × iio_desc :=
  match calloc env desc.hp trigs.length env.sizeof_trig_priv with
  | (none, h) => (-ENOMEM, { desc with trigs := [], hp := h })
  | (some _, h) =>
    (SUCCESS, { desc with trigs := init_trigs_loop trigs 0, hp := h })

/-! ## Circular buffer (`no-os/circular_buffer.h`) -/

/-- Modelled from the spec: `cb_size`, the size query: the number of bytes
queued. -/
def cb_size (cb : circular_buffer) : Int × Nat := (SUCCESS, cb.data.length)

/-- Modelled from the spec: `cb_write(cb, data, n)`, the synchronous write: the
first `n` bytes of `data` join the queue when they fit in the free room; when
they do not, nothing is queued and an error is returned.  Reading `n` bytes
from a shorter `data` is undefined. -/
def cb_write (cb : circular_buffer) (data : List Nat) (n : Nat) :
    Option (Int × circular_buffer) :=
  if data.length < n then none
  else if cb.data.length + n ≤ cb.size then
    some (SUCCESS, { cb with data := cb.data ++ data.take n })
  else some (-ENOMEM, cb)

/-- Modelled from the spec: `cb_read(cb, out, n)`, the synchronous read: the
`n` oldest bytes leave the queue and are returned; when fewer are queued,
nothing is read and an error is returned. -/
def cb_read (cb : circular_buffer) (n : Nat) : Int × List Nat × circular_buffer :=
  if n ≤ cb.data.length then (SUCCESS, cb.data.take n, { cb with data := cb.data.drop n })
  else (-EAGAIN, [], cb)

/-- Modelled from the spec: `cb_cfg(cb, buf, size)`: the ring is set over the
storage `buf` with capacity `size` and emptied; whether configuration fails is
left to the environment, and a failed configuration changes nothing (the
description of the ring does not say what a failed configuration leaves;
`iio_open_dev_over` takes the whole call as a parameter). -/
def cb_cfg (env : iio_env) (cb : circular_buffer) (buf : Option Nat) (size : Nat) :
    Int × circular_buffer :=
  if IS_ERR_VALUE (env.cb_cfg_ret buf size) then (env.cb_cfg_ret buf size, cb)
  else (env.cb_cfg_ret buf size, { size := size, buff := buf, data := [] })

/-! ## Streaming buffer manager -/

/-- The loop of `bytes_per_scan`: `channels` is the array from index `i` on,
`cnt` the running sum.  A set bit beyond the array, or on a channel without
scan type, is an invalid read. -/
def bytes_per_scan_loop : List iio_channel → Nat → Nat → Option Nat
  | [], mask, cnt => if mask = 0 then some cnt else none
  | c :: cs, mask, cnt =>
    if mask = 0 then some cnt
    else if mask % 2 = 1 then
      match c.scan_type with
      | none => none
      | some st => bytes_per_scan_loop cs (mask / 2) ((cnt + st.storagebits / 8) % UINT32_MOD)
    else bytes_per_scan_loop cs (mask / 2) cnt

/-- Function `bytes_per_scan(channels, mask)`. -/
def bytes_per_scan (channels : Option (List iio_channel)) (mask : Nat) : Option Nat :=
  bytes_per_scan_loop (channels.getD []) mask 0

/-- The expression `0xFFFFFFFF >> (32 - num_ch)` of `iio_open_dev`: defined only
for a shift count within 0..31. -/
def ch_mask_of (num_ch : Nat) : Option Nat :=
  if 1 ≤ num_ch ∧ num_ch ≤ 32 then some (4294967295 >>> (32 - num_ch)) else none

/-- The statement `if (allocated) { free(cb.buff); allocated = 0; }` that
`iio_open_dev` and `iio_close_dev` repeat. -/
def release_allocated (h : heap) (b : iio_buffer_priv) : Option (heap × iio_buffer_priv) :=
  if b.allocated then
    match free h b.cb.buff with
    | none => none
    | some h' => some (h', { b with allocated := false })
  else some (h, b)

/-- Write-back of the device record at index `i` with its buffer, the
allocator state and the trace. -/
def put_dev (desc : iio_desc) (i : Nat) (dev : iio_dev_priv) (b : iio_buffer_priv)
    (h : heap) (tr : List iio_call) : iio_desc :=
  { desc with devs := desc.devs.set i { dev with buffer := b }, hp := h, trace := tr }

/-- Lines 910-937 of `iio_open_dev`: configuration of the ring over the
storage `buf`, the `pre_enable` callback and the trigger's `enable`. -/
def iio_open_dev_configure (env : iio_env) (desc : iio_desc) (i : Nat) (dev : iio_dev_priv)
    (mask size : Nat) (buf : Option Nat) (b : iio_buffer_priv) (h : heap) :
    Option (Int × iio_desc) :=
  let b4 : iio_buffer_priv := { b with cb := (cb_cfg env b.cb buf size).2 }
  let ret := (cb_cfg env b.cb buf size).1
  if IS_ERR_VALUE ret then
    match release_allocated h b4 with
    | none => none
    | some (h5, b5) => some (ret, put_dev desc i dev b5 h5 desc.trace)
  else
  let after_pre : Option (Int × iio_buffer_priv × heap × List iio_call) :=
    match dev.dev_descriptor.pre_enable with
    | none => some (ret, b4, h, desc.trace)
    | some f =>
      if IS_ERR_VALUE (f dev.dev_instance mask) then
        match release_allocated h b4 with
        | none => none
        | some (h5, b5) =>
          some (f dev.dev_instance mask, b5, h5, desc.trace ++ [iio_call.pre_enable i mask])
      else some (f dev.dev_instance mask, b4, h, desc.trace ++ [iio_call.pre_enable i mask])
  match after_pre with
  | none => none
  | some (ret, b6, h6, tr) =>
  if dev.trig_idx = NO_TRIGGER then some (ret, put_dev desc i dev b6 h6 tr) else
  match desc.trigs[dev.trig_idx]? with
  | none => none
  | some trig =>
    if trig.descriptor.enable then
      some (ret, put_dev desc i dev b6 h6 (tr ++ [iio_call.trig_enable dev.trig_idx]))
    else some (ret, put_dev desc i dev b6 h6 tr)

/-- Function `iio_open_dev(ctx, device, samples, mask, cyclic)`. -/
def iio_open_dev (env : iio_env) (desc : iio_desc) (device : List Char)
    (samples mask : Nat) (cyclic : Bool) : Option (Int × iio_desc) :=
  match get_iio_device desc device with
  | none => some (-ENODEV, desc)
  | some i =>
  match desc.devs[i]? with
  | none => none
  | some dev =>
  if !dev.buffer.initalized then some (-EINVAL, desc) else
  match ch_mask_of dev.dev_descriptor.num_ch with
  | none => none
  | some ch_mask =>
  let mask := mask &&& ch_mask
  if mask = 0 then some (-ENOENT, desc) else
  match bytes_per_scan dev.dev_descriptor.channels mask with
  | none => none
  | some bps =>
  let size := (bps * samples) % UINT32_MOD
  let b1 : iio_buffer_priv :=
    { dev.buffer with
      pub := { dev.buffer.pub with active_mask := mask, bytes_per_scan := bps, size := size } }
  if b1.raw_buf.isSome && b1.raw_buf_len != 0 then
    if b1.raw_buf_len < size then some (-ENOMEM, put_dev desc i dev b1 desc.hp desc.trace)
    else iio_open_dev_configure env desc i dev mask size b1.raw_buf b1 desc.hp
  else
    match release_allocated desc.hp b1 with
    | none => none
    | some (h2, b2) =>
      match calloc env h2 size 1 with
      | (none, h3) => some (-ENOMEM, put_dev desc i dev b2 h3 desc.trace)
      | (some p, h3) =>
        iio_open_dev_configure env desc i dev mask size (some p) { b2 with allocated := true } h3

/-- Function `iio_read_buffer(ctx, device, buf, bytes)`: result, the bytes
copied to `buf`, and the state. -/
def iio_read_buffer (desc : iio_desc) (device : List Char) (bytes : Nat) :
    Int × List Nat × iio_desc :=
  match get_iio_device desc device with
  | none => (-EINVAL, [], desc)
  | some i =>
  match desc.devs[i]? with
  | none => (-EINVAL, [], desc)
  | some dev =>
  if !dev.buffer.initalized then (-EINVAL, [], desc) else
  let (ret, size) := cb_size dev.buffer.cb
  if IS_ERR_VALUE ret then (ret, [], desc) else
  let bytes := min size bytes
  if bytes = 0 then (-EAGAIN, [], desc) else
  let (ret, out, cb') := cb_read dev.buffer.cb bytes
  if IS_ERR_VALUE ret then (ret, [], desc) else
  (int_of_u32 bytes, out,
    { desc with devs := desc.devs.set i { dev with buffer := { dev.buffer with cb := cb' } } })

/-- Function `iio_write_buffer(ctx, device, buf, bytes)`. -/
def iio_write_buffer (desc : iio_desc) (device : List Char) (buf : List Nat) (bytes : Nat) :
    Option (Int × iio_desc) :=
  match get_iio_device desc device with
  | none => some (-EINVAL, desc)
  | some i =>
  match desc.devs[i]? with
  | none => none
  | some dev =>
  if !dev.buffer.initalized then some (-EINVAL, desc) else
  let (ret, size) := cb_size dev.buffer.cb
  if IS_ERR_VALUE ret then some (ret, desc) else
  let available := (dev.buffer.pub.size + UINT32_MOD - size % UINT32_MOD) % UINT32_MOD
  let bytes := min available bytes
  match cb_write dev.buffer.cb buf bytes with
  | none => none
  | some (ret, cb') =>
  if IS_ERR_VALUE ret then some (ret, desc) else
  some (int_of_u32 bytes,
    { desc with devs := desc.devs.set i { dev with buffer := { dev.buffer with cb := cb' } } })

/-- Function `iio_buffer_push_scan(buffer, data)`, `buffer` being the buffer
of a registered device (`none` for a null pointer). -/
def iio_buffer_push_scan (buffer : Option iio_buffer_priv) (data : List Nat) :
    Option (Int × Option iio_buffer_priv) :=
  match buffer with
  | none => some (-EINVAL, none)
  | some b =>
    match cb_write b.cb data b.pub.bytes_per_scan with
    | none => none
    | some (ret, cb') => some (ret, some { b with cb := cb' })

/-- Function `iio_buffer_pop_scan(buffer, data)`. -/
def iio_buffer_pop_scan (buffer : Option iio_buffer_priv) :
    Int × List Nat × Option iio_buffer_priv :=
  match buffer with
  | none => (-EINVAL, [], none)
  | some b =>
    match cb_read b.cb b.pub.bytes_per_scan with
    | (ret, out, cb') => (ret, out, some { b with cb := cb' })

/-- The driver of the device at index `i` calls
`iio_buffer_push_scan(dev_data->buffer, data)`. -/
def dev_push_scan (desc : iio_desc) (i : Nat) (data : List Nat) : Option (Int × iio_desc) :=
  match desc.devs[i]? with
  | none => none
  | some dev =>
    match iio_buffer_push_scan (some dev.buffer) data with
    | some (ret, some b) => some (ret, { desc with devs := desc.devs.set i { dev with buffer := b } })
    | _ => none

/-- Successive `dev_push_scan` calls, one per sample, with their results. -/
def push_scans (desc : iio_desc) (i : Nat) : List (List Nat) → Option (List Int × iio_desc)
  | [] => some ([], desc)
  | x :: xs =>
    match dev_push_scan desc i x with
    | none => none
    | some (r, desc') =>
      match push_scans desc' i xs with
      | none => none
      | some (rs, desc'') => some (r :: rs, desc'')

/-- Successive `iio_read_buffer` calls, one per requested chunk size, with the
result and the bytes of each. -/
def read_chunks (desc : iio_desc) (device : List Char) :
    List Nat → List (Int × List Nat) × iio_desc
  | [] => ([], desc)
  | c :: cs =>
    match iio_read_buffer desc device c with
    | (r, out, desc') =>
      match read_chunks desc' device cs with
      | (rs, desc'') => ((r, out) :: rs, desc'')

/-! ## Trigger scheduler -/

/-- Function `iio_trigger_notify(desc, trigger_name)`. -/
def iio_trigger_notify (desc : iio_desc) (trigger_name : Option (List Char)) :
    Option (Int × iio_desc) :=
  if iio_get_trig_idx desc trigger_name = NO_TRIGGER then some (-EINVAL, desc)
  else
    match desc.trigs[iio_get_trig_idx desc trigger_name]? with
    | none => none
    | some t =>
      some (SUCCESS,
        { desc with
          trigs := desc.trigs.set (iio_get_trig_idx desc trigger_name) { t with triggered := true } })

/-- The device loop of `iio_process_triggers` over the array from index `i`
on: the trace with the handler calls appended. -/
def process_triggers_loop (trigs : List iio_trig_priv) :
    List iio_dev_priv → Nat → List iio_call → Option (List iio_call)
  | [], _, tr => some tr
  | dev :: ds, i, tr =>
    if dev.trig_idx = NO_TRIGGER then process_triggers_loop trigs ds (i + 1) tr
    else
      match trigs[dev.trig_idx]? with
      | none => none
      | some t =>
        if !t.triggered then process_triggers_loop trigs ds (i + 1) tr
        else if dev.dev_descriptor.trigger_handler then
          process_triggers_loop trigs ds (i + 1) (tr ++ [iio_call.trigger_handler i])
        else process_triggers_loop trigs ds (i + 1) tr

/-- Function `iio_process_triggers(desc)`. -/
def iio_process_triggers (desc : iio_desc) : Option iio_desc :=
  match process_triggers_loop desc.trigs desc.devs 0 desc.trace with
  | none => none
  | some tr =>
    some { desc with
           trigs := desc.trigs.map (fun t => { t with triggered := false }), trace := tr }

/-! ## Connection multiplexer -/

/-- The four bytes of a `uint32_t` as they lie in memory (least significant
first). -/
def u32_bytes (x : Nat) : List Nat :=
  [x % 256, x / 256 % 256, x / 65536 % 256, x / 16777216 % 256]

/-- The `uint32_t` held in four bytes of memory. -/
def u32_of_bytes (bs : List Nat) : Nat :=
  bs.getD 0 0 + 256 * bs.getD 1 0 + 65536 * bs.getD 2 0 + 16777216 * bs.getD 3 0

/-- Function `_pop_conn(desc, &conn_id)`: result, the id read, the state. -/
def _pop_conn (desc : iio_desc) : Int × Nat × iio_desc :=
  if (cb_size desc.conns).2 < 4 then (-EAGAIN, 0, desc)
  else
    match cb_read desc.conns 4 with
    | (ret, out, cb') => (ret, u32_of_bytes out, { desc with conns := cb' })

/-- Function `_push_conn(desc, conn_id)`. -/
def _push_conn (desc : iio_desc) (conn_id : Nat) : Option (Int × iio_desc) :=
  match cb_write desc.conns (u32_bytes conn_id) 4 with
  | none => none
  | some (ret, cb') => some (ret, { desc with conns := cb' })

/-- Function `_nb_active_conns(desc)`. -/
def _nb_active_conns (desc : iio_desc) : Nat := (cb_size desc.conns).2 / 4

/-- Function `iio_step(desc)`. -/
def iio_step (env : iio_env) (desc : iio_desc) : Option (Int × iio_desc) :=
  match iio_process_triggers desc with
  | none => none
  | some d1 =>
    match _pop_conn d1 with
    | (ret, conn_id, d2) =>
      if IS_ERR_VALUE ret then some (ret, d2)
      else
        let d3 := { d2 with trace := d2.trace ++ [iio_call.conn_step conn_id] }
        if env.iiod_conn_step conn_id = -ENOTCONN then some (env.iiod_conn_step conn_id, d3)
        else
          match _push_conn d3 conn_id with
          | none => none
          | some (_, d4) => some (env.iiod_conn_step conn_id, d4)

/-- Successive `iio_step` calls, `k` of them, with their results. -/
def iio_steps (env : iio_env) : Nat → iio_desc → Option (List Int × iio_desc)
  | 0, desc => some ([], desc)
  | k + 1, desc =>
    match iio_step env desc with
    | none => none
    | some (r, d1) =>
      match iio_steps env k d1 with
      | none => none
      | some (rs, d2) => some (r :: rs, d2)

/-- The connection ids handed to the codec, in call order. -/
def codec_calls (tr : List iio_call) : List Nat :=
  tr.filterMap (fun c => match c with | iio_call.conn_step id => some id | _ => none)

/-- The device indices whose trigger handler was invoked, in call order. -/
def handler_calls (tr : List iio_call) : List Nat :=
  tr.filterMap (fun c => match c with | iio_call.trigger_handler i => some i | _ => none)

/-- Every device's trigger index is `NO_TRIGGER` or the index of a registered
trigger: what `iio_init_devs` and `iio_set_trigger` store. -/
def trig_idx_ok (desc : iio_desc) : Prop :=
  ∀ d ∈ desc.devs, d.trig_idx = NO_TRIGGER ∨ d.trig_idx < desc.trigs.length


/-! ## Close, submit and trigger selection -/

/-- Function `iio_close_dev(ctx, device)`.  Without a `post_disable` callback
the trigger record at `trig_idx` is read. -/
def iio_close_dev (desc : iio_desc) (device : List Char) : Option (Int × iio_desc) :=
  match get_iio_device desc device with
  | none => some (FAILURE, desc)
  | some i =>
  match desc.devs[i]? with
  | none => none
  | some dev =>
  if !dev.buffer.initalized then some (-EINVAL, desc) else
  match release_allocated desc.hp dev.buffer with
  | none => none
  | some (h1, b1) =>
    match dev.dev_descriptor.post_disable with
    | some f =>
      some (f dev.dev_instance,
        put_dev desc i dev { b1 with pub := { b1.pub with active_mask := 0 } } h1
          (desc.trace ++ [iio_call.post_disable i]))
    | none =>
      match desc.trigs[dev.trig_idx]? with
      | none => none
      | some trig =>
        if trig.descriptor.disable then
          some (SUCCESS,
            put_dev desc i dev { b1 with pub := { b1.pub with active_mask := 0 } } h1
              (desc.trace ++ [iio_call.trig_disable dev.trig_idx]))
        else
          some (SUCCESS,
            put_dev desc i dev { b1 with pub := { b1.pub with active_mask := 0 } } h1 desc.trace)

/-- Function `iio_buffer_get_block(buffer, &addr)` on the buffer of a
registered device (`none` for a null pointer): the result. -/
def iio_buffer_get_block (env : iio_env) (buffer : Option iio_buffer_priv) : Int :=
  match buffer with
  | none => -EINVAL
  | some b =>
    if IS_ERR_VALUE
        (if b.pub.dir = iio_buffer_direction.IIO_DIRECTION_INPUT then
          env.cb_prepare_async_write b.cb b.pub.size
         else env.cb_prepare_async_read b.cb b.pub.size).1 then
      (if b.pub.dir = iio_buffer_direction.IIO_DIRECTION_INPUT then
        env.cb_prepare_async_write b.cb b.pub.size
       else env.cb_prepare_async_read b.cb b.pub.size).1
    else if
        (if b.pub.dir = iio_buffer_direction.IIO_DIRECTION_INPUT then
          env.cb_prepare_async_write b.cb b.pub.size
         else env.cb_prepare_async_read b.cb b.pub.size).2 % UINT32_MOD ≠ b.pub.size then
      -ENOMEM
    else SUCCESS

/-- Function `iio_buffer_block_done(buffer)`: the result and the buffer. -/
def iio_buffer_block_done (env : iio_env) (buffer : Option iio_buffer_priv) :
    Int × Option iio_buffer_priv :=
  match buffer with
  | none => (-EINVAL, none)
  | some b =>
    if b.pub.dir = iio_buffer_direction.IIO_DIRECTION_INPUT then
      ((env.cb_end_async_write b.cb).1, some { b with cb := (env.cb_end_async_write b.cb).2 })
    else ((env.cb_end_async_read b.cb).1, some { b with cb := (env.cb_end_async_read b.cb).2 })

/-- The legacy branch of `iio_call_submit` (lines 991-1011) for the bulk
callback `f` of the direction; `b` is the buffer with the direction set. -/
def iio_call_submit_legacy (env : iio_env) (desc : iio_desc) (i : Nat) (dev : iio_dev_priv)
    (dir : iio_buffer_direction) (b : iio_buffer_priv) (f : Nat → Nat → Int) :
    Option (Int × iio_desc) :=
  if IS_ERR_VALUE (iio_buffer_get_block env (some b)) then
    some (iio_buffer_get_block env (some b),
      put_dev desc i dev b desc.hp (desc.trace ++ [iio_call.cb_prepare_async i dir b.pub.size]))
  else if b.pub.bytes_per_scan = 0 then none
  else if IS_ERR_VALUE (f dev.dev_instance (b.pub.size / b.pub.bytes_per_scan)) then
    some (f dev.dev_instance (b.pub.size / b.pub.bytes_per_scan),
      put_dev desc i dev b desc.hp
        (desc.trace ++ [iio_call.cb_prepare_async i dir b.pub.size,
          if dir = iio_buffer_direction.IIO_DIRECTION_INPUT then
            iio_call.read_dev dev.dev_instance (b.pub.size / b.pub.bytes_per_scan)
          else iio_call.write_dev dev.dev_instance (b.pub.size / b.pub.bytes_per_scan)]))
  else
    match iio_buffer_block_done env (some b) with
    | (r, some b') =>
      some (r,
        put_dev desc i dev b' desc.hp
          (desc.trace ++ [iio_call.cb_prepare_async i dir b.pub.size,
            if dir = iio_buffer_direction.IIO_DIRECTION_INPUT then
              iio_call.read_dev dev.dev_instance (b.pub.size / b.pub.bytes_per_scan)
            else iio_call.write_dev dev.dev_instance (b.pub.size / b.pub.bytes_per_scan),
            iio_call.cb_end_async i dir]))
    | (_, none) => none

/-- Function `iio_call_submit(ctx, device, dir)`. -/
def iio_call_submit (env : iio_env) (desc : iio_desc) (device : List Char)
    (dir : iio_buffer_direction) : Option (Int × iio_desc) :=
  match get_iio_device desc device with
  | none => some (-EINVAL, desc)
  | some i =>
  match desc.devs[i]? with
  | none => none
  | some dev =>
  if !dev.buffer.initalized then some (-EINVAL, desc) else
  match dev.dev_descriptor.submit with
  | some f =>
    some (f dev.dev_instance,
      put_dev desc i dev { dev.buffer with pub := { dev.buffer.pub with dir := dir } } desc.hp
        (desc.trace ++ [iio_call.submit i]))
  | none =>
    match dir, dev.dev_descriptor.read_dev, dev.dev_descriptor.write_dev with
    | iio_buffer_direction.IIO_DIRECTION_INPUT, some f, _ =>
      iio_call_submit_legacy env desc i dev dir
        { dev.buffer with pub := { dev.buffer.pub with dir := dir } } f
    | iio_buffer_direction.IIO_DIRECTION_OUTPUT, _, some f =>
      iio_call_submit_legacy env desc i dev dir
        { dev.buffer with pub := { dev.buffer.pub with dir := dir } } f
    | _, _, _ =>
      some (SUCCESS,
        put_dev desc i dev { dev.buffer with pub := { dev.buffer.pub with dir := dir } } desc.hp
          desc.trace)

/-- Function `iio_refill_buffer(ctx, device)`. -/
def iio_refill_buffer (env : iio_env) (desc : iio_desc) (device : List Char) :
    Option (Int × iio_desc) :=
  iio_call_submit env desc device iio_buffer_direction.IIO_DIRECTION_INPUT

/-- Function `iio_push_buffer(ctx, device)`. -/
def iio_push_buffer (env : iio_env) (desc : iio_desc) (device : List Char) :
    Option (Int × iio_desc) :=
  iio_call_submit env desc device iio_buffer_direction.IIO_DIRECTION_OUTPUT

/-- Function `iio_get_trigger(ctx, device, trigger, len)`: the result and the
text stored in `trigger` (`none` when nothing is stored). -/
def iio_get_trigger (desc : iio_desc) (device : List Char) (len : Nat) :
    Option (Int × Option (List Char)) :=
  match get_iio_device desc device with
  | none => some (-ENODEV, none)
  | some i =>
  match desc.devs[i]? with
  | none => none
  | some dev =>
    if dev.trig_idx = NO_TRIGGER then some (0, some [])
    else
      match desc.trigs[dev.trig_idx]? with
      | none => none
      | some trig =>
        some ((c_snprintf len trig.name).1,
          if len = 0 then none else some (c_snprintf len trig.name).2)

/-- Function `iio_set_trigger(ctx, device, trigger, len)`. -/
def iio_set_trigger (desc : iio_desc) (device : List Char) (trigger : List Char) (len : Nat) :
    Option (Int × iio_desc) :=
  match get_iio_device desc device with
  | none => some (-ENODEV, desc)
  | some i =>
  match desc.devs[i]? with
  | none => none
  | some dev =>
    if trigger = [] then
      some (SUCCESS, { desc with devs := desc.devs.set i { dev with trig_idx := NO_TRIGGER } })
    else if iio_get_trig_idx desc (some trigger) = NO_TRIGGER then some (-EINVAL, desc)
    else
      some (int_of_u32 len,
        { desc with
          devs := desc.devs.set i { dev with trig_idx := iio_get_trig_idx desc (some trigger) } })

/-- An operation the protocol codec or the application performs on the
registry. -/
inductive iio_op
  | open_dev (device : List Char) (samples mask : Nat) (cyclic : Bool)
  | close_dev (device : List Char)
  | call_submit (device : List Char) (dir : iio_buffer_direction)
  | read_buffer (device : List Char) (bytes : Nat)
  | write_buffer (device : List Char) (buf : List Nat) (bytes : Nat)
  | set_trigger (device : List Char) (trigger : List Char) (len : Nat)
  | step

/-- The state after one operation (its result is dropped). -/
def iio_apply (env : iio_env) (desc : iio_desc) : iio_op → Option iio_desc
  | iio_op.open_dev device samples mask cyclic =>
    (iio_open_dev env desc device samples mask cyclic).map (fun r => r.2)
  | iio_op.close_dev device => (iio_close_dev desc device).map (fun r => r.2)
  | iio_op.call_submit device dir => (iio_call_submit env desc device dir).map (fun r => r.2)
  | iio_op.read_buffer device bytes => some (iio_read_buffer desc device bytes).2.2
  | iio_op.write_buffer device buf bytes =>
    (iio_write_buffer desc device buf bytes).map (fun r => r.2)
  | iio_op.set_trigger device trigger len =>
    (iio_set_trigger desc device trigger len).map (fun r => r.2)
  | iio_op.step => (iio_step env desc).map (fun r => r.2)

/-- The state after a sequence of operations. -/
def iio_run (env : iio_env) : List iio_op → iio_desc → Option iio_desc
  | [], desc => some desc
  | op :: ops, desc =>
    match iio_apply env desc op with
    | none => none
    | some d1 => iio_run env ops d1

/-! ## Context document generator -/

/-- The array `header`. -/
def header : List Char :=
  "<?xml version=\"1.0\" encoding=\"utf-8\"?>".toList ++
  "<!DOCTYPE context [".toList ++
  "<!ELEMENT context (device | context-attribute)*>".toList ++
  "<!ELEMENT context-attribute EMPTY>".toList ++
  "<!ELEMENT device (channel | attribute | debug-attribute | buffer-attribute)*>".toList ++
  "<!ELEMENT channel (scan-element?, attribute*)>".toList ++
  "<!ELEMENT attribute EMPTY>".toList ++
  "<!ELEMENT scan-element EMPTY>".toList ++
  "<!ELEMENT debug-attribute EMPTY>".toList ++
  "<!ELEMENT buffer-attribute EMPTY>".toList ++
  "<!ATTLIST context name CDATA #REQUIRED description CDATA #IMPLIED>".toList ++
  "<!ATTLIST context-attribute name CDATA #REQUIRED value CDATA #REQUIRED>".toList ++
  "<!ATTLIST device id CDATA #REQUIRED name CDATA #IMPLIED>".toList ++
  "<!ATTLIST channel id CDATA #REQUIRED type (input|output) #REQUIRED name CDATA #IMPLIED>".toList ++
  "<!ATTLIST scan-element index CDATA #REQUIRED format CDATA #REQUIRED scale CDATA #IMPLIED>".toList ++
  "<!ATTLIST attribute name CDATA #REQUIRED filename CDATA #IMPLIED>".toList ++
  "<!ATTLIST debug-attribute name CDATA #REQUIRED>".toList ++
  "<!ATTLIST buffer-attribute name CDATA #REQUIRED>".toList ++
  "]>".toList ++
  "<context name=\"xml\" description=\"no-OS analog 1.1.0-g0000000 #1 Tue Nov 26 09:52:32 IST 2019 armv7l\" >".toList ++
  "<context-attribute name=\"no-OS\" value=\"1.1.0-g0000000\" />".toList

/-- The array `header_end`. -/
def header_end : List Char := "</context>".toList

def REG_ACCESS_ATTRIBUTE : List Char := "direct_reg_access".toList

def iio_chan_type_string : iio_chan_type → List Char
  | iio_chan_type.IIO_VOLTAGE => "voltage".toList
  | iio_chan_type.IIO_CURRENT => "current".toList
  | iio_chan_type.IIO_ALTVOLTAGE => "altvoltage".toList
  | iio_chan_type.IIO_ANGL_VEL => "anglvel".toList
  | iio_chan_type.IIO_TEMP => "temp".toList
  | iio_chan_type.IIO_CAPACITANCE => "capacitance".toList

/-- The array `iio_modifier_names`; an index without an entry is an invalid
read. -/
def iio_modifier_names (m : Int) : Option (List Char) :=
  if m = IIO_MOD_X then some "x".toList
  else if m = IIO_MOD_Y then some "y".toList
  else none

/-- Function `_print_ch_id(buff, ch)`: the string written to `buff`. -/
def _print_ch_id (ch : iio_channel) : Option (List Char) :=
  if ch.modified then
    match iio_modifier_names ch.channel2 with
    | none => none
    | some m => some (iio_chan_type_string ch.ch_type ++ "_".toList ++ m)
  else if ch.indexed then
    if ch.diferential then
      some (iio_chan_type_string ch.ch_type ++ fmt_d ch.channel ++ "-".toList ++
        iio_chan_type_string ch.ch_type ++ fmt_d ch.channel2)
    else some (iio_chan_type_string ch.ch_type ++ fmt_d ch.channel)
  else some (iio_chan_type_string ch.ch_type)

/-- The strings handed to the successive `snprintf` calls of
`iio_generate_device_xml`, in call order, and whether the walk ended at the
`return -EINVAL` of a differential channel that is not indexed. -/
structure xml_walk where
  frags : List (List Char) := []
  einval : Bool := false

def dir_string (ch_out : Bool) : List Char := if ch_out then "out".toList else "in".toList

/-- The `filename="..."` string of a channel attribute (lines 1297-1369);
`none` is the `return -EINVAL`. -/
def xml_attr_filename (ch : iio_channel) (attr : iio_attribute) : Option (List Char) :=
  let ty := iio_chan_type_string ch.ch_type
  let q := "\"".toList
  if ch.diferential then
    match attr.shared with
    | iio_attr_shared.IIO_SHARED_BY_ALL => some ("filename=\"".toList ++ attr.name ++ q)
    | iio_attr_shared.IIO_SHARED_BY_DIR =>
      some ("filename=\"".toList ++ dir_string ch.ch_out ++ "_".toList ++ attr.name ++ q)
    | iio_attr_shared.IIO_SHARED_BY_TYPE =>
      some ("filename=\"".toList ++ dir_string ch.ch_out ++ "_".toList ++ ty ++ "-".toList ++
        ty ++ "_".toList ++ attr.name ++ q)
    | iio_attr_shared.IIO_SEPARATE =>
      if !ch.indexed then none
      else
        some ("filename=\"".toList ++ dir_string ch.ch_out ++ "_".toList ++ ty ++
          fmt_d ch.channel ++ "-".toList ++ ty ++ fmt_d ch.channel2 ++ "_".toList ++
          attr.name ++ q)
  else
    match attr.shared with
    | iio_attr_shared.IIO_SHARED_BY_ALL => some ("filename=\"".toList ++ attr.name ++ q)
    | iio_attr_shared.IIO_SHARED_BY_DIR =>
      some ("filename=\"".toList ++ dir_string ch.ch_out ++ "_".toList ++ attr.name ++ q)
    | iio_attr_shared.IIO_SHARED_BY_TYPE =>
      some ("filename=\"".toList ++ dir_string ch.ch_out ++ "_".toList ++ ty ++ "_".toList ++
        attr.name ++ q)
    | iio_attr_shared.IIO_SEPARATE =>
      if ch.indexed then
        some ("filename=\"".toList ++ dir_string ch.ch_out ++ "_".toList ++ ty ++
          fmt_d ch.channel ++ "_".toList ++ attr.name ++ q)
      else
        some ("filename=\"".toList ++ dir_string ch.ch_out ++ "_".toList ++ ty ++ "_".toList ++
          attr.name ++ q)

/-- One pass of the channel-attribute loop body (lines 1295-1370). -/
def xml_ch_attr_frags (ch : iio_channel) (attr : iio_attribute) : xml_walk :=
  match xml_attr_filename ch attr with
  | none => { frags := ["<attribute name=\"".toList ++ attr.name ++ "\" ".toList], einval := true }
  | some f =>
    { frags := ["<attribute name=\"".toList ++ attr.name ++ "\" ".toList, f, " />".toList],
      einval := false }

/-- The channel-attribute loop (line 1294). -/
def xml_ch_attrs_frags (ch : iio_channel) : List iio_attribute → xml_walk
  | [] => {}
  | a :: as =>
    if (xml_ch_attr_frags ch a).einval then xml_ch_attr_frags ch a
    else
      { frags := (xml_ch_attr_frags ch a).frags ++ (xml_ch_attrs_frags ch as).frags,
        einval := (xml_ch_attrs_frags ch as).einval }

/-- The `scan-element` string (lines 1282-1290). -/
def xml_scan_element (ch : iio_channel) (st : scan_type) : List Char :=
  "<scan-element index=\"".toList ++ fmt_d ch.scan_index ++ "\" format=\"".toList ++
    (if st.is_big_endian then "be".toList else "le".toList) ++ ":".toList ++ [st.sign] ++
    fmt_d st.realbits ++ "/".toList ++ fmt_d st.storagebits ++ ">>".toList ++ fmt_d st.shift ++
    "\" />".toList

/-- One pass of the channel loop body (lines 1268-1373). -/
def xml_channel_frags (ch : iio_channel) : Option xml_walk :=
  match _print_ch_id ch with
  | none => none
  | some ch_id =>
    let head : List (List Char) :=
      ["<channel id=\"".toList ++ ch_id ++ "\"".toList] ++
      (match ch.name with
        | some nm => [" name=\"".toList ++ nm ++ "\"".toList]
        | none => []) ++
      [" type=\"".toList ++ (if ch.ch_out then "output".toList else "input".toList) ++
        "\" >".toList] ++
      (match ch.scan_type with
        | some st => [xml_scan_element ch st]
        | none => [])
    let w : xml_walk :=
      match ch.attributes with
      | some as => xml_ch_attrs_frags ch as
      | none => {}
    if w.einval then some { frags := head ++ w.frags, einval := true }
    else some { frags := head ++ w.frags ++ ["</channel>".toList], einval := false }

/-- The channel loop `for (j = 0; j < device->num_ch; j++)` over the array from
index `j` on, `k` being the passes left; reading past the array is invalid. -/
def xml_channels_frags : List iio_channel → Nat → Option xml_walk
  | _, 0 => some {}
  | [], _ + 1 => none
  | c :: cs, k + 1 =>
    match xml_channel_frags c with
    | none => none
    | some w =>
      if w.einval then some w
      else
        match xml_channels_frags cs k with
        | none => none
        | some w' => some { frags := w.frags ++ w'.frags, einval := w'.einval }

/-- The three attribute loops after the channels (lines 1376-1398) and the
closing tag. -/
def xml_device_tail (device : iio_device) : List (List Char) :=
  (match device.attributes with
    | some as => as.map (fun a => "<attribute name=\"".toList ++ a.name ++ "\" />".toList)
    | none => []) ++
  (match device.debug_attributes with
    | some as => as.map (fun a => "<debug-attribute name=\"".toList ++ a.name ++ "\" />".toList)
    | none => []) ++
  (if device.debug_reg_read.isSome || device.debug_reg_write.isSome then
    ["<debug-attribute name=\"".toList ++ REG_ACCESS_ATTRIBUTE ++ "\" />".toList]
   else []) ++
  (match device.buffer_attributes with
    | some as => as.map (fun a => "<buffer-attribute name=\"".toList ++ a.name ++ "\" />".toList)
    | none => []) ++
  ["</device>".toList]

/-- The channel part of `iio_generate_device_xml` (line 1266): skipped for a
null channel array. -/
def xml_device_channels (device : iio_device) : Option xml_walk :=
  match device.channels with
  | some cs => xml_channels_frags cs device.num_ch
  | none => some {}

/-- All `snprintf` strings of one `iio_generate_device_xml` call. -/
def xml_device_frags (device : iio_device) (name id : List Char) : Option xml_walk :=
  match xml_device_channels device with
  | none => none
  | some w =>
    if w.einval then
      some { frags := ("<device id=\"".toList ++ id ++ "\" name=\"".toList ++ name ++
                        "\">".toList) :: w.frags,
             einval := true }
    else
      some { frags := ("<device id=\"".toList ++ id ++ "\" name=\"".toList ++ name ++
                        "\">".toList) :: (w.frags ++ xml_device_tail device),
             einval := false }

/-- The running state of `iio_generate_device_xml`: the count `i` and the
memory from `buff` to the end of its block. -/
structure xml_out where
  i : Nat
  mem : List Char

/-- The statement `i += snprintf(buff + i, max(n - i, 0), ...)` for a formatted
string `s`: with size 0 nothing is written; otherwise the first `size - 1`
characters and a NUL go to offset `i`.  Overflow of the `int32_t` count and a
write past the block are undefined. -/
def xml_snprintf (n : Int) (st : xml_out) (s : List Char) : Option xml_out :=
  if (st.i : Int) + s.length > INT32_MAX then none
  else if (n - st.i).toNat = 0 then some { st with i := st.i + s.length }
  else if st.i + (s.take ((n - st.i).toNat - 1)).length + 1 ≤ st.mem.length then
    some { i := st.i + s.length,
           mem := st.mem.take st.i ++ s.take ((n - st.i).toNat - 1) ++ [Char.ofNat 0] ++
             st.mem.drop (st.i + (s.take ((n - st.i).toNat - 1)).length + 1) }
  else none

def xml_emit (n : Int) : xml_out → List (List Char) → Option xml_out
  | st, [] => some st
  | st, s :: ss =>
    match xml_snprintf n st s with
    | none => none
    | some st' => xml_emit n st' ss

/-- Function `iio_generate_device_xml(device, name, id, buff, buff_size)`: the
`uint32_t` result and the memory at `buff` afterwards.  With a null `buff` the
output target is the 50-byte scratch array that `_print_ch_id` also writes, so
a null `buff` with a positive size is kept undefined. -/
def iio_generate_device_xml (device : iio_device) (name id : List Char)
    (buff : Option (List Char)) (buff_size : Nat) : Option (Nat × Option (List Char)) :=
  let n : Int := if int_of_u32 buff_size = -1 then 0 else int_of_u32 buff_size
  if buff.isNone && decide (0 < n) then none else
  match xml_device_frags device name id with
  | none => none
  | some w =>
    match xml_emit n { i := 0, mem := buff.getD [] } w.frags with
    | none => none
    | some st =>
      some (if w.einval then u32_of_int (-EINVAL) else st.i % UINT32_MOD,
            buff.map (fun _ => st.mem))

/-- The descriptor `dummy` that `iio_init_xml` fills for a trigger. -/
def trig_dummy_device (trig : iio_trig_priv) : iio_device :=
  { attributes := trig.descriptor.attributes }

/-- First pass of `iio_init_xml` over the devices (lines 1415-1420). -/
def xml_size_devs : List iio_dev_priv → Nat → Option Nat
  | [], size => some size
  | dev :: ds, size =>
    match iio_generate_device_xml dev.dev_descriptor dev.name dev.dev_id none 4294967295 with
    | none => none
    | some (r, _) => xml_size_devs ds ((size + r) % UINT32_MOD)

/-- First pass of `iio_init_xml` over the triggers (lines 1421-1426). -/
def xml_size_trigs : List iio_trig_priv → Nat → Option Nat
  | [], size => some size
  | trig :: ts, size =>
    match iio_generate_device_xml (trig_dummy_device trig) trig.name trig.id none 4294967295 with
    | none => none
    | some (r, _) => xml_size_trigs ts ((size + r) % UINT32_MOD)

/-- The call `gen(..., desc->xml_desc + of, buff_size)` on the block `mem`:
result and the block afterwards. -/
def xml_gen_at (device : iio_device) (name id : List Char) (mem : List Char) (of buff_size : Nat) :
    Option (Nat × List Char) :=
  if mem.length < of then none else
  match iio_generate_device_xml device name id (some (mem.drop of)) buff_size with
  | some (r, some region) => some (r, mem.take of ++ region)
  | _ => none

/-- Second pass of `iio_init_xml` over the devices (lines 1436-1441): the
block and `of` afterwards. -/
def xml_emit_devs (size : Nat) : List iio_dev_priv → List Char → Nat → Option (List Char × Nat)
  | [], mem, of => some (mem, of)
  | dev :: ds, mem, of =>
    match xml_gen_at dev.dev_descriptor dev.name dev.dev_id mem of
        ((size + UINT32_MOD - of) % UINT32_MOD) with
    | none => none
    | some (r, mem') => xml_emit_devs size ds mem' ((of + r) % UINT32_MOD)

/-- Second pass of `iio_init_xml` over the triggers (lines 1442-1447), where
the result of the generator is added to `size`: the block and `size`
afterwards. -/
def xml_emit_trigs (of : Nat) : List iio_trig_priv → List Char → Nat → Option (List Char × Nat)
  | [], mem, size => some (mem, size)
  | trig :: ts, mem, size =>
    match xml_gen_at (trig_dummy_device trig) trig.name trig.id mem of
        ((size + UINT32_MOD - of) % UINT32_MOD) with
    | none => none
    | some (r, mem') => xml_emit_trigs of ts mem' ((size + r) % UINT32_MOD)

/-- Library `strcpy(mem + of, s)`; a copy past the block is undefined. -/
def strcpy_at (mem : List Char) (of : Nat) (s : List Char) : Option (List Char) :=
  if of + s.length + 1 ≤ mem.length then
    some (mem.take of ++ s ++ [Char.ofNat 0] ++ mem.drop (of + s.length + 1))
  else none

/-- The C string that starts at the beginning of a block. -/
def c_str (mem : List Char) : List Char := mem.takeWhile (fun c => c != Char.ofNat 0)

/-- Function `iio_init_xml(desc)`. -/
def iio_init_xml (env : iio_env) (desc : iio_desc) : Option (Int × iio_desc) :=
  match xml_size_devs desc.devs (header.length + header_end.length) with
  | none => none
  | some s1 =>
  match xml_size_trigs desc.trigs s1 with
  | none => none
  | some size =>
  match calloc env desc.hp ((size + 1) % UINT32_MOD) 1 with
  | (none, h) => some (-ENOMEM, { desc with xml_desc := none, hp := h })
  | (some _, h) =>
  match strcpy_at (List.replicate ((size + 1) % UINT32_MOD) (Char.ofNat 0)) 0 header with
  | none => none
  | some mem0 =>
  match xml_emit_devs size desc.devs mem0 header.length with
  | none => none
  | some (mem1, of) =>
  match xml_emit_trigs of desc.trigs mem1 size with
  | none => none
  | some (mem2, _) =>
  match strcpy_at mem2 of header_end with
  | none => none
  | some mem3 => some (SUCCESS, { desc with xml_desc := some mem3, xml_size := size, hp := h })

/-- The document `iio_init_xml` is meant to store: header, one element per
device, one per trigger, closing fragment. -/
def xml_element (device : iio_device) (name id : List Char) : List Char :=
  match xml_device_frags device name id with
  | some w => w.frags.flatten
  | none => []

def xml_document (desc : iio_desc) : List Char :=
  header ++
  (desc.devs.map (fun d => xml_element d.dev_descriptor d.name d.dev_id)).flatten ++
  (desc.trigs.map (fun t => xml_element (trig_dummy_device t) t.name t.id)).flatten ++
  header_end


/-! ## ADXRS290 IIO driver (`iio_adxrs290.c`) -/

/-- What the device functions of `adxrs290.c` (not among the sources) hand to
the IIO driver: the 16-bit sample of a channel, the filter indices, register
access, and the two integers the store callbacks derive from `strtof`. -/
structure adxrs290_hw where
  rate_data : Int → Int := fun _ => 0
  hpf : Nat := 0
  lpf : Nat := 0
  reg_read : Nat → Int × Nat := fun _ => (0, 0)
  reg_write : Nat → Nat → Int := fun _ _ => 0
  strtof_int : List Char → Int := fun _ => 0
  strtof_micro : List Char → Int := fun _ => 0

/-- Modelled from the spec: the enumerator `ADXRS290_CHANNEL_TEMP` of
`adxrs290.h`, which is not among the sources; the temperature channel is the
third of the device, after the two angular-velocity axes. -/
def ADXRS290_CHANNEL_TEMP : Int := 2

def adxrs290_lpf_3db_freq_hz_table : List (Int × Int) :=
  [(480, 0), (320, 0), (160, 0), (80, 0), (56, 600000), (40, 0), (28, 300000), (20, 0)]

def adxrs290_hpf_3db_freq_hz_table : List (Int × Int) :=
  [(0, 0), (0, 11000), (0, 22000), (0, 44000), (0, 87000), (0, 175000), (0, 350000),
   (0, 700000), (1, 400000), (2, 800000), (11, 300000)]

/-- Conversion of an `int` to `int16_t`. -/
def int16_of_int (x : Int) : Int := (x + 32768) % 65536 - 32768

/-- Function `get_adxrs290_iio_ch_raw`; the left shift of a negative sample is
undefined. -/
def get_adxrs290_iio_ch_raw (hw : adxrs290_hw) (device len : Nat)
    (channel : Option iio_ch_info) (priv : Int) : Option (Int × List Char) :=
  match channel with
  | none => none
  | some ch =>
    if ch.ch_num = ADXRS290_CHANNEL_TEMP then
      if hw.rate_data ch.ch_num < 0 then none
      else some (c_snprintf len (fmt_d (int16_of_int (hw.rate_data ch.ch_num * 16 / 16))))
    else some (c_snprintf len (fmt_d (hw.rate_data ch.ch_num)))

/-- Function `get_adxrs290_iio_ch_scale`. -/
def get_adxrs290_iio_ch_scale (hw : adxrs290_hw) (device len : Nat)
    (channel : Option iio_ch_info) (priv : Int) : Option (Int × List Char) :=
  match channel with
  | none => none
  | some ch =>
    if ch.ch_num = ADXRS290_CHANNEL_TEMP then some (c_snprintf len "100".toList)
    else some (c_snprintf len "0.000087266".toList)

/-- Function `get_adxrs290_iio_ch_hpf`. -/
def get_adxrs290_iio_ch_hpf (hw : adxrs290_hw) (device len : Nat)
    (channel : Option iio_ch_info) (priv : Int) : Option (Int × List Char) :=
  let index := if hw.hpf > 10 then 10 else hw.hpf
  match adxrs290_hpf_3db_freq_hz_table[index]? with
  | none => none
  | some (a, b) => some (c_snprintf len (fmt_d a ++ ".".toList ++ fmt_d b))

/-- Function `get_adxrs290_iio_ch_lpf`. -/
def get_adxrs290_iio_ch_lpf (hw : adxrs290_hw) (device len : Nat)
    (channel : Option iio_ch_info) (priv : Int) : Option (Int × List Char) :=
  let index := if hw.lpf > 7 then 7 else hw.lpf
  match adxrs290_lpf_3db_freq_hz_table[index]? with
  | none => none
  | some (a, b) => some (c_snprintf len (fmt_d a ++ ".".toList ++ fmt_d b))

/-- Function `set_adxrs290_iio_ch_hpf`: `val` and `val2` come from the float
arithmetic, kept as `strtof_int` and `strtof_micro`. -/
def set_adxrs290_iio_ch_hpf (hw : adxrs290_hw) (device : Nat) (buf : List Char) (len : Nat)
    (channel : Option iio_ch_info) (priv : Int) : Option Int :=
  if adxrs290_hpf_3db_freq_hz_table.any
      (fun e => decide (e.1 = hw.strtof_int buf) && decide (e.2 = hw.strtof_micro buf)) then
    some len
  else some FAILURE

/-- Function `set_adxrs290_iio_ch_lpf`. -/
def set_adxrs290_iio_ch_lpf (hw : adxrs290_hw) (device : Nat) (buf : List Char) (len : Nat)
    (channel : Option iio_ch_info) (priv : Int) : Option Int :=
  if adxrs290_lpf_3db_freq_hz_table.any
      (fun e => decide (e.1 = hw.strtof_int buf) && decide (e.2 = hw.strtof_micro buf)) then
    some len
  else some FAILURE

def adxrs290_iio_vel_attrs (hw : adxrs290_hw) : List iio_attribute :=
  [{ name := "filter_high_pass_3db_frequency".toList,
     show_cb := some (get_adxrs290_iio_ch_hpf hw), store_cb := some (set_adxrs290_iio_ch_hpf hw) },
   { name := "filter_low_pass_3db_frequency".toList,
     show_cb := some (get_adxrs290_iio_ch_lpf hw), store_cb := some (set_adxrs290_iio_ch_lpf hw) },
   { name := "raw".toList, show_cb := some (get_adxrs290_iio_ch_raw hw), store_cb := none },
   { name := "scale".toList, show_cb := some (get_adxrs290_iio_ch_scale hw), store_cb := none }]

def adxrs290_iio_temp_attrs (hw : adxrs290_hw) : List iio_attribute :=
  [{ name := "raw".toList, show_cb := some (get_adxrs290_iio_ch_raw hw), store_cb := none },
   { name := "scale".toList, show_cb := some (get_adxrs290_iio_ch_scale hw), store_cb := none }]

def scan_type_gyro : scan_type :=
  { sign := 's', realbits := 16, storagebits := 16, shift := 0, is_big_endian := false }

def scan_type_temp : scan_type :=
  { sign := 's', realbits := 12, storagebits := 16, shift := 0, is_big_endian := false }

def adxrs290_iio_channels (hw : adxrs290_hw) : List iio_channel :=
  [{ ch_type := iio_chan_type.IIO_ANGL_VEL, modified := true, channel2 := IIO_MOD_X,
     scan_index := 0, scan_type := some scan_type_gyro,
     attributes := some (adxrs290_iio_vel_attrs hw), ch_out := false },
   { ch_type := iio_chan_type.IIO_ANGL_VEL, modified := true, channel2 := IIO_MOD_Y,
     scan_index := 1, scan_type := some scan_type_gyro,
     attributes := some (adxrs290_iio_vel_attrs hw), ch_out := false },
   { ch_type := iio_chan_type.IIO_TEMP, scan_index := 2, scan_type := some scan_type_temp,
     attributes := some (adxrs290_iio_temp_attrs hw), ch_out := false }]

/-- The descriptor `adxrs290_iio_descriptor`.  `adxrs290_update_active_channels`
and `adxrs290_end_transfer` return `SUCCESS`, `adxrs290_read_samples` returns
the sample count. -/
def adxrs290_iio_descriptor (hw : adxrs290_hw) : iio_device :=
  { num_ch := 3
    channels := some (adxrs290_iio_channels hw)
    attributes := none
    debug_attributes := none
    buffer_attributes := none
    prepare_transfer := some (fun _ _ => SUCCESS)
    end_transfer := some (fun _ => SUCCESS)
    read_dev := some (fun _ nb_samples => nb_samples)
    debug_reg_read := some (fun _ a => hw.reg_read a)
    debug_reg_write := some (fun _ a v => hw.reg_write a v) }

/-- The descriptor `adxrs290_iio_trigger_descriptor`. -/
def adxrs290_iio_trigger_descriptor : iio_trigger :=
  { attributes := none, trigger_handler := true }


/-! ## Value formatting and parsing (`iio_format_value`, `iio_parse_value`)

`strtol` and `strtok` are the C library's, after ISO C 7.22.1.4 and 7.24.5.8.
The width of `long` is a parameter.  Conversion of an out-of-range value to
`int32_t` wraps; overflow of `int32_t` arithmetic is undefined. -/

/-- The enumerators of `enum iio_val` (`iio_types.h`) that the two functions
distinguish; `IIO_VAL_OTHER` stands for every other value, which reaches the
`default` label. -/
inductive iio_val
  | IIO_VAL_INT
  | IIO_VAL_INT_PLUS_MICRO
  | IIO_VAL_INT_PLUS_NANO
  | IIO_VAL_INT_PLUS_MICRO_DB
  | IIO_VAL_INT_MULTIPLE
  | IIO_VAL_FRACTIONAL
  | IIO_VAL_FRACTIONAL_LOG2
  | IIO_VAL_CHAR
  | IIO_VAL_OTHER
  deriving DecidableEq, Repr

/-- Conversion of an integer to `int32_t`. -/
def int32_of_int (x : Int) : Int := (x + 2147483648) % 4294967296 - 2147483648

/-- Whether a value is representable in `int32_t`. -/
def in_int32 (x : Int) : Bool := decide (-2147483648 ≤ x ∧ x ≤ 2147483647)

/-- A `printf` conversion with flag `0` and minimum field width `w`, for the
digits `s` of an unsigned value. -/
def fmt_pad0 (w : Nat) (s : List Char) : List Char := List.replicate (w - s.length) '0' ++ s

/-- Library `strtol(s, NULL, 0)` with a `long` of `long_bits` bits: white space
is skipped, a sign is optional, the base is 16 after `0x`/`0X` followed by a
hexadecimal digit, 8 after a leading `0`, and 10 otherwise; the value of the
longest run of digits (0 for an empty run) is clamped to the range of
`long`. -/
def strtol (long_bits : Nat) (s : List Char) : Int :=
  let s2 := scan_sign (skip_space s)
  let bb : Nat × List Char :=
    match s2.2 with
    | '0' :: x :: d :: r =>
      if (x = 'x' ∨ x = 'X') ∧ (digit_of 16 d).isSome then (16, d :: r) else (8, s2.2)
    | '0' :: r => (8, s2.2)
    | _ => (10, s2.2)
  let v : Int := (digits_val bb.1 (bb.2.takeWhile (fun c => (digit_of bb.1 c).isSome)) : Nat)
  let sv : Int := if s2.1 then -v else v
  if sv > 2 ^ (long_bits - 1) - 1 then 2 ^ (long_bits - 1) - 1
  else if sv < -(2 ^ (long_bits - 1)) then -(2 ^ (long_bits - 1))
  else sv

/-- Library `strtok` on the text `s` at which the scan starts (the argument of
a first call, the saved position of a later one): the token, `none` for `NULL`,
and the position saved for the next call. -/
def strtok (s delim : List Char) : Option (List Char) × List Char :=
  let s1 := s.dropWhile (fun c => delim.contains c)
  if s1.isEmpty then (none, [])
  else
    (some (s1.takeWhile (fun c => !delim.contains c)),
     (s1.dropWhile (fun c => !delim.contains c)).drop 1)

/-- Function `__iio_str_parse(buf, &integer, &_fract, scale_db)`: the error
returned, or the two integers stored. -/
def __iio_str_parse (long_bits : Nat) (buf : List Char) (scale_db : Bool) :
    Except Int (Int × Int) :=
  match strtok buf ".".toList with
  | (none, _) => Except.error (-EINVAL)
  | (some p, saved) =>
    let integer := int32_of_int (strtol long_bits p)
    let p2 : Option (List Char) :=
      if scale_db then
        match strtok saved "db".toList with
        | (some q, _) => some q
        | (none, saved2) => (strtok saved2 " db".toList).1
      else (strtok saved "\n".toList).1
    match p2 with
    | none => Except.error (-EINVAL)
    | some q => Except.ok (integer, int32_of_int (strtol long_bits q))

/-- The statements after a successful `__iio_str_parse`: `_fract *= scale`,
undefined when the product overflows. -/
def parse_scaled (r : Except Int (Int × Int)) (scale : Int) : Option (Int × Option (Int × Int)) :=
  match r with
  | Except.error e => some (e, none)
  | Except.ok (integer, fract) =>
    if in_int32 (fract * scale) then some (0, some (integer, fract * scale)) else none

/-- Function `iio_parse_value(buf, fmt, val, val2)`: the result and, unless an
error is returned, the values stored through `val` and `val2`.  For
`IIO_VAL_CHAR` a character above 127 is left undefined, the signedness of
`char` not being fixed. -/
def iio_parse_value (long_bits : Nat) (buf : List Char) (fmt : iio_val) :
    Option (Int × Option (Int × Int)) :=
  match fmt with
  | iio_val.IIO_VAL_INT => some (0, some (int32_of_int (strtol long_bits buf), 0))
  | iio_val.IIO_VAL_INT_PLUS_MICRO_DB => parse_scaled (__iio_str_parse long_bits buf true) 100000
  | iio_val.IIO_VAL_INT_PLUS_MICRO => parse_scaled (__iio_str_parse long_bits buf false) 100000
  | iio_val.IIO_VAL_INT_PLUS_NANO =>
    parse_scaled (__iio_str_parse long_bits buf false) 100000000
  | iio_val.IIO_VAL_CHAR =>
    match buf with
    | [] => some (-EINVAL, none)
    | c :: _ => if c.toNat < 128 then some (0, some ((c.toNat : Int), 0)) else none
  | _ => some (-EINVAL, none)

/-- Modelled from the spec: `div_s64_rem(dividend, divisor, &remainder)` of
`util.c`, which is not among the sources: quotient and remainder of the C
operators `/` and `%`, so the quotient is truncated toward zero and the
remainder has the sign of the dividend.  Division by zero is undefined. -/
def div_s64_rem (dividend divisor : Int) : Option (Int × Int) :=
  if divisor = 0 then none else some (Int.tdiv dividend divisor, Int.tmod dividend divisor)

/-- Modelled from the spec: `div_s64(dividend, divisor)` of `util.c`, the
quotient of `div_s64_rem`. -/
def div_s64 (dividend divisor : Int) : Option Int := (div_s64_rem dividend divisor).map (fun r => r.1)

/-- Modelled from the spec: the macro `shift_right(x, s)` of `util.h`, which is
not among the sources: the magnitude of `x` shifted right by `s` bits, with the
sign of `x`.  A shift count outside 0..63 is undefined. -/
def shift_right (x s : Int) : Option Int :=
  if 0 ≤ s ∧ s < 64 then
    some (if x < 0 then -((-x).toNat >>> s.toNat : Nat) else ((x.toNat >>> s.toNat : Nat) : Int))
  else none

/-- The text of `"%"PRIi32".%09u"` for `integer` and `abs(fractional)`. -/
def fmt_fixed9 (integer fractional : Int) : List Char :=
  fmt_d integer ++ ".".toList ++ fmt_pad0 9 (fmt_u32 fractional.natAbs)

/-- The loop of the `IIO_VAL_INT_MULTIPLE` case over the values from index `i`
on, `k` being the passes left, `l` the count and `t` the text printed so far;
reading past the values is invalid. -/
def format_multiple_loop (len : Nat) : List Int → Nat → Nat → List Char → Option (Nat × List Char)
  | _, 0, l, t => some (l, t)
  | [], _ + 1, _, _ => none
  | v :: vs, k + 1, l, t =>
    if (l + (fmt_d v ++ " ".toList).length) % UINT32_MOD ≥ len then
      some ((l + (fmt_d v ++ " ".toList).length) % UINT32_MOD, t ++ fmt_d v ++ " ".toList)
    else
      format_multiple_loop len vs k ((l + (fmt_d v ++ " ".toList).length) % UINT32_MOD)
        (t ++ fmt_d v ++ " ".toList)

/-- Function `iio_format_value(buf, len, fmt, size, vals)`: the result and the
text stored in `buf`.  Reading a value that `vals` does not hold is invalid. -/
def iio_format_value (len : Nat) (fmt : iio_val) (size : Int) (vals : List Int) :
    Option (Int × List Char) :=
  match fmt with
  | iio_val.IIO_VAL_INT =>
    match vals with
    | v0 :: _ => some (c_snprintf len (fmt_d v0))
    | _ => none
  | iio_val.IIO_VAL_INT_PLUS_MICRO_DB =>
    match vals with
    | v0 :: v1 :: _ =>
      some (c_snprintf len
        (fmt_d v0 ++ ".".toList ++ fmt_pad0 6 (fmt_u32 (u32_of_int v1)) ++ " dB".toList))
    | _ => none
  | iio_val.IIO_VAL_INT_PLUS_MICRO =>
    match vals with
    | v0 :: v1 :: _ =>
      some (c_snprintf len (fmt_d v0 ++ ".".toList ++ fmt_pad0 6 (fmt_u32 (u32_of_int v1))))
    | _ => none
  | iio_val.IIO_VAL_INT_PLUS_NANO =>
    match vals with
    | v0 :: v1 :: _ =>
      some (c_snprintf len (fmt_d v0 ++ ".".toList ++ fmt_pad0 9 (fmt_u32 (u32_of_int v1))))
    | _ => none
  | iio_val.IIO_VAL_FRACTIONAL =>
    match vals with
    | v0 :: v1 :: _ =>
      match div_s64 (v0 * 1000000000) v1 with
      | none => none
      | some tmp =>
        match div_s64_rem tmp 1000000000 with
        | none => none
        | some (q, fractional) => some (c_snprintf len (fmt_fixed9 (int32_of_int q) fractional))
    | _ => none
  | iio_val.IIO_VAL_FRACTIONAL_LOG2 =>
    match vals with
    | v0 :: v1 :: _ =>
      match shift_right (v0 * 1000000000) v1 with
      | none => none
      | some tmp =>
        match div_s64_rem tmp 1000000000 with
        | none => none
        | some (q, fractional) => some (c_snprintf len (fmt_fixed9 (int32_of_int q) fractional))
    | _ => none
  | iio_val.IIO_VAL_INT_MULTIPLE =>
    match format_multiple_loop len vals size.toNat 0 [] with
    | none => none
    | some (l, t) => some (int_of_u32 l, if len = 0 then [] else t.take (len - 1))
  | iio_val.IIO_VAL_CHAR =>
    match vals with
    | v0 :: _ => some (c_snprintf len [Char.ofNat (v0 % 256).toNat])
    | _ => none
  | iio_val.IIO_VAL_OTHER => some (0, [])

/-! ## Maxim SPI platform driver (`maxim_spi.c`)

`MXC_SPI_MasterTransaction` and the result codes of `mxc_errors.h` belong to
the vendor's SDK.  The transaction is a parameter: its result may depend on the
request and on the requests issued before it.  What it stores in the receive
buffer is outside the model. -/

/-- Result code `E_BAD_PARAM` of the SDK. -/
def E_BAD_PARAM : Int := -3

/-- Result code `E_BAD_STATE` of the SDK. -/
def E_BAD_STATE : Int := -7

/-- The members of `struct no_os_spi_desc` the two functions read. -/
structure no_os_spi_desc where
  device_id : Nat := 0
  chip_select : Nat := 0
  deriving DecidableEq, Repr

/-- A `struct no_os_spi_msg`: buffers are the bytes behind the pointers, `none`
for a null pointer. -/
structure no_os_spi_msg where
  tx_buff : Option (List Nat) := none
  rx_buff : Option (List Nat) := none
  bytes_number : Nat := 0
  cs_change : Nat := 0
  deriving DecidableEq, Repr

/-- The members of `mxc_spi_req_t` the two functions assign; `ssIdx` is `none`
where the function leaves it unassigned. -/
structure mxc_spi_req_t where
  spi : Nat
  ssIdx : Option Nat
  txData : Option (List Nat)
  rxData : Option (List Nat)
  txCnt : Nat
  rxCnt : Nat
  ssDeassert : Nat
  txLen : Nat
  rxLen : Nat
  deriving DecidableEq, Repr

/-- The SDK as seen by the driver: the result of `MXC_SPI_MasterTransaction`
for a request, given the requests issued before it. -/
structure mxc_sdk where
  MXC_SPI_MasterTransaction : List mxc_spi_req_t → mxc_spi_req_t → Int

/-- The two tests after a transaction (lines 324-327 and 361-364): the value
returned at once, `none` when neither test fires. -/
def max_spi_ret (ret : Int) : Option Int :=
  if ret = E_BAD_PARAM then some (-EINVAL)
  else if ret = E_BAD_STATE then some (-EBUSY)
  else none

/-- Function `max_spi_write_and_read(desc, data, bytes_number)`: the result and
the requests issued. -/
def max_spi_write_and_read (sdk : mxc_sdk) (desc : Option no_os_spi_desc)
    (data : Option (List Nat)) (bytes_number : Nat) : Int × List mxc_spi_req_t :=
  match desc, data with
  | some d, some bytes =>
    let req : mxc_spi_req_t :=
      { spi := d.device_id, ssIdx := some d.chip_select, txData := some bytes, txCnt := 0,
        rxData := some bytes, rxCnt := 0, ssDeassert := 1, txLen := bytes_number % 65536,
        rxLen := bytes_number % 65536 }
    match max_spi_ret (sdk.MXC_SPI_MasterTransaction [] req) with
    | some r => (r, [req])
    | none => (0, [req])
  | _, _ => (-EINVAL, [])

/-- The loop of `max_spi_transfer` over the messages from index `i` on, `k`
being the passes left and `issued` the requests issued so far; reading past
the message array is invalid. -/
def max_spi_transfer_loop (sdk : mxc_sdk) (spi : Nat) :
    List no_os_spi_msg → Nat → List mxc_spi_req_t → Option (Int × List mxc_spi_req_t)
  | _, 0, issued => some (0, issued)
  | [], _ + 1, _ => none
  | m :: ms, k + 1, issued =>
    let req : mxc_spi_req_t :=
      { spi := spi, ssIdx := none, txData := m.tx_buff, rxData := m.rx_buff, txCnt := 0,
        rxCnt := 0, ssDeassert := m.cs_change, txLen := m.bytes_number,
        rxLen := m.bytes_number }
    match max_spi_ret (sdk.MXC_SPI_MasterTransaction issued req) with
    | some r => some (r, issued ++ [req])
    | none => max_spi_transfer_loop sdk spi ms k (issued ++ [req])

/-- Function `max_spi_transfer(desc, msgs, len)`: the result and the requests
issued. -/
def max_spi_transfer (sdk : mxc_sdk) (desc : Option no_os_spi_desc)
    (msgs : Option (List no_os_spi_msg)) (len : Nat) : Option (Int × List mxc_spi_req_t) :=
  match desc, msgs with
  | some d, some ms => max_spi_transfer_loop sdk d.device_id ms len []
  | _, _ => some (-EINVAL, [])

/-! ## Attribute dispatcher -/

/-- The loop of `iio_get_channel` over the array from index `i` on, `k` being
the passes left: the index of the first channel whose id is `channel` and whose
`ch_out` is the requested one; `some none` is the `return NULL`.  Reading past
the array, or an id that `_print_ch_id` cannot print, is invalid.  The counter
`i` is an `int16_t` (line 272): `i++` at 32767 leaves its range (the value the
conversion gives on the usual targets, -32768, indexes before the array), and
the scan is undefined from there. -/
def iio_get_channel_loop (channel : List Char) (ch_out : Bool) :
    List iio_channel → Nat → Nat → Option (Option Nat)
  | _, 0, _ => some none
  | [], _ + 1, _ => none
  | c :: cs, k + 1, i =>
    match _print_ch_id c with
    | none => none
    | some ch_id =>
      if ch_id = channel ∧ c.ch_out = ch_out then some (some i)
      else if i = INT16_MAX then none
      else iio_get_channel_loop channel ch_out cs k (i + 1)

/-- Function `iio_get_channel(channel, desc, ch_out)`: the position of the
channel returned, `some none` for `NULL`. -/
def iio_get_channel (channel : List Char) (desc : iio_device) (ch_out : Bool) :
    Option (Option Nat) :=
  iio_get_channel_loop channel ch_out (desc.channels.getD []) desc.num_ch 0

/-- Function `iio_read_all_attr`: its first statement is `return -EINVAL`. -/
def iio_read_all_attr (params : attr_fun_params) (attributes : Option (List iio_attribute)) :
    Int := -EINVAL

/-- Function `iio_write_all_attr`: its first statement is `return -EINVAL`. -/
def iio_write_all_attr (params : attr_fun_params) (attributes : Option (List iio_attribute)) :
    Int := -EINVAL

/-- The search loop of `iio_rd_wr_attribute` (lines 406-413) over the entries
from index `i` on (the list holds the entries before the sentinel): `some
(some k)` when entry `k` is the first one named `attr_name`, `some none` when
the sentinel is reached.  The counter `i` is an `int16_t` (line 406): `i++` at
32767 leaves its range (the value the conversion gives on the usual targets,
-32768, indexes before the array), and the scan is undefined from there. -/
def attr_index_loop (attr_name : List Char) : List iio_attribute → Nat → Option (Option Nat)
  | [], _ => some none
  | a :: as, i =>
    if a.name = attr_name then some (some i)
    else if i = INT16_MAX then none
    else attr_index_loop attr_name as (i + 1)

/-- The search of `iio_rd_wr_attribute` from `i = 0`. -/
def attr_index (attributes : List iio_attribute) (attr_name : List Char) :
    Option (Option Nat) :=
  attr_index_loop attr_name attributes 0

/-- Function `iio_rd_wr_attribute(params, attributes, attr_name, is_write)`:
the result, the text the callback stored in the caller's buffer, and the trace
`tr` extended by the call made.  A null `attributes` is dereferenced. -/
def iio_rd_wr_attribute (params : attr_fun_params) (attributes : Option (List iio_attribute))
    (attr_name : List Char) (is_write : Bool) (tr : List iio_call) :
    Option (Int × List Char × List iio_call) :=
  match attributes with
  | none => none
  | some attrs =>
    match attr_index attrs attr_name with
    | none => none
    | some none => some (-ENOENT, [], tr)
    | some (some k) =>
      match attrs[k]? with
      | none => none
      | some a =>
        if is_write then
          match a.store_cb with
          | none => some (-ENOENT, [], tr)
          | some f =>
            match f params.dev_instance params.buf params.len params.ch_info a.priv with
            | none => none
            | some r =>
              some (r, [], tr ++ [iio_call.attr_store k params.dev_instance params.buf params.len
                params.ch_info a.priv])
        else
          match a.show_cb with
          | none => some (-ENOENT, [], tr)
          | some f =>
            match f params.dev_instance params.len params.ch_info a.priv with
            | none => none
            | some (r, out) =>
              some (r, out, tr ++ [iio_call.attr_show k params.dev_instance params.len
                params.ch_info a.priv])

/-- Function `debug_reg_read(dev, buf, len)`: result, text stored, trace. -/
def debug_reg_read (dev : iio_dev_priv) (len : Nat) (tr : List iio_call) :
    Option (Int × List Char × List iio_call) :=
  match dev.dev_descriptor.debug_reg_read with
  | none => none
  | some f =>
    if IS_ERR_VALUE (f dev.dev_instance dev.active_reg_addr).1 then
      some ((f dev.dev_instance dev.active_reg_addr).1, [],
        tr ++ [iio_call.debug_reg_read dev.dev_instance dev.active_reg_addr])
    else
      some ((c_snprintf len (fmt_u32 (f dev.dev_instance dev.active_reg_addr).2)).1,
        (c_snprintf len (fmt_u32 (f dev.dev_instance dev.active_reg_addr).2)).2,
        tr ++ [iio_call.debug_reg_read dev.dev_instance dev.active_reg_addr])

/-- Function `debug_reg_write(dev, buf, len)`: result, the device record (its
`active_reg_addr` may change), trace. -/
def debug_reg_write (dev : iio_dev_priv) (buf : List Char) (len : Nat)
    (tr : List iio_call) : Option (Int × iio_dev_priv × List iio_call) :=
  match sscanf_addr_value buf with
  | none => none
  | some (some (addr, value)) =>
    match dev.dev_descriptor.debug_reg_write with
    | none => none
    | some f =>
      if IS_ERR_VALUE (f dev.dev_instance addr value) then
        some (f dev.dev_instance addr value, dev,
          tr ++ [iio_call.debug_reg_write dev.dev_instance addr value])
      else
        some (int_of_u32 len, dev, tr ++ [iio_call.debug_reg_write dev.dev_instance addr value])
  | some none =>
    match sscanf_addr buf with
    | none => none
    | some (some addr) => some (int_of_u32 len, { dev with active_reg_addr := addr }, tr)
    | some none => some (-EINVAL, dev, tr)

/-- Function `get_attributes(type, dev, ch)`; for the channel categories a
null `ch` is dereferenced. -/
def get_attributes (type : iio_attr_type) (dev : iio_dev_priv) (ch : Option iio_channel) :
    Option (Option (List iio_attribute)) :=
  match type with
  | iio_attr_type.IIO_ATTR_TYPE_DEBUG => some dev.dev_descriptor.debug_attributes
  | iio_attr_type.IIO_ATTR_TYPE_DEVICE => some dev.dev_descriptor.attributes
  | iio_attr_type.IIO_ATTR_TYPE_BUFFER => some dev.dev_descriptor.buffer_attributes
  | iio_attr_type.IIO_ATTR_TYPE_CH_IN | iio_attr_type.IIO_ATTR_TYPE_CH_OUT =>
    match ch with
    | none => none
    | some c => some c.attributes

/-- The channel resolution that `iio_read_attr` (lines 664-678) and
`iio_write_attr` (lines 721-736) share: `some none` is the `return -ENOENT`,
otherwise the channel `ch` and the `ch_info` handed on. -/
def attr_channel (dev : iio_dev_priv) (attr : iiod_attr) :
    Option (Option (Option iio_channel × Option iio_ch_info)) :=
  match attr.channel with
  | none => some (some (none, none))
  | some channel =>
    match iio_get_channel channel dev.dev_descriptor
        (decide (attr.type = iio_attr_type.IIO_ATTR_TYPE_CH_OUT)) with
    | none => none
    | some none => some none
    | some (some j) =>
      match (dev.dev_descriptor.channels.getD [])[j]? with
      | none => none
      | some ch =>
        some (some (some ch,
          some { ch_out := decide (attr.type = iio_attr_type.IIO_ATTR_TYPE_CH_OUT),
                 ch_num := ch.channel, type := ch.ch_type, differential := ch.diferential,
                 address := ch.address }))

/-- Function `iio_read_attr(ctx, device, attr, buf, len)`: result, the text
stored in `buf`, and the state. -/
def iio_read_attr (desc : iio_desc) (device : List Char) (attr : iiod_attr) (len : Nat) :
    Option (Int × List Char × iio_desc) :=
  match get_iio_device desc device with
  | none => some (FAILURE, [], desc)
  | some i =>
  match desc.devs[i]? with
  | none => none
  | some dev =>
  if attr.type = iio_attr_type.IIO_ATTR_TYPE_DEBUG ∧ attr.name = REG_ACCESS_ATTRIBUTE then
    if dev.dev_descriptor.debug_reg_read.isSome then
      match debug_reg_read dev len desc.trace with
      | none => none
      | some (r, out, tr) => some (r, out, { desc with trace := tr })
    else some (-ENOENT, [], desc)
  else
  match attr_channel dev attr with
  | none => none
  | some none => some (-ENOENT, [], desc)
  | some (some (ch, ch_info)) =>
    match get_attributes attr.type dev ch with
    | none => none
    | some attributes =>
      if attr.name = [] then
        some (iio_read_all_attr ⟨dev.dev_instance, [], len, ch_info⟩ attributes, [], desc)
      else
        match iio_rd_wr_attribute ⟨dev.dev_instance, [], len, ch_info⟩ attributes attr.name
            false desc.trace with
        | none => none
        | some (r, out, tr) => some (r, out, { desc with trace := tr })

/-- Function `iio_write_attr(ctx, device, attr, buf, len)`: result and state. -/
def iio_write_attr (env : iio_env) (desc : iio_desc) (device : List Char) (attr : iiod_attr)
    (buf : List Char) (len : Nat) : Option (Int × iio_desc) :=
  match get_iio_device desc device with
  | none => some (-ENODEV, desc)
  | some i =>
  match desc.devs[i]? with
  | none => none
  | some dev =>
  if attr.type = iio_attr_type.IIO_ATTR_TYPE_DEBUG ∧ attr.name = REG_ACCESS_ATTRIBUTE then
    if dev.dev_descriptor.debug_reg_write.isSome then
      match debug_reg_write dev buf len desc.trace with
      | none => none
      | some (r, dev1, tr) => some (r, { desc with devs := desc.devs.set i dev1, trace := tr })
    else some (-ENOENT, desc)
  else
  match attr_channel dev attr with
  | none => none
  | some none => some (-ENOENT, desc)
  | some (some (ch, ch_info)) =>
    match get_attributes attr.type dev ch with
    | none => none
    | some attributes =>
      if attr.name = [] then
        some (iio_write_all_attr ⟨dev.dev_instance, buf, len, ch_info⟩ attributes, desc)
      else
        match iio_rd_wr_attribute ⟨dev.dev_instance, buf, len, ch_info⟩ attributes attr.name
            true desc.trace with
        | none => none
        | some (r, _, tr) => some (r, { desc with trace := tr })

/-! ## Concrete surroundings used to exercise the model -/

/-- An environment in which allocation and buffer configuration succeed and the
codec reports success. -/
def env_ok : iio_env :=
  { calloc_ok := fun _ _ _ => true, cb_cfg_ret := fun _ _ => 0, iiod_conn_step := fun _ => 0 }

/-- A registry holding the ADXRS290 as its only device, without trigger and
without caller-supplied storage. -/
def adxrs290_registry (env : iio_env) (hw : adxrs290_hw) : iio_desc :=
  (iio_init_devs env {}
    [{ name := "adxrs290".toList, dev_descriptor := adxrs290_iio_descriptor hw }]).2

/-- The 2-byte samples 0x0001 .. 0x0004 as they lie in memory. -/
def four_samples : List (List Nat) := [[1, 0], [2, 0], [3, 0], [4, 0]]

/-- What a client observes in the session "open with `samples` and `mask`,
one push per sample of `xs`, three reads of `chunk` bytes": the result of the
open, the public buffer fields after it, the results of the pushes, and the
result and bytes of each read. -/
def adxrs290_session (env : iio_env) (hw : adxrs290_hw) (samples mask : Nat)
    (xs : List (List Nat)) (chunk : Nat) :
    Option (Int × Option iio_buffer × List Int × List (Int × List Nat)) :=
  match iio_open_dev env (adxrs290_registry env hw) "iio:device0".toList samples mask false with
  | none => none
  | some (r, d1) =>
    match push_scans d1 0 xs with
    | none => none
    | some (rs, d2) =>
      some (r, d1.devs[0]?.map (fun d => d.buffer.pub), rs,
        (read_chunks d2 "iio:device0".toList [chunk, chunk, chunk]).1)

/-- Two devices without callbacks. -/
def two_plain_devs : List iio_device_init :=
  [{ name := "a".toList, dev_descriptor := {} }, { name := "b".toList, dev_descriptor := {} }]

/-! ## Specification-side notions for the streaming buffer -/

/-- The device named `device` is the record at index `i`, it is buffer-capable,
its public buffer fields are `pub`, and its ring has capacity `size` and holds
the bytes `q`. -/
def buffer_state (desc : iio_desc) (device : List Char) (i : Nat) (pub : iio_buffer)
    (size : Nat) (q : List Nat) : Prop :=
  get_iio_device desc device = some i ∧
  ∃ dev, desc.devs[i]? = some dev ∧ dev.buffer.initalized = true ∧ dev.buffer.pub = pub ∧
    dev.buffer.cb.size = size ∧ dev.buffer.cb.data = q

/-- What successive reads of the given chunk sizes return on a FIFO byte queue
holding `q`: `-EAGAIN` and no bytes when nothing can be read, else the count
(through `int`) and the oldest bytes. -/
def fifo_reads : List Nat → List Nat → List (Int × List Nat)
  | _, [] => []
  | q, c :: cs =>
    (if min q.length c = 0 then (-EAGAIN, []) else (int_of_u32 (min q.length c), q.take c)) ::
      fifo_reads (q.drop c) cs

/-- The state after the open of the ADXRS290 session in `env_ok`. -/
def session_d1 : iio_desc :=
  ((iio_open_dev env_ok (adxrs290_registry env_ok {}) "iio:device0".toList 4 4 false).getD
    (0, {})).2

/-- The state after the four pushes of the ADXRS290 session. -/
def session_d2 : iio_desc := ((push_scans session_d1 0 four_samples).getD ([], {})).2

/-- A registry whose only device is buffer-capable (it has `read_dev`) and
declares no channels. -/
def zero_ch_registry : iio_desc :=
  (iio_init_devs env_ok {}
    [{ name := "nochan".toList,
       dev_descriptor := { num_ch := 0, read_dev := some (fun _ n => n) } }]).2

/-! ## Specification-side notions for the trigger scheduler -/

instance (desc : iio_desc) : Decidable (trig_idx_ok desc) := by
  unfold trig_idx_ok
  infer_instance

/-- The device has an associated trigger whose fired flag is set, and a
trigger handler. -/
def dev_fires (trigs : List iio_trig_priv) (dev : iio_dev_priv) : Bool :=
  dev.trig_idx != NO_TRIGGER &&
    (match trigs[dev.trig_idx]? with
      | some t => t.triggered
      | none => false) &&
    dev.dev_descriptor.trigger_handler

/-- The indices (counted from `i`) of the devices that fire, in order. -/
def fired_devs (trigs : List iio_trig_priv) : List iio_dev_priv → Nat → List Nat
  | [], _ => []
  | dev :: ds, i =>
    if dev_fires trigs dev then i :: fired_devs trigs ds (i + 1) else fired_devs trigs ds (i + 1)

/-- A registry with the trigger "t" and two devices with a trigger handler, the
first one bound to "t". -/
def trig_registry : iio_desc :=
  (iio_init_devs env_ok
    (iio_init_trigs env_ok {} [{ name := "t".toList, descriptor := {} }]).2
    [{ name := "a".toList, dev_descriptor := { trigger_handler := true },
       trigger_name := some "t".toList },
     { name := "b".toList, dev_descriptor := { trigger_handler := true } }]).2

/-- A registry without devices whose connection queue holds the ids 1, 2, 3. -/
def conn_registry : iio_desc :=
  { conns := { size := 16, data := u32_bytes 1 ++ u32_bytes 2 ++ u32_bytes 3 } }

/-- The bytes of a connection queue holding the given ids, oldest first. -/
def conn_queue (ids : List Nat) : List Nat := (ids.map u32_bytes).flatten

/-! ## Specification-side notions for the document generator -/

/-- The walk of `iio_generate_device_xml` over the descriptor is defined (no
read past the channel array, no modifier without a name) and does not end at
the `return -EINVAL` of a differential channel that is not indexed. -/
def xml_walk_ok (device : iio_device) (name id : List Char) : Bool :=
  match xml_device_frags device name id with
  | some w => !w.einval
  | none => false

/-- A device with one differential indexed channel carrying a separate
attribute. -/
def diff_indexed_dev : iio_device :=
  { num_ch := 1
    channels := some
      [{ ch_type := iio_chan_type.IIO_VOLTAGE, channel := 0, channel2 := 1, indexed := true,
         diferential := true,
         attributes := some [{ name := "raw".toList, shared := iio_attr_shared.IIO_SEPARATE }] }] }

/-- A device with one differential channel that is not indexed and carries a
separate attribute. -/
def diff_plain_dev : iio_device :=
  { num_ch := 1
    channels := some
      [{ ch_type := iio_chan_type.IIO_VOLTAGE, diferential := true,
         attributes := some [{ name := "raw".toList, shared := iio_attr_shared.IIO_SEPARATE }] }] }

/-- A device without channels that exposes the debug register callbacks. -/
def debug_reg_dev : iio_device :=
  { debug_reg_read := some (fun _ _ => (0, 0)), debug_reg_write := some (fun _ _ _ => 0) }

/-- A registry without devices and with the single trigger "t". -/
def trig_only_registry : iio_desc :=
  (iio_init_trigs env_ok {} [{ name := "t".toList, descriptor := {} }]).2

/-- What `iio_init_xml` leaves behind, as far as a client sees it: the result,
the recorded `xml_size` and the C string stored in `xml_desc`. -/
def xml_outcome (env : iio_env) (desc : iio_desc) : Option (Int × Nat × Option (List Char)) :=
  (iio_init_xml env desc).map (fun r => (r.1, r.2.xml_size, r.2.xml_desc.map c_str))

/-- The device elements of the document, in registration order. -/
def devs_text (devs : List iio_dev_priv) : List Char :=
  (devs.map (fun d => xml_element d.dev_descriptor d.name d.dev_id)).flatten

/-- The trigger elements of the document, in registration order. -/
def trigs_text (trigs : List iio_trig_priv) : List Char :=
  (trigs.map (fun t => xml_element (trig_dummy_device t) t.name t.id)).flatten

/-! ## Specification-side notions for the scan size -/

/-- Bit `i` of `mask` is set. -/
def mask_bit (mask i : Nat) : Bool := decide (mask / 2 ^ i % 2 = 1)

/-- The bytes one stored sample of a channel takes: `storagebits / 8` of its
scan type (0 for a channel without one). -/
def sample_bytes (c : iio_channel) : Nat :=
  match c.scan_type with
  | some st => st.storagebits / 8
  | none => 0

/-- The sum of `sample_bytes` over the channels whose position in the array is
a set bit of `mask`. -/
def position_bytes (channels : List iio_channel) (mask : Nat) : Nat :=
  (((List.range channels.length).filter (mask_bit mask)).map
    (fun i => (channels[i]?.map sample_bytes).getD 0)).sum

/-- The sum of `sample_bytes` over the channels whose `scan_index` member is a
set bit of `mask`. -/
def scan_index_bytes (channels : List iio_channel) (mask : Nat) : Nat :=
  ((channels.filter
    (fun c => decide (0 ≤ c.scan_index) && mask_bit mask c.scan_index.toNat)).map
    sample_bytes).sum

/-- Two channels whose scan indices are not their array positions: the first
is stored in one byte and has scan index 1, the second in two bytes with scan
index 0. -/
def swapped_scan_channels : List iio_channel :=
  [{ ch_type := iio_chan_type.IIO_VOLTAGE, scan_index := 1,
     scan_type := some { sign := 'u', realbits := 8, storagebits := 8, shift := 0,
                         is_big_endian := false } },
   { ch_type := iio_chan_type.IIO_VOLTAGE, scan_index := 0,
     scan_type := some { sign := 'u', realbits := 16, storagebits := 16, shift := 0,
                         is_big_endian := false } }]

/-! ## Specification-side notions for the attribute dispatcher -/

/-- A registry whose only device has no debug register callbacks and lists a
debug attribute that carries the reserved name and a `show` callback. -/
def reserved_name_registry : iio_desc :=
  (iio_init_devs env_ok {}
    [{ name := "dbg".toList,
       dev_descriptor :=
         { debug_attributes := some
             [{ name := REG_ACCESS_ATTRIBUTE,
                show_cb := some (fun _ len _ _ => some (c_snprintf len "7".toList)) }] } }]).2

/-- The channel's derived id is `channel` and its output flag is `ch_out`: the
test of `iio_get_channel`. -/
def channel_matches (channel : List Char) (ch_out : Bool) (c : iio_channel) : Prop :=
  _print_ch_id c = some channel ∧ c.ch_out = ch_out

/-- The channels of a descriptor (none for a null array). -/
def channels_of (desc : iio_device) : List iio_channel := desc.channels.getD []

/-- The descriptor's channel array holds `num_ch` channels and each of them has
a printable id (a modified channel's modifier has a name). -/
def channels_ok (desc : iio_device) : Prop :=
  desc.num_ch ≤ (channels_of desc).length ∧
    ∀ c ∈ (channels_of desc).take desc.num_ch, (_print_ch_id c).isSome = true

/-- A device with an input and an output channel of the same id "voltage0",
the input one first. -/
def in_out_dev : iio_device :=
  { num_ch := 2
    channels := some
      [{ ch_type := iio_chan_type.IIO_VOLTAGE, channel := 0, indexed := true, ch_out := false },
       { ch_type := iio_chan_type.IIO_VOLTAGE, channel := 0, indexed := true, ch_out := true }] }

/-- A registry whose only device is `diff_plain_dev`. -/
def diff_plain_registry : iio_desc :=
  (iio_init_devs env_ok {} [{ name := "d".toList, dev_descriptor := diff_plain_dev }]).2

/-- An environment in which every allocation fails. -/
def env_nomem : iio_env :=
  { calloc_ok := fun _ _ _ => false, cb_cfg_ret := fun _ _ => 0, iiod_conn_step := fun _ => 0 }

/-- A registry holding the ADXRS290 with 4 bytes of caller-supplied storage. -/
def raw_buf_registry : iio_desc :=
  (iio_init_devs env_ok {}
    [{ name := "adxrs290".toList, dev_descriptor := adxrs290_iio_descriptor {},
       raw_buf := some 100, raw_buf_len := 4 }]).2

/-! ## Specification-side notions for the register mini-protocol -/

/-- The digit loop of `fmt_u_loop` and `fmt_x_loop` for any base and digit
character. -/
def fmt_loop (base : Nat) (ch : Nat → Char) : Nat → Nat → List Char → List Char
  | 0, _, acc => acc
  | fuel + 1, n, acc =>
    if n < base then ch n :: acc
    else fmt_loop base ch fuel (n / base) (ch (n % base) :: acc)

/-- A device record whose descriptor exposes both debug register callbacks and
whose read cursor is 7. -/
def debug_reg_record : iio_dev_priv :=
  { dev_id := "iio:device0".toList, name := "dbg".toList, dev_instance := 3,
    active_reg_addr := 7, dev_descriptor := debug_reg_dev }

/-! ## Specification-side notions for open and close -/

/-- The call of the associated trigger's `enable` at the end of
`iio_open_dev`, if the device has a trigger and the trigger the callback. -/
def trig_enable_calls (desc : iio_desc) (dev : iio_dev_priv) : List iio_call :=
  if dev.trig_idx = NO_TRIGGER then []
  else
    match desc.trigs[dev.trig_idx]? with
    | some t => if t.descriptor.enable then [iio_call.trig_enable dev.trig_idx] else []
    | none => []

/-- The device's trigger index is `NO_TRIGGER` or that of a registered
trigger. -/
def dev_trig_ok (desc : iio_desc) (dev : iio_dev_priv) : Prop :=
  dev.trig_idx = NO_TRIGGER ∨ ∃ t, desc.trigs[dev.trig_idx]? = some t

/-- The buffer of `iio_open_dev` after line 891: mask, bytes per scan and size
of the request stored. -/
def requested_buffer (dev : iio_dev_priv) (m bps samples : Nat) : iio_buffer_priv :=
  { dev.buffer with
    pub := { dev.buffer.pub with
             active_mask := m, bytes_per_scan := bps, size := (bps * samples) % UINT32_MOD } }

/-- A registry holding the ADXRS290 descriptor with a `pre_enable` callback
that reports `-ENOMEM`, registered with 64 bytes of caller-supplied storage. -/
def raw_pre_enable_registry : iio_desc :=
  (iio_init_devs env_ok {}
    [{ name := "adxrs290".toList,
       dev_descriptor := { adxrs290_iio_descriptor {} with pre_enable := some (fun _ _ => -ENOMEM) },
       raw_buf := some 100, raw_buf_len := 64 }]).2

/-- A registry holding the ADXRS290 descriptor with a `pre_enable` callback
that reports `-EBUSY`, without caller-supplied storage. -/
def pre_enable_fail_registry : iio_desc :=
  (iio_init_devs env_ok {}
    [{ name := "adxrs290".toList,
       dev_descriptor :=
         { adxrs290_iio_descriptor {} with pre_enable := some (fun _ _ => -EBUSY) } }]).2

/-! ## Specification-side notions for the block transfer -/

/-- The reserve step of the direction: into the ring for input, out of it for
output. -/
def cb_prepare_async (env : iio_env) (dir : iio_buffer_direction) (cb : circular_buffer)
    (n : Nat) : Int × Nat :=
  if dir = iio_buffer_direction.IIO_DIRECTION_INPUT then env.cb_prepare_async_write cb n
  else env.cb_prepare_async_read cb n

/-- The commit step of the direction. -/
def cb_end_async (env : iio_env) (dir : iio_buffer_direction) (cb : circular_buffer) :
    Int × circular_buffer :=
  if dir = iio_buffer_direction.IIO_DIRECTION_INPUT then env.cb_end_async_write cb
  else env.cb_end_async_read cb

/-- The call of the bulk callback of the direction. -/
def bulk_call (dir : iio_buffer_direction) (dev_instance nb_scans : Nat) : iio_call :=
  if dir = iio_buffer_direction.IIO_DIRECTION_INPUT then iio_call.read_dev dev_instance nb_scans
  else iio_call.write_dev dev_instance nb_scans

/-- The device has no `submit` callback and `f` is its bulk callback for the
direction. -/
def legacy_bulk (dev : iio_dev_priv) (dir : iio_buffer_direction) (f : Nat → Nat → Int) : Prop :=
  dev.dev_descriptor.submit = none ∧
  ((dir = iio_buffer_direction.IIO_DIRECTION_INPUT ∧ dev.dev_descriptor.read_dev = some f) ∨
   (dir = iio_buffer_direction.IIO_DIRECTION_OUTPUT ∧ dev.dev_descriptor.write_dev = some f))

/-- A registry holding the ADXRS290 descriptor with a bulk read callback that
reports `-EBUSY`. -/
def read_fail_registry : iio_desc :=
  (iio_init_devs env_ok {}
    [{ name := "adxrs290".toList,
       dev_descriptor :=
         { adxrs290_iio_descriptor {} with read_dev := some (fun _ _ => -EBUSY) } }]).2

/-- The state of `read_fail_registry` after `iio_open_dev(dev, 4, 0b100)`. -/
def read_fail_opened : iio_desc :=
  ((iio_open_dev env_ok read_fail_registry "iio:device0".toList 4 4 false).getD (0, {})).2

/-- An environment in which allocation succeeds and the ring configuration
rejects a size of 0 with `-EINVAL` and succeeds otherwise. -/
def env_cfg_reject_zero : iio_env :=
  { calloc_ok := fun _ _ _ => true
    cb_cfg_ret := fun _ size => if size = 0 then -EINVAL else 0
    iiod_conn_step := fun _ => 0 }

/-- The ADXRS290 registry after a successful `iio_open_dev(dev, 4, 0b100)` in
`env_cfg_reject_zero`. -/
def cfg_opened : iio_desc :=
  ((iio_open_dev env_cfg_reject_zero (adxrs290_registry env_ok {}) "iio:device0".toList 4 4
    false).getD (0, {})).2

/-- The core-owned storage of device `i` relative to the blocks `L0` that are
live apart from it: the device has no caller-supplied storage, and either its
allocated flag is set, its ring lies over a block `p` and the live blocks are
`p :: L0`, or the flag is clear and the live blocks are `L0`. -/
def owns_storage (desc : iio_desc) (i : Nat) (dev : iio_dev_priv) (L0 : List Nat) : Prop :=
  desc.devs[i]? = some dev ∧ dev.buffer.initalized = true ∧
  (dev.buffer.raw_buf = none ∨ dev.buffer.raw_buf_len = 0) ∧
  ((dev.buffer.allocated = true ∧ ∃ p, dev.buffer.cb.buff = some p ∧ desc.hp.live = p :: L0) ∨
   (dev.buffer.allocated = false ∧ desc.hp.live = L0))

/-- An open (`some (samples, mask)`) or a close (`none`) of the device. -/
def session_step (env : iio_env) (device : List Char) (desc : iio_desc) :
    Option (Nat × Nat) → Option iio_desc
  | some (samples, mask) => (iio_open_dev env desc device samples mask false).map (fun r => r.2)
  | none => (iio_close_dev desc device).map (fun r => r.2)

/-- A sequence of opens and closes of the device. -/
def session_run (env : iio_env) (device : List Char) :
    List (Option (Nat × Nat)) → iio_desc → Option iio_desc
  | [], desc => some desc
  | s :: ss, desc =>
    match session_step env device desc s with
    | none => none
    | some d1 => session_run env device ss d1

/-- A registry holding the ADXRS290 descriptor with a `post_disable` callback
that reports success, without caller-supplied storage. -/
def post_disable_registry : iio_desc :=
  (iio_init_devs env_ok {}
    [{ name := "adxrs290".toList,
       dev_descriptor := { adxrs290_iio_descriptor {} with post_disable := some (fun _ => 0) } }]).2

/-! ## `iio_open_dev` over an arbitrary `cb_cfg`

The circular buffer is not among the sources followed, and its description
does not say what a failing `cb_cfg` leaves in the ring.  The definitions of
this section repeat `iio_open_dev` with the call `cb_cfg(&dev->buffer.cb, buf,
size)` of line 910 as a parameter: `cfg cb buf size` is the result of the call
and the ring it leaves. -/

/-- Lines 910-937 of `iio_open_dev` with `cb_cfg` as the parameter `cfg`;
`iio_open_dev_configure env` is the instance `cfg = cb_cfg env`. -/
def iio_open_dev_configure_over (cfg : circular_buffer → Option Nat → Nat → Int × circular_buffer)
    (desc : iio_desc) (i : Nat) (dev : iio_dev_priv)
    (mask size : Nat) (buf : Option Nat) (b : iio_buffer_priv) (h : heap) :
    Option (Int × iio_desc) :=
  let b4 : iio_buffer_priv := { b with cb := (cfg b.cb buf size).2 }
  let ret := (cfg b.cb buf size).1
  if IS_ERR_VALUE ret then
    match release_allocated h b4 with
    | none => none
    | some (h5, b5) => some (ret, put_dev desc i dev b5 h5 desc.trace)
  else
  let after_pre : Option (Int × iio_buffer_priv × heap × List iio_call) :=
    match dev.dev_descriptor.pre_enable with
    | none => some (ret, b4, h, desc.trace)
    | some f =>
      if IS_ERR_VALUE (f dev.dev_instance mask) then
        match release_allocated h b4 with
        | none => none
        | some (h5, b5) =>
          some (f dev.dev_instance mask, b5, h5, desc.trace ++ [iio_call.pre_enable i mask])
      else some (f dev.dev_instance mask, b4, h, desc.trace ++ [iio_call.pre_enable i mask])
  match after_pre with
  | none => none
  | some (ret, b6, h6, tr) =>
  if dev.trig_idx = NO_TRIGGER then some (ret, put_dev desc i dev b6 h6 tr) else
  match desc.trigs[dev.trig_idx]? with
  | none => none
  | some trig =>
    if trig.descriptor.enable then
      some (ret, put_dev desc i dev b6 h6 (tr ++ [iio_call.trig_enable dev.trig_idx]))
    else some (ret, put_dev desc i dev b6 h6 tr)

/-- Function `iio_open_dev(ctx, device, samples, mask, cyclic)` with `cb_cfg` as
the parameter `cfg`; `iio_open_dev env` is the instance `cfg = cb_cfg env`. -/
def iio_open_dev_over (env : iio_env)
    (cfg : circular_buffer → Option Nat → Nat → Int × circular_buffer) (desc : iio_desc)
    (device : List Char) (samples mask : Nat) (cyclic : Bool) : Option (Int × iio_desc) :=
  match get_iio_device desc device with
  | none => some (-ENODEV, desc)
  | some i =>
  match desc.devs[i]? with
  | none => none
  | some dev =>
  if !dev.buffer.initalized then some (-EINVAL, desc) else
  match ch_mask_of dev.dev_descriptor.num_ch with
  | none => none
  | some ch_mask =>
  let mask := mask &&& ch_mask
  if mask = 0 then some (-ENOENT, desc) else
  match bytes_per_scan dev.dev_descriptor.channels mask with
  | none => none
  | some bps =>
  let size := (bps * samples) % UINT32_MOD
  let b1 : iio_buffer_priv :=
    { dev.buffer with
      pub := { dev.buffer.pub with active_mask := mask, bytes_per_scan := bps, size := size } }
  if b1.raw_buf.isSome && b1.raw_buf_len != 0 then
    if b1.raw_buf_len < size then some (-ENOMEM, put_dev desc i dev b1 desc.hp desc.trace)
    else iio_open_dev_configure_over cfg desc i dev mask size b1.raw_buf b1 desc.hp
  else
    match release_allocated desc.hp b1 with
    | none => none
    | some (h2, b2) =>
      match calloc env h2 size 1 with
      | (none, h3) => some (-ENOMEM, put_dev desc i dev b2 h3 desc.trace)
      | (some p, h3) =>
        iio_open_dev_configure_over cfg desc i dev mask size (some p)
          { b2 with allocated := true } h3

/-- An open (`some (samples, mask)`) or a close (`none`) of the device, over
the `cb_cfg` given. -/
def session_step_over (env : iio_env)
    (cfg : circular_buffer → Option Nat → Nat → Int × circular_buffer) (device : List Char)
    (desc : iio_desc) : Option (Nat × Nat) → Option iio_desc
  | some (samples, mask) =>
    (iio_open_dev_over env cfg desc device samples mask false).map (fun r => r.2)
  | none => (iio_close_dev desc device).map (fun r => r.2)

/-- A sequence of opens and closes of the device, over the `cb_cfg` given. -/
def session_run_over (env : iio_env)
    (cfg : circular_buffer → Option Nat → Nat → Int × circular_buffer) (device : List Char) :
    List (Option (Nat × Nat)) → iio_desc → Option iio_desc
  | [], desc => some desc
  | s :: ss, desc =>
    match session_step_over env cfg device desc s with
    | none => none
    | some d1 => session_run_over env cfg device ss d1

/-- The device's active mask has no bit at or above its channel count, for a
channel count within 1..32. -/
def dev_mask_ok (d : iio_dev_priv) : Prop :=
  1 ≤ d.dev_descriptor.num_ch → d.dev_descriptor.num_ch ≤ 32 →
    d.buffer.pub.active_mask < 2 ^ d.dev_descriptor.num_ch

/-- Every device of the registry satisfies `dev_mask_ok`. -/
def mask_inv (desc : iio_desc) : Prop := ∀ d ∈ desc.devs, dev_mask_ok d

/-- The registry after `iio_init_trigs` and `iio_init_devs` on the given
initializers. -/
def registered (env : iio_env) (trigs : List iio_trigger_init) (devs : List iio_device_init) :
    iio_desc :=
  (iio_init_devs env (iio_init_trigs env {} trigs).2 devs).2

/-! ## Specification-side notions for close without trigger -/

/-- For every device of the registry: whether it is buffer-capable, whether it
has a `post_disable` callback, and its trigger index. -/
def desc_trig_facts (desc : iio_desc) : List (Bool × Bool × Nat) :=
  desc.devs.map (fun d => (d.buffer.initalized, d.dev_descriptor.post_disable.isSome, d.trig_idx))

/-! ## Specification-side notions for numbers in text -/

def is_digit (c : Char) : Bool := decide (48 ≤ c.toNat ∧ c.toNat ≤ 57)

/-- The number a text denotes when read as a signed decimal: an optional `-`,
at least one digit, and optionally a point followed by at least one digit.
The result is the mantissa `m` and the number `k` of digits after the point;
the number denoted is `m / 10 ^ k`. -/
def decimal_value (s : List Char) : Option (Int × Nat) :=
  let neg : Bool := s.head? == some '-'
  let body := if neg then s.drop 1 else s
  let ip := body.takeWhile (fun c => c != '.')
  let rest := body.dropWhile (fun c => c != '.')
  let fp := rest.drop 1
  if ip.isEmpty || !ip.all is_digit || !fp.all is_digit || (!rest.isEmpty && fp.isEmpty) then none
  else some (if neg then -((dec_val (ip ++ fp) : Nat) : Int) else ((dec_val (ip ++ fp) : Nat) : Int),
             fp.length)

/-- Whether the text denotes the rational number `num / den`. -/
def denotes (s : List Char) (num : Int) (den : Nat) : Bool :=
  match decimal_value s with
  | none => false
  | some (m, k) => decide (m * (den : Int) = num * 10 ^ k)

/-- The 12-bit two's-complement value held in the low 12 bits of `x`. -/
def sign_extend_12 (x : Int) : Int := (x % 4096 + 2048) % 4096 - 2048

/-- The channel information of a request for the temperature channel. -/
def temp_ch_info : iio_ch_info :=
  { ch_out := false, ch_num := ADXRS290_CHANNEL_TEMP, type := iio_chan_type.IIO_TEMP,
    differential := false, address := 0 }

/-- The text a filter read emits for index `k` of a frequency table, through
a show callback `f` that is handed the index by the device. -/
def filter_text (f : adxrs290_hw → Nat → Nat → Option iio_ch_info → Int →
    Option (Int × List Char)) (hw : Nat → adxrs290_hw) (k : Nat) : Option (List Char) :=
  (f (hw k) 0 32 none 0).map (fun r => r.2)

/-- Whether the text denotes the frequency `integer + micro / 10^6` of entry
`k` of the table. -/
def denotes_entry (table : List (Int × Int)) (k : Nat) (text : Option (List Char)) : Bool :=
  match table[k]?, text with
  | some (a, b), some s => denotes s (a * 1000000 + b) 1000000
  | _, _ => false

/-! ## Specification-side notions for the SPI driver -/

/-- Whether none of the requests `qs`, issued in this order after `issued`,
had a transaction result of `E_BAD_PARAM` or `E_BAD_STATE`. -/
def all_pass (sdk : mxc_sdk) : List mxc_spi_req_t → List mxc_spi_req_t → Bool
  | _, [] => true
  | issued, q :: qs =>
    (max_spi_ret (sdk.MXC_SPI_MasterTransaction issued q)).isNone &&
      all_pass sdk (issued ++ [q]) qs

/-- An SDK whose transaction always reports the failure code -10, which is
neither `E_BAD_PARAM` nor `E_BAD_STATE`. -/
def sdk_timeout : mxc_sdk := { MXC_SPI_MasterTransaction := fun _ _ => -10 }

/-- An SDK whose transaction reports `E_BAD_STATE` from the second request
on. -/
def sdk_busy_after_one : mxc_sdk :=
  { MXC_SPI_MasterTransaction := fun issued _ => if issued.length = 0 then 0 else E_BAD_STATE }

/-! ## Specification-side notions for a truncated emit -/

/-- The memory of a buffer of capacity `n` that held `mem0`, after the text `t`
has been printed into it in fragments: the first `n - 1` characters of `t`,
the terminator, and the bytes of `mem0` behind it. -/
def xml_trunc_mem (n : Nat) (mem0 t : List Char) : List Char :=
  t.take (n - 1) ++ [Char.ofNat 0] ++ mem0.drop (min t.length (n - 1) + 1)

/-- The fragments of the ADXRS290 device element. -/
def adxrs290_frags : xml_walk :=
  (xml_device_frags (adxrs290_iio_descriptor {}) "adxrs290".toList "iio:device0".toList).getD {}

/-! # Theorems -/

/-! ## Linear scans -/

theorem find_from_some {α : Type} (p : α → Bool) (l : List α) (i k : Nat)
    (h : find_from p l i = some k) :
    i ≤ k ∧ k - i < l.length ∧ (∃ x, l[k - i]? = some x ∧ p x = true) ∧
      ∀ j, j < k - i → ∀ y, l[j]? = some y → p y = false := by
  induction l generalizing i with
  | nil => simp [find_from] at h
  | cons x xs ih =>
    unfold find_from at h
    by_cases hx : p x = true
    · simp only [hx, if_true, Option.some.injEq] at h
      subst h
      simp [hx]
    · simp only [hx] at h
      obtain ⟨h1, h2, ⟨y, hy, hpy⟩, h4⟩ := ih (i + 1) h
      have hk : k - i = (k - (i + 1)) + 1 := by omega
      refine ⟨by omega, ?_, ⟨y, ?_, hpy⟩, ?_⟩
      · simp only [List.length_cons]; omega
      · rw [hk, List.getElem?_cons_succ]; exact hy
      · intro j hj z hz
        cases j with
        | zero =>
          simp only [List.getElem?_cons_zero, Option.some.injEq] at hz
          subst hz
          simpa using hx
        | succ j =>
          rw [List.getElem?_cons_succ] at hz
          exact h4 j (by omega) z hz

theorem find_from_none {α : Type} (p : α → Bool) (l : List α) (i : Nat)
    (h : find_from p l i = none) : ∀ x ∈ l, p x = false := by
  induction l generalizing i with
  | nil => simp
  | cons x xs ih =>
    unfold find_from at h
    by_cases hx : p x = true
    · simp [hx] at h
    · simp only [hx] at h
      intro y hy
      rcases List.mem_cons.1 hy with rfl | hy
      · simpa using hx
      · exact ih (i + 1) h y hy

theorem find_from_first {α : Type} (p : α → Bool) (l : List α) (i k : Nat) (x : α)
    (hk : l[k]? = some x) (hp : p x = true)
    (hfirst : ∀ j, j < k → ∀ y, l[j]? = some y → p y = false) :
    find_from p l i = some (i + k) := by
  induction l generalizing i k with
  | nil => simp at hk
  | cons a as ih =>
    unfold find_from
    cases k with
    | zero =>
      simp only [List.getElem?_cons_zero, Option.some.injEq] at hk
      subst hk
      simp [hp]
    | succ k =>
      have ha : p a = false := hfirst 0 (by omega) a (by simp)
      simp only [ha]
      rw [List.getElem?_cons_succ] at hk
      have := ih (i + 1) k hk (fun j hj y hy => hfirst (j + 1) (by omega) y (by simpa using hy))
      rw [this]
      simp only [Bool.false_eq_true, if_false, Option.some.injEq]
      omega

/-! ## Decimal rendering -/

theorem digit_char_toNat (d : Nat) (h : d < 10) : (digit_char d).toNat - 48 = d := by
  unfold digit_char
  interval_cases d <;> rfl

theorem dec_val_append (s t : List Char) :
    dec_val (s ++ t) = t.foldl (fun a c => 10 * a + (c.toNat - 48)) (dec_val s) := by
  simp [dec_val, List.foldl_append]

theorem fmt_u_loop_acc (fuel n : Nat) (acc : List Char) :
    fmt_u_loop fuel n acc = fmt_u_loop fuel n [] ++ acc := by
  induction fuel generalizing n acc with
  | zero => simp [fmt_u_loop]
  | succ f ih =>
    unfold fmt_u_loop
    by_cases h : n < 10
    · simp [h]
    · simp only [h, if_false]
      rw [ih (n / 10) (digit_char (n % 10) :: acc), ih (n / 10) [digit_char (n % 10)]]
      simp

theorem dec_val_fmt_u_loop (fuel n : Nat) (h : n < 10 ^ fuel) :
    dec_val (fmt_u_loop fuel n []) = n := by
  induction fuel generalizing n with
  | zero => simp at h; subst h; simp [fmt_u_loop, dec_val]
  | succ f ih =>
    unfold fmt_u_loop
    by_cases h10 : n < 10
    · simp only [h10, if_true]
      simp only [dec_val, List.foldl_cons, List.foldl_nil]
      have := digit_char_toNat n h10
      omega
    · simp only [h10, if_false]
      rw [fmt_u_loop_acc, dec_val_append]
      have hlt : n / 10 < 10 ^ f := by
        rw [Nat.div_lt_iff_lt_mul (by norm_num)]
        calc n < 10 ^ (f + 1) := h
          _ = 10 ^ f * 10 := by ring
      rw [ih (n / 10) hlt]
      simp only [List.foldl_cons, List.foldl_nil]
      have := digit_char_toNat (n % 10) (Nat.mod_lt _ (by norm_num))
      omega

theorem dec_val_fmt_u32 (n : Nat) (h : n < UINT32_MOD) : dec_val (fmt_u32 n) = n := by
  unfold fmt_u32
  rw [Nat.mod_eq_of_lt h]
  apply dec_val_fmt_u_loop
  unfold UINT32_MOD at h
  omega

theorem fmt_u32_inj (a b : Nat) (ha : a < UINT32_MOD) (hb : b < UINT32_MOD)
    (h : fmt_u32 a = fmt_u32 b) : a = b := by
  have := congrArg dec_val h
  rwa [dec_val_fmt_u32 a ha, dec_val_fmt_u32 b hb] at this

/-! ## Device registry -/

theorem init_devs_loop_length (desc : iio_desc) (l : List iio_device_init) (i : Nat) :
    (init_devs_loop desc l i).length = l.length := by
  induction l generalizing i with
  | nil => rfl
  | cons x xs ih => simp [init_devs_loop, ih]

theorem init_devs_loop_getElem? (desc : iio_desc) (l : List iio_device_init) (i k : Nat) :
    (init_devs_loop desc l i)[k]? = (l[k]?).map (fun nd => init_dev desc nd (i + k)) := by
  induction l generalizing i k with
  | nil => simp [init_devs_loop]
  | cons x xs ih =>
    cases k with
    | zero => simp [init_devs_loop]
    | succ k =>
      simp only [init_devs_loop, List.getElem?_cons_succ]
      rw [ih (i + 1) k]
      have : i + 1 + k = i + (k + 1) := by omega
      rw [this]

theorem iio_init_devs_success (env : iio_env) (desc desc' : iio_desc)
    (devs : List iio_device_init) (h : iio_init_devs env desc devs = (SUCCESS, desc')) :
    desc'.devs = init_devs_loop desc devs 0 ∧ desc'.trigs = desc.trigs := by
  unfold iio_init_devs at h
  split at h
  · simp [SUCCESS, ENOMEM] at h
  · simp only [Prod.mk.injEq, true_and] at h
    subst h
    exact ⟨rfl, rfl⟩

/-- C1: after `iio_init_devs` has registered the `N` devices of `devs`, the
record at registration index `i` carries the identifier `iio:device<i>` with
`i` in decimal and the descriptor, name and instance registered at that index,
and `get_iio_device s` returns the record at index `i` exactly when `i < N` and
`s` is `iio:device<i>`; so it returns a record iff `s` is one of the `N`
identifiers. -/
theorem iio_init_devs_identifiers (env : iio_env) (desc desc' : iio_desc)
    (devs : List iio_device_init) (hN : devs.length < 2 ^ 31)
    (h : iio_init_devs env desc devs = (SUCCESS, desc')) :
    desc'.devs.length = devs.length ∧
    (∀ i nd, devs[i]? = some nd → ∃ d, desc'.devs[i]? = some d ∧
        d.dev_id = "iio:device".toList ++ fmt_u32 i ∧ dec_val (fmt_u32 i) = i ∧
        d.dev_descriptor = nd.dev_descriptor ∧ d.name = nd.name ∧ d.dev_instance = nd.dev) ∧
    (∀ s i, get_iio_device desc' s = some i ↔
        (i < devs.length ∧ s = "iio:device".toList ++ fmt_u32 i)) ∧
    (∀ s, (get_iio_device desc' s).isSome = true ↔
        ∃ i, i < devs.length ∧ s = "iio:device".toList ++ fmt_u32 i) := by
  obtain ⟨hd, -⟩ := iio_init_devs_success env desc desc' devs h
  have hlt : ∀ i, i < devs.length → i < UINT32_MOD := by
    intro i hi; unfold UINT32_MOD; omega
  have hget : ∀ s i, get_iio_device desc' s = some i ↔
      (i < devs.length ∧ s = "iio:device".toList ++ fmt_u32 i) := by
    intro s i
    unfold get_iio_device
    rw [hd]
    constructor
    · intro hf
      obtain ⟨-, h2, ⟨x, hx, hpx⟩, -⟩ := find_from_some _ _ _ _ hf
      simp only [Nat.sub_zero] at h2 hx
      rw [init_devs_loop_length] at h2
      rw [init_devs_loop_getElem?] at hx
      refine ⟨h2, ?_⟩
      rw [List.getElem?_eq_getElem h2] at hx
      simp only [Option.map_some', Option.some.injEq] at hx
      subst hx
      simp only [decide_eq_true_eq] at hpx
      rw [← hpx]
      simp [init_dev]
    · rintro ⟨hi, rfl⟩
      have := find_from_first (fun (d : iio_dev_priv) =>
          decide (d.dev_id = "iio:device".toList ++ fmt_u32 i))
        (init_devs_loop desc devs 0) 0 i (init_dev desc (devs.get ⟨i, hi⟩) i)
        (by rw [init_devs_loop_getElem?, List.getElem?_eq_getElem hi]; simp)
        (by simp [init_dev])
        (by
          intro j hj y hy
          rw [init_devs_loop_getElem?, List.getElem?_eq_getElem (by omega)] at hy
          simp only [Option.map_some', Option.some.injEq] at hy
          subst hy
          simp only [init_dev, Nat.zero_add, decide_eq_false_iff_not]
          intro hc
          have := fmt_u32_inj j i (hlt j (by omega)) (hlt i hi) (List.append_cancel_left hc)
          omega)
      simpa using this
  refine ⟨by rw [hd, init_devs_loop_length], ?_, hget, ?_⟩
  · intro i nd hi
    have hi' : i < devs.length := by
      by_contra hc
      rw [List.getElem?_eq_none (by omega)] at hi
      exact Option.noConfusion hi
    refine ⟨init_dev desc nd i, ?_, rfl, dec_val_fmt_u32 i (hlt i hi'), rfl, rfl, rfl⟩
    rw [hd, init_devs_loop_getElem?, hi]
    simp
  · intro s
    constructor
    · intro hs
      obtain ⟨i, hi⟩ := Option.isSome_iff_exists.1 hs
      exact ⟨i, (hget s i).1 hi⟩
    · rintro ⟨i, hi⟩
      rw [(hget s i).2 hi]
      rfl

/-- Witness for C1: two registered devices; `iio:device1` resolves to index 1. -/
theorem iio_init_devs_identifiers_witness :
    (two_plain_devs.length < 2 ^ 31 ∧
      iio_init_devs env_ok {} two_plain_devs =
        (SUCCESS, (iio_init_devs env_ok {} two_plain_devs).2)) ∧
    get_iio_device (iio_init_devs env_ok {} two_plain_devs).2 "iio:device1".toList = some 1 :=
  ⟨⟨by decide, rfl⟩,
    ((iio_init_devs_identifiers env_ok {} _ two_plain_devs (by decide) rfl).2.2.1
      "iio:device1".toList 1).2 ⟨by decide, by decide⟩⟩

/-! ## Independence of the environment -/

theorem calloc_congr (env env' : iio_env) (hc : env.calloc_ok = env'.calloc_ok)
    (h : heap) (n s : Nat) : calloc env h n s = calloc env' h n s := by
  simp [calloc, hc]

theorem cb_cfg_congr (env env' : iio_env) (hc : env.cb_cfg_ret = env'.cb_cfg_ret)
    (cb : circular_buffer) (buf : Option Nat) (size : Nat) :
    cb_cfg env cb buf size = cb_cfg env' cb buf size := by
  simp [cb_cfg, hc]

theorem iio_open_dev_congr (env env' : iio_env) (hc : env.calloc_ok = env'.calloc_ok)
    (hg : env.cb_cfg_ret = env'.cb_cfg_ret) (desc : iio_desc) (device : List Char)
    (samples mask : Nat) (cyclic : Bool) :
    iio_open_dev env desc device samples mask cyclic =
      iio_open_dev env' desc device samples mask cyclic := by
  have h1 : ∀ i dev m sz buf b h, iio_open_dev_configure env desc i dev m sz buf b h =
      iio_open_dev_configure env' desc i dev m sz buf b h := by
    intro i dev m sz buf b h
    simp only [iio_open_dev_configure, cb_cfg_congr env env' hg]
  simp only [iio_open_dev, h1, calloc_congr env env' hc]

theorem iio_init_devs_congr (env env' : iio_env) (hc : env.calloc_ok = env'.calloc_ok)
    (hs : env.sizeof_dev_priv = env'.sizeof_dev_priv) (desc : iio_desc)
    (devs : List iio_device_init) : iio_init_devs env desc devs = iio_init_devs env' desc devs := by
  simp only [iio_init_devs, calloc_congr env env' hc, hs]

/-! ## Streaming buffer: reads, pushes and writes on a FIFO ring -/

theorem find_from_set {α : Type} (p : α → Bool) (l : List α) (k i : Nat) (d d' : α)
    (h : l[k]? = some d) (hp : p d' = p d) : find_from p (l.set k d') i = find_from p l i := by
  induction l generalizing k i with
  | nil => simp at h
  | cons x xs ih =>
    cases k with
    | zero =>
      simp only [List.getElem?_cons_zero, Option.some.injEq] at h
      subst h
      simp [List.set, find_from, hp]
    | succ k =>
      rw [List.getElem?_cons_succ] at h
      simp only [List.set, find_from]
      rw [ih k (i + 1) h]

theorem get_iio_device_set (desc : iio_desc) (device : List Char) (k : Nat)
    (dev dev' : iio_dev_priv) (h : desc.devs[k]? = some dev) (hid : dev'.dev_id = dev.dev_id)
    (devs' : List iio_dev_priv) (hd : devs' = desc.devs.set k dev') (d' : iio_desc)
    (hd' : d'.devs = devs') : get_iio_device d' device = get_iio_device desc device := by
  unfold get_iio_device
  rw [hd', hd]
  exact find_from_set _ _ _ _ dev dev' h (by simp [hid])

theorem getElem?_lt_of_some {α : Type} (l : List α) (k : Nat) (d : α) (h : l[k]? = some d) :
    k < l.length := by
  by_contra hc
  rw [List.getElem?_eq_none (by omega)] at h
  exact Option.noConfusion h

theorem buffer_state_set (desc d' : iio_desc) (device : List Char) (i : Nat)
    (dev : iio_dev_priv) (b : iio_buffer_priv) (hget : get_iio_device desc device = some i)
    (hdev : desc.devs[i]? = some dev) (hd' : d'.devs = desc.devs.set i { dev with buffer := b })
    (hinit : b.initalized = true) :
    buffer_state d' device i b.pub b.cb.size b.cb.data := by
  refine ⟨?_, { dev with buffer := b }, ?_, hinit, rfl, rfl, rfl⟩
  · rw [get_iio_device_set desc device i dev { dev with buffer := b } hdev rfl _ rfl d' hd']
    exact hget
  · rw [hd', List.getElem?_set_self (getElem?_lt_of_some _ _ _ hdev)]

theorem buffer_state_set_devs (desc : iio_desc) (device : List Char) (i : Nat)
    (dev : iio_dev_priv) (b : iio_buffer_priv) (hget : get_iio_device desc device = some i)
    (hdev : desc.devs[i]? = some dev) (hinit : b.initalized = true) :
    buffer_state { desc with devs := desc.devs.set i { dev with buffer := b } } device i
      b.pub b.cb.size b.cb.data :=
  buffer_state_set desc _ device i dev b hget hdev rfl hinit

theorem iio_read_buffer_fifo (desc : iio_desc) (device : List Char) (i : Nat) (pub : iio_buffer)
    (size : Nat) (q : List Nat) (c : Nat) (h : buffer_state desc device i pub size q) :
    (iio_read_buffer desc device c).1 =
        (if min q.length c = 0 then -EAGAIN else int_of_u32 (min q.length c)) ∧
    (iio_read_buffer desc device c).2.1 = (if min q.length c = 0 then [] else q.take c) ∧
    buffer_state (iio_read_buffer desc device c).2.2 device i pub size (q.drop c) ∧
    (min q.length c = 0 → (iio_read_buffer desc device c).2.2 = desc) := by
  obtain ⟨hget, dev, hdev, hinit, hpub, hsize, hq⟩ := h
  subst hpub hsize
  unfold iio_read_buffer
  simp only [hget, hdev, hinit, cb_size, IS_ERR_VALUE, SUCCESS, lt_self_iff_false, decide_False,
    Bool.not_true, Bool.false_eq_true, if_false, hq]
  by_cases h0 : min q.length c = 0
  · simp only [h0, if_true]
    refine ⟨trivial, trivial, ?_, fun _ => trivial⟩
    have : q.drop c = q := by
      rcases Nat.min_eq_zero_iff.1 h0 with hl | hc
      · rw [List.length_eq_zero] at hl; subst hl; simp
      · subst hc; simp
    rw [this]
    exact ⟨hget, dev, hdev, hinit, rfl, rfl, hq⟩
  · have hle : min q.length c ≤ q.length := Nat.min_le_left _ _
    simp only [h0, if_false, cb_read, hq, hle, if_true, SUCCESS, lt_self_iff_false,
      decide_False, Bool.false_eq_true]
    have ht : List.take (min q.length c) q = List.take c q := by
      rcases Nat.le_total q.length c with hlc | hlc
      · rw [Nat.min_eq_left hlc, List.take_of_length_le hlc, List.take_of_length_le (le_refl _)]
      · rw [Nat.min_eq_right hlc]
    have hd : List.drop (min q.length c) q = List.drop c q := by
      rcases Nat.le_total q.length c with hlc | hlc
      · rw [Nat.min_eq_left hlc, List.drop_eq_nil_of_le hlc, List.drop_eq_nil_of_le (le_refl _)]
      · rw [Nat.min_eq_right hlc]
    refine ⟨trivial, ht, ?_, fun h => absurd h (by simp)⟩
    have key := buffer_state_set_devs desc device i dev
      ({ pub := dev.buffer.pub, cb := ⟨dev.buffer.cb.size, dev.buffer.cb.buff, q.drop c⟩,
         raw_buf := dev.buffer.raw_buf, raw_buf_len := dev.buffer.raw_buf_len,
         initalized := true, allocated := dev.buffer.allocated } : iio_buffer_priv) hget hdev rfl
    rw [hd]
    exact key

theorem read_chunks_fifo (desc : iio_desc) (device : List Char) (i : Nat) (pub : iio_buffer)
    (size : Nat) (q : List Nat) (cs : List Nat) (h : buffer_state desc device i pub size q) :
    (read_chunks desc device cs).1 = fifo_reads q cs ∧
    buffer_state (read_chunks desc device cs).2 device i pub size (q.drop cs.sum) := by
  induction cs generalizing desc q with
  | nil => simpa [read_chunks, fifo_reads] using h
  | cons c cs ih =>
    obtain ⟨h1, h2, h3, -⟩ := iio_read_buffer_fifo desc device i pub size q c h
    obtain ⟨ih1, ih2⟩ := ih _ _ h3
    simp only [read_chunks, fifo_reads, List.sum_cons, ← List.drop_drop]
    refine ⟨?_, ih2⟩
    rw [ih1]
    congr 1
    by_cases h0 : min q.length c = 0
    · simp only [h0, if_true] at h1 h2 ⊢
      exact Prod.ext h1 h2
    · simp only [h0, if_false] at h1 h2 ⊢
      exact Prod.ext h1 h2

theorem fifo_reads_flatten (q : List Nat) (cs : List Nat) :
    ((fifo_reads q cs).map (fun r => r.2)).flatten = q.take cs.sum := by
  induction cs generalizing q with
  | nil => simp [fifo_reads]
  | cons c cs ih =>
    simp only [fifo_reads, List.map_cons, List.flatten_cons, List.sum_cons, ih, List.take_add]
    congr 1
    by_cases h0 : min q.length c = 0
    · simp only [h0, if_true]
      rcases Nat.min_eq_zero_iff.1 h0 with hl | hc
      · rw [List.length_eq_zero] at hl; subst hl; simp
      · subst hc; simp
    · simp [h0]

theorem dev_push_scan_fifo (desc : iio_desc) (device : List Char) (i : Nat) (pub : iio_buffer)
    (size : Nat) (q x : List Nat) (h : buffer_state desc device i pub size q)
    (hx : pub.bytes_per_scan ≤ x.length) :
    ∃ d', dev_push_scan desc i x =
        some (if q.length + pub.bytes_per_scan ≤ size then SUCCESS else -ENOMEM, d') ∧
      buffer_state d' device i pub size
        (if q.length + pub.bytes_per_scan ≤ size then q ++ x.take pub.bytes_per_scan else q) := by
  obtain ⟨hget, dev, hdev, hinit, hpub, hsize, hq⟩ := h
  subst hpub hsize hq
  unfold dev_push_scan iio_buffer_push_scan cb_write
  simp only [hdev, Nat.not_lt.2 hx, if_false]
  by_cases hfit : dev.buffer.cb.data.length + dev.buffer.pub.bytes_per_scan ≤ dev.buffer.cb.size
  · simp only [hfit, if_true]
    refine ⟨_, rfl, ?_⟩
    exact buffer_state_set_devs desc device i dev
      ({ pub := dev.buffer.pub,
         cb := ⟨dev.buffer.cb.size, dev.buffer.cb.buff,
                dev.buffer.cb.data ++ x.take dev.buffer.pub.bytes_per_scan⟩,
         raw_buf := dev.buffer.raw_buf, raw_buf_len := dev.buffer.raw_buf_len,
         initalized := dev.buffer.initalized, allocated := dev.buffer.allocated } : iio_buffer_priv)
      hget hdev hinit
  · simp only [hfit, if_false]
    refine ⟨_, rfl, ?_⟩
    exact buffer_state_set_devs desc device i dev
      ({ pub := dev.buffer.pub, cb := dev.buffer.cb,
         raw_buf := dev.buffer.raw_buf, raw_buf_len := dev.buffer.raw_buf_len,
         initalized := dev.buffer.initalized, allocated := dev.buffer.allocated } : iio_buffer_priv)
      hget hdev hinit

theorem dev_push_scan_short (desc : iio_desc) (device : List Char) (i : Nat) (pub : iio_buffer)
    (size : Nat) (q x : List Nat) (h : buffer_state desc device i pub size q)
    (hx : x.length < pub.bytes_per_scan) : dev_push_scan desc i x = none := by
  obtain ⟨hget, dev, hdev, hinit, hpub, hsize, hq⟩ := h
  subst hpub
  unfold dev_push_scan iio_buffer_push_scan cb_write
  simp only [hdev, hx, if_true]

theorem push_scans_fits (desc : iio_desc) (device : List Char) (i : Nat) (pub : iio_buffer)
    (size : Nat) (q : List Nat) (xs : List (List Nat)) (h : buffer_state desc device i pub size q)
    (hlen : ∀ x ∈ xs, x.length = pub.bytes_per_scan)
    (hfit : q.length + xs.flatten.length ≤ size) :
    ∃ d2, push_scans desc i xs = some (xs.map (fun _ => SUCCESS), d2) ∧
      buffer_state d2 device i pub size (q ++ xs.flatten) := by
  induction xs generalizing desc q with
  | nil => exact ⟨desc, rfl, by simpa using h⟩
  | cons x xs ih =>
    have hx : x.length = pub.bytes_per_scan := hlen x (List.mem_cons_self _ _)
    simp only [List.flatten_cons, List.length_append] at hfit
    obtain ⟨d1, h1, h2⟩ := dev_push_scan_fifo desc device i pub size q x h (le_of_eq hx.symm)
    have hf : q.length + pub.bytes_per_scan ≤ size := by omega
    simp only [hf, if_true] at h1 h2
    rw [← hx, List.take_length] at h2
    obtain ⟨d2, h3, h4⟩ := ih d1 (q ++ x) h2 (fun y hy => hlen y (List.mem_cons_of_mem _ hy))
      (by simp only [List.length_append]; omega)
    refine ⟨d2, ?_, by simpa using h4⟩
    simp only [push_scans, h1, h3, List.map_cons]

theorem push_scans_success (desc d2 : iio_desc) (device : List Char) (i : Nat) (pub : iio_buffer)
    (size : Nat) (q : List Nat) (xs : List (List Nat)) (rs : List Int)
    (h : buffer_state desc device i pub size q)
    (hlen : ∀ x ∈ xs, x.length = pub.bytes_per_scan)
    (hp : push_scans desc i xs = some (rs, d2)) (hok : ∀ r ∈ rs, r = SUCCESS) :
    buffer_state d2 device i pub size (q ++ xs.flatten) ∧ rs.length = xs.length := by
  induction xs generalizing desc q rs with
  | nil =>
    simp only [push_scans, Option.some.injEq, Prod.mk.injEq] at hp
    obtain ⟨rfl, rfl⟩ := hp
    exact ⟨by simpa using h, rfl⟩
  | cons x xs ih =>
    have hx : x.length = pub.bytes_per_scan := hlen x (List.mem_cons_self _ _)
    obtain ⟨d1, h1, h2⟩ := dev_push_scan_fifo desc device i pub size q x h (le_of_eq hx.symm)
    simp only [push_scans, h1] at hp
    split at hp
    · exact Option.noConfusion hp
    · rename_i rs' d2' hrest
      simp only [Option.some.injEq, Prod.mk.injEq] at hp
      obtain ⟨rfl, rfl⟩ := hp
      have hfit : q.length + pub.bytes_per_scan ≤ size := by
        by_contra hc
        have := hok _ (List.mem_cons_self _ _)
        simp [hc, SUCCESS, ENOMEM] at this
      simp only [hfit, if_true] at h2
      rw [← hx, List.take_length] at h2
      obtain ⟨h3, h4⟩ := ih d1 (q ++ x) rs' h2 (fun y hy => hlen y (List.mem_cons_of_mem _ hy))
        hrest (fun r hr => hok r (List.mem_cons_of_mem _ hr))
      exact ⟨by simpa using h3, by simp [h4]⟩

theorem release_allocated_fields (h h' : heap) (b b' : iio_buffer_priv)
    (hr : release_allocated h b = some (h', b')) :
    b'.pub = b.pub ∧ b'.cb = b.cb ∧ b'.initalized = b.initalized ∧ b'.raw_buf = b.raw_buf ∧
      b'.raw_buf_len = b.raw_buf_len ∧ b'.allocated = false := by
  unfold release_allocated at hr
  split at hr
  · split at hr
    · exact Option.noConfusion hr
    · simp only [Option.some.injEq, Prod.mk.injEq] at hr
      obtain ⟨-, rfl⟩ := hr
      exact ⟨rfl, rfl, rfl, rfl, rfl, rfl⟩
  · rename_i hna
    simp only [Option.some.injEq, Prod.mk.injEq] at hr
    obtain ⟨-, rfl⟩ := hr
    exact ⟨rfl, rfl, rfl, rfl, rfl, by simpa using hna⟩

theorem iio_open_dev_configure_ok (env : iio_env) (desc d1 : iio_desc) (i : Nat)
    (dev : iio_dev_priv) (mask size : Nat) (buf : Option Nat) (b : iio_buffer_priv) (hp : heap)
    (r : Int) (h : iio_open_dev_configure env desc i dev mask size buf b hp = some (r, d1))
    (hr : ¬ r < 0) :
    ∃ b' h' tr, d1 = put_dev desc i dev b' h' tr ∧ b'.pub = b.pub ∧
      b'.initalized = b.initalized ∧ b'.cb.size = size ∧ b'.cb.data = [] ∧ b'.cb.buff = buf := by
  unfold iio_open_dev_configure at h
  by_cases hcfg : IS_ERR_VALUE (cb_cfg env b.cb buf size).1 = true
  · simp only [hcfg, if_true] at h
    split at h
    · exact Option.noConfusion h
    · simp only [Option.some.injEq, Prod.mk.injEq] at h
      obtain ⟨rfl, -⟩ := h
      simp [IS_ERR_VALUE] at hcfg
      exact absurd hcfg hr
  · simp only [hcfg, Bool.false_eq_true, if_false] at h
    have hcb : (cb_cfg env b.cb buf size).2 = { size := size, buff := buf, data := [] } := by
      unfold cb_cfg at hcfg ⊢
      by_cases hx : IS_ERR_VALUE (env.cb_cfg_ret buf size) = true
      · simp [hx] at hcfg
      · simp [hx]
    split at h
    · exact Option.noConfusion h
    · rename_i ret b6 h6 tr hpre
      have hb6 : b6.pub = b.pub ∧ b6.initalized = b.initalized ∧
          b6.cb = { size := size, buff := buf, data := [] } := by
        split at hpre
        · simp only [Option.some.injEq, Prod.mk.injEq] at hpre
          obtain ⟨-, rfl, -, -⟩ := hpre
          exact ⟨rfl, rfl, hcb⟩
        · split at hpre
          · split at hpre
            · exact Option.noConfusion hpre
            · rename_i h5 b5 hrel
              simp only [Option.some.injEq, Prod.mk.injEq] at hpre
              obtain ⟨-, rfl, -, -⟩ := hpre
              obtain ⟨e1, e2, e3, -⟩ := release_allocated_fields _ _ _ _ hrel
              exact ⟨e1, e3, by rw [e2]; exact hcb⟩
          · simp only [Option.some.injEq, Prod.mk.injEq] at hpre
            obtain ⟨-, rfl, -, -⟩ := hpre
            exact ⟨rfl, rfl, hcb⟩
      obtain ⟨e1, e2, e3⟩ := hb6
      have fin : ∀ tr', some (ret, put_dev desc i dev b6 h6 tr') = some (r, d1) →
          ∃ b' h' tr, d1 = put_dev desc i dev b' h' tr ∧ b'.pub = b.pub ∧
            b'.initalized = b.initalized ∧ b'.cb.size = size ∧ b'.cb.data = [] ∧
            b'.cb.buff = buf := by
        intro tr' he
        simp only [Option.some.injEq, Prod.mk.injEq] at he
        exact ⟨b6, h6, tr', he.2.symm, e1, e2, by rw [e3], by rw [e3], by rw [e3]⟩
      split at h
      · exact fin _ h
      · split at h
        · exact Option.noConfusion h
        · split at h
          · exact fin _ h
          · exact fin _ h

theorem buffer_state_put_dev (desc : iio_desc) (device : List Char) (i : Nat)
    (dev : iio_dev_priv) (b : iio_buffer_priv) (h : heap) (tr : List iio_call)
    (hget : get_iio_device desc device = some i) (hdev : desc.devs[i]? = some dev)
    (hinit : b.initalized = true) :
    buffer_state (put_dev desc i dev b h tr) device i b.pub b.cb.size b.cb.data :=
  buffer_state_set desc _ device i dev b hget hdev rfl hinit

/-- A successful `iio_open_dev` leaves the device with the truncated mask, the
byte count of one scan, the size `bytes_per_scan * samples` (32-bit) and an
empty ring of that capacity. -/
theorem iio_open_dev_ok (env : iio_env) (desc d1 : iio_desc) (device : List Char)
    (samples mask : Nat) (cyclic : Bool) (r : Int)
    (h : iio_open_dev env desc device samples mask cyclic = some (r, d1)) (hr : ¬ r < 0) :
    ∃ i dev cm bps, get_iio_device desc device = some i ∧ desc.devs[i]? = some dev ∧
      dev.buffer.initalized = true ∧ ch_mask_of dev.dev_descriptor.num_ch = some cm ∧
      mask &&& cm ≠ 0 ∧ bytes_per_scan dev.dev_descriptor.channels (mask &&& cm) = some bps ∧
      buffer_state d1 device i
        { dev.buffer.pub with
          active_mask := mask &&& cm, bytes_per_scan := bps,
          size := (bps * samples) % UINT32_MOD }
        ((bps * samples) % UINT32_MOD) [] := by
  unfold iio_open_dev at h
  split at h
  · simp only [Option.some.injEq, Prod.mk.injEq] at h
    exact absurd (by rw [← h.1]; decide) hr
  · rename_i i hget
    split at h
    · exact Option.noConfusion h
    · rename_i dev hdev
      by_cases hinit : dev.buffer.initalized = true
      · simp only [hinit, Bool.not_true, Bool.false_eq_true, if_false] at h
        split at h
        · exact Option.noConfusion h
        · rename_i cm hcm
          by_cases hm : mask &&& cm = 0
          · simp only [hm, if_true, Option.some.injEq, Prod.mk.injEq] at h
            exact absurd (by rw [← h.1]; decide) hr
          · simp only [hm, if_false] at h
            split at h
            · exact Option.noConfusion h
            · rename_i bps hbps
              refine ⟨i, dev, cm, bps, hget, hdev, hinit, hcm, hm, hbps, ?_⟩
              have key : ∀ buf b hp,
                  iio_open_dev_configure env desc i dev (mask &&& cm)
                    ((bps * samples) % UINT32_MOD) buf b hp = some (r, d1) →
                  b.initalized = true →
                  b.pub = { dev.buffer.pub with
                            active_mask := mask &&& cm, bytes_per_scan := bps,
                            size := (bps * samples) % UINT32_MOD } →
                  buffer_state d1 device i
                    { dev.buffer.pub with
                      active_mask := mask &&& cm, bytes_per_scan := bps,
                      size := (bps * samples) % UINT32_MOD }
                    ((bps * samples) % UINT32_MOD) [] := by
                intro buf b hp hc hbi hbp
                obtain ⟨b', h', tr, rfl, e1, e2, e3, e4, -⟩ :=
                  iio_open_dev_configure_ok env desc d1 i dev _ _ buf b hp r hc hr
                have := buffer_state_put_dev desc device i dev b' h' tr hget hdev (by rw [e2, hbi])
                rw [e1, e3, e4, hbp] at this
                exact this
              split at h
              · split at h
                · simp only [Option.some.injEq, Prod.mk.injEq] at h
                  exact absurd (by rw [← h.1]; decide) hr
                · exact key _ _ _ h rfl rfl
              · split at h
                · exact Option.noConfusion h
                · rename_i h2 b2 hrel
                  obtain ⟨e1, -, e3, -⟩ := release_allocated_fields _ _ _ _ hrel
                  split at h
                  · simp only [Option.some.injEq, Prod.mk.injEq] at h
                    exact absurd (by rw [← h.1]; decide) hr
                  · exact key _ _ _ h (by simpa using e3) (by simpa using e1)
      · simp only [hinit, Bool.not_false, if_true, Option.some.injEq, Prod.mk.injEq] at h
        · exact absurd (by rw [← h.1]; decide) hr

/-- The allocating path of `iio_open_dev` on a device without caller-supplied
storage, `pre_enable` callback and trigger. -/
theorem iio_open_dev_fresh (env : iio_env) (desc : iio_desc) (device : List Char)
    (samples mask : Nat) (cyclic : Bool) (i : Nat) (dev : iio_dev_priv) (cm m bps : Nat)
    (hget : get_iio_device desc device = some i) (hdev : desc.devs[i]? = some dev)
    (hinit : dev.buffer.initalized = true)
    (hcm : ch_mask_of dev.dev_descriptor.num_ch = some cm)
    (hm : mask &&& cm = m) (hm0 : m ≠ 0)
    (hbps : bytes_per_scan dev.dev_descriptor.channels m = some bps)
    (hraw : dev.buffer.raw_buf = none) (halloc : dev.buffer.allocated = false)
    (hcal : env.calloc_ok desc.hp ((bps * samples) % UINT32_MOD) 1 = true)
    (hcfg : env.cb_cfg_ret (some desc.hp.next) ((bps * samples) % UINT32_MOD) = SUCCESS)
    (hpre : dev.dev_descriptor.pre_enable = none) (htrig : dev.trig_idx = NO_TRIGGER) :
    iio_open_dev env desc device samples mask cyclic =
      some (SUCCESS,
        put_dev desc i dev
          { dev.buffer with
            pub := { dev.buffer.pub with
                     active_mask := m, bytes_per_scan := bps,
                     size := (bps * samples) % UINT32_MOD }
            cb := { size := (bps * samples) % UINT32_MOD, buff := some desc.hp.next, data := [] }
            allocated := true }
          { next := desc.hp.next + 1, live := desc.hp.next :: desc.hp.live } desc.trace) := by
  unfold iio_open_dev
  simp only [hget, hdev, hinit, hcm, hm, hm0, hbps, hraw, Bool.not_true, Bool.false_eq_true,
    if_false, Option.isSome_none, Bool.false_and, release_allocated, halloc, calloc, hcal, if_true,
    iio_open_dev_configure, cb_cfg, hcfg, IS_ERR_VALUE, SUCCESS, lt_self_iff_false, decide_False,
    hpre, htrig]

/-! ## End-to-end session on the ADXRS290 -/

/-- C3 as stated fails: on the ADXRS290 session (open for 4 samples with mask
0b100, pushes of 0x0001..0x0004) the first `iio_read_buffer(dev, 5)` does not
return the 4 bytes 01 00 02 00; it returns 5 bytes. -/
theorem adxrs290_first_read_is_not_four_bytes :
    ¬ ((adxrs290_session env_ok {} 4 4 four_samples 5).map (fun r => r.2.2.2.head?) =
        some (some (4, [1, 0, 2, 0]))) := by
  decide

/-- C3, amended: on the ADXRS290 descriptor, whenever allocation and ring
configuration succeed, `iio_open_dev(dev, 4, mask = 0b100)` succeeds with active
mask 0b100, bytes_per_scan 2 and size 8; after the four pushes of 0x0001 ..
0x0004 (each returning success) `iio_read_buffer(dev, 5)` returns 5 with the
bytes 01 00 02 00 03, the second call returns 3 with the remaining bytes
00 04 00, and the third returns `-EAGAIN`. -/
theorem adxrs290_session_example (env : iio_env) (hw : adxrs290_hw)
    (hc : ∀ h n s, env.calloc_ok h n s = true) (hg : ∀ b s, env.cb_cfg_ret b s = SUCCESS) :
    adxrs290_session env hw 4 4 four_samples 5 =
      some (SUCCESS, some { active_mask := 4, size := 8, bytes_per_scan := 2 }, [0, 0, 0, 0],
        [(5, [1, 0, 2, 0, 3]), (3, [0, 4, 0]), (-EAGAIN, [])]) := by
  have hreg : adxrs290_registry env hw = adxrs290_registry env_ok hw := by
    simp [adxrs290_registry, iio_init_devs, calloc, hc, env_ok]
  have hget : get_iio_device (adxrs290_registry env_ok hw) "iio:device0".toList = some 0 := rfl
  have hdev : (adxrs290_registry env_ok hw).devs[0]? =
      some (init_dev {} { name := "adxrs290".toList, dev_descriptor := adxrs290_iio_descriptor hw } 0) :=
    rfl
  obtain ⟨d1, hopen, hst, hpub⟩ : ∃ d1,
      iio_open_dev env (adxrs290_registry env_ok hw) "iio:device0".toList 4 4 false =
        some (SUCCESS, d1) ∧
      buffer_state d1 "iio:device0".toList 0 { active_mask := 4, size := 8, bytes_per_scan := 2 }
        8 [] ∧
      d1.devs[0]?.map (fun d => d.buffer.pub) =
        some { active_mask := 4, size := 8, bytes_per_scan := 2 } := by
    refine ⟨_, iio_open_dev_fresh env (adxrs290_registry env_ok hw) "iio:device0".toList 4 4 false
      0 _ 7 4 2 hget hdev rfl rfl (by decide) (by decide) rfl rfl rfl (hc _ _ _) (hg _ _) rfl rfl,
      ?_, rfl⟩
    exact buffer_state_put_dev (adxrs290_registry env_ok hw) "iio:device0".toList 0 _ _ _ _
      hget hdev rfl
  obtain ⟨d2, hpush, hst2⟩ := push_scans_fits d1 _ 0 _ _ [] four_samples hst (by decide) (by decide)
  have hread := (read_chunks_fifo d2 "iio:device0".toList 0 _ _ _ [5, 5, 5] hst2).1
  unfold adxrs290_session
  rw [hreg, hopen]
  simp only []
  rw [hpush]
  simp only []
  rw [hread, hpub]
  rfl

/-- Witness for C3: the environment `env_ok`. -/
theorem adxrs290_session_example_witness :
    ((∀ h n s, env_ok.calloc_ok h n s = true) ∧ (∀ b s, env_ok.cb_cfg_ret b s = SUCCESS)) ∧
    adxrs290_session env_ok {} 4 4 four_samples 5 =
      some (SUCCESS, some { active_mask := 4, size := 8, bytes_per_scan := 2 }, [0, 0, 0, 0],
        [(5, [1, 0, 2, 0, 3]), (3, [0, 4, 0]), (-EAGAIN, [])]) :=
  ⟨⟨fun _ _ _ => rfl, fun _ _ => rfl⟩,
    adxrs290_session_example env_ok {} (fun _ _ _ => rfl) (fun _ _ => rfl)⟩

/-! ## Round trip through the ring -/

theorem flatten_length_of_uniform (xs : List (List Nat)) (n : Nat)
    (h : ∀ x ∈ xs, x.length = n) : xs.flatten.length = xs.length * n := by
  induction xs with
  | nil => simp
  | cons x xs ih =>
    simp only [List.flatten_cons, List.length_append, List.length_cons,
      h x (List.mem_cons_self _ _), ih (fun y hy => h y (List.mem_cons_of_mem _ hy))]
    ring

/-- C2: after a successful `iio_open_dev` for `samples` scans, `samples`
successful `iio_buffer_push_scan` calls of one `bytes_per_scan`-sized sample
each, followed by `iio_read_buffer` calls with any chunk sizes `cs`, return
chunks whose concatenation is the first `sum cs` bytes of the pushed samples in
push order (each read returning the FIFO count); once the chunk sizes cover all
`samples * bytes_per_scan` bytes the concatenation is the whole pushed data and
the next `iio_read_buffer` returns `-EAGAIN` with no bytes. -/
theorem buffer_round_trip (env : iio_env) (desc d1 d2 : iio_desc) (device : List Char)
    (samples mask : Nat) (cyclic : Bool) (r : Int) (i : Nat) (dev1 : iio_dev_priv)
    (xs : List (List Nat)) (rs : List Int)
    (hopen : iio_open_dev env desc device samples mask cyclic = some (r, d1)) (hr : ¬ r < 0)
    (hget : get_iio_device d1 device = some i) (hdev : d1.devs[i]? = some dev1)
    (hK : xs.length = samples)
    (hlen : ∀ x ∈ xs, x.length = dev1.buffer.pub.bytes_per_scan)
    (hpush : push_scans d1 i xs = some (rs, d2)) (hok : ∀ r ∈ rs, r = SUCCESS) :
    xs.flatten.length = samples * dev1.buffer.pub.bytes_per_scan ∧
    ∀ cs : List Nat,
      (read_chunks d2 device cs).1 = fifo_reads xs.flatten cs ∧
      ((read_chunks d2 device cs).1.map (fun c => c.2)).flatten = xs.flatten.take cs.sum ∧
      (xs.flatten.length ≤ cs.sum →
        ((read_chunks d2 device cs).1.map (fun c => c.2)).flatten = xs.flatten ∧
        ∀ c, (iio_read_buffer (read_chunks d2 device cs).2 device c).1 = -EAGAIN ∧
          (iio_read_buffer (read_chunks d2 device cs).2 device c).2.1 = []) := by
  obtain ⟨i', dev, cm, bps, -, -, -, -, -, -, hst⟩ :=
    iio_open_dev_ok env desc d1 device samples mask cyclic r hopen hr
  have hi : i' = i := by
    have := hst.1
    rw [hget] at this
    exact (Option.some.inj this).symm
  subst hi
  have hpub : dev1.buffer.pub.bytes_per_scan = bps := by
    obtain ⟨-, dev', hdev', -, hp, -, -⟩ := hst
    rw [hdev] at hdev'
    obtain rfl := Option.some.inj hdev'
    rw [hp]
  have hlen' : ∀ x ∈ xs, x.length = bps := fun x hx => (hlen x hx).trans hpub
  obtain ⟨hst2, -⟩ := push_scans_success d1 d2 device i' _ _ [] xs rs hst hlen' hpush hok
  simp only [List.nil_append] at hst2
  refine ⟨by rw [flatten_length_of_uniform xs bps hlen', hK, hpub], ?_⟩
  intro cs
  obtain ⟨hrd, hst3⟩ := read_chunks_fifo d2 device i' _ _ _ cs hst2
  refine ⟨hrd, by rw [hrd, fifo_reads_flatten], ?_⟩
  intro hall
  refine ⟨by rw [hrd, fifo_reads_flatten, List.take_of_length_le hall], ?_⟩
  intro c
  obtain ⟨h1, h2, -, -⟩ := iio_read_buffer_fifo _ device i' _ _ _ c hst3
  have hz : min (List.drop cs.sum xs.flatten).length c = 0 := by
    simp only [List.length_drop]
    omega
  simp only [hz, if_true] at h1 h2
  exact ⟨h1, h2⟩

/-- Witness for C2: the ADXRS290 session, four samples read back in chunks of
5 and 5 bytes. -/
theorem buffer_round_trip_witness :
    (iio_open_dev env_ok (adxrs290_registry env_ok {}) "iio:device0".toList 4 4 false =
        some (SUCCESS, session_d1) ∧
      push_scans session_d1 0 four_samples = some ([0, 0, 0, 0], session_d2)) ∧
    ((read_chunks session_d2 "iio:device0".toList [5, 5]).1.map (fun c => c.2)).flatten =
      four_samples.flatten :=
  ⟨⟨rfl, rfl⟩,
    ((buffer_round_trip env_ok (adxrs290_registry env_ok {}) session_d1 session_d2
      "iio:device0".toList 4 4 false SUCCESS 0
      (session_d1.devs.getD 0 {}) four_samples [0, 0, 0, 0] rfl (by decide) rfl rfl rfl
      (by decide) rfl (by decide)).2 [5, 5]).2.2 (by decide) |>.1⟩

/-! ## Bounded writes -/

theorem int_of_u32_zero : int_of_u32 0 = 0 := by decide

theorem iio_write_buffer_fifo (desc : iio_desc) (device : List Char) (i : Nat) (pub : iio_buffer)
    (q buf : List Nat) (b : Nat) (h : buffer_state desc device i pub pub.size q)
    (hS : pub.size < UINT32_MOD) (hq : q.length ≤ pub.size) (hbuf : b ≤ buf.length) :
    ∃ d', iio_write_buffer desc device buf b =
        some (int_of_u32 (min b (pub.size - q.length)), d') ∧
      buffer_state d' device i pub pub.size (q ++ buf.take (min b (pub.size - q.length))) := by
  obtain ⟨hget, dev, hdev, hinit, hpub, hsize, hdata⟩ := h
  subst hpub hdata
  have hav : (dev.buffer.pub.size + UINT32_MOD - dev.buffer.cb.data.length % UINT32_MOD) %
      UINT32_MOD = dev.buffer.pub.size - dev.buffer.cb.data.length := by
    have h1 : dev.buffer.cb.data.length % UINT32_MOD = dev.buffer.cb.data.length :=
      Nat.mod_eq_of_lt (by omega)
    rw [h1]
    have h2 : dev.buffer.pub.size + UINT32_MOD - dev.buffer.cb.data.length =
        (dev.buffer.pub.size - dev.buffer.cb.data.length) + UINT32_MOD := by omega
    rw [h2, Nat.add_mod_right]
    exact Nat.mod_eq_of_lt (by omega)
  have hmin : min (dev.buffer.pub.size - dev.buffer.cb.data.length) b =
      min b (dev.buffer.pub.size - dev.buffer.cb.data.length) := Nat.min_comm _ _
  have hnl : ¬ buf.length < min b (dev.buffer.pub.size - dev.buffer.cb.data.length) := by
    have := Nat.min_le_left b (dev.buffer.pub.size - dev.buffer.cb.data.length)
    omega
  have hfit : dev.buffer.cb.data.length +
      min b (dev.buffer.pub.size - dev.buffer.cb.data.length) ≤ dev.buffer.cb.size := by
    have := Nat.min_le_right b (dev.buffer.pub.size - dev.buffer.cb.data.length)
    omega
  unfold iio_write_buffer
  simp only [hget, hdev, hinit, cb_size, IS_ERR_VALUE, SUCCESS, lt_self_iff_false, decide_False,
    Bool.not_true, Bool.false_eq_true, if_false, hav, hmin, cb_write, hnl, hfit, if_true]
  refine ⟨_, rfl, ?_⟩
  have key := buffer_state_set_devs desc device i dev
    ({ pub := dev.buffer.pub,
       cb := ⟨dev.buffer.cb.size, dev.buffer.cb.buff,
              dev.buffer.cb.data ++
                buf.take (min b (dev.buffer.pub.size - dev.buffer.cb.data.length))⟩,
       raw_buf := dev.buffer.raw_buf, raw_buf_len := dev.buffer.raw_buf_len,
       initalized := true, allocated := dev.buffer.allocated } : iio_buffer_priv)
    hget hdev rfl
  obtain ⟨k1, dv, k2, k3, k4, k5, k6⟩ := key
  exact ⟨k1, dv, k2, k3, k4, k5.trans hsize, k6⟩

/-- C6: on an open device whose ring (capacity: the size fixed at open) holds
`s` bytes, `iio_write_buffer` with a request of `b` bytes queues exactly the
first `min b (size - s)` bytes of the caller's buffer, never more than the free
room, and returns that count; when that write has filled the ring, a further
one-byte write returns 0 (the truncated count), not a negative error, and
queues nothing. -/
theorem iio_write_buffer_bounded (desc : iio_desc) (device : List Char) (i : Nat)
    (pub : iio_buffer) (q buf buf1 : List Nat) (b : Nat)
    (h : buffer_state desc device i pub pub.size q)
    (hS : pub.size < UINT32_MOD) (hq : q.length ≤ pub.size) (hbuf : b ≤ buf.length)
    (hbuf1 : 1 ≤ buf1.length) :
    ∃ d', iio_write_buffer desc device buf b =
        some (int_of_u32 (min b (pub.size - q.length)), d') ∧
      buffer_state d' device i pub pub.size (q ++ buf.take (min b (pub.size - q.length))) ∧
      min b (pub.size - q.length) ≤ pub.size - q.length ∧
      (b = pub.size - q.length →
        ∃ d'', iio_write_buffer d' device buf1 1 = some (0, d'') ∧
          buffer_state d'' device i pub pub.size (q ++ buf.take b)) := by
  obtain ⟨d', h1, h2⟩ := iio_write_buffer_fifo desc device i pub q buf b h hS hq hbuf
  refine ⟨d', h1, h2, Nat.min_le_right _ _, ?_⟩
  intro hb
  have hmin : min b (pub.size - q.length) = b := by rw [hb]; exact Nat.min_self _
  rw [hmin] at h2
  have hlen : (q ++ buf.take b).length = pub.size := by
    simp only [List.length_append, List.length_take, Nat.min_eq_left hbuf]
    omega
  obtain ⟨d'', h3, h4⟩ := iio_write_buffer_fifo d' device i pub (q ++ buf.take b) buf1 1 h2 hS
    (le_of_eq hlen) hbuf1
  have hz : min 1 (pub.size - (q ++ buf.take b).length) = 0 := by rw [hlen]; simp
  rw [hz, int_of_u32_zero] at h3
  rw [hz] at h4
  simp only [List.take_zero, List.append_nil] at h4
  exact ⟨d'', h3, h4⟩

/-- Witness for C6: the ADXRS290 buffer opened for 4 samples (size 8, empty),
a write of 8 bytes. -/
theorem iio_write_buffer_bounded_witness :
    (buffer_state session_d1 "iio:device0".toList 0
        { active_mask := 4, size := 8, bytes_per_scan := 2 } 8 [] ∧
      (8 : Nat) < UINT32_MOD) ∧
    ∃ d', iio_write_buffer session_d1 "iio:device0".toList [1, 2, 3, 4, 5, 6, 7, 8] 8 =
        some (int_of_u32 (min 8 (8 - 0)), d') :=
  ⟨⟨⟨rfl, _, rfl, rfl, rfl, rfl, rfl⟩, by decide⟩,
    (iio_write_buffer_bounded session_d1 "iio:device0".toList 0
      { active_mask := 4, size := 8, bytes_per_scan := 2 } [] [1, 2, 3, 4, 5, 6, 7, 8] [9] 8
      ⟨rfl, _, rfl, rfl, rfl, rfl, rfl⟩ (by decide) (by decide) (by decide) (by decide)).imp
      (fun _ hd => hd.1)⟩

/-! ## Mask truncation at open -/

theorem ch_mask_of_eq (k : Nat) (h1 : 1 ≤ k) (h2 : k ≤ 32) :
    ch_mask_of k = some (2 ^ k - 1) := by
  interval_cases k <;> rfl

/-- C4: for a device with between 1 and 32 channels, `iio_open_dev` with mask
`m` and `iio_open_dev` with mask `m AND (2^num_ch - 1)` are the same
computation: same result, same resulting state (active mask, bytes_per_scan,
size, allocated flag, ring, allocator) and same trace of callbacks, hence the
same mask handed to `pre_enable`; this for every sample count and cyclic
flag. -/
theorem iio_open_dev_mask_truncation (env : iio_env) (desc : iio_desc) (device : List Char)
    (samples m : Nat) (cyclic : Bool) (i : Nat) (dev : iio_dev_priv)
    (hget : get_iio_device desc device = some i) (hdev : desc.devs[i]? = some dev)
    (h1 : 1 ≤ dev.dev_descriptor.num_ch) (h2 : dev.dev_descriptor.num_ch ≤ 32) :
    iio_open_dev env desc device samples m cyclic =
      iio_open_dev env desc device samples (m &&& (2 ^ dev.dev_descriptor.num_ch - 1)) cyclic := by
  have hcm := ch_mask_of_eq _ h1 h2
  have hl : (m &&& (2 ^ dev.dev_descriptor.num_ch - 1)) &&& (2 ^ dev.dev_descriptor.num_ch - 1) =
      m &&& (2 ^ dev.dev_descriptor.num_ch - 1) := by
    rw [Nat.and_pow_two_sub_one_eq_mod, Nat.and_pow_two_sub_one_eq_mod, Nat.mod_mod]
  unfold iio_open_dev
  simp only [hget, hdev, hcm, hl]

/-- Witness for C4: the ADXRS290 (3 channels), mask 0b1100 against 0b100. -/
theorem iio_open_dev_mask_truncation_witness :
    (get_iio_device (adxrs290_registry env_ok {}) "iio:device0".toList = some 0 ∧
      1 ≤ (adxrs290_iio_descriptor {}).num_ch ∧ (adxrs290_iio_descriptor {}).num_ch ≤ 32) ∧
    iio_open_dev env_ok (adxrs290_registry env_ok {}) "iio:device0".toList 4 12 false =
      iio_open_dev env_ok (adxrs290_registry env_ok {}) "iio:device0".toList 4
        (12 &&& (2 ^ 3 - 1)) false :=
  ⟨⟨rfl, by decide, by decide⟩,
    iio_open_dev_mask_truncation env_ok (adxrs290_registry env_ok {}) "iio:device0".toList 4 12
      false 0 ((adxrs290_registry env_ok {}).devs.getD 0 {}) rfl rfl (by decide) (by decide)⟩

/-- For a buffer-capable device with between 1 and 32 channels, an open whose
mask has no bit among the low `num_ch` bits returns `-ENOENT` and changes
nothing: no storage, no callback, same buffer state. -/
theorem iio_open_dev_empty_mask (env : iio_env) (desc : iio_desc) (device : List Char)
    (samples m : Nat) (cyclic : Bool) (i : Nat) (dev : iio_dev_priv)
    (hget : get_iio_device desc device = some i) (hdev : desc.devs[i]? = some dev)
    (hinit : dev.buffer.initalized = true)
    (h1 : 1 ≤ dev.dev_descriptor.num_ch) (h2 : dev.dev_descriptor.num_ch ≤ 32)
    (hm : m &&& (2 ^ dev.dev_descriptor.num_ch - 1) = 0) :
    iio_open_dev env desc device samples m cyclic = some (-ENOENT, desc) := by
  have hcm := ch_mask_of_eq _ h1 h2
  unfold iio_open_dev
  simp only [hget, hdev, hcm, hinit, hm, Bool.not_true, Bool.false_eq_true, if_false, if_true]

/-- C5, the failing input: on a buffer-capable device that declares no
channels the open with mask 1 evaluates `0xFFFFFFFF >> 32`, which is
undefined; it does not return `-ENOENT`. -/
theorem iio_open_dev_zero_channels_undefined :
    get_iio_device zero_ch_registry "iio:device0".toList = some 0 ∧
    (zero_ch_registry.devs[0]?.map (fun d => d.buffer.initalized)) = some true ∧
    iio_open_dev env_ok zero_ch_registry "iio:device0".toList 1 1 false = none ∧
    iio_open_dev env_ok zero_ch_registry "iio:device0".toList 1 1 false ≠
      some (-ENOENT, zero_ch_registry) :=
  ⟨rfl, rfl, rfl, fun h => Option.noConfusion ((rfl : iio_open_dev env_ok zero_ch_registry
    "iio:device0".toList 1 1 false = none).symm.trans h)⟩

/-! ## Trigger scheduler -/

theorem process_triggers_loop_eq (trigs : List iio_trig_priv) (devs : List iio_dev_priv)
    (i : Nat) (tr : List iio_call)
    (hwf : ∀ d ∈ devs, d.trig_idx = NO_TRIGGER ∨ d.trig_idx < trigs.length) :
    process_triggers_loop trigs devs i tr =
      some (tr ++ (fired_devs trigs devs i).map iio_call.trigger_handler) := by
  induction devs generalizing i tr with
  | nil => simp [process_triggers_loop, fired_devs]
  | cons d ds ih =>
    have ihd := fun i tr => ih i tr (fun x hx => hwf x (List.mem_cons_of_mem _ hx))
    unfold process_triggers_loop fired_devs dev_fires
    by_cases hno : d.trig_idx = NO_TRIGGER
    · simp [hno, ihd]
    · have hlt : d.trig_idx < trigs.length := by
        rcases hwf d (List.mem_cons_self _ _) with h | h
        · exact absurd h hno
        · exact h
      simp only [hno, if_false, List.getElem?_eq_getElem hlt, bne_iff_ne, ne_eq, not_false_eq_true,
        decide_True, Bool.true_and]
      by_cases ht : (trigs[d.trig_idx]).triggered = true
      · by_cases hh : d.dev_descriptor.trigger_handler = true
        · simp [ht, hh, ihd, hno]
        · simp [ht, hh, ihd, hno]
      · simp [ht, ihd, hno]

theorem fired_devs_ge (trigs : List iio_trig_priv) (devs : List iio_dev_priv) (i k : Nat)
    (hk : k ∈ fired_devs trigs devs i) : i ≤ k := by
  induction devs generalizing i with
  | nil => simp [fired_devs] at hk
  | cons d ds ih =>
    unfold fired_devs at hk
    split at hk
    · rcases List.mem_cons.1 hk with rfl | hk
      · exact le_refl _
      · have := ih (i + 1) hk; omega
    · have := ih (i + 1) hk; omega

theorem fired_devs_count (trigs : List iio_trig_priv) (devs : List iio_dev_priv) (i j : Nat)
    (dev : iio_dev_priv) (h : devs[j]? = some dev) :
    (fired_devs trigs devs i).count (i + j) = if dev_fires trigs dev then 1 else 0 := by
  induction devs generalizing i j with
  | nil => simp at h
  | cons d ds ih =>
    have hnot : ∀ k, k ≤ i → (fired_devs trigs ds (i + 1)).count k = 0 := by
      intro k hk
      apply List.count_eq_zero_of_not_mem
      intro hm
      have := fired_devs_ge trigs ds (i + 1) k hm
      omega
    cases j with
    | zero =>
      simp only [List.getElem?_cons_zero, Option.some.injEq] at h
      subst h
      unfold fired_devs
      by_cases hf : dev_fires trigs d = true
      · simp [hf, hnot i (le_refl _)]
      · simp [hf, hnot i (le_refl _)]
    | succ j =>
      rw [List.getElem?_cons_succ] at h
      have := ih (i + 1) j h
      have e : i + 1 + j = i + (j + 1) := by omega
      rw [e] at this
      unfold fired_devs
      by_cases hf : dev_fires trigs d = true
      · simp only [hf, if_true]
        rw [List.count_cons_of_ne (by omega)]
        exact this
      · simp only [hf, Bool.false_eq_true, if_false]
        exact this

theorem count_map_trigger_handler (l : List Nat) (j : Nat) :
    (l.map iio_call.trigger_handler).count (iio_call.trigger_handler j) = l.count j := by
  induction l with
  | nil => rfl
  | cons x xs ih =>
    by_cases hx : x = j
    · subst hx; simp [ih]
    · have : iio_call.trigger_handler x ≠ iio_call.trigger_handler j := by
        intro hc; exact hx (iio_call.trigger_handler.inj hc)
      simp only [List.map_cons]
      rw [List.count_cons_of_ne this.symm, List.count_cons_of_ne (Ne.symm hx), ih]

theorem fired_devs_none (trigs : List iio_trig_priv) (devs : List iio_dev_priv) (i : Nat)
    (h : ∀ t ∈ trigs, t.triggered = false) : fired_devs trigs devs i = [] := by
  induction devs generalizing i with
  | nil => rfl
  | cons d ds ih =>
    unfold fired_devs
    have : dev_fires trigs d = false := by
      unfold dev_fires
      cases hq : trigs[d.trig_idx]? with
      | none => simp
      | some t =>
        have hm : t ∈ trigs := List.getElem?_mem hq
        simp [h t hm]
    simp [this, ih]

theorem iio_get_trig_idx_lt (desc : iio_desc) (name : Option (List Char))
    (h : iio_get_trig_idx desc name ≠ NO_TRIGGER) :
    iio_get_trig_idx desc name < desc.trigs.length := by
  unfold iio_get_trig_idx at h ⊢
  cases name with
  | none => simp at h
  | some nm =>
    simp only at h ⊢
    cases hf : find_from (fun (t : iio_trig_priv) => decide (t.name = nm)) desc.trigs 0 with
    | none => simp [hf] at h
    | some k =>
      simp only [hf]
      obtain ⟨-, h2, -, -⟩ := find_from_some _ _ _ _ hf
      have := Nat.mod_le k UINT32_MOD
      simp only [Nat.sub_zero] at h2
      omega

theorem iio_process_triggers_eq (desc : iio_desc) (hwf : trig_idx_ok desc) :
    iio_process_triggers desc =
      some { desc with
             trigs := desc.trigs.map (fun t => { t with triggered := false })
             trace := desc.trace ++ (fired_devs desc.trigs desc.devs 0).map iio_call.trigger_handler } := by
  unfold iio_process_triggers
  rw [process_triggers_loop_eq desc.trigs desc.devs 0 desc.trace hwf]

/-- C7: in a registry whose devices hold valid trigger indices, with `t` a
registered trigger name, `iio_trigger_notify(t)` succeeds and one
`iio_process_triggers` pass then appends to the trace only trigger-handler
calls: exactly one for every device that has a handler and whose associated
trigger is `t`, none for a device without associated trigger or whose
associated trigger's fired flag is clear; the pass clears every fired flag, and
a second pass without notify in between invokes no handler. -/
theorem trigger_fairness (desc : iio_desc) (t : List Char) (hwf : trig_idx_ok desc)
    (ht : iio_get_trig_idx desc (some t) ≠ NO_TRIGGER) :
    ∃ d1 d2 d3 calls,
      iio_trigger_notify desc (some t) = some (SUCCESS, d1) ∧
      iio_process_triggers d1 = some d2 ∧ d2.trace = desc.trace ++ calls ∧
      (∀ c ∈ calls, ∃ j, c = iio_call.trigger_handler j) ∧
      (∀ j dev, desc.devs[j]? = some dev →
        (dev.trig_idx = iio_get_trig_idx desc (some t) →
          dev.dev_descriptor.trigger_handler = true →
          calls.count (iio_call.trigger_handler j) = 1) ∧
        ((dev.trig_idx = NO_TRIGGER ∨
            ∃ tp, d1.trigs[dev.trig_idx]? = some tp ∧ tp.triggered = false) →
          calls.count (iio_call.trigger_handler j) = 0)) ∧
      (∀ tp ∈ d2.trigs, tp.triggered = false) ∧
      iio_process_triggers d2 = some d3 ∧ d3.trace = d2.trace := by
  have hk := iio_get_trig_idx_lt desc (some t) ht
  obtain ⟨t0, ht0⟩ : ∃ t0, desc.trigs[iio_get_trig_idx desc (some t)]? = some t0 :=
    ⟨_, List.getElem?_eq_getElem hk⟩
  have hwf1 : trig_idx_ok
      { desc with trigs := desc.trigs.set (iio_get_trig_idx desc (some t))
                    { t0 with triggered := true } } := by
    intro d hd
    simpa using hwf d hd
  have hclear : ∀ l : List iio_trig_priv,
      ∀ tp ∈ l.map (fun t => { t with triggered := false }), tp.triggered = false := by
    intro l tp htp
    obtain ⟨x, -, rfl⟩ := List.mem_map.1 htp
    rfl
  have hwf2 : ∀ (d : iio_desc) (tr : List iio_call), trig_idx_ok d →
      trig_idx_ok { d with trigs := d.trigs.map (fun t => { t with triggered := false }),
                           trace := tr } := by
    intro d tr hd x hx
    simpa using hd x hx
  refine ⟨_, _, _, _, by simp only [iio_trigger_notify, ht, if_false, ht0],
    iio_process_triggers_eq _ hwf1, rfl, ?_, ?_, hclear _, iio_process_triggers_eq _ (hwf2 _ _ hwf1),
    ?_⟩
  · intro c hc
    obtain ⟨j, -, rfl⟩ := List.mem_map.1 hc
    exact ⟨j, rfl⟩
  · intro j dev hdev
    have hcount := fired_devs_count
      (desc.trigs.set (iio_get_trig_idx desc (some t)) { t0 with triggered := true })
      desc.devs 0 j dev hdev
    rw [Nat.zero_add] at hcount
    simp only [count_map_trigger_handler, hcount]
    constructor
    · intro hb hh
      have : dev_fires (desc.trigs.set (iio_get_trig_idx desc (some t))
          { t0 with triggered := true }) dev = true := by
        unfold dev_fires
        rw [hb, List.getElem?_set_self hk]
        simp [ht, hh]
      simp [this]
    · intro hnf
      have : dev_fires (desc.trigs.set (iio_get_trig_idx desc (some t))
          { t0 with triggered := true }) dev = false := by
        unfold dev_fires
        rcases hnf with h | ⟨tp, h1, h2⟩
        · simp [h]
        · rw [h1]
          simp [h2]
      simp [this]
  · simp only
    rw [fired_devs_none _ _ _ (hclear _)]
    simp

/-- Witness for C7: the registry with trigger "t" and two devices. -/
theorem trigger_fairness_witness :
    (trig_idx_ok trig_registry ∧ iio_get_trig_idx trig_registry (some "t".toList) ≠ NO_TRIGGER) ∧
    ∃ d1, iio_trigger_notify trig_registry (some "t".toList) = some (SUCCESS, d1) :=
  ⟨⟨by decide, by decide⟩,
    (trigger_fairness trig_registry "t".toList (by decide) (by decide)).imp
      (fun _ h => by obtain ⟨_, _, _, h1, _⟩ := h; exact h1)⟩

/-! ## Connection multiplexer -/

theorem u32_of_bytes_u32_bytes (x : Nat) (h : x < UINT32_MOD) : u32_of_bytes (u32_bytes x) = x := by
  unfold UINT32_MOD at h
  simp only [u32_of_bytes, u32_bytes, List.getD_cons_zero, List.getD_cons_succ]
  omega

theorem codec_calls_append (a b : List iio_call) :
    codec_calls (a ++ b) = codec_calls a ++ codec_calls b := by
  simp [codec_calls, List.filterMap_append]

theorem codec_calls_handlers (l : List Nat) :
    codec_calls (l.map iio_call.trigger_handler) = [] := by
  induction l with
  | nil => rfl
  | cons x xs ih =>
    simp only [codec_calls, List.map_cons, List.filterMap_cons] at ih ⊢
    exact ih

theorem iio_step_rotate (env : iio_env) (desc : iio_desc) (id : Nat) (rest : List Nat)
    (hwf : trig_idx_ok desc) (hq : desc.conns.data = u32_bytes id ++ rest)
    (hcap : rest.length + 4 ≤ desc.conns.size) (hid : id < UINT32_MOD)
    (hc : env.iiod_conn_step id ≠ -ENOTCONN) :
    ∃ d', iio_step env desc = some (env.iiod_conn_step id, d') ∧
      d'.conns.data = rest ++ u32_bytes id ∧ d'.conns.size = desc.conns.size ∧
      trig_idx_ok d' ∧ codec_calls d'.trace = codec_calls desc.trace ++ [id] := by
  have hlen : (u32_bytes id).length = 4 := rfl
  have htake : List.take 4 (u32_bytes id ++ rest) = u32_bytes id := by
    rw [← hlen, List.take_left]
  have hdrop : List.drop 4 (u32_bytes id ++ rest) = rest := by
    rw [← hlen, List.drop_left]
  have h4 : ¬ (u32_bytes id ++ rest).length < 4 := by
    simp only [List.length_append, hlen]; omega
  have h4' : 4 ≤ (u32_bytes id ++ rest).length := by omega
  have hfit : rest.length + 4 ≤ desc.conns.size := hcap
  unfold iio_step
  rw [iio_process_triggers_eq desc hwf]
  simp only [_pop_conn, cb_size, cb_read, hq, h4, if_false, h4', if_true, htake, hdrop,
    IS_ERR_VALUE, SUCCESS, lt_self_iff_false, decide_False, Bool.false_eq_true,
    u32_of_bytes_u32_bytes id hid, hc, _push_conn, cb_write, hlen, Nat.lt_irrefl, hfit]
  refine ⟨_, rfl, ?_, rfl, ?_, ?_⟩
  · simp only [hlen, List.take_length]
    rw [← hlen, List.take_length]
  · intro d hd
    simpa using hwf d hd
  · simp only [codec_calls_append, codec_calls_handlers, List.append_nil]
    rfl

theorem iio_steps_rotate (env : iio_env) (l1 l2 : List Nat) (desc : iio_desc)
    (hwf : trig_idx_ok desc) (hq : desc.conns.data = conn_queue l1 ++ conn_queue l2)
    (hcap : desc.conns.data.length ≤ desc.conns.size) (hid : ∀ id ∈ l1, id < UINT32_MOD)
    (hc : ∀ id ∈ l1, env.iiod_conn_step id ≠ -ENOTCONN) :
    ∃ d', iio_steps env l1.length desc = some (l1.map env.iiod_conn_step, d') ∧
      d'.conns.data = conn_queue l2 ++ conn_queue l1 ∧ d'.conns.size = desc.conns.size ∧
      trig_idx_ok d' ∧ codec_calls d'.trace = codec_calls desc.trace ++ l1 := by
  induction l1 generalizing l2 desc with
  | nil =>
    refine ⟨desc, rfl, ?_, rfl, hwf, by simp⟩
    simpa [conn_queue] using hq
  | cons id l1 ih =>
    have hq' : desc.conns.data = u32_bytes id ++ (conn_queue l1 ++ conn_queue l2) := by
      rw [hq]; simp [conn_queue]
    have hlen : (u32_bytes id).length = 4 := rfl
    have hcap' : (conn_queue l1 ++ conn_queue l2).length + 4 ≤ desc.conns.size := by
      rw [hq', List.length_append, hlen] at hcap
      omega
    obtain ⟨d1, h1, h2, h3, h4, h5⟩ := iio_step_rotate env desc id _ hwf hq' hcap'
      (hid id (List.mem_cons_self _ _)) (hc id (List.mem_cons_self _ _))
    have hq1 : d1.conns.data = conn_queue l1 ++ conn_queue (l2 ++ [id]) := by
      rw [h2]; simp [conn_queue]
    have hcap1 : d1.conns.data.length ≤ d1.conns.size := by
      rw [h2, h3, List.length_append, hlen]; exact hcap'
    obtain ⟨d2, k1, k2, k3, k4, k5⟩ := ih (l2 ++ [id]) d1 h4 hq1 hcap1
      (fun x hx => hid x (List.mem_cons_of_mem _ hx)) (fun x hx => hc x (List.mem_cons_of_mem _ hx))
    refine ⟨d2, ?_, ?_, by rw [k3, h3], k4, ?_⟩
    · simp only [List.length_cons, iio_steps, h1, k1, List.map_cons]
    · rw [k2]; simp [conn_queue]
    · rw [k5, h5]; simp

/-- C8: with a queue holding the ids `ids` (32-bit, pairwise distinct, within
the ring's capacity) and a codec that never returns `-ENOTCONN`, `length ids`
consecutive `iio_step` calls return the codec's results in order, hand exactly
the ids of `ids` to the codec in FIFO order, each exactly once, and leave the
queue holding the same ids in the same order. -/
theorem conn_round_robin (env : iio_env) (desc : iio_desc) (ids : List Nat)
    (hwf : trig_idx_ok desc) (hq : desc.conns.data = conn_queue ids)
    (hcap : desc.conns.data.length ≤ desc.conns.size) (hid : ∀ id ∈ ids, id < UINT32_MOD)
    (hnd : ids.Nodup) (hc : ∀ id, env.iiod_conn_step id ≠ -ENOTCONN) :
    ∃ d' calls, iio_steps env ids.length desc = some (ids.map env.iiod_conn_step, d') ∧
      codec_calls d'.trace = codec_calls desc.trace ++ calls ∧ calls = ids ∧
      (∀ id ∈ ids, calls.count id = 1) ∧
      d'.conns.data = conn_queue ids ∧ d'.conns.data = desc.conns.data := by
  obtain ⟨d', h1, h2, -, -, h5⟩ := iio_steps_rotate env ids [] desc hwf
    (by rw [hq]; simp [conn_queue]) hcap hid (fun id _ => hc id)
  have h2' : d'.conns.data = conn_queue ids := by rw [h2]; simp [conn_queue]
  exact ⟨d', ids, h1, h5, rfl, fun id hm => List.count_eq_one_of_mem hnd hm, h2', h2'.trans hq.symm⟩

/-- Witness for C8: the ids 1, 2, 3 and three steps. -/
theorem conn_round_robin_witness :
    (trig_idx_ok conn_registry ∧ conn_registry.conns.data = conn_queue [1, 2, 3] ∧
      [1, 2, 3].Nodup ∧ ∀ id, env_ok.iiod_conn_step id ≠ -ENOTCONN) ∧
    ∃ d' calls, iio_steps env_ok 3 conn_registry = some ([0, 0, 0], d') ∧
      codec_calls d'.trace = codec_calls conn_registry.trace ++ calls ∧ calls = [1, 2, 3] ∧
      (∀ id ∈ [1, 2, 3], calls.count id = 1) ∧
      d'.conns.data = conn_queue [1, 2, 3] ∧ d'.conns.data = conn_registry.conns.data :=
  ⟨⟨by decide, rfl, by decide, fun _ => (by decide : (0 : Int) ≠ -ENOTCONN)⟩,
    conn_round_robin env_ok conn_registry [1, 2, 3] (by decide) rfl (by decide) (by decide)
      (by decide) (fun _ => (by decide : (0 : Int) ≠ -ENOTCONN))⟩

/-! ## Context document generator: size-only and emit mode -/

theorem xml_emit_count (n : Int) (frags : List (List Char)) (st : xml_out)
    (hn : n ≤ st.i) (hmax : (st.i : Int) + frags.flatten.length ≤ INT32_MAX) :
    xml_emit n st frags = some { i := st.i + frags.flatten.length, mem := st.mem } := by
  induction frags generalizing st with
  | nil => simp [xml_emit]
  | cons s ss ih =>
    simp only [List.flatten_cons, List.length_append, Nat.cast_add] at hmax
    have h1 : ¬ ((st.i : Int) + s.length > INT32_MAX) := by omega
    have h2 : (n - (st.i : Int)).toNat = 0 := by omega
    simp only [xml_emit, xml_snprintf, h1, if_false, h2, if_true]
    rw [ih { i := st.i + s.length, mem := st.mem } (by simp only [Nat.cast_add]; omega)
      (by simp only [Nat.cast_add]; omega)]
    simp [Nat.add_assoc]

theorem xml_snprintf_fits (n : Int) (st : xml_out) (s : List Char)
    (hn : (st.i : Int) + s.length < n) (hmem : st.i + s.length + 1 ≤ st.mem.length)
    (hmax : n ≤ INT32_MAX + 1) :
    xml_snprintf n st s =
      some { i := st.i + s.length,
             mem := st.mem.take st.i ++ s ++ [Char.ofNat 0] ++ st.mem.drop (st.i + s.length + 1) } := by
  have h1 : ¬ ((st.i : Int) + s.length > INT32_MAX) := by omega
  have h2 : ¬ (n - (st.i : Int)).toNat = 0 := by omega
  have h3 : s.take ((n - (st.i : Int)).toNat - 1) = s := List.take_of_length_le (by omega)
  simp only [xml_snprintf, h1, if_false, h2, h3, hmem, if_true]

theorem xml_emit_fits (n : Int) (frags : List (List Char)) (st : xml_out) (hne : frags ≠ [])
    (hn : (st.i : Int) + frags.flatten.length < n)
    (hmem : st.i + frags.flatten.length + 1 ≤ st.mem.length) (hmax : n ≤ INT32_MAX + 1) :
    xml_emit n st frags =
      some { i := st.i + frags.flatten.length,
             mem := st.mem.take st.i ++ frags.flatten ++ [Char.ofNat 0] ++
               st.mem.drop (st.i + frags.flatten.length + 1) } := by
  induction frags generalizing st with
  | nil => exact absurd rfl hne
  | cons s ss ih =>
    simp only [List.flatten_cons, List.length_append, Nat.cast_add] at hn
    simp only [List.flatten_cons, List.length_append] at hmem
    have hs := xml_snprintf_fits n st s (by omega) (by omega) hmax
    simp only [xml_emit, hs]
    by_cases hss : ss = []
    · subst hss
      simp [xml_emit]
    · have hi : st.i ≤ st.mem.length := by omega
      have hlen : (st.mem.take st.i ++ s ++ [Char.ofNat 0] ++
          st.mem.drop (st.i + s.length + 1)).length = st.mem.length := by
        simp only [List.length_append, List.length_take, List.length_drop, List.length_singleton]
        omega
      have e1 : List.take (st.i + s.length)
          (st.mem.take st.i ++ s ++ [Char.ofNat 0] ++ st.mem.drop (st.i + s.length + 1)) =
          st.mem.take st.i ++ s := by
        rw [List.append_assoc (st.mem.take st.i ++ s)]
        apply List.take_left'
        simp only [List.length_append, List.length_take]
        omega
      have e2 : List.drop (st.i + s.length + ss.flatten.length + 1)
          (st.mem.take st.i ++ s ++ [Char.ofNat 0] ++ st.mem.drop (st.i + s.length + 1)) =
          List.drop (st.i + (s.length + ss.flatten.length) + 1) st.mem := by
        have hl : (st.mem.take st.i ++ s ++ [Char.ofNat 0]).length = st.i + s.length + 1 := by
          simp only [List.length_append, List.length_take, List.length_singleton]
          omega
        have : st.i + s.length + ss.flatten.length + 1 =
            (st.mem.take st.i ++ s ++ [Char.ofNat 0]).length + ss.flatten.length := by
          rw [hl]; omega
        rw [this, List.drop_append, List.drop_drop]
        congr 1
        omega
      rw [ih { i := st.i + s.length,
               mem := st.mem.take st.i ++ s ++ [Char.ofNat 0] ++ st.mem.drop (st.i + s.length + 1) }
        hss (by simp only [Nat.cast_add]; omega) (by rw [hlen]; simp only; omega)]
      dsimp only
      rw [e1, e2]
      simp only [List.flatten_cons, List.length_append, List.append_assoc, Nat.add_assoc]

theorem xml_device_frags_ne_nil (device : iio_device) (name id : List Char) (w : xml_walk)
    (h : xml_device_frags device name id = some w) : w.frags ≠ [] := by
  unfold xml_device_frags at h
  split at h
  · exact Option.noConfusion h
  · split at h
    · simp only [Option.some.injEq] at h
      subst h
      simp
    · simp only [Option.some.injEq] at h
      subst h
      simp

theorem int_of_u32_small (x : Nat) (h : x < 2147483648) : int_of_u32 x = x := by
  unfold int_of_u32
  have : x % UINT32_MOD = x := Nat.mod_eq_of_lt (by unfold UINT32_MOD; omega)
  simp [this, h]

theorem xml_walk_ok_frags (device : iio_device) (name id : List Char)
    (hwalk : xml_walk_ok device name id = true) :
    ∃ w, xml_device_frags device name id = some w ∧ w.einval = false ∧ w.frags ≠ [] ∧
      xml_element device name id = w.frags.flatten := by
  unfold xml_walk_ok at hwalk
  cases hw : xml_device_frags device name id with
  | none => simp [hw] at hwalk
  | some w =>
    simp only [hw, Bool.not_eq_true'] at hwalk
    exact ⟨w, rfl, hwalk, xml_device_frags_ne_nil device name id w hw, by simp [xml_element, hw]⟩

theorem xml_gen_size_only (device : iio_device) (name id : List Char)
    (hwalk : xml_walk_ok device name id = true)
    (hL : (xml_element device name id).length < 2147483648) :
    iio_generate_device_xml device name id none 4294967295 =
      some ((xml_element device name id).length, none) := by
  obtain ⟨w, hw, hein, -, hel⟩ := xml_walk_ok_frags device name id hwalk
  rw [hel] at hL ⊢
  have hmodL : w.frags.flatten.length % UINT32_MOD = w.frags.flatten.length :=
    Nat.mod_eq_of_lt (by unfold UINT32_MOD; omega)
  have h1 : int_of_u32 4294967295 = -1 := by decide
  have hc := xml_emit_count 0 w.frags { i := 0, mem := [] } (by simp)
    (by simp only [INT32_MAX, Nat.cast_zero]; omega)
  simp only [iio_generate_device_xml, h1, if_true, hw, Option.isNone_none, lt_self_iff_false,
    decide_False, Bool.and_false, Bool.false_eq_true, if_false, Option.getD_none, hc, hein,
    Nat.zero_add, hmodL, Option.map_none']

theorem xml_gen_emit (device : iio_device) (name id mem : List Char) (buff_size : Nat)
    (hwalk : xml_walk_ok device name id = true)
    (hL : (xml_element device name id).length < buff_size) (hb : buff_size < 2147483648)
    (hmem : (xml_element device name id).length + 1 ≤ mem.length) :
    iio_generate_device_xml device name id (some mem) buff_size =
      some ((xml_element device name id).length,
        some (xml_element device name id ++ [Char.ofNat 0] ++
          mem.drop ((xml_element device name id).length + 1))) := by
  obtain ⟨w, hw, hein, hne, hel⟩ := xml_walk_ok_frags device name id hwalk
  rw [hel] at hL hmem ⊢
  have hmodL : w.frags.flatten.length % UINT32_MOD = w.frags.flatten.length :=
    Nat.mod_eq_of_lt (by unfold UINT32_MOD; omega)
  have h1 : int_of_u32 buff_size = buff_size := int_of_u32_small _ hb
  have h2 : ¬ ((buff_size : Int) = -1) := by omega
  have hc := xml_emit_fits buff_size w.frags { i := 0, mem := mem } hne
    (by simp only [Nat.cast_zero]; omega) (by simp only; omega)
    (by simp only [INT32_MAX]; omega)
  simp only [iio_generate_device_xml, h1, h2, if_false, hw, Option.isNone_some,
    Bool.false_and, Bool.false_eq_true, Option.getD_some, hc, hein, Nat.zero_add, hmodL,
    Option.map_some', List.take_zero, List.nil_append]

/-- C9 as stated fails: for a device with a differential channel that is not
indexed and carries a separate attribute, size-only mode returns 4294967274
(`-EINVAL` as `uint32_t`); emit mode with a buffer of 4294967280 bytes, larger
than that value, returns the same value and writes nothing, so the emitted
string has length 0, not 4294967274. -/
theorem xml_einval_emits_nothing :
    iio_generate_device_xml diff_plain_dev "d".toList "iio:device0".toList none 4294967295 =
      some (4294967274, none) ∧
    iio_generate_device_xml diff_plain_dev "d".toList "iio:device0".toList
        (some (List.replicate 4294967280 (Char.ofNat 0))) 4294967280 =
      some (4294967274, some (List.replicate 4294967280 (Char.ofNat 0))) ∧
    (c_str (List.replicate 4294967280 (Char.ofNat 0))).length ≠ 4294967274 := by
  refine ⟨by rfl, by rfl, by decide⟩

/-- C9, amended: for every descriptor, display name and identifier on which
the generator's walk is defined and does not end at the `-EINVAL` return of a
non-indexed differential channel, with `L` the length of the device element,
`iio_generate_device_xml` in size-only mode (null buffer, `buff_size = -1`)
returns `L`, and in emit mode with a buffer of `buff_size` bytes,
`L < buff_size < 2^31`, it returns `L` as well and leaves in the buffer the
`L` characters of the element followed by the terminator. -/
theorem xml_size_matches_emit (device : iio_device) (name id mem : List Char) (buff_size : Nat)
    (hwalk : xml_walk_ok device name id = true)
    (hL : (xml_element device name id).length < buff_size) (hb : buff_size < 2147483648)
    (hmem : buff_size ≤ mem.length) :
    iio_generate_device_xml device name id none 4294967295 =
      some ((xml_element device name id).length, none) ∧
    iio_generate_device_xml device name id (some mem) buff_size =
      some ((xml_element device name id).length,
        some (xml_element device name id ++ [Char.ofNat 0] ++
          mem.drop ((xml_element device name id).length + 1))) := by
  exact ⟨xml_gen_size_only device name id hwalk (by omega),
    xml_gen_emit device name id mem buff_size hwalk hL hb (by omega)⟩

set_option maxRecDepth 100000 in
/-- Witness for C9: a device with a differential indexed channel, the ADXRS290
(modified channels that are not indexed, and debug register callbacks), and a
device with only the debug register callbacks, each with a 4096-byte buffer. -/
theorem xml_size_matches_emit_witness :
    (xml_walk_ok diff_indexed_dev "d".toList "iio:device0".toList = true ∧
      xml_walk_ok (adxrs290_iio_descriptor {}) "adxrs290".toList "iio:device0".toList = true ∧
      xml_walk_ok debug_reg_dev "r".toList "iio:device1".toList = true) ∧
    (iio_generate_device_xml diff_indexed_dev "d".toList "iio:device0".toList none 4294967295 =
        some ((xml_element diff_indexed_dev "d".toList "iio:device0".toList).length, none) ∧
      iio_generate_device_xml (adxrs290_iio_descriptor {}) "adxrs290".toList
          "iio:device0".toList none 4294967295 =
        some ((xml_element (adxrs290_iio_descriptor {}) "adxrs290".toList
          "iio:device0".toList).length, none) ∧
      iio_generate_device_xml debug_reg_dev "r".toList "iio:device1".toList none 4294967295 =
        some ((xml_element debug_reg_dev "r".toList "iio:device1".toList).length, none)) :=
  ⟨⟨by decide, by decide, by decide⟩,
    (xml_size_matches_emit diff_indexed_dev "d".toList "iio:device0".toList
      (List.replicate 4096 (Char.ofNat 0)) 4096 (by decide) (by decide) (by decide)
      (by rw [List.length_replicate])).1,
    (xml_size_matches_emit (adxrs290_iio_descriptor {}) "adxrs290".toList "iio:device0".toList
      (List.replicate 4096 (Char.ofNat 0)) 4096 (by decide) (by decide) (by decide)
      (by rw [List.length_replicate])).1,
    (xml_size_matches_emit debug_reg_dev "r".toList "iio:device1".toList
      (List.replicate 4096 (Char.ofNat 0)) 4096 (by decide) (by decide) (by decide)
      (by rw [List.length_replicate])).1⟩

/-! ## Context document: the two passes of `iio_init_xml` -/

theorem xml_document_eq (desc : iio_desc) :
    xml_document desc = header ++ devs_text desc.devs ++ trigs_text desc.trigs ++ header_end := by
  simp only [xml_document, devs_text, trigs_text]

theorem xml_size_devs_eq (devs : List iio_dev_priv) (s : Nat)
    (hd : ∀ d ∈ devs, xml_walk_ok d.dev_descriptor d.name d.dev_id = true)
    (hs : s + (devs_text devs).length < 2147483648) :
    xml_size_devs devs s = some (s + (devs_text devs).length) := by
  induction devs generalizing s with
  | nil => simp [xml_size_devs, devs_text]
  | cons d ds ih =>
    simp only [devs_text, List.map_cons, List.flatten_cons, List.length_append] at hs ⊢
    have hg := xml_gen_size_only d.dev_descriptor d.name d.dev_id (hd d (List.mem_cons_self _ _))
      (by omega)
    have hm : (s + (xml_element d.dev_descriptor d.name d.dev_id).length) % UINT32_MOD =
        s + (xml_element d.dev_descriptor d.name d.dev_id).length :=
      Nat.mod_eq_of_lt (by unfold UINT32_MOD; omega)
    simp only [xml_size_devs, hg, hm]
    rw [ih _ (fun x hx => hd x (List.mem_cons_of_mem _ hx))
      (by simp only [devs_text]; omega)]
    simp only [devs_text, Nat.add_assoc]

theorem xml_size_trigs_eq (trigs : List iio_trig_priv) (s : Nat)
    (ht : ∀ t ∈ trigs, xml_walk_ok (trig_dummy_device t) t.name t.id = true)
    (hs : s + (trigs_text trigs).length < 2147483648) :
    xml_size_trigs trigs s = some (s + (trigs_text trigs).length) := by
  induction trigs generalizing s with
  | nil => rfl
  | cons t ts ih =>
    simp only [trigs_text, List.map_cons, List.flatten_cons, List.length_append] at hs ⊢
    have hg := xml_gen_size_only (trig_dummy_device t) t.name t.id (ht t (List.mem_cons_self _ _))
      (by omega)
    have hm : (s + (xml_element (trig_dummy_device t) t.name t.id).length) % UINT32_MOD =
        s + (xml_element (trig_dummy_device t) t.name t.id).length :=
      Nat.mod_eq_of_lt (by unfold UINT32_MOD; omega)
    have hstep : xml_size_trigs (t :: ts) s =
        (match iio_generate_device_xml (trig_dummy_device t) t.name t.id none 4294967295 with
          | none => none
          | some (r, _) => xml_size_trigs ts ((s + r) % UINT32_MOD)) := rfl
    rw [hstep, hg]
    simp only [hm]
    rw [ih _ (fun x hx => ht x (List.mem_cons_of_mem _ hx))
      (by simp only [trigs_text]; omega)]
    simp only [trigs_text, Nat.add_assoc]

theorem xml_gen_at_eq (device : iio_device) (name id mem : List Char) (of n : Nat)
    (hwalk : xml_walk_ok device name id = true)
    (hL : (xml_element device name id).length < n) (hb : n < 2147483648)
    (hmem : of + (xml_element device name id).length + 1 ≤ mem.length) :
    ∃ mem', xml_gen_at device name id mem of n =
        some ((xml_element device name id).length, mem') ∧
      mem'.length = mem.length ∧
      mem'.take (of + (xml_element device name id).length) =
        mem.take of ++ xml_element device name id := by
  have hnl : ¬ mem.length < of := by omega
  have hg := xml_gen_emit device name id (mem.drop of) n hwalk hL hb
    (by simp only [List.length_drop]; omega)
  refine ⟨mem.take of ++ (xml_element device name id ++ [Char.ofNat 0] ++
      (mem.drop of).drop ((xml_element device name id).length + 1)),
    by simp only [xml_gen_at, hnl, if_false, hg], ?_, ?_⟩
  · simp only [List.length_append, List.length_take, List.length_drop, List.length_singleton]
    omega
  · rw [← List.append_assoc, ← List.append_assoc,
      List.append_assoc (List.take of mem ++ xml_element device name id)]
    apply List.take_left'
    simp only [List.length_append, List.length_take]
    omega

theorem xml_emit_devs_eq (size : Nat) (devs : List iio_dev_priv) (mem : List Char) (of : Nat)
    (hd : ∀ d ∈ devs, xml_walk_ok d.dev_descriptor d.name d.dev_id = true)
    (hsz : size < 2147483648) (hlen : mem.length = size + 1)
    (hof : of + (devs_text devs).length < size) :
    ∃ mem', xml_emit_devs size devs mem of = some (mem', of + (devs_text devs).length) ∧
      mem'.length = mem.length ∧
      mem'.take (of + (devs_text devs).length) = mem.take of ++ devs_text devs := by
  induction devs generalizing mem of with
  | nil => exact ⟨mem, by simp [xml_emit_devs, devs_text], rfl, by simp [devs_text]⟩
  | cons d ds ih =>
    simp only [devs_text, List.map_cons, List.flatten_cons, List.length_append] at hof ⊢
    have hbs : (size + UINT32_MOD - of) % UINT32_MOD = size - of := by
      have : size + UINT32_MOD - of = (size - of) + UINT32_MOD := by omega
      rw [this, Nat.add_mod_right]
      exact Nat.mod_eq_of_lt (by unfold UINT32_MOD; omega)
    obtain ⟨mem1, h1, h2, h3⟩ := xml_gen_at_eq d.dev_descriptor d.name d.dev_id mem of (size - of)
      (hd d (List.mem_cons_self _ _)) (by omega) (by omega) (by omega)
    have hm : (of + (xml_element d.dev_descriptor d.name d.dev_id).length) % UINT32_MOD =
        of + (xml_element d.dev_descriptor d.name d.dev_id).length :=
      Nat.mod_eq_of_lt (by unfold UINT32_MOD; omega)
    obtain ⟨mem2, k1, k2, k3⟩ := ih mem1
      (of + (xml_element d.dev_descriptor d.name d.dev_id).length)
      (fun x hx => hd x (List.mem_cons_of_mem _ hx)) (by rw [h2]; exact hlen)
      (by simp only [devs_text]; omega)
    refine ⟨mem2, ?_, by rw [k2, h2], ?_⟩
    · simp only [xml_emit_devs, hbs, h1, hm, k1, devs_text, Nat.add_assoc]
    · simp only [devs_text] at k3
      rw [← Nat.add_assoc, k3, h3, List.append_assoc]

theorem xml_emit_trigs_eq (of : Nat) (trigs : List iio_trig_priv) (mem : List Char) (size : Nat)
    (ht : ∀ t ∈ trigs, xml_walk_ok (trig_dummy_device t) t.name t.id = true)
    (hlen : ∀ t ∈ trigs, (xml_element (trig_dummy_device t) t.name t.id).length < size - of ∧
      of + (xml_element (trig_dummy_device t) t.name t.id).length + 1 ≤ mem.length)
    (hsz : size + (trigs_text trigs).length < 2147483648) (hof : of ≤ size) :
    ∃ mem', xml_emit_trigs of trigs mem size =
        some (mem', size + (trigs_text trigs).length) ∧
      mem'.length = mem.length ∧ mem'.take of = mem.take of := by
  induction trigs generalizing mem size with
  | nil => exact ⟨mem, by simp [xml_emit_trigs, trigs_text], rfl, rfl⟩
  | cons t ts ih =>
    simp only [trigs_text, List.map_cons, List.flatten_cons, List.length_append] at hsz ⊢
    obtain ⟨hl1, hl2⟩ := hlen t (List.mem_cons_self _ _)
    have hbs : (size + UINT32_MOD - of) % UINT32_MOD = size - of := by
      have : size + UINT32_MOD - of = (size - of) + UINT32_MOD := by omega
      rw [this, Nat.add_mod_right]
      exact Nat.mod_eq_of_lt (by unfold UINT32_MOD; omega)
    obtain ⟨mem1, h1, h2, h3⟩ := xml_gen_at_eq (trig_dummy_device t) t.name t.id mem of (size - of)
      (ht t (List.mem_cons_self _ _)) hl1 (by omega) hl2
    have hm : (size + (xml_element (trig_dummy_device t) t.name t.id).length) % UINT32_MOD =
        size + (xml_element (trig_dummy_device t) t.name t.id).length :=
      Nat.mod_eq_of_lt (by unfold UINT32_MOD; omega)
    obtain ⟨mem2, k1, k2, k3⟩ := ih mem1
      (size + (xml_element (trig_dummy_device t) t.name t.id).length)
      (fun x hx => ht x (List.mem_cons_of_mem _ hx))
      (fun x hx => by
        obtain ⟨a, b⟩ := hlen x (List.mem_cons_of_mem _ hx)
        rw [h2]
        exact ⟨by omega, b⟩)
      (by simp only [trigs_text]; omega) (by omega)
    refine ⟨mem2, ?_, by rw [k2, h2], ?_⟩
    · simp only [xml_emit_trigs, hbs, h1, hm, k1, trigs_text, Nat.add_assoc]
    · rw [k3]
      have := congrArg (List.take of) h3
      rw [List.take_take, Nat.min_eq_left (Nat.le_add_right _ _)] at this
      rw [this, List.take_append_of_le_length (by simp only [List.length_take]; omega),
        List.take_take, Nat.min_self]

theorem length_le_flatten_of_mem {α : Type} (l : List α) (ls : List (List α)) (h : l ∈ ls) :
    l.length ≤ ls.flatten.length := by
  induction ls with
  | nil => simp at h
  | cons x xs ih =>
    simp only [List.flatten_cons, List.length_append]
    rcases List.mem_cons.1 h with rfl | h
    · omega
    · have := ih h; omega

theorem header_end_length : header_end.length = 10 := by decide

set_option maxRecDepth 100000 in
/-- What `iio_init_xml` stores: when every walk is defined and free of the
`-EINVAL` return, sizes stay below 2^31 and the allocation succeeds, it
returns `SUCCESS`, records as `xml_size` the length of the full document, and
leaves in `xml_desc` the header, the device elements and the closing fragment,
terminated there; no trigger element is part of the stored string. -/
theorem iio_init_xml_stored (env : iio_env) (desc : iio_desc)
    (hd : ∀ d ∈ desc.devs, xml_walk_ok d.dev_descriptor d.name d.dev_id = true)
    (ht : ∀ t ∈ desc.trigs, xml_walk_ok (trig_dummy_device t) t.name t.id = true)
    (hsz : (xml_document desc).length + (trigs_text desc.trigs).length < 2147483648)
    (hcal : env.calloc_ok desc.hp ((xml_document desc).length + 1) 1 = true) :
    ∃ rest d', iio_init_xml env desc = some (SUCCESS, d') ∧
      d'.xml_size = (xml_document desc).length ∧
      d'.xml_desc =
        some (header ++ devs_text desc.devs ++ header_end ++ Char.ofNat 0 :: rest) := by
  have hdoc : (xml_document desc).length =
      header.length + header_end.length + (devs_text desc.devs).length +
        (trigs_text desc.trigs).length := by
    rw [xml_document_eq]
    simp only [List.length_append]
    omega
  have hE := header_end_length
  rw [hdoc] at hsz hcal ⊢
  have s1 := xml_size_devs_eq desc.devs (header.length + header_end.length) hd (by omega)
  have s2 := xml_size_trigs_eq desc.trigs
    (header.length + header_end.length + (devs_text desc.devs).length) ht (by omega)
  have hmod : (header.length + header_end.length + (devs_text desc.devs).length +
      (trigs_text desc.trigs).length + 1) % UINT32_MOD =
      header.length + header_end.length + (devs_text desc.devs).length +
        (trigs_text desc.trigs).length + 1 :=
    Nat.mod_eq_of_lt (by unfold UINT32_MOD; omega)
  have hcpy : strcpy_at (List.replicate (header.length + header_end.length +
      (devs_text desc.devs).length + (trigs_text desc.trigs).length + 1) (Char.ofNat 0)) 0 header =
      some (header ++ [Char.ofNat 0] ++ (List.replicate (header.length + header_end.length +
        (devs_text desc.devs).length + (trigs_text desc.trigs).length + 1)
        (Char.ofNat 0)).drop (header.length + 1)) := by
    have : header.length + 1 ≤ (List.replicate (header.length + header_end.length +
        (devs_text desc.devs).length + (trigs_text desc.trigs).length + 1)
        (Char.ofNat 0)).length := by
      rw [List.length_replicate]; omega
    simp only [strcpy_at, Nat.zero_add, this, if_true, List.take_zero, List.nil_append]
  have hlen0 : (header ++ [Char.ofNat 0] ++ (List.replicate (header.length + header_end.length +
      (devs_text desc.devs).length + (trigs_text desc.trigs).length + 1)
      (Char.ofNat 0)).drop (header.length + 1)).length =
      header.length + header_end.length + (devs_text desc.devs).length +
        (trigs_text desc.trigs).length + 1 := by
    simp only [List.length_append, List.length_drop, List.length_replicate, List.length_singleton]
    omega
  have htake0 : (header ++ [Char.ofNat 0] ++ (List.replicate (header.length + header_end.length +
      (devs_text desc.devs).length + (trigs_text desc.trigs).length + 1)
      (Char.ofNat 0)).drop (header.length + 1)).take header.length = header := by
    rw [List.append_assoc]
    exact List.take_left _ _
  obtain ⟨mem1, d1, d2, d3⟩ := xml_emit_devs_eq
    (header.length + header_end.length + (devs_text desc.devs).length +
      (trigs_text desc.trigs).length)
    desc.devs _ header.length hd (by omega) hlen0 (by omega)
  rw [htake0] at d3
  obtain ⟨mem2, t1, t2, t3⟩ := xml_emit_trigs_eq (header.length + (devs_text desc.devs).length)
    desc.trigs mem1
    (header.length + header_end.length + (devs_text desc.devs).length +
      (trigs_text desc.trigs).length) ht
    (fun t htm => by
      have hle : (xml_element (trig_dummy_device t) t.name t.id).length ≤
          (trigs_text desc.trigs).length :=
        length_le_flatten_of_mem _ _
          (List.mem_map_of_mem (fun t => xml_element (trig_dummy_device t) t.name t.id) htm)
      rw [d2, hlen0]
      constructor <;> omega)
    (by omega) (by omega)
  have hfin : header.length + (devs_text desc.devs).length + header_end.length + 1 ≤
      mem2.length := by
    rw [t2, d2, hlen0]; omega
  refine ⟨mem2.drop (header.length + (devs_text desc.devs).length + header_end.length + 1),
    { desc with
      xml_desc := some (header ++ devs_text desc.devs ++ header_end ++ Char.ofNat 0 ::
        mem2.drop (header.length + (devs_text desc.devs).length + header_end.length + 1))
      xml_size := header.length + header_end.length + (devs_text desc.devs).length +
        (trigs_text desc.trigs).length
      hp := { next := desc.hp.next + 1, live := desc.hp.next :: desc.hp.live } },
    ?_, rfl, rfl⟩
  simp only [iio_init_xml, s1, s2, hmod, calloc, hcal, if_true, hcpy, d1, t1]
  simp only [strcpy_at, hfin, if_true, t3, d3, List.append_assoc, List.singleton_append]

set_option maxRecDepth 100000 in
theorem header_no_nul : ∀ c ∈ header ++ header_end, (c != Char.ofNat 0) = true := by
  have h : (header ++ header_end).all (fun c => c != Char.ofNat 0) = true := by decide
  exact List.all_eq_true.1 h

theorem c_str_terminated (s rest : List Char) (h : ∀ c ∈ s, (c != Char.ofNat 0) = true) :
    c_str (s ++ Char.ofNat 0 :: rest) = s := by
  unfold c_str
  rw [List.takeWhile_append_of_pos h]
  simp [List.takeWhile]

set_option maxRecDepth 100000 in
theorem header_length : header.length = 1072 := by decide

/-- C10, the failing input: on a registry with no device and the one trigger
"t", `iio_init_xml` succeeds and records as `xml_size` the length of the full
document (header, trigger element, closing fragment), but the document it
stores is the header directly followed by the closing fragment: the trigger
element is missing and the stored length differs from `xml_size`. -/
theorem iio_init_xml_drops_trigger_elements :
    xml_outcome env_ok trig_only_registry =
      some (SUCCESS, (xml_document trig_only_registry).length, some (header ++ header_end)) ∧
    xml_document trig_only_registry =
      header ++ "<device id=\"iio:trigger0\" name=\"t\"></device>".toList ++ header_end ∧
    header ++ header_end ≠ xml_document trig_only_registry ∧
    (header ++ header_end).length ≠ (xml_document trig_only_registry).length := by
  have hdevs : trig_only_registry.devs = [] := rfl
  have htext : trigs_text trig_only_registry.trigs =
      "<device id=\"iio:trigger0\" name=\"t\"></device>".toList := by decide
  have hdoc : xml_document trig_only_registry =
      header ++ "<device id=\"iio:trigger0\" name=\"t\"></device>".toList ++ header_end := by
    rw [xml_document_eq, hdevs, htext]
    simp [devs_text]
  have hlen : (xml_document trig_only_registry).length = header.length + 44 + 10 := by
    have h44 : ("<device id=\"iio:trigger0\" name=\"t\"></device>".toList).length = 44 := by
      decide
    rw [hdoc]
    simp only [List.length_append, header_end_length, h44]
  obtain ⟨rest, d', h1, h2, h3⟩ := iio_init_xml_stored env_ok trig_only_registry
    (by rw [hdevs]; intro d hd; simp at hd) (by decide)
    (by rw [hlen, htext, header_length]; decide) rfl
  refine ⟨?_, hdoc, ?_, ?_⟩
  · unfold xml_outcome
    rw [h1]
    simp only [Option.map_some', h2, h3, hdevs, devs_text, List.map_nil, List.flatten_nil,
      List.append_nil]
    rw [c_str_terminated _ _ header_no_nul]
  · intro hc
    have := congrArg List.length hc
    rw [hlen] at this
    simp only [List.length_append, header_end_length] at this
    omega
  · rw [hlen]
    simp only [List.length_append, header_end_length]
    omega

/-! ## The registry invariant on trigger indices -/

theorem init_devs_loop_trig_idx (desc : iio_desc) (l : List iio_device_init) (i : Nat) :
    ∀ d ∈ init_devs_loop desc l i, d.trig_idx = NO_TRIGGER ∨ d.trig_idx < desc.trigs.length := by
  induction l generalizing i with
  | nil => intro d hd; simp [init_devs_loop] at hd
  | cons x xs ih =>
    intro d hd
    simp only [init_devs_loop, List.mem_cons] at hd
    rcases hd with rfl | hd
    · by_cases h : iio_get_trig_idx desc x.trigger_name = NO_TRIGGER
      · exact Or.inl h
      · exact Or.inr (iio_get_trig_idx_lt desc _ h)
    · exact ih (i + 1) d hd

/-- Registration by `iio_init_devs` yields a registry in which every device's
trigger index is `NO_TRIGGER` or the index of a registered trigger. -/
theorem iio_init_devs_trig_idx_ok (env : iio_env) (desc desc' : iio_desc)
    (devs : List iio_device_init) (h : iio_init_devs env desc devs = (SUCCESS, desc')) :
    trig_idx_ok desc' := by
  obtain ⟨hd, ht⟩ := iio_init_devs_success env desc desc' devs h
  intro d hdm
  rw [hd] at hdm
  rw [ht]
  exact init_devs_loop_trig_idx desc devs 0 d hdm

/-! ## Bytes per scan -/

theorem mask_bit_succ (mask i : Nat) : mask_bit mask (i + 1) = mask_bit (mask / 2) i := by
  unfold mask_bit
  rw [Nat.pow_succ, Nat.mul_comm, ← Nat.div_div_eq_div_mul]

theorem mask_bit_zero (mask : Nat) : mask_bit mask 0 = decide (mask % 2 = 1) := by
  unfold mask_bit
  simp

theorem position_bytes_cons (c : iio_channel) (cs : List iio_channel) (mask : Nat) :
    position_bytes (c :: cs) mask =
      (if mask % 2 = 1 then sample_bytes c else 0) + position_bytes cs (mask / 2) := by
  unfold position_bytes
  rw [List.length_cons, List.range_succ_eq_map, List.filter_cons, mask_bit_zero]
  have htail : (List.map (fun i => (Option.map sample_bytes (c :: cs)[i]?).getD 0)
      (List.filter (mask_bit mask) (List.map Nat.succ (List.range cs.length)))) =
      List.map (fun i => (Option.map sample_bytes cs[i]?).getD 0)
        (List.filter (mask_bit (mask / 2)) (List.range cs.length)) := by
    rw [List.filter_map, List.map_map]
    have hf : (mask_bit mask ∘ Nat.succ) = mask_bit (mask / 2) := by
      funext i
      exact mask_bit_succ mask i
    rw [hf]
    apply List.map_congr_left
    intro i _
    simp
  by_cases h : mask % 2 = 1
  · simp only [h, decide_True, if_true, List.map_cons, List.sum_cons, htail]
    simp
  · simp only [h, decide_False, if_false]
    simp
    rw [htail]

theorem position_bytes_zero (cs : List iio_channel) : position_bytes cs 0 = 0 := by
  induction cs with
  | nil => rfl
  | cons c cs ih => rw [position_bytes_cons]; simp [ih]

theorem bytes_per_scan_loop_eq (cs : List iio_channel) :
    ∀ (mask cnt : Nat), mask < 2 ^ cs.length → cnt < UINT32_MOD →
      (∀ i c, cs[i]? = some c → mask_bit mask i = true → c.scan_type.isSome = true) →
      bytes_per_scan_loop cs mask cnt = some ((cnt + position_bytes cs mask) % UINT32_MOD) := by
  induction cs with
  | nil =>
    intro mask cnt hm hc _
    have h0 : mask = 0 := by simpa using hm
    subst h0
    simp [bytes_per_scan_loop, position_bytes, Nat.mod_eq_of_lt hc]
  | cons c cs ih =>
    intro mask cnt hm hc hst
    rw [position_bytes_cons]
    unfold bytes_per_scan_loop
    by_cases h0 : mask = 0
    · subst h0
      simp [position_bytes_zero, Nat.mod_eq_of_lt hc]
    · rw [if_neg h0]
      have hm2 : mask / 2 < 2 ^ cs.length := by
        rw [List.length_cons, Nat.pow_succ] at hm
        omega
      have hst2 : ∀ i c', cs[i]? = some c' → mask_bit (mask / 2) i = true →
          c'.scan_type.isSome = true := by
        intro i c' hi hb
        exact hst (i + 1) c' (by simpa using hi) (by rw [mask_bit_succ]; exact hb)
      by_cases h1 : mask % 2 = 1
      · rw [if_pos h1, if_pos h1]
        have hsome := hst 0 c (by simp) (by rw [mask_bit_zero]; simpa using h1)
        cases hs : c.scan_type with
        | none => rw [hs] at hsome; simp at hsome
        | some st =>
          simp only []
          rw [ih (mask / 2) _ hm2 (Nat.mod_lt _ (by unfold UINT32_MOD; omega)) hst2]
          have : sample_bytes c = st.storagebits / 8 := by simp [sample_bytes, hs]
          rw [this]
          congr 1
          unfold UINT32_MOD
          omega
      · rw [if_neg h1, if_neg h1, ih (mask / 2) cnt hm2 hc hst2]
        simp

theorem position_bytes_le (cs : List iio_channel) :
    ∀ mask, (∀ c ∈ cs, ∀ st, c.scan_type = some st → st.storagebits < 256) →
      position_bytes cs mask ≤ cs.length * 31 := by
  induction cs with
  | nil => intro mask _; simp [position_bytes]
  | cons c cs ih =>
    intro mask hb
    rw [position_bytes_cons, List.length_cons]
    have h1 := ih (mask / 2) (fun c' hc' => hb c' (List.mem_cons_of_mem _ hc'))
    have h2 : sample_bytes c ≤ 31 := by
      unfold sample_bytes
      cases hs : c.scan_type with
      | none => simp
      | some st =>
        have := hb c (List.mem_cons_self _ _) st hs
        simp only []
        omega
    split <;> omega

/-- C11 as stated fails where a channel's scan index is not its position in the
channel array: on `swapped_scan_channels` with mask 0b01, `bytes_per_scan`
returns 1 (the storage of the channel at position 0), while the channels whose
scan index is a set bit of the mask take 2 bytes. -/
theorem bytes_per_scan_ignores_scan_index :
    bytes_per_scan (some swapped_scan_channels) 1 = some 1 ∧
    scan_index_bytes swapped_scan_channels 1 = 2 := by
  decide

/-- C11, amended: for every channel array and every mask whose set bits lie
within the channel count, each selected channel having a scan type,
`bytes_per_scan(channels, mask)` is the sum of `storagebits / 8` over exactly
the channels whose position in the array is a set bit of the mask, reduced
modulo 2^32; with at most 32 channels and 8-bit `storagebits` members it is
that sum itself. -/
theorem bytes_per_scan_positions (channels : List iio_channel) (mask : Nat)
    (hmask : mask < 2 ^ channels.length)
    (hst : ∀ i c, channels[i]? = some c → mask_bit mask i = true → c.scan_type.isSome = true) :
    bytes_per_scan (some channels) mask = some (position_bytes channels mask % UINT32_MOD) ∧
    (channels.length ≤ 32 →
      (∀ c ∈ channels, ∀ st, c.scan_type = some st → st.storagebits < 256) →
      bytes_per_scan (some channels) mask = some (position_bytes channels mask)) := by
  have h := bytes_per_scan_loop_eq channels mask 0 hmask (by unfold UINT32_MOD; omega) hst
  rw [Nat.zero_add] at h
  refine ⟨h, ?_⟩
  intro hlen hb
  have hle := position_bytes_le channels mask hb
  have : position_bytes channels mask < UINT32_MOD := by
    unfold UINT32_MOD
    omega
  unfold bytes_per_scan
  rw [Option.getD_some, h, Nat.mod_eq_of_lt this]

/-- C11, amended, on the ADXRS290 channels with mask 0b101 (x axis and
temperature): 4 bytes per scan. -/
theorem bytes_per_scan_positions_witness :
    5 < 2 ^ (adxrs290_iio_channels {}).length ∧
    bytes_per_scan (some (adxrs290_iio_channels {})) 5 = some 4 := by
  have hst : ∀ i c, (adxrs290_iio_channels {})[i]? = some c → mask_bit 5 i = true →
      c.scan_type.isSome = true := by
    intro i c hi _
    match i, hi with
    | 0, hi => cases hi; rfl
    | 1, hi => cases hi; rfl
    | 2, hi => cases hi; rfl
    | n + 3, hi => simp [adxrs290_iio_channels] at hi
  refine ⟨by decide, ?_⟩
  have h := (bytes_per_scan_positions (adxrs290_iio_channels {}) 5 (by decide) hst).1
  rw [h]
  decide

/-! ## Attribute dispatcher: lookup by name -/

theorem find_from_eq_none {α : Type} (p : α → Bool) (l : List α) (i : Nat)
    (h : ∀ x ∈ l, p x = false) : find_from p l i = none := by
  induction l generalizing i with
  | nil => rfl
  | cons x xs ih =>
    unfold find_from
    have hx : p x = false := h x (List.mem_cons_self _ _)
    simp only [hx, Bool.false_eq_true, if_false]
    exact ih (i + 1) (fun y hy => h y (List.mem_cons_of_mem _ hy))

theorem attr_index_loop_absent (attr_name : List Char) (attrs : List iio_attribute) :
    ∀ (i : Nat), (∀ a ∈ attrs, a.name ≠ attr_name) → i + attrs.length ≤ INT16_MAX →
      attr_index_loop attr_name attrs i = some none := by
  induction attrs with
  | nil => intro i _ _; rfl
  | cons x xs ih =>
    intro i h hb
    have hx : x.name ≠ attr_name := h x (List.mem_cons_self _ _)
    have hi : i ≠ INT16_MAX := by
      simp only [List.length_cons] at hb
      omega
    rw [attr_index_loop, if_neg hx, if_neg hi]
    refine ih (i + 1) (fun y hy => h y (List.mem_cons_of_mem _ hy)) ?_
    simp only [List.length_cons] at hb
    omega

theorem attr_index_loop_first (attr_name : List Char) (attrs : List iio_attribute) :
    ∀ (i k : Nat) (a : iio_attribute), attrs[k]? = some a → a.name = attr_name →
      (∀ j, j < k → ∀ y, attrs[j]? = some y → y.name ≠ attr_name) → i + k ≤ INT16_MAX →
      attr_index_loop attr_name attrs i = some (some (i + k)) := by
  induction attrs with
  | nil => intro i k a hk; simp at hk
  | cons x xs ih =>
    intro i k a hk hname hfirst hb
    cases k with
    | zero =>
      simp only [List.getElem?_cons_zero, Option.some.injEq] at hk
      subst hk
      rw [attr_index_loop, if_pos hname]
      rfl
    | succ k =>
      have hx : x.name ≠ attr_name := hfirst 0 (Nat.succ_pos k) x (List.getElem?_cons_zero)
      have hi : i ≠ INT16_MAX := by omega
      rw [attr_index_loop, if_neg hx, if_neg hi]
      rw [List.getElem?_cons_succ] at hk
      have := ih (i + 1) k a hk hname
        (fun j hj y hy => hfirst (j + 1) (Nat.succ_lt_succ hj) y
          (by rw [List.getElem?_cons_succ]; exact hy)) (by omega)
      rw [this]
      congr 2
      omega

theorem attr_index_absent (attrs : List iio_attribute) (attr_name : List Char)
    (h : ∀ a ∈ attrs, a.name ≠ attr_name) (hlen : attrs.length ≤ INT16_MAX) :
    attr_index attrs attr_name = some none := by
  unfold attr_index
  exact attr_index_loop_absent attr_name attrs 0 h (by omega)

theorem attr_index_first (attrs : List iio_attribute) (attr_name : List Char) (k : Nat)
    (a : iio_attribute) (hk : attrs[k]? = some a) (hname : a.name = attr_name)
    (hfirst : ∀ j, j < k → ∀ y, attrs[j]? = some y → y.name ≠ attr_name)
    (hbound : k ≤ INT16_MAX) :
    attr_index attrs attr_name = some (some k) := by
  unfold attr_index
  have := attr_index_loop_first attr_name attrs 0 k a hk hname hfirst (by omega)
  simpa using this

/-- A name no entry carries: `-ENOENT`, nothing stored, no call. -/
theorem iio_rd_wr_attribute_absent (params : attr_fun_params) (attrs : List iio_attribute)
    (attr_name : List Char) (is_write : Bool) (tr : List iio_call)
    (h : ∀ a ∈ attrs, a.name ≠ attr_name) (hlen : attrs.length ≤ INT16_MAX) :
    iio_rd_wr_attribute params (some attrs) attr_name is_write tr = some (-ENOENT, [], tr) := by
  unfold iio_rd_wr_attribute
  simp only [attr_index_absent attrs attr_name h hlen]

/-- The first entry with the name has a null callback for the direction:
`-ENOENT`, nothing stored, no call. -/
theorem iio_rd_wr_attribute_null_cb (params : attr_fun_params) (attrs : List iio_attribute)
    (attr_name : List Char) (is_write : Bool) (tr : List iio_call) (k : Nat) (a : iio_attribute)
    (hk : attrs[k]? = some a) (hname : a.name = attr_name)
    (hfirst : ∀ j, j < k → ∀ y, attrs[j]? = some y → y.name ≠ attr_name)
    (hbound : k ≤ INT16_MAX)
    (hcb : (if is_write then a.store_cb.isNone else a.show_cb.isNone) = true) :
    iio_rd_wr_attribute params (some attrs) attr_name is_write tr = some (-ENOENT, [], tr) := by
  unfold iio_rd_wr_attribute
  simp only [attr_index_first attrs attr_name k a hk hname hfirst hbound, hk]
  cases is_write with
  | true =>
    simp only [if_true] at hcb
    cases hs : a.store_cb with
    | none => simp
    | some f => rw [hs] at hcb; simp at hcb
  | false =>
    simp only [Bool.false_eq_true, if_false] at hcb
    cases hs : a.show_cb with
    | none => simp
    | some f => rw [hs] at hcb; simp at hcb

/-- The first entry with the name has a `show` callback: it is called once and
its result and text are handed back. -/
theorem iio_rd_wr_attribute_show (params : attr_fun_params) (attrs : List iio_attribute)
    (attr_name : List Char) (tr : List iio_call) (k : Nat) (a : iio_attribute)
    (f : Nat → Nat → Option iio_ch_info → Int → Option (Int × List Char))
    (r : Int) (out : List Char)
    (hk : attrs[k]? = some a) (hname : a.name = attr_name)
    (hfirst : ∀ j, j < k → ∀ y, attrs[j]? = some y → y.name ≠ attr_name)
    (hbound : k ≤ INT16_MAX)
    (hcb : a.show_cb = some f)
    (hr : f params.dev_instance params.len params.ch_info a.priv = some (r, out)) :
    iio_rd_wr_attribute params (some attrs) attr_name false tr =
      some (r, out, tr ++ [iio_call.attr_show k params.dev_instance params.len params.ch_info
        a.priv]) := by
  unfold iio_rd_wr_attribute
  simp only [attr_index_first attrs attr_name k a hk hname hfirst hbound, hk, hcb, hr,
    Bool.false_eq_true, if_false]

/-- The first entry with the name has a `store` callback: it is called once
and its result is handed back. -/
theorem iio_rd_wr_attribute_store (params : attr_fun_params) (attrs : List iio_attribute)
    (attr_name : List Char) (tr : List iio_call) (k : Nat) (a : iio_attribute)
    (f : Nat → List Char → Nat → Option iio_ch_info → Int → Option Int) (r : Int)
    (hk : attrs[k]? = some a) (hname : a.name = attr_name)
    (hfirst : ∀ j, j < k → ∀ y, attrs[j]? = some y → y.name ≠ attr_name)
    (hbound : k ≤ INT16_MAX)
    (hcb : a.store_cb = some f)
    (hr : f params.dev_instance params.buf params.len params.ch_info a.priv = some r) :
    iio_rd_wr_attribute params (some attrs) attr_name true tr =
      some (r, [], tr ++ [iio_call.attr_store k params.dev_instance params.buf params.len
        params.ch_info a.priv]) := by
  unfold iio_rd_wr_attribute
  simp only [attr_index_first attrs attr_name k a hk hname hfirst hbound, hk, hcb, hr, if_true]

/-- C12: for every attribute list and name, within the reach of the `int16_t`
counter of the search (the sentinel, respectively the first entry with the
name, at a position of at most 32767), `iio_rd_wr_attribute` returns `-ENOENT`
when no entry before the sentinel has exactly that name, and also when the
first entry with that name has a null callback for the requested direction
(`store` for a write, `show` for a read); in both cases nothing is stored in
the caller's buffer and the trace is unchanged, so no callback is invoked. -/
theorem iio_rd_wr_attribute_enoent (params : attr_fun_params) (attrs : List iio_attribute)
    (attr_name : List Char) (is_write : Bool) (tr : List iio_call) :
    ((∀ a ∈ attrs, a.name ≠ attr_name) → attrs.length ≤ INT16_MAX →
      iio_rd_wr_attribute params (some attrs) attr_name is_write tr = some (-ENOENT, [], tr)) ∧
    (∀ (k : Nat) (a : iio_attribute), attrs[k]? = some a → a.name = attr_name →
      (∀ j, j < k → ∀ y : iio_attribute, attrs[j]? = some y → y.name ≠ attr_name) →
      k ≤ INT16_MAX →
      (if is_write then a.store_cb.isNone else a.show_cb.isNone) = true →
      iio_rd_wr_attribute params (some attrs) attr_name is_write tr = some (-ENOENT, [], tr)) :=
  ⟨iio_rd_wr_attribute_absent params attrs attr_name is_write tr,
    fun k a hk hname hfirst hbound hcb =>
      iio_rd_wr_attribute_null_cb params attrs attr_name is_write tr k a hk hname hfirst hbound
        hcb⟩

/-- C12 on the temperature attributes of the ADXRS290: a read of "offset"
(no such entry) and a write of "raw" (entry 0, without `store`) both return
`-ENOENT` and leave the trace empty. -/
theorem iio_rd_wr_attribute_enoent_witness :
    iio_rd_wr_attribute ⟨0, [], 16, none⟩ (some (adxrs290_iio_temp_attrs {})) "offset".toList
        false [] = some (-ENOENT, [], []) ∧
    iio_rd_wr_attribute ⟨0, "1".toList, 1, none⟩ (some (adxrs290_iio_temp_attrs {})) "raw".toList
        true [] = some (-ENOENT, [], []) :=
  ⟨(iio_rd_wr_attribute_enoent ⟨0, [], 16, none⟩ (adxrs290_iio_temp_attrs {}) "offset".toList
      false []).1 (by decide) (by decide),
   (iio_rd_wr_attribute_enoent ⟨0, "1".toList, 1, none⟩ (adxrs290_iio_temp_attrs {})
      "raw".toList true []).2 0 _ rfl rfl (fun j hj => absurd hj (Nat.not_lt_zero j))
      (by decide) rfl⟩

/-- C13 as stated fails: on the temperature attributes of the ADXRS290 a write
of "offset" (absent) and a write of "raw" (present, without `store`) return the
same error, `-ENOENT`. -/
theorem absent_and_null_callback_same_error :
    (iio_rd_wr_attribute ⟨0, "1".toList, 1, none⟩ (some (adxrs290_iio_temp_attrs {}))
        "offset".toList true []).map (fun r => r.1) = some (-ENOENT) ∧
    (iio_rd_wr_attribute ⟨0, "1".toList, 1, none⟩ (some (adxrs290_iio_temp_attrs {}))
        "raw".toList true []).map (fun r => r.1) = some (-ENOENT) := by
  decide

/-- C13, amended: for every attribute list within the reach of the `int16_t`
counter of the search (at most 32767 entries before the sentinel), the error
`iio_rd_wr_attribute` returns for a name that is absent and the error it
returns for a name whose first entry has no callback for the direction are the
same value, `-ENOENT`. -/
theorem iio_rd_wr_attribute_one_error_kind (params : attr_fun_params)
    (attrs : List iio_attribute) (absent present : List Char) (is_write : Bool)
    (tr : List iio_call) (k : Nat) (a : iio_attribute)
    (hlen : attrs.length ≤ INT16_MAX)
    (habsent : ∀ a ∈ attrs, a.name ≠ absent)
    (hk : attrs[k]? = some a) (hname : a.name = present)
    (hfirst : ∀ j, j < k → ∀ y, attrs[j]? = some y → y.name ≠ present)
    (hcb : (if is_write then a.store_cb.isNone else a.show_cb.isNone) = true) :
    (iio_rd_wr_attribute params (some attrs) absent is_write tr).map (fun r => r.1) =
      some (-ENOENT) ∧
    (iio_rd_wr_attribute params (some attrs) present is_write tr).map (fun r => r.1) =
      (iio_rd_wr_attribute params (some attrs) absent is_write tr).map (fun r => r.1) := by
  have hkl : k < attrs.length := (List.getElem?_eq_some.1 hk).1
  rw [iio_rd_wr_attribute_absent params attrs absent is_write tr habsent hlen,
    iio_rd_wr_attribute_null_cb params attrs present is_write tr k a hk hname hfirst
      (by omega) hcb]
  exact ⟨rfl, rfl⟩

/-- C13, amended, on the temperature attributes of the ADXRS290 for the names
"offset" and "raw" in the write direction. -/
theorem iio_rd_wr_attribute_one_error_kind_witness :
    (iio_rd_wr_attribute ⟨0, "1".toList, 1, none⟩ (some (adxrs290_iio_temp_attrs {}))
        "offset".toList true []).map (fun r => r.1) = some (-ENOENT) ∧
    (iio_rd_wr_attribute ⟨0, "1".toList, 1, none⟩ (some (adxrs290_iio_temp_attrs {}))
        "raw".toList true []).map (fun r => r.1) =
      (iio_rd_wr_attribute ⟨0, "1".toList, 1, none⟩ (some (adxrs290_iio_temp_attrs {}))
        "offset".toList true []).map (fun r => r.1) :=
  iio_rd_wr_attribute_one_error_kind ⟨0, "1".toList, 1, none⟩ (adxrs290_iio_temp_attrs {})
    "offset".toList "raw".toList true [] 0 _ (by decide) (by decide) rfl rfl
    (fun j hj => absurd hj (Nat.not_lt_zero j)) rfl

/-! ## Attribute dispatcher: `iio_read_attr` and `iio_write_attr` -/

/-- The read path down to the callback of the first entry with the name. -/
theorem iio_read_attr_show (desc : iio_desc) (device : List Char) (attr : iiod_attr) (len : Nat)
    (i : Nat) (dev : iio_dev_priv) (ch : Option iio_channel) (ch_info : Option iio_ch_info)
    (attrs : List iio_attribute) (k : Nat) (a : iio_attribute)
    (f : Nat → Nat → Option iio_ch_info → Int → Option (Int × List Char))
    (r : Int) (out : List Char)
    (hget : get_iio_device desc device = some i) (hdev : desc.devs[i]? = some dev)
    (hres : ¬ (attr.type = iio_attr_type.IIO_ATTR_TYPE_DEBUG ∧ attr.name = REG_ACCESS_ATTRIBUTE))
    (hne : attr.name ≠ [])
    (hch : attr_channel dev attr = some (some (ch, ch_info)))
    (hattrs : get_attributes attr.type dev ch = some (some attrs))
    (hk : attrs[k]? = some a) (hname : a.name = attr.name)
    (hfirst : ∀ j, j < k → ∀ y : iio_attribute, attrs[j]? = some y → y.name ≠ attr.name)
    (hbound : k ≤ INT16_MAX)
    (hcb : a.show_cb = some f) (hr : f dev.dev_instance len ch_info a.priv = some (r, out)) :
    iio_read_attr desc device attr len =
      some (r, out,
        { desc with
          trace := desc.trace ++ [iio_call.attr_show k dev.dev_instance len ch_info a.priv] }) := by
  have h := iio_rd_wr_attribute_show ⟨dev.dev_instance, [], len, ch_info⟩ attrs attr.name
    desc.trace k a f r out hk hname hfirst hbound hcb hr
  unfold iio_read_attr
  simp only [hget, hdev, hres, if_false, hch, hattrs, hne, h]

/-- The write path down to the callback of the first entry with the name. -/
theorem iio_write_attr_store (env : iio_env) (desc : iio_desc) (device : List Char)
    (attr : iiod_attr) (buf : List Char) (len : Nat)
    (i : Nat) (dev : iio_dev_priv) (ch : Option iio_channel) (ch_info : Option iio_ch_info)
    (attrs : List iio_attribute) (k : Nat) (a : iio_attribute)
    (g : Nat → List Char → Nat → Option iio_ch_info → Int → Option Int) (r : Int)
    (hget : get_iio_device desc device = some i) (hdev : desc.devs[i]? = some dev)
    (hres : ¬ (attr.type = iio_attr_type.IIO_ATTR_TYPE_DEBUG ∧ attr.name = REG_ACCESS_ATTRIBUTE))
    (hne : attr.name ≠ [])
    (hch : attr_channel dev attr = some (some (ch, ch_info)))
    (hattrs : get_attributes attr.type dev ch = some (some attrs))
    (hk : attrs[k]? = some a) (hname : a.name = attr.name)
    (hfirst : ∀ j, j < k → ∀ y : iio_attribute, attrs[j]? = some y → y.name ≠ attr.name)
    (hbound : k ≤ INT16_MAX)
    (hcb : a.store_cb = some g) (hr : g dev.dev_instance buf len ch_info a.priv = some r) :
    iio_write_attr env desc device attr buf len =
      some (r,
        { desc with
          trace := desc.trace ++
            [iio_call.attr_store k dev.dev_instance buf len ch_info a.priv] }) := by
  have h := iio_rd_wr_attribute_store ⟨dev.dev_instance, buf, len, ch_info⟩ attrs attr.name
    desc.trace k a g r hk hname hfirst hbound hcb hr
  unfold iio_write_attr
  simp only [hget, hdev, hres, if_false, hch, hattrs, hne, h]

/-- C14 as stated fails for the reserved name: the only device of
`reserved_name_registry` lists a debug attribute "direct_reg_access" with a
`show` callback, yet `iio_read_attr` for that debug attribute returns `-ENOENT`
and calls nothing. -/
theorem reserved_name_bypasses_callback :
    reserved_name_registry.devs.map
        (fun d => (d.dev_descriptor.debug_attributes.getD []).map
          (fun a => (a.name, a.show_cb.isSome))) = [[(REG_ACCESS_ATTRIBUTE, true)]] ∧
    (iio_read_attr reserved_name_registry "iio:device0".toList
        ⟨iio_attr_type.IIO_ATTR_TYPE_DEBUG, REG_ACCESS_ATTRIBUTE, none⟩ 16).map
      (fun r => (r.1, r.2.1, r.2.2.trace)) = some (-ENOENT, [], []) := by
  decide

/-- C14, amended: for a registered device and a request whose name is not
empty and is not the debug category's reserved "direct_reg_access", whose
channel (if one is named) resolves to `ch_info` and whose category has the
attribute list `attrs`: when entry `k` is the first with the requested name,
lies within the reach of the `int16_t` counter of the search (`k` at most
32767) and has a callback for the direction, `iio_read_attr` / `iio_write_attr`
call exactly that callback once with (device instance, buffer, length,
`ch_info` or null, the entry's private tag) and return its result unchanged.
The channel search has the same counter: a channel resolves (`attr_channel`)
only from a position of at most 32767. -/
theorem iio_attr_callback_verbatim (env : iio_env) (desc : iio_desc) (device : List Char)
    (attr : iiod_attr) (buf : List Char) (len : Nat)
    (i : Nat) (dev : iio_dev_priv) (ch : Option iio_channel) (ch_info : Option iio_ch_info)
    (attrs : List iio_attribute) (k : Nat) (a : iio_attribute)
    (hget : get_iio_device desc device = some i) (hdev : desc.devs[i]? = some dev)
    (hres : ¬ (attr.type = iio_attr_type.IIO_ATTR_TYPE_DEBUG ∧ attr.name = REG_ACCESS_ATTRIBUTE))
    (hne : attr.name ≠ [])
    (hch : attr_channel dev attr = some (some (ch, ch_info)))
    (hattrs : get_attributes attr.type dev ch = some (some attrs))
    (hk : attrs[k]? = some a) (hname : a.name = attr.name)
    (hfirst : ∀ j, j < k → ∀ y : iio_attribute, attrs[j]? = some y → y.name ≠ attr.name)
    (hbound : k ≤ INT16_MAX) :
    (∀ (f : Nat → Nat → Option iio_ch_info → Int → Option (Int × List Char)) (r : Int)
        (out : List Char),
      a.show_cb = some f → f dev.dev_instance len ch_info a.priv = some (r, out) →
      iio_read_attr desc device attr len =
        some (r, out,
          { desc with
            trace := desc.trace ++
              [iio_call.attr_show k dev.dev_instance len ch_info a.priv] })) ∧
    (∀ (g : Nat → List Char → Nat → Option iio_ch_info → Int → Option Int) (r : Int),
      a.store_cb = some g → g dev.dev_instance buf len ch_info a.priv = some r →
      iio_write_attr env desc device attr buf len =
        some (r,
          { desc with
            trace := desc.trace ++
              [iio_call.attr_store k dev.dev_instance buf len ch_info a.priv] })) :=
  ⟨fun f r out hcb hr =>
      iio_read_attr_show desc device attr len i dev ch ch_info attrs k a f r out hget hdev hres
        hne hch hattrs hk hname hfirst hbound hcb hr,
   fun g r hcb hr =>
      iio_write_attr_store env desc device attr buf len i dev ch ch_info attrs k a g r hget hdev
        hres hne hch hattrs hk hname hfirst hbound hcb hr⟩

/-- C14, amended, on the ADXRS290: reading "filter_high_pass_3db_frequency" of
the input channel "anglvel_x" returns the callback's 3 with the text "0.0", and
writing "0" to it returns the callback's 1; each appends one call to the
trace. -/
theorem iio_attr_callback_verbatim_witness :
    iio_read_attr (adxrs290_registry env_ok {}) "iio:device0".toList
        ⟨iio_attr_type.IIO_ATTR_TYPE_CH_IN, "filter_high_pass_3db_frequency".toList,
          some "anglvel_x".toList⟩ 16 =
      some (3, "0.0".toList,
        { adxrs290_registry env_ok {} with
          trace := (adxrs290_registry env_ok {}).trace ++
            [iio_call.attr_show 0 0 16
              (some ⟨0, false, iio_chan_type.IIO_ANGL_VEL, false, 0⟩) 0] }) ∧
    iio_write_attr env_ok (adxrs290_registry env_ok {}) "iio:device0".toList
        ⟨iio_attr_type.IIO_ATTR_TYPE_CH_IN, "filter_high_pass_3db_frequency".toList,
          some "anglvel_x".toList⟩ "0".toList 1 =
      some (1,
        { adxrs290_registry env_ok {} with
          trace := (adxrs290_registry env_ok {}).trace ++
            [iio_call.attr_store 0 0 "0".toList 1
              (some ⟨0, false, iio_chan_type.IIO_ANGL_VEL, false, 0⟩) 0] }) :=
  have h := iio_attr_callback_verbatim env_ok (adxrs290_registry env_ok {}) "iio:device0".toList
    ⟨iio_attr_type.IIO_ATTR_TYPE_CH_IN, "filter_high_pass_3db_frequency".toList,
      some "anglvel_x".toList⟩ "0".toList 16
    0 ((adxrs290_registry env_ok {}).devs.getD 0 {})
    (some ((adxrs290_iio_channels {}).getD 0 { ch_type := iio_chan_type.IIO_VOLTAGE }))
    (some ⟨0, false, iio_chan_type.IIO_ANGL_VEL, false, 0⟩)
    (adxrs290_iio_vel_attrs {}) 0 _ rfl rfl (by decide) (by decide) rfl rfl rfl rfl
    (fun j hj => absurd hj (Nat.not_lt_zero j)) (by decide)
  have h1 := iio_attr_callback_verbatim env_ok (adxrs290_registry env_ok {})
    "iio:device0".toList
    ⟨iio_attr_type.IIO_ATTR_TYPE_CH_IN, "filter_high_pass_3db_frequency".toList,
      some "anglvel_x".toList⟩ "0".toList 1
    0 ((adxrs290_registry env_ok {}).devs.getD 0 {})
    (some ((adxrs290_iio_channels {}).getD 0 { ch_type := iio_chan_type.IIO_VOLTAGE }))
    (some ⟨0, false, iio_chan_type.IIO_ANGL_VEL, false, 0⟩)
    (adxrs290_iio_vel_attrs {}) 0 _ rfl rfl (by decide) (by decide) rfl rfl rfl rfl
    (fun j hj => absurd hj (Nat.not_lt_zero j)) (by decide)
  ⟨h.1 (get_adxrs290_iio_ch_hpf {}) 3 "0.0".toList rfl (by decide),
   h1.2 (set_adxrs290_iio_ch_hpf {}) 1 rfl (by decide)⟩

/-- C15 fails on the read path: for a device name that matches no registered
identifier `iio_read_attr` returns `FAILURE` (-1), not `-ENODEV`; the sibling
`iio_write_attr` returns `-ENODEV`.  Neither invokes a callback (the state,
trace included, is returned as it was). -/
theorem iio_read_attr_unknown_device (env : iio_env) (desc : iio_desc) (device : List Char)
    (attr : iiod_attr) (buf : List Char) (len : Nat)
    (h : get_iio_device desc device = none) :
    iio_read_attr desc device attr len = some (FAILURE, [], desc) ∧
    iio_write_attr env desc device attr buf len = some (-ENODEV, desc) ∧
    FAILURE ≠ -ENODEV := by
  unfold iio_read_attr iio_write_attr
  simp only [h]
  exact ⟨trivial, trivial, by decide⟩

/-- C15 on the ADXRS290 registry and the unregistered name "iio:device7". -/
theorem iio_read_attr_unknown_device_witness :
    get_iio_device (adxrs290_registry env_ok {}) "iio:device7".toList = none ∧
    iio_read_attr (adxrs290_registry env_ok {}) "iio:device7".toList
        ⟨iio_attr_type.IIO_ATTR_TYPE_DEVICE, "name".toList, none⟩ 16 =
      some (FAILURE, [], adxrs290_registry env_ok {}) ∧
    iio_write_attr env_ok (adxrs290_registry env_ok {}) "iio:device7".toList
        ⟨iio_attr_type.IIO_ATTR_TYPE_DEVICE, "name".toList, none⟩ "1".toList 1 =
      some (-ENODEV, adxrs290_registry env_ok {}) ∧
    FAILURE ≠ -ENODEV :=
  ⟨by decide,
    iio_read_attr_unknown_device env_ok (adxrs290_registry env_ok {}) "iio:device7".toList
      ⟨iio_attr_type.IIO_ATTR_TYPE_DEVICE, "name".toList, none⟩ "1".toList 16 (by decide) |>.1,
    iio_read_attr_unknown_device env_ok (adxrs290_registry env_ok {}) "iio:device7".toList
      ⟨iio_attr_type.IIO_ATTR_TYPE_DEVICE, "name".toList, none⟩ "1".toList 1 (by decide) |>.2⟩

/-! ## Channel lookup -/

theorem iio_get_channel_loop_spec (channel : List Char) (ch_out : Bool) (cs : List iio_channel) :
    ∀ (k i : Nat), k ≤ cs.length → (∀ c ∈ cs.take k, (_print_ch_id c).isSome = true) →
      i + k ≤ INT16_MAX →
      ∃ r, iio_get_channel_loop channel ch_out cs k i = some r ∧
        (r = none → ∀ j c, j < k → cs[j]? = some c → ¬ channel_matches channel ch_out c) ∧
        (∀ j, r = some j → i ≤ j ∧ j - i < k ∧
          (∃ c, cs[j - i]? = some c ∧ channel_matches channel ch_out c) ∧
          ∀ j', j' < j - i → ∀ c', cs[j']? = some c' → ¬ channel_matches channel ch_out c') := by
  induction cs with
  | nil =>
    intro k i hk _ _
    have h0 : k = 0 := by simpa using hk
    subst h0
    refine ⟨none, rfl, ?_, ?_⟩
    · intro _ j c hj; omega
    · intro j hj; cases hj
  | cons c cs ih =>
    intro k i hk hid hb
    cases k with
    | zero =>
      refine ⟨none, rfl, ?_, ?_⟩
      · intro _ j c hj; omega
      · intro j hj; cases hj
    | succ k =>
      have hc : (_print_ch_id c).isSome = true := hid c (by simp)
      obtain ⟨ch_id, hcid⟩ := Option.isSome_iff_exists.1 hc
      have hi : i ≠ INT16_MAX := by omega
      have hstep : iio_get_channel_loop channel ch_out (c :: cs) (k + 1) i =
          (if ch_id = channel ∧ c.ch_out = ch_out then some (some i)
           else iio_get_channel_loop channel ch_out cs k (i + 1)) := by
        rw [iio_get_channel_loop, hcid]
        simp only [if_neg hi]
      by_cases hm : ch_id = channel ∧ c.ch_out = ch_out
      · refine ⟨some i, by rw [hstep, if_pos hm], ?_, ?_⟩
        · intro h; cases h
        · intro j hj
          cases hj
          refine ⟨le_refl _, by omega, ⟨c, by simp, ?_⟩, ?_⟩
          · exact ⟨by rw [hcid, hm.1], hm.2⟩
          · intro j' hj'; omega
      · have hnm : ¬ channel_matches channel ch_out c := by
          intro h
          apply hm
          unfold channel_matches at h
          rw [hcid] at h
          exact ⟨Option.some.inj h.1, h.2⟩
        obtain ⟨r, hr, hnone, hsome⟩ := ih k (i + 1) (by simpa using hk)
          (fun c' hc' => hid c' (by
            rw [List.take_succ_cons]
            exact List.mem_cons_of_mem _ hc')) (by omega)
        refine ⟨r, by rw [hstep, if_neg hm, hr], ?_, ?_⟩
        · intro h j c' hj hc'
          cases j with
          | zero =>
            simp only [List.getElem?_cons_zero, Option.some.injEq] at hc'
            subst hc'
            exact hnm
          | succ j =>
            rw [List.getElem?_cons_succ] at hc'
            exact hnone h j c' (by omega) hc'
        · intro j hj
          obtain ⟨h1, h2, ⟨c', hc', hmc⟩, h4⟩ := hsome j hj
          have hji : j - i = (j - (i + 1)) + 1 := by omega
          refine ⟨by omega, by omega, ⟨c', ?_, hmc⟩, ?_⟩
          · rw [hji, List.getElem?_cons_succ]; exact hc'
          · intro j' hj' c'' hc''
            cases j' with
            | zero =>
              simp only [List.getElem?_cons_zero, Option.some.injEq] at hc''
              subst hc''
              exact hnm
            | succ j' =>
              rw [List.getElem?_cons_succ] at hc''
              exact h4 j' (by omega) c'' hc''

/-- C16: for every device descriptor whose channel array is well formed and
within the reach of the `int16_t` counter of the search (`num_ch` at most
32767), every channel name and direction, `iio_get_channel` returns a result; a channel
returned is the first one in array order whose derived id equals the name and
whose output flag equals the direction, and the result is null exactly when no
channel satisfies both (so a channel of the opposite direction is never
returned); on a null result `iio_read_attr` and `iio_write_attr` return
`-ENOENT`. -/
theorem iio_get_channel_first_match (desc : iio_device)
    (channel : List Char) (ch_out : Bool) (hok : channels_ok desc)
    (hbound : desc.num_ch ≤ INT16_MAX) :
    (∃ r, iio_get_channel channel desc ch_out = some r ∧
      (r = none ↔
        ∀ j c, j < desc.num_ch → (channels_of desc)[j]? = some c →
          ¬ channel_matches channel ch_out c) ∧
      (∀ j, r = some j → j < desc.num_ch ∧
        (∃ c, (channels_of desc)[j]? = some c ∧ channel_matches channel ch_out c) ∧
        ∀ j', j' < j → ∀ c', (channels_of desc)[j']? = some c' →
          ¬ channel_matches channel ch_out c')) ∧
    (∀ (env : iio_env) (regs : iio_desc) (device : List Char) (attr : iiod_attr)
        (buf : List Char) (len i : Nat) (dev : iio_dev_priv),
      get_iio_device regs device = some i → regs.devs[i]? = some dev →
      dev.dev_descriptor = desc →
      ¬ (attr.type = iio_attr_type.IIO_ATTR_TYPE_DEBUG ∧ attr.name = REG_ACCESS_ATTRIBUTE) →
      attr.channel = some channel →
      ch_out = decide (attr.type = iio_attr_type.IIO_ATTR_TYPE_CH_OUT) →
      iio_get_channel channel desc ch_out = some none →
      iio_read_attr regs device attr len = some (-ENOENT, [], regs) ∧
      iio_write_attr env regs device attr buf len = some (-ENOENT, regs)) := by
  obtain ⟨hn, hid⟩ := hok
  constructor
  · obtain ⟨r, hr, hnone, hsome⟩ :=
      iio_get_channel_loop_spec channel ch_out (channels_of desc) desc.num_ch 0 hn hid
        (by omega)
    refine ⟨r, hr, ⟨hnone, ?_⟩, ?_⟩
    · intro hall
      cases hrj : r with
      | none => rfl
      | some j =>
        obtain ⟨_, h2, ⟨c, hc, hm⟩, _⟩ := hsome j hrj
        exact absurd hm (hall (j - 0) c h2 hc)
    · intro j hj
      obtain ⟨_, h2, h3, h4⟩ := hsome j hj
      exact ⟨by simpa using h2, by simpa using h3, by simpa using h4⟩
  · intro env regs device attr buf len i dev hget hdev hdesc hres hchan hdir hnull
    subst hdesc
    have hac : attr_channel dev attr = some none := by
      unfold attr_channel
      rw [hchan]
      simp only [← hdir, hnull]
    unfold iio_read_attr iio_write_attr
    simp only [hget, hdev, hres, if_false, hac]
    exact ⟨trivial, trivial⟩

/-- C16 on `in_out_dev`: of the two channels "voltage0" the output one (at
position 1) is returned for the output direction. -/
theorem iio_get_channel_first_match_witness :
    channels_ok in_out_dev ∧
    iio_get_channel "voltage0".toList in_out_dev true = some (some 1) ∧
    iio_get_channel "voltage0".toList in_out_dev false = some (some 0) ∧
    iio_get_channel "voltage1".toList in_out_dev false = some none ∧
    ((∃ r, iio_get_channel "voltage0".toList in_out_dev true = some r ∧
      (r = none ↔
        ∀ j c, j < in_out_dev.num_ch → (channels_of in_out_dev)[j]? = some c →
          ¬ channel_matches "voltage0".toList true c) ∧
      (∀ j, r = some j → j < in_out_dev.num_ch ∧
        (∃ c, (channels_of in_out_dev)[j]? = some c ∧
          channel_matches "voltage0".toList true c) ∧
        ∀ j', j' < j → ∀ c', (channels_of in_out_dev)[j']? = some c' →
          ¬ channel_matches "voltage0".toList true c'))) :=
  ⟨⟨by decide, by decide⟩, by decide, by decide, by decide,
    (iio_get_channel_first_match in_out_dev "voltage0".toList true
      ⟨by decide, by decide⟩ (by decide)).1⟩

/-! ## Derived channel ids -/

/-- C17: `_print_ch_id` gives "<type>_<modifier>" for a modified channel (the
modifier having a name), "<type><index>-<type><index2>" for an indexed
differential one, "<type><index>" for an indexed non-differential one and
"<type>" otherwise; and whenever the generator emits a channel element, the id
in its opening fragment is the string `_print_ch_id` gives, which is the
string the loop of `iio_get_channel` compares the requested name with for that
channel. -/
theorem print_ch_id_forms (ch : iio_channel) :
    (ch.modified = true → ∀ m, iio_modifier_names ch.channel2 = some m →
      _print_ch_id ch = some (iio_chan_type_string ch.ch_type ++ "_".toList ++ m)) ∧
    (ch.modified = false → ch.indexed = true → ch.diferential = true →
      _print_ch_id ch = some (iio_chan_type_string ch.ch_type ++ fmt_d ch.channel ++
        "-".toList ++ iio_chan_type_string ch.ch_type ++ fmt_d ch.channel2)) ∧
    (ch.modified = false → ch.indexed = true → ch.diferential = false →
      _print_ch_id ch = some (iio_chan_type_string ch.ch_type ++ fmt_d ch.channel)) ∧
    (ch.modified = false → ch.indexed = false →
      _print_ch_id ch = some (iio_chan_type_string ch.ch_type)) ∧
    (∀ w, xml_channel_frags ch = some w →
      ∃ id, _print_ch_id ch = some id ∧
        w.frags.head? = some ("<channel id=\"".toList ++ id ++ "\"".toList) ∧
        ∀ (channel : List Char) (ch_out : Bool) (cs : List iio_channel) (k i : Nat),
          iio_get_channel_loop channel ch_out (ch :: cs) (k + 1) i =
            if id = channel ∧ ch.ch_out = ch_out then some (some i)
            else if i = INT16_MAX then none
            else iio_get_channel_loop channel ch_out cs k (i + 1)) := by
  refine ⟨?_, ?_, ?_, ?_, ?_⟩
  · intro hm m hn
    simp only [_print_ch_id, hm, if_true, hn]
  · intro hm hi hd
    simp only [_print_ch_id, hm, hi, hd, if_true, Bool.false_eq_true, if_false]
  · intro hm hi hd
    simp only [_print_ch_id, hm, hi, hd, if_true, Bool.false_eq_true, if_false]
  · intro hm hi
    simp only [_print_ch_id, hm, hi, Bool.false_eq_true, if_false]
  · intro w hw
    cases hid : _print_ch_id ch with
    | none =>
      unfold xml_channel_frags at hw
      rw [hid] at hw
      cases hw
    | some id =>
      refine ⟨id, rfl, ?_, ?_⟩
      · unfold xml_channel_frags at hw
        rw [hid] at hw
        simp only [] at hw
        split at hw
        · cases hw
          simp
        · cases hw
          simp
      · intro channel ch_out cs k i
        rw [iio_get_channel_loop, hid]

set_option maxRecDepth 100000 in
/-- C17 on the ADXRS290 channels: the ids are "anglvel_x", "anglvel_y" and
"temp", the channel elements open with them, and `iio_get_channel` finds each
channel under its id. -/
theorem print_ch_id_forms_witness :
    _print_ch_id ((adxrs290_iio_channels {}).getD 0 { ch_type := iio_chan_type.IIO_TEMP }) =
      some ("anglvel".toList ++ "_".toList ++ "x".toList) ∧
    (adxrs290_iio_channels {}).map _print_ch_id =
      [some "anglvel_x".toList, some "anglvel_y".toList, some "temp".toList] ∧
    (adxrs290_iio_channels {}).map
        (fun c => (xml_channel_frags c).map (fun w => w.frags.head?)) =
      [some (some "<channel id=\"anglvel_x\"".toList),
       some (some "<channel id=\"anglvel_y\"".toList),
       some (some "<channel id=\"temp\"".toList)] ∧
    ["anglvel_x".toList, "anglvel_y".toList, "temp".toList].map
        (fun n => iio_get_channel n (adxrs290_iio_descriptor {}) false) =
      [some (some 0), some (some 1), some (some 2)] :=
  ⟨(print_ch_id_forms
      ((adxrs290_iio_channels {}).getD 0 { ch_type := iio_chan_type.IIO_TEMP })).1 rfl
      "x".toList rfl,
    by decide, by decide, by decide⟩

/-! ## Attribute filenames in the document -/

/-- For a channel that is not modified (and, if differential, is indexed) the
filename of a separate attribute is "<in|out>_<id>_<attribute name>" with the
derived id of `_print_ch_id`. -/
theorem separate_filename_unmodified (ch : iio_channel) (attr : iio_attribute)
    (hs : attr.shared = iio_attr_shared.IIO_SEPARATE) (hm : ch.modified = false)
    (hd : ch.diferential = true → ch.indexed = true) :
    ∃ id, _print_ch_id ch = some id ∧
      xml_attr_filename ch attr =
        some ("filename=\"".toList ++ dir_string ch.ch_out ++ "_".toList ++ id ++ "_".toList ++
          attr.name ++ "\"".toList) := by
  unfold _print_ch_id xml_attr_filename
  rw [hs, hm]
  cases hdi : ch.diferential with
  | true =>
    have hi := hd hdi
    simp [hi]
  | false =>
    cases hi : ch.indexed with
    | true => simp
    | false => simp

/-- C18 fails for modified channels: on the ADXRS290 descriptor the channels
with derived ids "anglvel_x" and "anglvel_y" both get the filename
"in_anglvel_raw" for the separate attribute "raw"; the modifier is missing from
the filename, so it is not "in_anglvel_x_raw" resp. "in_anglvel_y_raw". -/
theorem modified_channel_filename_lacks_modifier :
    (adxrs290_iio_channels {}).map _print_ch_id =
      [some "anglvel_x".toList, some "anglvel_y".toList, some "temp".toList] ∧
    (adxrs290_iio_channels {}).map
        (fun c => xml_attr_filename c
          { name := "raw".toList, shared := iio_attr_shared.IIO_SEPARATE }) =
      [some "filename=\"in_anglvel_raw\"".toList, some "filename=\"in_anglvel_raw\"".toList,
       some "filename=\"in_temp_raw\"".toList] ∧
    (adxrs290_iio_channels {}).map
        (fun c => ((c.attributes.getD []).filter
            (fun a => decide (a.name = "raw".toList))).map
          (fun a => (a.shared, (xml_ch_attr_frags c a).frags))) =
      [[(iio_attr_shared.IIO_SEPARATE,
          ["<attribute name=\"raw\" ".toList, "filename=\"in_anglvel_raw\"".toList,
           " />".toList])],
       [(iio_attr_shared.IIO_SEPARATE,
          ["<attribute name=\"raw\" ".toList, "filename=\"in_anglvel_raw\"".toList,
           " />".toList])],
       [(iio_attr_shared.IIO_SEPARATE,
          ["<attribute name=\"raw\" ".toList, "filename=\"in_temp_raw\"".toList,
           " />".toList])]] := by
  refine ⟨by decide, by decide, by decide⟩

/-! ## The `-EINVAL` of the generator inside `iio_init_xml` -/

set_option maxRecDepth 100000 in
/-- C19 fails: for the registry whose only device has a differential channel
that is not indexed and carries a separate attribute, the generator returns
4294967274 (`-EINVAL` converted to its `uint32_t` result), which `iio_init_xml`
adds to the size like a length: the size becomes 1060, a block of 1061 bytes is
allocated and the copy of the 1072-character header overruns it.
`iio_init_xml` does not return `-EINVAL`. -/
theorem iio_init_xml_ignores_einval :
    diff_plain_registry.devs.map (fun d => (d.name, d.dev_id)) =
      [("d".toList, "iio:device0".toList)] ∧
    iio_generate_device_xml diff_plain_dev "d".toList "iio:device0".toList none 4294967295 =
      some (4294967274, none) ∧
    xml_size_devs diff_plain_registry.devs (header.length + header_end.length) = some 1060 ∧
    strcpy_at (List.replicate ((1060 + 1) % UINT32_MOD) (Char.ofNat 0)) 0 header = none ∧
    iio_init_xml env_ok diff_plain_registry = none := by
  have hgen : iio_generate_device_xml diff_plain_dev "d".toList "iio:device0".toList none
      4294967295 = some (4294967274, none) := by rfl
  have hdevs : diff_plain_registry.devs =
      [{ dev_id := "iio:device0".toList, name := "d".toList, dev_instance := 0,
         active_reg_addr := 0, dev_descriptor := diff_plain_dev,
         buffer := { initalized := false }, trig_idx := NO_TRIGGER }] := by rfl
  have htrigs : diff_plain_registry.trigs = [] := by rfl
  have hsum : (header.length + header_end.length + 4294967274) % UINT32_MOD = 1060 := by
    rw [header_length]
    decide
  have hsize : xml_size_devs diff_plain_registry.devs (header.length + header_end.length) =
      some 1060 := by
    rw [hdevs]
    have hstep : xml_size_devs
        [({ dev_id := "iio:device0".toList, name := "d".toList, dev_instance := 0,
            active_reg_addr := 0, dev_descriptor := diff_plain_dev,
            buffer := { initalized := false }, trig_idx := NO_TRIGGER } : iio_dev_priv)]
        (header.length + header_end.length) =
        (match iio_generate_device_xml diff_plain_dev "d".toList "iio:device0".toList none
            4294967295 with
          | none => none
          | some (r, _) => xml_size_devs [] ((header.length + header_end.length + r) % UINT32_MOD)) :=
      rfl
    rw [hstep, hgen]
    simp only [hsum, xml_size_devs]
  have hcpy : strcpy_at (List.replicate ((1060 + 1) % UINT32_MOD) (Char.ofNat 0)) 0 header =
      none := by
    unfold strcpy_at
    rw [List.length_replicate, header_length]
    decide
  refine ⟨by decide, hgen, hsize, hcpy, ?_⟩
  have ht : xml_size_trigs [] 1060 = some 1060 := rfl
  have hcal : calloc env_ok diff_plain_registry.hp ((1060 + 1) % UINT32_MOD) 1 =
      (some diff_plain_registry.hp.next,
        { next := diff_plain_registry.hp.next + 1,
          live := diff_plain_registry.hp.next :: diff_plain_registry.hp.live }) := rfl
  unfold iio_init_xml
  simp only [hsize, htrigs, ht, hcal, hcpy]

/-! ## `iio_open_dev` returning `-ENOMEM` -/

/-- C20 as stated fails: on the ADXRS290 registry, when the allocation fails,
`iio_open_dev(dev, 4, mask = 0b100)` returns `-ENOMEM` and leaves active mask 4,
size 8 and bytes_per_scan 2 in the buffer, where all three were 0 before. -/
theorem iio_open_dev_nomem_keeps_request :
    (adxrs290_registry env_ok {}).devs.map (fun d => d.buffer.pub) =
      [{ active_mask := 0, size := 0, bytes_per_scan := 0 }] ∧
    (iio_open_dev env_nomem (adxrs290_registry env_ok {}) "iio:device0".toList 4 4 false).map
        (fun r => (r.1, r.2.devs.map (fun d => d.buffer.pub))) =
      some (-ENOMEM, [{ active_mask := 4, size := 8, bytes_per_scan := 2 }]) := by
  refine ⟨by decide, by decide⟩

/-- C20, amended: when `iio_open_dev` returns `-ENOMEM` because the
caller-supplied storage is too small or because the allocation fails, the ring
`cb`, the heap of live blocks apart from a block the core owned, and the trace
are as before and no core-owned storage is retained (the allocated flag is
unchanged on the caller-storage path and clear on the allocation path, a block
owned before having been freed); active mask, bytes_per_scan and size hold the
values of the failed request. -/
theorem iio_open_dev_nomem_state (env : iio_env) (desc : iio_desc) (device : List Char)
    (samples mask : Nat) (cyclic : Bool) (i : Nat) (dev : iio_dev_priv) (cm m bps : Nat)
    (hget : get_iio_device desc device = some i) (hdev : desc.devs[i]? = some dev)
    (hinit : dev.buffer.initalized = true)
    (hcm : ch_mask_of dev.dev_descriptor.num_ch = some cm)
    (hm : mask &&& cm = m) (hm0 : m ≠ 0)
    (hbps : bytes_per_scan dev.dev_descriptor.channels m = some bps) :
    (dev.buffer.raw_buf.isSome = true → dev.buffer.raw_buf_len ≠ 0 →
      dev.buffer.raw_buf_len < (bps * samples) % UINT32_MOD →
      iio_open_dev env desc device samples mask cyclic =
        some (-ENOMEM,
          put_dev desc i dev
            { dev.buffer with
              pub := { dev.buffer.pub with
                       active_mask := m, bytes_per_scan := bps,
                       size := (bps * samples) % UINT32_MOD } }
            desc.hp desc.trace)) ∧
    ((dev.buffer.raw_buf = none ∨ dev.buffer.raw_buf_len = 0) →
      dev.buffer.allocated = false →
      env.calloc_ok desc.hp ((bps * samples) % UINT32_MOD) 1 = false →
      iio_open_dev env desc device samples mask cyclic =
        some (-ENOMEM,
          put_dev desc i dev
            { dev.buffer with
              pub := { dev.buffer.pub with
                       active_mask := m, bytes_per_scan := bps,
                       size := (bps * samples) % UINT32_MOD } }
            desc.hp desc.trace)) ∧
    ((dev.buffer.raw_buf = none ∨ dev.buffer.raw_buf_len = 0) →
      dev.buffer.allocated = true →
      ∀ h2, free desc.hp dev.buffer.cb.buff = some h2 →
      env.calloc_ok h2 ((bps * samples) % UINT32_MOD) 1 = false →
      iio_open_dev env desc device samples mask cyclic =
        some (-ENOMEM,
          put_dev desc i dev
            { dev.buffer with
              pub := { dev.buffer.pub with
                       active_mask := m, bytes_per_scan := bps,
                       size := (bps * samples) % UINT32_MOD }
              allocated := false }
            h2 desc.trace)) := by
  refine ⟨?_, ?_, ?_⟩
  · intro hraw hlen hsmall
    unfold iio_open_dev
    simp only [hget, hdev, hinit, hcm, hm, hm0, hbps, Bool.not_true, Bool.false_eq_true,
      if_false, hraw, Bool.true_and, bne_iff_ne, ne_eq, hlen, not_false_eq_true, if_true,
      hsmall]
  · intro hraw halloc hcal
    have hcond : (dev.buffer.raw_buf.isSome && dev.buffer.raw_buf_len != 0) = false := by
      rcases hraw with h | h
      · rw [h]; rfl
      · rw [h]; simp
    unfold iio_open_dev
    simp only [hget, hdev, hinit, hcm, hm, hm0, hbps, Bool.not_true, Bool.false_eq_true,
      if_false, hcond, release_allocated, halloc, calloc, hcal]
  · intro hraw halloc h2 hfree hcal
    have hcond : (dev.buffer.raw_buf.isSome && dev.buffer.raw_buf_len != 0) = false := by
      rcases hraw with h | h
      · rw [h]; rfl
      · rw [h]; simp
    unfold iio_open_dev
    simp only [hget, hdev, hinit, hcm, hm, hm0, hbps, Bool.not_true, Bool.false_eq_true,
      if_false, hcond, release_allocated, halloc, if_true, hfree, calloc, hcal]

/-- C20, amended, on the ADXRS290: with failing allocation on the registry
without caller storage, and with 4 bytes of caller storage for a request of 8
bytes. -/
theorem iio_open_dev_nomem_state_witness :
    (iio_open_dev env_nomem (adxrs290_registry env_ok {}) "iio:device0".toList 4 4 false).map
        (fun r => (r.1, r.2.devs.map (fun d => d.buffer), r.2.hp, r.2.trace)) =
      some (-ENOMEM,
        [{ pub := { active_mask := 4, size := 8, bytes_per_scan := 2 }, initalized := true }],
        (adxrs290_registry env_ok {}).hp, []) ∧
    (iio_open_dev env_ok raw_buf_registry "iio:device0".toList 4 4 false).map
        (fun r => (r.1, r.2.devs.map (fun d => d.buffer), r.2.hp, r.2.trace)) =
      some (-ENOMEM,
        [{ pub := { active_mask := 4, size := 8, bytes_per_scan := 2 }, raw_buf := some 100,
           raw_buf_len := 4, initalized := true }],
        raw_buf_registry.hp, []) := by
  have h1 := (iio_open_dev_nomem_state env_nomem (adxrs290_registry env_ok {})
    "iio:device0".toList 4 4 false 0 ((adxrs290_registry env_ok {}).devs.getD 0 {}) 7 4 2
    rfl rfl rfl (by decide) (by decide) (by decide) (by decide)).2.1 (Or.inl rfl) rfl rfl
  have h2 := (iio_open_dev_nomem_state env_ok raw_buf_registry
    "iio:device0".toList 4 4 false 0 (raw_buf_registry.devs.getD 0 {}) 7 4 2
    rfl rfl rfl (by decide) (by decide) (by decide) (by decide)).1 rfl (by decide) (by decide)
  rw [h1, h2]
  exact ⟨by decide, by decide⟩

/-! ## scanf conversions on printf output -/

theorem digit_of_range (base : Nat) (c : Char) (h : (digit_of base c).isSome = true) :
    48 ≤ c.toNat ∧ c.toNat ≤ 102 ∧ c.toNat ≠ 88 := by
  unfold digit_of at h
  split at h
  · omega
  · split at h
    · omega
    · split at h
      · omega
      · simp at h

theorem digit_not_special (base : Nat) (c : Char) (h : (digit_of base c).isSome = true) :
    is_space c = false ∧ c ≠ '-' ∧ c ≠ '+' ∧ c ≠ 'x' ∧ c ≠ 'X' := by
  have hr := digit_of_range base c h
  have hne : ∀ d : Char, (d.toNat < 48 ∨ 102 < d.toNat ∨ d.toNat = 88) → c ≠ d := by
    intro d hd hcd
    subst hcd
    omega
  refine ⟨?_, hne '-' (by decide), hne '+' (by decide), hne 'x' (by decide), hne 'X' (by decide)⟩
  unfold is_space
  have h1 := hne ' ' (by decide)
  have h2 := hne '\t' (by decide)
  have h3 := hne '\n' (by decide)
  have h4 := hne '\r' (by decide)
  have h5 : c.toNat ≠ 11 := by omega
  have h6 : c.toNat ≠ 12 := by omega
  simp [h1, h2, h3, h4, h5, h6]

theorem skip_space_digit (base : Nat) (c : Char) (s : List Char)
    (h : (digit_of base c).isSome = true) : skip_space (c :: s) = c :: s := by
  unfold skip_space
  rw [List.dropWhile_cons_of_neg]
  simp [(digit_not_special base c h).1]

theorem scan_sign_digit (base : Nat) (c : Char) (s : List Char)
    (h : (digit_of base c).isSome = true) : scan_sign (c :: s) = (false, c :: s) := by
  have hs := digit_not_special base c h
  unfold scan_sign
  split
  · rename_i heq; cases heq; exact absurd rfl hs.2.1
  · rename_i heq; cases heq; exact absurd rfl hs.2.2.1
  · rfl

theorem takeWhile_append_digits (p : Char → Bool) (s rest : List Char)
    (hs : ∀ c ∈ s, p c = true) (hrest : ∀ c, rest.head? = some c → p c = false) :
    (s ++ rest).takeWhile p = s ∧ (s ++ rest).dropWhile p = rest := by
  induction s with
  | nil =>
    cases rest with
    | nil => simp
    | cons c r =>
      have := hrest c rfl
      simp [List.takeWhile_cons, List.dropWhile_cons, this]
  | cons a s ih =>
    have ha := hs a (List.mem_cons_self _ _)
    have := ih (fun c hc => hs c (List.mem_cons_of_mem _ hc))
    simp [List.takeWhile_cons, List.dropWhile_cons, ha, this.1, this.2]

theorem fmt_u_loop_eq (fuel n : Nat) (acc : List Char) :
    fmt_u_loop fuel n acc = fmt_loop 10 digit_char fuel n acc := by
  induction fuel generalizing n acc with
  | zero => rfl
  | succ f ih => simp only [fmt_u_loop, fmt_loop, ih]

theorem fmt_x_loop_eq (fuel n : Nat) (acc : List Char) :
    fmt_x_loop fuel n acc = fmt_loop 16 hex_char fuel n acc := by
  induction fuel generalizing n acc with
  | zero => rfl
  | succ f ih => simp only [fmt_x_loop, fmt_loop, ih]

theorem fmt_loop_acc (base : Nat) (ch : Nat → Char) (fuel n : Nat) (acc : List Char) :
    fmt_loop base ch fuel n acc = fmt_loop base ch fuel n [] ++ acc := by
  induction fuel generalizing n acc with
  | zero => simp [fmt_loop]
  | succ f ih =>
    unfold fmt_loop
    by_cases h : n < base
    · simp [h]
    · simp only [h, if_false]
      rw [ih (n / base) (ch (n % base) :: acc), ih (n / base) [ch (n % base)]]
      simp

theorem fmt_loop_succ (base : Nat) (ch : Nat → Char) (fuel n : Nat) :
    fmt_loop base ch (fuel + 1) n [] =
      if n < base then [ch n] else fmt_loop base ch fuel (n / base) [] ++ [ch (n % base)] := by
  rw [fmt_loop]
  by_cases h : n < base
  · simp [h]
  · simp only [h, if_false]
    exact fmt_loop_acc base ch fuel (n / base) [ch (n % base)]

theorem fmt_loop_digits (base : Nat) (ch : Nat → Char) (hb : 0 < base)
    (hch : ∀ d, d < base → digit_of base (ch d) = some d) (fuel n : Nat) :
    ∀ c ∈ fmt_loop base ch fuel n [], (digit_of base c).isSome = true := by
  induction fuel generalizing n with
  | zero => simp [fmt_loop]
  | succ f ih =>
    rw [fmt_loop_succ]
    by_cases h : n < base
    · simp [h, hch n h]
    · simp only [h, if_false, List.mem_append, List.mem_singleton]
      rintro c (hc | rfl)
      · exact ih (n / base) c hc
      · simp [hch (n % base) (Nat.mod_lt _ hb)]

theorem fmt_loop_ne_nil (base : Nat) (ch : Nat → Char) (fuel n : Nat) :
    fmt_loop base ch (fuel + 1) n [] ≠ [] := by
  rw [fmt_loop_succ]
  split <;> simp

theorem digits_val_snoc (base : Nat) (s : List Char) (c : Char) :
    digits_val base (s ++ [c]) = base * digits_val base s + (digit_of base c).getD 0 := by
  simp [digits_val, List.foldl_append]

theorem digits_val_fmt_loop (base : Nat) (ch : Nat → Char) (hb : 0 < base)
    (hch : ∀ d, d < base → digit_of base (ch d) = some d) (fuel n : Nat)
    (h : n < base ^ fuel) : digits_val base (fmt_loop base ch fuel n []) = n := by
  induction fuel generalizing n with
  | zero =>
    have h0 : n = 0 := by simpa using h
    subst h0
    simp [fmt_loop, digits_val]
  | succ f ih =>
    rw [fmt_loop_succ]
    by_cases hn : n < base
    · simp [hn, digits_val, hch n hn]
    · simp only [hn, if_false]
      rw [digits_val_snoc, hch (n % base) (Nat.mod_lt _ hb), Option.getD_some]
      have hlt : n / base < base ^ f := by
        rw [Nat.div_lt_iff_lt_mul hb]
        calc n < base ^ (f + 1) := h
          _ = base ^ f * base := by ring
      rw [ih (n / base) hlt]
      exact Nat.div_add_mod n base

theorem digit_of_digit_char (d : Nat) (h : d < 10) : digit_of 10 (digit_char d) = some d := by
  unfold digit_char
  interval_cases d <;> rfl

theorem digit_of_hex_char (d : Nat) (h : d < 16) : digit_of 16 (hex_char d) = some d := by
  unfold hex_char
  interval_cases d <;> rfl

theorem scan_unsigned_digits (base : Nat) (s rest : List Char) (hne : s ≠ [])
    (hs : ∀ c ∈ s, (digit_of base c).isSome = true)
    (hrest : ∀ c, rest.head? = some c → (digit_of base c).isSome = false)
    (hpre : base = 16 → scan_hex_prefix (s ++ rest) = s ++ rest)
    (hv : digits_val base s < UINT32_MOD) :
    scan_unsigned base (s ++ rest) = scan_result.ok (digits_val base s) rest := by
  cases s with
  | nil => exact absurd rfl hne
  | cons c s' =>
    have hc := hs c (List.mem_cons_self _ _)
    have htd := takeWhile_append_digits (fun c => (digit_of base c).isSome) (c :: s') rest hs hrest
    have hsk : skip_space (c :: s' ++ rest) = c :: s' ++ rest := skip_space_digit base c _ hc
    have hsg : scan_sign (c :: s' ++ rest) = (false, c :: s' ++ rest) :=
      scan_sign_digit base c _ hc
    have h3 : (if base = 16 then scan_hex_prefix (c :: s' ++ rest) else c :: s' ++ rest) =
        c :: s' ++ rest := by
      by_cases hb : base = 16
      · rw [if_pos hb]; exact hpre hb
      · rw [if_neg hb]
    unfold scan_unsigned
    simp only [hsk, hsg, h3, htd.1, htd.2, hv, if_true, Bool.false_eq_true, if_false]
    simp

theorem scan_hex_prefix_second (c c2 : Char) (r : List Char) (h : c2 ≠ 'x' ∧ c2 ≠ 'X') :
    scan_hex_prefix (c :: c2 :: r) = c :: c2 :: r := by
  unfold scan_hex_prefix
  split
  · rename_i heq
    simp only [List.cons.injEq] at heq
    exact absurd heq.2.1 h.1
  · rename_i heq
    simp only [List.cons.injEq] at heq
    exact absurd heq.2.1 h.2
  · rfl

theorem scan_hex_prefix_single (c : Char) : scan_hex_prefix [c] = [c] := by
  unfold scan_hex_prefix
  split
  · rename_i heq; simp at heq
  · rename_i heq; simp at heq
  · rfl

theorem scan_hex_prefix_digits (s rest : List Char) (hne : s ≠ [])
    (hs : ∀ c ∈ s, (digit_of 16 c).isSome = true)
    (hrest : rest = [] ∨ ∃ r, rest = ' ' :: r) :
    scan_hex_prefix (s ++ rest) = s ++ rest := by
  cases s with
  | nil => exact absurd rfl hne
  | cons c s' =>
    cases s' with
    | nil =>
      rcases hrest with rfl | ⟨r, rfl⟩
      · exact scan_hex_prefix_single c
      · exact scan_hex_prefix_second c ' ' r (by decide)
    | cons c2 s'' =>
      have h2 := digit_not_special 16 c2 (hs c2 (by simp))
      exact scan_hex_prefix_second c c2 (s'' ++ rest) ⟨h2.2.2.2.1, h2.2.2.2.2⟩

theorem fmt_x32_scan (a : Nat) (ha : a < UINT32_MOD) (rest : List Char)
    (hrest : rest = [] ∨ ∃ r, rest = ' ' :: r) :
    scan_unsigned 16 (fmt_x32 a ++ rest) = scan_result.ok a rest := by
  have hdig : ∀ c ∈ fmt_x32 a, (digit_of 16 c).isSome = true := by
    unfold fmt_x32
    rw [fmt_x_loop_eq]
    exact fmt_loop_digits 16 hex_char (by decide) digit_of_hex_char 8 _
  have hne : fmt_x32 a ≠ [] := by
    unfold fmt_x32
    rw [fmt_x_loop_eq]
    exact fmt_loop_ne_nil 16 hex_char 7 _
  have hval : digits_val 16 (fmt_x32 a) = a := by
    unfold fmt_x32
    rw [fmt_x_loop_eq, Nat.mod_eq_of_lt ha]
    exact digits_val_fmt_loop 16 hex_char (by decide) digit_of_hex_char 8 a
      (by unfold UINT32_MOD at ha; omega)
  have h := scan_unsigned_digits 16 (fmt_x32 a) rest hne hdig
    (by
      rcases hrest with rfl | ⟨r, rfl⟩
      · intro c hc; simp at hc
      · intro c hc
        simp only [List.head?_cons, Option.some.injEq] at hc
        subst hc
        decide)
    (fun _ => scan_hex_prefix_digits _ _ hne hdig hrest)
    (by rw [hval]; exact ha)
  rw [hval] at h
  exact h

theorem fmt_u32_digits (a : Nat) :
    fmt_u32 a ≠ [] ∧ ∀ c ∈ fmt_u32 a, (digit_of 10 c).isSome = true := by
  unfold fmt_u32
  rw [fmt_u_loop_eq]
  exact ⟨fmt_loop_ne_nil 10 digit_char 9 _,
    fmt_loop_digits 10 digit_char (by decide) digit_of_digit_char 10 _⟩

theorem fmt_u32_scan (a : Nat) (ha : a < UINT32_MOD) :
    scan_unsigned 10 (fmt_u32 a) = scan_result.ok a [] := by
  have hval : digits_val 10 (fmt_u32 a) = a := by
    unfold fmt_u32
    rw [fmt_u_loop_eq, Nat.mod_eq_of_lt ha]
    exact digits_val_fmt_loop 10 digit_char (by decide) digit_of_digit_char 10 a
      (by unfold UINT32_MOD at ha; omega)
  have h := scan_unsigned_digits 10 (fmt_u32 a) [] (fmt_u32_digits a).1 (fmt_u32_digits a).2
    (by intro c hc; simp at hc) (by intro h; cases h) (by rw [hval]; exact ha)
  rw [hval, List.append_nil] at h
  exact h

/-- The text "0x<A> 0x<V>" fills both conversions with `A` and `V`. -/
theorem sscanf_addr_value_fmt (a v : Nat) (ha : a < UINT32_MOD) (hv : v < UINT32_MOD) :
    sscanf_addr_value ("0x".toList ++ fmt_x32 a ++ " 0x".toList ++ fmt_x32 v) =
      some (some (a, v)) := by
  have htext : "0x".toList ++ fmt_x32 a ++ " 0x".toList ++ fmt_x32 v =
      '0' :: 'x' :: (fmt_x32 a ++ ' ' :: '0' :: 'x' :: (fmt_x32 v ++ [])) := by
    simp
  have h1 := fmt_x32_scan a ha (' ' :: '0' :: 'x' :: (fmt_x32 v ++ [])) (Or.inr ⟨_, rfl⟩)
  have h2 := fmt_x32_scan v hv [] (Or.inl rfl)
  have hsk : skip_space (' ' :: '0' :: 'x' :: (fmt_x32 v ++ [])) =
      '0' :: 'x' :: (fmt_x32 v ++ []) := by
    simp [skip_space, List.dropWhile_cons, is_space]
  rw [htext]
  unfold sscanf_addr_value
  simp only [h1, hsk, h2]

/-- A bare decimal "<A>" does not fill the two hexadecimal conversions, and
fills the decimal one with `A`. -/
theorem sscanf_addr_fmt (a : Nat) (ha : a < UINT32_MOD) :
    sscanf_addr_value (fmt_u32 a) = some none ∧ sscanf_addr (fmt_u32 a) = some (some a) := by
  constructor
  · have hd := fmt_u32_digits a
    cases h : fmt_u32 a with
    | nil => exact absurd h hd.1
    | cons c s =>
      cases s with
      | nil =>
        unfold sscanf_addr_value
        split
        · rename_i heq
          simp at heq
        · rfl
      | cons c2 s' =>
        have h2 := digit_not_special 10 c2 (hd.2 c2 (by rw [h]; simp))
        unfold sscanf_addr_value
        split
        · rename_i heq
          simp only [List.cons.injEq] at heq
          exact absurd heq.2.1 h2.2.2.2.1
        · rfl
  · unfold sscanf_addr
    rw [fmt_u32_scan a ha]

/-! ## The `%u` conversion on a text -/

theorem digit_of_ten (c : Char) : (digit_of 10 c).isSome = is_digit c := by
  unfold digit_of is_digit
  by_cases h : 48 ≤ c.toNat ∧ c.toNat ≤ 57
  · have h1 : 48 ≤ c.toNat ∧ c.toNat ≤ 57 ∧ c.toNat - 48 < 10 := ⟨h.1, h.2, by omega⟩
    simp only [h1, and_self, if_true, Option.isSome_some, h, decide_True]
  · have h1 : ¬ (48 ≤ c.toNat ∧ c.toNat ≤ 57 ∧ c.toNat - 48 < 10) := fun h2 => h ⟨h2.1, h2.2.1⟩
    have h2 : ¬ (97 ≤ c.toNat ∧ c.toNat ≤ 102 ∧ c.toNat - 87 < 10) := by omega
    have h3 : ¬ (65 ≤ c.toNat ∧ c.toNat ≤ 70 ∧ c.toNat - 55 < 10) := by omega
    simp only [h1, h2, h3, if_false, Option.isSome_none, h, decide_False]

theorem digit_of_ten_val (c : Char) (h : is_digit c = true) :
    (digit_of 10 c).getD 0 = c.toNat - 48 := by
  unfold is_digit at h
  have h0 : 48 ≤ c.toNat ∧ c.toNat ≤ 57 := by simpa using h
  have h1 : 48 ≤ c.toNat ∧ c.toNat ≤ 57 ∧ c.toNat - 48 < 10 := ⟨h0.1, h0.2, by omega⟩
  unfold digit_of
  simp only [h1, and_self, if_true, Option.getD_some]

theorem digits_val_ten_foldl (ds : List Char) (h : ∀ c ∈ ds, is_digit c = true) (a : Nat) :
    ds.foldl (fun a c => 10 * a + (digit_of 10 c).getD 0) a =
      ds.foldl (fun a c => 10 * a + (c.toNat - 48)) a := by
  induction ds generalizing a with
  | nil => rfl
  | cons c cs ih =>
    simp only [List.foldl_cons]
    rw [digit_of_ten_val c (h c (List.mem_cons_self _ _))]
    exact ih (fun d hd => h d (List.mem_cons_of_mem _ hd)) _

theorem digits_val_ten (ds : List Char) (h : ∀ c ∈ ds, is_digit c = true) :
    digits_val 10 ds = dec_val ds := by
  unfold digits_val dec_val
  exact digits_val_ten_foldl ds h 0

theorem is_digit_not_special (c : Char) (h : is_digit c = true) :
    is_space c = false ∧ c ≠ '-' ∧ c ≠ '+' ∧ c ≠ 'x' ∧ c ≠ 'X' :=
  digit_not_special 10 c (by rw [digit_of_ten]; exact h)

/-- The sign item of `%u` in front of a digit. -/
theorem scan_sign_text (sg ds rest : List Char)
    (hsg : sg = [] ∨ sg = ['+'] ∨ sg = ['-'])
    (hne : ds ≠ []) (hds : ∀ c ∈ ds, is_digit c = true) :
    scan_sign (sg ++ (ds ++ rest)) = (decide (sg = ['-']), ds ++ rest) := by
  rcases hsg with rfl | rfl | rfl
  · cases ds with
    | nil => exact absurd rfl hne
    | cons c cs =>
      have := scan_sign_digit 10 c (cs ++ rest)
        (by rw [digit_of_ten]; exact hds c (List.mem_cons_self _ _))
      simpa using this
  · rfl
  · rfl

/-- Conversion `%u` on a text made of white space, an optional sign, a run of
decimal digits and a rest that does not continue the run. -/
theorem scan_unsigned_text (ws sg ds rest : List Char)
    (hws : ∀ c ∈ ws, is_space c = true)
    (hsg : sg = [] ∨ sg = ['+'] ∨ sg = ['-'])
    (hne : ds ≠ []) (hds : ∀ c ∈ ds, is_digit c = true)
    (hrest : ∀ c, rest.head? = some c → is_digit c = false) :
    scan_unsigned 10 (ws ++ sg ++ ds ++ rest) =
      if dec_val ds < UINT32_MOD then
        scan_result.ok
          (if sg = ['-'] then (UINT32_MOD - dec_val ds) % UINT32_MOD else dec_val ds) rest
      else scan_result.undefined := by
  have hassoc : ws ++ sg ++ ds ++ rest = ws ++ (sg ++ (ds ++ rest)) := by
    simp only [List.append_assoc]
  have hhead : ∀ c, (sg ++ (ds ++ rest)).head? = some c → is_space c = false := by
    intro c hc
    rcases hsg with rfl | rfl | rfl
    · cases ds with
      | nil => exact absurd rfl hne
      | cons d cs =>
        simp only [List.nil_append, List.cons_append, List.head?_cons, Option.some.injEq] at hc
        subst hc
        exact (is_digit_not_special d (hds d (List.mem_cons_self _ _))).1
    · simp only [List.cons_append, List.head?_cons, Option.some.injEq] at hc
      subst hc
      decide
    · simp only [List.cons_append, List.head?_cons, Option.some.injEq] at hc
      subst hc
      decide
  have hsk : skip_space (ws ++ (sg ++ (ds ++ rest))) = sg ++ (ds ++ rest) :=
    (takeWhile_append_digits is_space ws _ hws hhead).2
  have hsgn := scan_sign_text sg ds rest hsg hne hds
  have htd := takeWhile_append_digits (fun c => (digit_of 10 c).isSome) ds rest
    (fun c hc => by show (digit_of 10 c).isSome = true; rw [digit_of_ten]; exact hds c hc)
    (fun c hc => by show (digit_of 10 c).isSome = false; rw [digit_of_ten]; exact hrest c hc)
  have hval := digits_val_ten ds hds
  rw [hassoc]
  unfold scan_unsigned
  simp only [hsk, hsgn, htd.1, htd.2, hval, hne, if_false]
  have h10 : ¬ ((10 : Nat) = 16) := by decide
  simp only [h10, if_false, htd.1, htd.2, hval, hne, decide_eq_true_eq]

/-- Conversion `%u` on a text in which, after white space and an optional sign,
no decimal digit follows. -/
theorem scan_unsigned_no_number (ws sg rest : List Char)
    (hws : ∀ c ∈ ws, is_space c = true)
    (hsg : sg = [] ∨ sg = ['+'] ∨ sg = ['-'])
    (hrest : ∀ c, rest.head? = some c →
      is_digit c = false ∧ (sg = [] → is_space c = false ∧ c ≠ '+' ∧ c ≠ '-')) :
    scan_unsigned 10 (ws ++ sg ++ rest) = scan_result.fail := by
  have hassoc : ws ++ sg ++ rest = ws ++ (sg ++ rest) := by
    simp only [List.append_assoc]
  have hhead : ∀ c, (sg ++ rest).head? = some c → is_space c = false := by
    intro c hc
    rcases hsg with rfl | rfl | rfl
    · exact ((hrest c (by simpa using hc)).2 rfl).1
    · simp only [List.cons_append, List.head?_cons, Option.some.injEq] at hc
      subst hc
      decide
    · simp only [List.cons_append, List.head?_cons, Option.some.injEq] at hc
      subst hc
      decide
  have hsk : skip_space (ws ++ (sg ++ rest)) = sg ++ rest :=
    (takeWhile_append_digits is_space ws _ hws hhead).2
  have hsgn : (scan_sign (sg ++ rest)).2 = rest := by
    rcases hsg with rfl | rfl | rfl
    · cases rest with
      | nil => rfl
      | cons c r =>
        have h := (hrest c rfl).2 rfl
        simp only [List.nil_append]
        unfold scan_sign
        split
        · rename_i heq; cases heq; exact absurd rfl h.2.2
        · rename_i heq; cases heq; exact absurd rfl h.2.1
        · rfl
    · rfl
    · rfl
  have htd : rest.takeWhile (fun c => (digit_of 10 c).isSome) = [] := by
    cases rest with
    | nil => rfl
    | cons c r =>
      have h := (hrest c rfl).1
      simp only [List.takeWhile_cons, digit_of_ten, h]
      rfl
  rw [hassoc]
  unfold scan_unsigned
  have h10 : ¬ ((10 : Nat) = 16) := by decide
  simp only [hsk, hsgn, h10, if_false, htd, if_true]

/-- A text that does not start with "0x" fills neither conversion of
"0x%x 0x%x". -/
theorem sscanf_addr_value_other (buf : List Char) (h : ∀ r, buf ≠ '0' :: 'x' :: r) :
    sscanf_addr_value buf = some none := by
  unfold sscanf_addr_value
  split
  · rename_i r
    exact absurd rfl (h r)
  · rfl

/-- On a text starting with "0x" the conversion `%u` reads the leading 0. -/
theorem sscanf_addr_hex_start (r : List Char) :
    sscanf_addr ('0' :: 'x' :: r) = some (some 0) := by
  have h := scan_unsigned_text [] [] ['0'] ('x' :: r) (by intro c hc; cases hc) (Or.inl rfl)
    (by decide) (by decide)
    (by
      intro c hc
      simp only [List.head?_cons, Option.some.injEq] at hc
      subst hc
      decide)
  simp only [List.nil_append, List.singleton_append] at h
  unfold sscanf_addr
  rw [h]
  rfl

/-- A hexadecimal address alone, "0x<A>", does not fill the second conversion
of "0x%x 0x%x". -/
theorem sscanf_addr_value_address_alone (a : Nat) (ha : a < UINT32_MOD) :
    sscanf_addr_value ("0x".toList ++ fmt_x32 a) = some none := by
  have htext : "0x".toList ++ fmt_x32 a = '0' :: 'x' :: (fmt_x32 a ++ []) := by simp
  have h1 := fmt_x32_scan a ha [] (Or.inl rfl)
  rw [htext]
  unfold sscanf_addr_value
  simp only [h1]
  rfl

theorem split_run (p : Char → Bool) (s : List Char) :
    (∀ c ∈ s.takeWhile p, p c = true) ∧
    (∀ c, (s.dropWhile p).head? = some c → p c = false) ∧
    s.takeWhile p ++ s.dropWhile p = s := by
  induction s with
  | nil => exact ⟨(fun c hc => nomatch hc), (fun c hc => nomatch hc), rfl⟩
  | cons a s ih =>
    by_cases ha : p a = true
    · simp only [List.takeWhile_cons, List.dropWhile_cons, ha, if_true]
      refine ⟨?_, ih.2.1, by rw [List.cons_append, ih.2.2]⟩
      intro c hc
      rcases List.mem_cons.1 hc with rfl | hc
      · exact ha
      · exact ih.1 c hc
    · have ha2 : p a = false := by simpa using ha
      simp only [List.takeWhile_cons, List.dropWhile_cons, ha2, Bool.false_eq_true, if_false]
      refine ⟨(fun c hc => nomatch hc), ?_, rfl⟩
      intro c hc
      simp only [List.head?_cons, Option.some.injEq] at hc
      subst hc
      exact ha2

/-- Every text starts with "0x", or is white space, an optional sign and a run
of decimal digits with a rest that does not continue it, or has no decimal digit
after its white space and optional sign. -/
theorem debug_text_shapes (buf : List Char) :
    (∃ r, buf = '0' :: 'x' :: r) ∨
    (∃ ws sg ds rest, buf = ws ++ sg ++ ds ++ rest ∧
      (∀ c ∈ ws, is_space c = true) ∧ (sg = [] ∨ sg = ['+'] ∨ sg = ['-']) ∧
      ds ≠ [] ∧ (∀ c ∈ ds, is_digit c = true) ∧
      (∀ c, rest.head? = some c → is_digit c = false) ∧
      (∀ r, buf ≠ '0' :: 'x' :: r)) ∨
    (∃ ws sg rest, buf = ws ++ sg ++ rest ∧
      (∀ c ∈ ws, is_space c = true) ∧ (sg = [] ∨ sg = ['+'] ∨ sg = ['-']) ∧
      (∀ c, rest.head? = some c →
        is_digit c = false ∧ (sg = [] → is_space c = false ∧ c ≠ '+' ∧ c ≠ '-'))) := by
  by_cases h0x : ∃ r, buf = '0' :: 'x' :: r
  · exact Or.inl h0x
  · right
    have h0 : ∀ r, buf ≠ '0' :: 'x' :: r := fun r hr => h0x ⟨r, hr⟩
    obtain ⟨hws, hrem, hsplit⟩ := split_run is_space buf
    -- the sign and what follows it
    have hsign : ∃ sg rem, buf.dropWhile is_space = sg ++ rem ∧
        (sg = [] ∨ sg = ['+'] ∨ sg = ['-']) ∧
        (sg = [] → ∀ c, rem.head? = some c → is_space c = false ∧ c ≠ '+' ∧ c ≠ '-') := by
      cases hd : buf.dropWhile is_space with
      | nil => exact ⟨[], [], rfl, Or.inl rfl, fun _ c hc => by cases hc⟩
      | cons c r =>
        by_cases hp : c = '+'
        · exact ⟨['+'], r, by rw [hp]; rfl, Or.inr (Or.inl rfl), fun h => by cases h⟩
        · by_cases hm : c = '-'
          · exact ⟨['-'], r, by rw [hm]; rfl, Or.inr (Or.inr rfl), fun h => by cases h⟩
          · refine ⟨[], c :: r, rfl, Or.inl rfl, fun _ d hd2 => ?_⟩
            simp only [List.head?_cons, Option.some.injEq] at hd2
            subst hd2
            exact ⟨hrem c (by rw [hd]; rfl), hp, hm⟩
    obtain ⟨sg, rem, hrem_eq, hsg, hsg0⟩ := hsign
    obtain ⟨hds, hrest, hsplit2⟩ := split_run is_digit rem
    have hbuf : buf = buf.takeWhile is_space ++ sg ++ rem := by
      rw [List.append_assoc, ← hrem_eq, hsplit]
    by_cases hne : rem.takeWhile is_digit = []
    · right
      refine ⟨buf.takeWhile is_space, sg, rem, hbuf, hws, hsg, ?_⟩
      intro c hc
      refine ⟨?_, fun h => hsg0 h c hc⟩
      have hdrop : rem.dropWhile is_digit = rem := by
        have := hsplit2
        rw [hne, List.nil_append] at this
        exact this
      exact hrest c (by rw [hdrop]; exact hc)
    · left
      refine ⟨buf.takeWhile is_space, sg, rem.takeWhile is_digit, rem.dropWhile is_digit, ?_,
        hws, hsg, hne, hds, hrest, h0⟩
      rw [List.append_assoc (buf.takeWhile is_space ++ sg), hsplit2]
      exact hbuf

/-! ## Direct register access -/

/-- C27 as stated fails for a text that matches neither form but begins with a
decimal digit: writing "0x10" (a hexadecimal address without value) does not
return `-EINVAL`; the `%u` conversion reads the leading "0", the read cursor
changes from 7 to 0 and the length 4 is returned. -/
theorem debug_reg_write_hex_address_alone :
    sscanf_addr_value "0x10".toList = some none ∧
    "0x10".toList.all (fun c => (digit_of 10 c).isSome) = false ∧
    debug_reg_record.active_reg_addr = 7 ∧
    (debug_reg_write debug_reg_record "0x10".toList 4 []).map
      (fun r => (r.1, r.2.1.active_reg_addr, r.2.2)) = some (4, 0, []) := by
  refine ⟨by decide, by decide, by decide, by decide⟩

/-- C27, amended: on a device exposing both debug register callbacks,
(1) writing "0x<A> 0x<V>" (hexadecimal as `%x` prints it) calls the
register-write callback with `A` and `V`, leaves the read cursor unchanged and
returns the input length, or the callback's result when that is negative;
(2) writing the bare decimal "<A>" sets the read cursor to `A`, returns the
input length and calls nothing, and a read then calls the register-read
callback at the cursor and, unless the callback fails, emits the value as an
unsigned decimal string (cut to the buffer);
(3) a text that does not start with "0x" and is made of white space `ws`, an
optional sign `sg`, a run of decimal digits `ds` and a rest that does not
continue the run sets the read cursor to the number `ds` denotes if that is
below 2^32 (after a minus sign to 2^32 minus the number, modulo 2^32), returns
the input length and calls nothing, and is undefined for a larger number;
(4) a text that starts with "0x" is undefined, or sets the read cursor to 0 and
returns the input length, or calls the register-write callback as in (1); the
address alone, "0x<A>", sets the cursor to 0;
(5) a text in which, after white space and an optional sign, no decimal digit
follows returns `-EINVAL`, leaves the cursor unchanged and calls nothing;
(6) every text is of the shape of (3), (4) or (5). -/
theorem debug_reg_protocol (dev : iio_dev_priv) (f : Nat → Nat → Int × Nat)
    (g : Nat → Nat → Nat → Int) (len : Nat) (tr : List iio_call)
    (hf : dev.dev_descriptor.debug_reg_read = some f)
    (hg : dev.dev_descriptor.debug_reg_write = some g) :
    (∀ a v, a < UINT32_MOD → v < UINT32_MOD →
      debug_reg_write dev ("0x".toList ++ fmt_x32 a ++ " 0x".toList ++ fmt_x32 v) len tr =
        some (if IS_ERR_VALUE (g dev.dev_instance a v) then g dev.dev_instance a v
              else int_of_u32 len,
          dev, tr ++ [iio_call.debug_reg_write dev.dev_instance a v])) ∧
    (∀ a, a < UINT32_MOD →
      debug_reg_write dev (fmt_u32 a) len tr =
        some (int_of_u32 len, { dev with active_reg_addr := a }, tr) ∧
      debug_reg_read { dev with active_reg_addr := a } len tr =
        (if IS_ERR_VALUE (f dev.dev_instance a).1 then
          some ((f dev.dev_instance a).1, [],
            tr ++ [iio_call.debug_reg_read dev.dev_instance a])
         else
          some ((c_snprintf len (fmt_u32 (f dev.dev_instance a).2)).1,
            (c_snprintf len (fmt_u32 (f dev.dev_instance a).2)).2,
            tr ++ [iio_call.debug_reg_read dev.dev_instance a]))) ∧
    (∀ ws sg ds rest : List Char,
      (∀ c ∈ ws, is_space c = true) → (sg = [] ∨ sg = ['+'] ∨ sg = ['-']) →
      ds ≠ [] → (∀ c ∈ ds, is_digit c = true) →
      (∀ c, rest.head? = some c → is_digit c = false) →
      (∀ r, ws ++ sg ++ ds ++ rest ≠ '0' :: 'x' :: r) →
      (dec_val ds < UINT32_MOD →
        debug_reg_write dev (ws ++ sg ++ ds ++ rest) len tr =
          some (int_of_u32 len,
            { dev with
              active_reg_addr :=
                if sg = ['-'] then (UINT32_MOD - dec_val ds) % UINT32_MOD else dec_val ds },
            tr)) ∧
      (UINT32_MOD ≤ dec_val ds →
        debug_reg_write dev (ws ++ sg ++ ds ++ rest) len tr = none)) ∧
    ((∀ r : List Char,
        debug_reg_write dev ('0' :: 'x' :: r) len tr = none ∨
        debug_reg_write dev ('0' :: 'x' :: r) len tr =
          some (int_of_u32 len, { dev with active_reg_addr := 0 }, tr) ∨
        ∃ a v, debug_reg_write dev ('0' :: 'x' :: r) len tr =
          some (if IS_ERR_VALUE (g dev.dev_instance a v) then g dev.dev_instance a v
                else int_of_u32 len,
            dev, tr ++ [iio_call.debug_reg_write dev.dev_instance a v])) ∧
      (∀ a, a < UINT32_MOD →
        debug_reg_write dev ("0x".toList ++ fmt_x32 a) len tr =
          some (int_of_u32 len, { dev with active_reg_addr := 0 }, tr))) ∧
    (∀ ws sg rest : List Char,
      (∀ c ∈ ws, is_space c = true) → (sg = [] ∨ sg = ['+'] ∨ sg = ['-']) →
      (∀ c, rest.head? = some c →
        is_digit c = false ∧ (sg = [] → is_space c = false ∧ c ≠ '+' ∧ c ≠ '-')) →
      debug_reg_write dev (ws ++ sg ++ rest) len tr = some (-EINVAL, dev, tr)) ∧
    (∀ buf : List Char,
      (∃ r, buf = '0' :: 'x' :: r) ∨
      (∃ ws sg ds rest, buf = ws ++ sg ++ ds ++ rest ∧
        (∀ c ∈ ws, is_space c = true) ∧ (sg = [] ∨ sg = ['+'] ∨ sg = ['-']) ∧
        ds ≠ [] ∧ (∀ c ∈ ds, is_digit c = true) ∧
        (∀ c, rest.head? = some c → is_digit c = false) ∧
        (∀ r, buf ≠ '0' :: 'x' :: r)) ∨
      (∃ ws sg rest, buf = ws ++ sg ++ rest ∧
        (∀ c ∈ ws, is_space c = true) ∧ (sg = [] ∨ sg = ['+'] ∨ sg = ['-']) ∧
        (∀ c, rest.head? = some c →
          is_digit c = false ∧ (sg = [] → is_space c = false ∧ c ≠ '+' ∧ c ≠ '-')))) := by
  refine ⟨?_, ?_, ?_, ⟨?_, ?_⟩, ?_, debug_text_shapes⟩
  · intro a v ha hv
    unfold debug_reg_write
    rw [sscanf_addr_value_fmt a v ha hv]
    simp only [hg]
    split <;> rfl
  · intro a ha
    constructor
    · unfold debug_reg_write
      rw [(sscanf_addr_fmt a ha).1]
      simp only [(sscanf_addr_fmt a ha).2]
    · unfold debug_reg_read
      simp only [hf]
  · intro ws sg ds rest hws hsg hne hds hrest h0x
    have h1 := sscanf_addr_value_other _ h0x
    have h2 := scan_unsigned_text ws sg ds rest hws hsg hne hds hrest
    constructor
    · intro hlt
      rw [if_pos hlt] at h2
      unfold debug_reg_write
      rw [h1]
      simp only [sscanf_addr, h2]
    · intro hge
      rw [if_neg (by omega)] at h2
      unfold debug_reg_write
      rw [h1]
      simp only [sscanf_addr, h2]
  · intro r
    cases h1 : sscanf_addr_value ('0' :: 'x' :: r) with
    | none =>
      left
      unfold debug_reg_write
      rw [h1]
    | some o =>
      cases o with
      | none =>
        right; left
        unfold debug_reg_write
        rw [h1]
        simp only [sscanf_addr_hex_start r]
      | some av =>
        right; right
        refine ⟨av.1, av.2, ?_⟩
        unfold debug_reg_write
        rw [h1]
        simp only [hg]
        split <;> rfl
  · intro a ha
    have h1 := sscanf_addr_value_address_alone a ha
    have h2 : "0x".toList ++ fmt_x32 a = '0' :: 'x' :: fmt_x32 a := rfl
    unfold debug_reg_write
    rw [h1, h2]
    simp only [sscanf_addr_hex_start (fmt_x32 a)]
  · intro ws sg rest hws hsg hrest
    have h0x : ∀ r, ws ++ sg ++ rest ≠ '0' :: 'x' :: r := by
      intro r hr
      have hz : is_digit '0' = true := by decide
      cases ws with
      | cons c ws' =>
        simp only [List.cons_append, List.cons.injEq] at hr
        have := hws c (List.mem_cons_self _ _)
        rw [hr.1] at this
        exact absurd this (by decide)
      | nil =>
        rcases hsg with rfl | rfl | rfl
        · simp only [List.nil_append] at hr
          have := (hrest '0' (by rw [hr]; rfl)).1
          rw [hz] at this
          exact absurd this (by decide)
        · simp only [List.nil_append, List.cons_append, List.cons.injEq] at hr
          exact absurd hr.1 (by decide)
        · simp only [List.nil_append, List.cons_append, List.cons.injEq] at hr
          exact absurd hr.1 (by decide)
    have h1 := sscanf_addr_value_other _ h0x
    have h2 := scan_unsigned_no_number ws sg rest hws hsg hrest
    unfold debug_reg_write
    rw [h1]
    simp only [sscanf_addr, h2]

/-- C27, amended, on `debug_reg_record`: "0x10 0x20" of length 9 writes
register 16 with 32, "18" sets the cursor to 18, the read that follows prints
the value the callback yields, "12abc" sets the cursor to 12, "-5" sets it to
4294967291, "0x10" sets it to 0, and "abc" is refused. -/
theorem debug_reg_protocol_witness :
    debug_reg_write debug_reg_record
        ("0x".toList ++ fmt_x32 16 ++ " 0x".toList ++ fmt_x32 32) 9 [] =
      some (9, debug_reg_record, [iio_call.debug_reg_write 3 16 32]) ∧
    debug_reg_write debug_reg_record (fmt_u32 18) 2 [] =
      some (2, { debug_reg_record with active_reg_addr := 18 }, []) ∧
    debug_reg_read { debug_reg_record with active_reg_addr := 18 } 16 [] =
      some (1, "0".toList, [iio_call.debug_reg_read 3 18]) ∧
    debug_reg_write debug_reg_record "12abc".toList 5 [] =
      some (5, { debug_reg_record with active_reg_addr := 12 }, []) ∧
    debug_reg_write debug_reg_record "-5".toList 2 [] =
      some (2, { debug_reg_record with active_reg_addr := 4294967291 }, []) ∧
    debug_reg_write debug_reg_record ("0x".toList ++ fmt_x32 16) 4 [] =
      some (4, { debug_reg_record with active_reg_addr := 0 }, []) ∧
    debug_reg_write debug_reg_record "abc".toList 3 [] = some (-EINVAL, debug_reg_record, []) ∧
    "0x".toList ++ fmt_x32 16 ++ " 0x".toList ++ fmt_x32 32 = "0x10 0x20".toList ∧
    fmt_u32 18 = "18".toList ∧ "0x".toList ++ fmt_x32 16 = "0x10".toList :=
  have h := debug_reg_protocol debug_reg_record (fun _ _ => (0, 0)) (fun _ _ _ => 0) 9 [] rfl rfl
  have h2 := debug_reg_protocol debug_reg_record (fun _ _ => (0, 0)) (fun _ _ _ => 0) 2 [] rfl
    rfl
  have h16 := debug_reg_protocol debug_reg_record (fun _ _ => (0, 0)) (fun _ _ _ => 0) 16 [] rfl
    rfl
  have h3 := debug_reg_protocol debug_reg_record (fun _ _ => (0, 0)) (fun _ _ _ => 0) 3 [] rfl
    rfl
  have h4 := debug_reg_protocol debug_reg_record (fun _ _ => (0, 0)) (fun _ _ _ => 0) 4 [] rfl
    rfl
  have h5 := debug_reg_protocol debug_reg_record (fun _ _ => (0, 0)) (fun _ _ _ => 0) 5 [] rfl
    rfl
  ⟨h.1 16 32 (by decide) (by decide), (h2.2.1 18 (by decide)).1, (h16.2.1 18 (by decide)).2,
    (h5.2.2.1 [] [] "12".toList "abc".toList (by decide) (by decide) (by decide) (by decide)
      (by decide) (by intro r hr; cases hr)).1 (by decide),
    (h2.2.2.1 [] ['-'] "5".toList [] (by decide) (by decide) (by decide) (by decide)
      (by decide) (by intro r hr; cases hr)).1 (by decide),
    h4.2.2.2.1.2 16 (by decide),
    h3.2.2.2.2.1 [] [] "abc".toList (by decide) (by decide) (by decide),
    by decide, by decide, by decide⟩

/-! ## Guards of `iio_close_dev` -/

/-- C24 fails on the unknown-device guard of `iio_close_dev`: for a device name
that matches no registered identifier it returns `FAILURE` (-1), where
`iio_open_dev` returns `-ENODEV`; for a known device that is not
buffer-capable both return `-EINVAL`.  In each case the state is returned as
it was. -/
theorem iio_close_dev_guards (env : iio_env) (desc : iio_desc) (device : List Char)
    (samples mask : Nat) (cyclic : Bool) :
    (get_iio_device desc device = none →
      iio_close_dev desc device = some (FAILURE, desc) ∧
      iio_open_dev env desc device samples mask cyclic = some (-ENODEV, desc) ∧
      FAILURE ≠ -ENODEV) ∧
    (∀ i dev, get_iio_device desc device = some i → desc.devs[i]? = some dev →
      dev.buffer.initalized = false →
      iio_close_dev desc device = some (-EINVAL, desc) ∧
      iio_open_dev env desc device samples mask cyclic = some (-EINVAL, desc)) := by
  constructor
  · intro h
    unfold iio_close_dev iio_open_dev
    simp only [h]
    exact ⟨trivial, trivial, by decide⟩
  · intro i dev hget hdev hinit
    unfold iio_close_dev iio_open_dev
    simp only [hget, hdev, hinit, Bool.not_false, if_true]
    exact ⟨trivial, trivial⟩

/-- C24 on the registry `iio_init_devs` builds from `two_plain_devs` (devices
without buffer callbacks): the unregistered name "iio:device7" and the
registered, not buffer-capable "iio:device0". -/
theorem iio_close_dev_guards_witness :
    get_iio_device (iio_init_devs env_ok {} two_plain_devs).2 "iio:device7".toList = none ∧
    iio_close_dev (iio_init_devs env_ok {} two_plain_devs).2 "iio:device7".toList =
      some (FAILURE, (iio_init_devs env_ok {} two_plain_devs).2) ∧
    iio_open_dev env_ok (iio_init_devs env_ok {} two_plain_devs).2 "iio:device7".toList 4 1
        false = some (-ENODEV, (iio_init_devs env_ok {} two_plain_devs).2) ∧
    iio_close_dev (iio_init_devs env_ok {} two_plain_devs).2 "iio:device0".toList =
      some (-EINVAL, (iio_init_devs env_ok {} two_plain_devs).2) ∧
    iio_open_dev env_ok (iio_init_devs env_ok {} two_plain_devs).2 "iio:device0".toList 4 1
        false = some (-EINVAL, (iio_init_devs env_ok {} two_plain_devs).2) :=
  have h7 := (iio_close_dev_guards env_ok (iio_init_devs env_ok {} two_plain_devs).2
    "iio:device7".toList 4 1 false).1 (by decide)
  have h0 := (iio_close_dev_guards env_ok (iio_init_devs env_ok {} two_plain_devs).2
    "iio:device0".toList 4 1 false).2 0
    ((iio_init_devs env_ok {} two_plain_devs).2.devs.getD 0 {}) (by decide) rfl rfl
  ⟨by decide, h7.1, h7.2.1, h0.1, h0.2⟩

/-! ## Trigger notification -/

theorem iio_get_trig_idx_first (desc : iio_desc) (name : List Char) (k : Nat)
    (t : iio_trig_priv) (hlen : desc.trigs.length < UINT32_MOD)
    (hk : desc.trigs[k]? = some t) (hname : t.name = name)
    (hfirst : ∀ j, j < k → ∀ y : iio_trig_priv, desc.trigs[j]? = some y → y.name ≠ name) :
    iio_get_trig_idx desc (some name) = k ∧ k ≠ NO_TRIGGER := by
  have hf := find_from_first (fun (t : iio_trig_priv) => decide (t.name = name)) desc.trigs 0 k t
    hk (by simpa using hname) (fun j hj y hy => by simpa using hfirst j hj y hy)
  have hkl := getElem?_lt_of_some _ _ _ hk
  have hku : k < UINT32_MOD := by omega
  unfold iio_get_trig_idx
  simp only [hf, Nat.zero_add, Nat.mod_eq_of_lt hku]
  refine ⟨trivial, ?_⟩
  unfold NO_TRIGGER
  unfold UINT32_MOD at hlen
  omega

theorem iio_get_trig_idx_absent (desc : iio_desc) (name : List Char)
    (h : ∀ t ∈ desc.trigs, t.name ≠ name) : iio_get_trig_idx desc (some name) = NO_TRIGGER := by
  have hf : find_from (fun (t : iio_trig_priv) => decide (t.name = name)) desc.trigs 0 = none :=
    find_from_eq_none _ _ _ (fun t ht => by simpa using h t ht)
  unfold iio_get_trig_idx
  simp only [hf]

/-- C28: `iio_trigger_notify(name)` returns `SUCCESS` and sets the fired flag of
the first trigger registered under exactly that name, every other trigger and
the rest of the state being unchanged; it returns `-EINVAL` and changes nothing
when no trigger has the name (or the name is null); and a second notify of the
same name returns the same result and state as the first. -/
theorem iio_trigger_notify_sets_flag (desc : iio_desc) (name : List Char)
    (hlen : desc.trigs.length < UINT32_MOD) :
    (∀ (k : Nat) (t : iio_trig_priv), desc.trigs[k]? = some t → t.name = name →
      (∀ j, j < k → ∀ y : iio_trig_priv, desc.trigs[j]? = some y → y.name ≠ name) →
      iio_trigger_notify desc (some name) =
        some (SUCCESS, { desc with trigs := desc.trigs.set k { t with triggered := true } })) ∧
    ((∀ t ∈ desc.trigs, t.name ≠ name) →
      iio_trigger_notify desc (some name) = some (-EINVAL, desc)) ∧
    iio_trigger_notify desc none = some (-EINVAL, desc) ∧
    (∀ r d1, iio_trigger_notify desc (some name) = some (r, d1) →
      iio_trigger_notify d1 (some name) = some (r, d1)) := by
  have hfound : ∀ (d : iio_desc) (k : Nat) (t : iio_trig_priv), d.trigs.length < UINT32_MOD →
      d.trigs[k]? = some t → t.name = name →
      (∀ j, j < k → ∀ y : iio_trig_priv, d.trigs[j]? = some y → y.name ≠ name) →
      iio_trigger_notify d (some name) =
        some (SUCCESS, { d with trigs := d.trigs.set k { t with triggered := true } }) := by
    intro d k t hl hk hname hfirst
    obtain ⟨hidx, hne⟩ := iio_get_trig_idx_first d name k t hl hk hname hfirst
    unfold iio_trigger_notify
    simp only [hidx, hne, if_false, hk]
  have habsent : ∀ d : iio_desc, (∀ t ∈ d.trigs, t.name ≠ name) →
      iio_trigger_notify d (some name) = some (-EINVAL, d) := by
    intro d h
    unfold iio_trigger_notify
    simp only [iio_get_trig_idx_absent d name h, if_true]
  have hnull : iio_trigger_notify desc none = some (-EINVAL, desc) := by
    unfold iio_trigger_notify iio_get_trig_idx
    simp only [if_true]
  refine ⟨fun k t => hfound desc k t hlen, habsent desc, hnull, ?_⟩
  intro r d1 h
  cases hf : find_from (fun (t : iio_trig_priv) => decide (t.name = name)) desc.trigs 0 with
  | none =>
    have hall := find_from_none _ _ _ hf
    have hab : ∀ t ∈ desc.trigs, t.name ≠ name := fun t ht => by simpa using hall t ht
    rw [habsent desc hab] at h
    simp only [Option.some.injEq, Prod.mk.injEq] at h
    obtain ⟨rfl, rfl⟩ := h
    exact habsent desc hab
  | some k =>
    obtain ⟨-, hk2, ⟨t, hkt, hpt⟩, hfirst⟩ := find_from_some _ _ _ _ hf
    simp only [Nat.sub_zero] at hkt hfirst hk2
    have hname : t.name = name := by simpa using hpt
    have hfirst' : ∀ j, j < k → ∀ y : iio_trig_priv, desc.trigs[j]? = some y → y.name ≠ name :=
      fun j hj y hy => by simpa using hfirst j hj y hy
    rw [hfound desc k t hlen hkt hname hfirst'] at h
    simp only [Option.some.injEq, Prod.mk.injEq] at h
    obtain ⟨rfl, rfl⟩ := h
    have hk1 : (desc.trigs.set k { t with triggered := true })[k]? =
        some { t with triggered := true } := by
      rw [List.getElem?_set_self hk2]
    have hfirst1 : ∀ j, j < k → ∀ y : iio_trig_priv,
        (desc.trigs.set k { t with triggered := true })[j]? = some y → y.name ≠ name := by
      intro j hj y hy
      rw [List.getElem?_set_ne (by omega)] at hy
      exact hfirst' j hj y hy
    have h2 := hfound { desc with trigs := desc.trigs.set k { t with triggered := true } } k
      { t with triggered := true } (by simpa using hlen) hk1 hname hfirst1
    rw [h2]
    simp

/-- C28 on `trig_registry`: notifying "t" sets the flag of trigger 0, a
second notify changes nothing more, and "u" is refused. -/
theorem iio_trigger_notify_sets_flag_witness :
    trig_registry.trigs.length < UINT32_MOD ∧
    (iio_trigger_notify trig_registry (some "t".toList)).map
        (fun r => (r.1, r.2.trigs.map (fun t => t.triggered))) = some (SUCCESS, [true]) ∧
    (iio_trigger_notify trig_registry (some "u".toList)).map (fun r => r.1) = some (-EINVAL) ∧
    (∀ r d1, iio_trigger_notify trig_registry (some "t".toList) = some (r, d1) →
      iio_trigger_notify d1 (some "t".toList) = some (r, d1)) :=
  ⟨by decide, by decide, by decide,
    (iio_trigger_notify_sets_flag trig_registry "t".toList (by decide)).2.2.2⟩

/-! ## One step of the connection multiplexer -/

theorem iio_step_empty (env : iio_env) (desc : iio_desc) (hwf : trig_idx_ok desc)
    (hq : desc.conns.data.length < 4) :
    ∃ d', iio_step env desc = some (-EAGAIN, d') ∧ d'.conns = desc.conns ∧
      codec_calls d'.trace = codec_calls desc.trace := by
  unfold iio_step
  rw [iio_process_triggers_eq desc hwf]
  simp only [_pop_conn, cb_size, hq, if_true, IS_ERR_VALUE, EAGAIN]
  refine ⟨_, rfl, rfl, ?_⟩
  simp only [codec_calls_append, codec_calls_handlers, List.append_nil]

theorem iio_step_drop (env : iio_env) (desc : iio_desc) (id : Nat) (rest : List Nat)
    (hwf : trig_idx_ok desc) (hq : desc.conns.data = u32_bytes id ++ rest)
    (hid : id < UINT32_MOD) (hc : env.iiod_conn_step id = -ENOTCONN) :
    ∃ d', iio_step env desc = some (env.iiod_conn_step id, d') ∧
      d'.conns.data = rest ∧ d'.conns.size = desc.conns.size ∧
      codec_calls d'.trace = codec_calls desc.trace ++ [id] := by
  have hlen : (u32_bytes id).length = 4 := rfl
  have htake : List.take 4 (u32_bytes id ++ rest) = u32_bytes id := by
    rw [← hlen, List.take_left]
  have hdrop : List.drop 4 (u32_bytes id ++ rest) = rest := by
    rw [← hlen, List.drop_left]
  have h4 : ¬ (u32_bytes id ++ rest).length < 4 := by
    simp only [List.length_append, hlen]; omega
  have h4' : 4 ≤ (u32_bytes id ++ rest).length := by omega
  unfold iio_step
  rw [iio_process_triggers_eq desc hwf]
  simp only [_pop_conn, cb_size, cb_read, hq, h4, if_false, h4', if_true, htake, hdrop,
    IS_ERR_VALUE, SUCCESS, lt_self_iff_false, decide_False, Bool.false_eq_true,
    u32_of_bytes_u32_bytes id hid, hc]
  refine ⟨_, rfl, rfl, rfl, ?_⟩
  simp only [codec_calls_append, codec_calls_handlers, List.append_nil]
  rfl

theorem conn_queue_cons (id : Nat) (ids : List Nat) :
    conn_queue (id :: ids) = u32_bytes id ++ conn_queue ids := by
  simp [conn_queue]

theorem conn_queue_snoc (id : Nat) (ids : List Nat) :
    conn_queue (ids ++ [id]) = conn_queue ids ++ u32_bytes id := by
  simp [conn_queue]

/-- C29: `iio_step` on a queue without a full id returns `-EAGAIN` and does not
call the codec; on a queue holding the ids `id :: ids` it calls the codec on
`id` once and returns the codec's result; if that result is `-ENOTCONN` the
queue afterwards holds `ids` (so `id` is absent when the ids are distinct),
for every other result it holds `ids` followed by `id`. -/
theorem iio_step_outcomes (env : iio_env) (desc : iio_desc) (hwf : trig_idx_ok desc) :
    (desc.conns.data.length < 4 →
      ∃ d', iio_step env desc = some (-EAGAIN, d') ∧ d'.conns = desc.conns ∧
        codec_calls d'.trace = codec_calls desc.trace) ∧
    (∀ (id : Nat) (ids : List Nat), desc.conns.data = conn_queue (id :: ids) →
      id < UINT32_MOD → desc.conns.data.length ≤ desc.conns.size →
      ∃ d', iio_step env desc = some (env.iiod_conn_step id, d') ∧
        codec_calls d'.trace = codec_calls desc.trace ++ [id] ∧
        d'.conns.size = desc.conns.size ∧
        d'.conns.data =
          conn_queue (if env.iiod_conn_step id = -ENOTCONN then ids else ids ++ [id]) ∧
        (env.iiod_conn_step id = -ENOTCONN → (id :: ids).Nodup →
          d'.conns.data = conn_queue ids ∧ id ∉ ids)) := by
  refine ⟨iio_step_empty env desc hwf, ?_⟩
  intro id ids hq hid hcap
  rw [conn_queue_cons] at hq
  by_cases hc : env.iiod_conn_step id = -ENOTCONN
  · obtain ⟨d', h1, h2, h3, h4⟩ := iio_step_drop env desc id (conn_queue ids) hwf hq hid hc
    refine ⟨d', h1, h4, h3, ?_, ?_⟩
    · rw [if_pos hc]; exact h2
    · intro _ hn
      exact ⟨h2, (List.nodup_cons.1 hn).1⟩
  · have hcap' : (conn_queue ids).length + 4 ≤ desc.conns.size := by
      rw [hq] at hcap
      have hl : (u32_bytes id).length = 4 := rfl
      rw [List.length_append, hl] at hcap
      omega
    obtain ⟨d', h1, h2, h3, -, h5⟩ :=
      iio_step_rotate env desc id (conn_queue ids) hwf hq hcap' hid hc
    refine ⟨d', h1, h5, h3, ?_, ?_⟩
    · rw [if_neg hc, conn_queue_snoc]; exact h2
    · intro h6
      exact absurd h6 hc

/-- C29 on `conn_registry` (queue 1, 2, 3): with a codec that reports
`-ENOTCONN` the queue afterwards is 2, 3; with a codec that reports success it
is 2, 3, 1. -/
theorem iio_step_outcomes_witness :
    trig_idx_ok conn_registry ∧
    (∃ d', iio_step { env_ok with iiod_conn_step := fun _ => -ENOTCONN } conn_registry =
        some (-ENOTCONN, d') ∧
      codec_calls d'.trace = codec_calls conn_registry.trace ++ [1] ∧
      d'.conns.data = conn_queue [2, 3]) ∧
    (∃ d', iio_step env_ok conn_registry = some (0, d') ∧
      codec_calls d'.trace = codec_calls conn_registry.trace ++ [1] ∧
      d'.conns.data = conn_queue [2, 3, 1]) := by
  have hwf : trig_idx_ok conn_registry := by decide
  refine ⟨hwf, ?_, ?_⟩
  · obtain ⟨d', h1, h2, -, h4, -⟩ :=
      (iio_step_outcomes { env_ok with iiod_conn_step := fun _ => -ENOTCONN } conn_registry
        hwf).2 1 [2, 3] (by decide) (by decide) (by decide)
    exact ⟨d', h1, h2, h4⟩
  · obtain ⟨d', h1, h2, -, h4, -⟩ :=
      (iio_step_outcomes env_ok conn_registry hwf).2 1 [2, 3] (by decide) (by decide)
        (by decide)
    exact ⟨d', h1, h2, h4⟩

/-! ## The empty attribute name -/

theorem iio_get_channel_loop_index (channel : List Char) (ch_out : Bool)
    (cs : List iio_channel) :
    ∀ (k i j : Nat), iio_get_channel_loop channel ch_out cs k i = some (some j) →
      i ≤ j ∧ ∃ c, cs[j - i]? = some c := by
  induction cs with
  | nil =>
    intro k i j h
    cases k with
    | zero => simp [iio_get_channel_loop] at h
    | succ k => simp [iio_get_channel_loop] at h
  | cons c cs ih =>
    intro k i j h
    cases k with
    | zero => simp [iio_get_channel_loop] at h
    | succ k =>
      rw [iio_get_channel_loop] at h
      cases hid : _print_ch_id c with
      | none => rw [hid] at h; cases h
      | some ch_id =>
        rw [hid] at h
        simp only [] at h
        split at h
        · simp only [Option.some.injEq] at h
          subst h
          exact ⟨le_refl _, c, by simp⟩
        · split at h
          · cases h
          obtain ⟨h1, c', hc'⟩ := ih k (i + 1) j h
          refine ⟨by omega, c', ?_⟩
          have : j - i = (j - (i + 1)) + 1 := by omega
          rw [this, List.getElem?_cons_succ]
          exact hc'

/-- A channel found by `iio_get_channel` lies within the reach of the `int16_t`
counter of the scan. -/
theorem iio_get_channel_loop_bound (channel : List Char) (ch_out : Bool)
    (cs : List iio_channel) :
    ∀ (k i j : Nat), i ≤ INT16_MAX →
      iio_get_channel_loop channel ch_out cs k i = some (some j) → j ≤ INT16_MAX := by
  induction cs with
  | nil =>
    intro k i j _ h
    cases k with
    | zero => simp [iio_get_channel_loop] at h
    | succ k => simp [iio_get_channel_loop] at h
  | cons c cs ih =>
    intro k i j hi h
    cases k with
    | zero => simp [iio_get_channel_loop] at h
    | succ k =>
      rw [iio_get_channel_loop] at h
      cases hid : _print_ch_id c with
      | none => rw [hid] at h; cases h
      | some ch_id =>
        rw [hid] at h
        simp only [] at h
        split at h
        · simp only [Option.some.injEq] at h
          subst h
          exact hi
        · split at h
          · cases h
          · rename_i hne
            exact ih k (i + 1) j (by omega) h

theorem attr_channel_resolves (dev : iio_dev_priv) (attr : iiod_attr)
    (hch : ∀ nm, attr.channel = some nm →
      ∃ j, iio_get_channel nm dev.dev_descriptor
        (decide (attr.type = iio_attr_type.IIO_ATTR_TYPE_CH_OUT)) = some (some j))
    (hcat : attr.channel = none →
      attr.type ≠ iio_attr_type.IIO_ATTR_TYPE_CH_IN ∧
      attr.type ≠ iio_attr_type.IIO_ATTR_TYPE_CH_OUT) :
    ∃ ch ch_info attributes, attr_channel dev attr = some (some (ch, ch_info)) ∧
      get_attributes attr.type dev ch = some attributes := by
  cases hc : attr.channel with
  | none =>
    obtain ⟨h1, h2⟩ := hcat hc
    refine ⟨none, none, ?_⟩
    unfold attr_channel get_attributes
    rw [hc]
    cases ht : attr.type with
    | IIO_ATTR_TYPE_DEBUG => exact ⟨_, rfl, rfl⟩
    | IIO_ATTR_TYPE_BUFFER => exact ⟨_, rfl, rfl⟩
    | IIO_ATTR_TYPE_CH_OUT => exact absurd ht h2
    | IIO_ATTR_TYPE_CH_IN => exact absurd ht h1
    | IIO_ATTR_TYPE_DEVICE => exact ⟨_, rfl, rfl⟩
  | some nm =>
    obtain ⟨j, hj⟩ := hch nm hc
    have hidx := iio_get_channel_loop_index nm _ _ _ 0 j hj
    obtain ⟨-, c, hcj⟩ := hidx
    simp only [Nat.sub_zero] at hcj
    refine ⟨some c,
      some { ch_out := decide (attr.type = iio_attr_type.IIO_ATTR_TYPE_CH_OUT),
             ch_num := c.channel, type := c.ch_type, differential := c.diferential,
             address := c.address }, ?_⟩
    unfold attr_channel get_attributes
    rw [hc]
    simp only [hj, hcj]
    cases ht : attr.type with
    | IIO_ATTR_TYPE_DEBUG => exact ⟨_, trivial, rfl⟩
    | IIO_ATTR_TYPE_BUFFER => exact ⟨_, trivial, rfl⟩
    | IIO_ATTR_TYPE_CH_OUT => exact ⟨_, trivial, rfl⟩
    | IIO_ATTR_TYPE_CH_IN => exact ⟨_, trivial, rfl⟩
    | IIO_ATTR_TYPE_DEVICE => exact ⟨_, trivial, rfl⟩

/-- C26 fails for a request of a channel category that names no channel.  For
every known device and every request with an empty attribute name whose
channel, when one is named, resolves: if the request is of a channel category
and names no channel, `iio_read_attr` and `iio_write_attr` are undefined
(`get_attributes` evaluates `ch->attributes` with a null `ch`, line 627, before
the name is looked at in lines 683 and 741); for every other request they
return `-EINVAL` and the state, trace included, is unchanged, so no `show` or
`store` callback is invoked. -/
theorem iio_attr_empty_name (env : iio_env) (desc : iio_desc) (device : List Char)
    (attr : iiod_attr) (buf : List Char) (len : Nat) (i : Nat) (dev : iio_dev_priv)
    (hget : get_iio_device desc device = some i) (hdev : desc.devs[i]? = some dev)
    (hname : attr.name = [])
    (hch : ∀ nm, attr.channel = some nm →
      ∃ j, iio_get_channel nm dev.dev_descriptor
        (decide (attr.type = iio_attr_type.IIO_ATTR_TYPE_CH_OUT)) = some (some j)) :
    (attr.channel = none →
      attr.type = iio_attr_type.IIO_ATTR_TYPE_CH_IN ∨
        attr.type = iio_attr_type.IIO_ATTR_TYPE_CH_OUT →
      iio_read_attr desc device attr len = none ∧
      iio_write_attr env desc device attr buf len = none) ∧
    ((attr.channel = none →
        attr.type ≠ iio_attr_type.IIO_ATTR_TYPE_CH_IN ∧
        attr.type ≠ iio_attr_type.IIO_ATTR_TYPE_CH_OUT) →
      iio_read_attr desc device attr len = some (-EINVAL, [], desc) ∧
      iio_write_attr env desc device attr buf len = some (-EINVAL, desc)) := by
  have hres : ¬ (attr.type = iio_attr_type.IIO_ATTR_TYPE_DEBUG ∧
      ([] : List Char) = REG_ACCESS_ATTRIBUTE) := by
    intro h
    exact absurd h.2 (by decide)
  constructor
  · intro hnone hcat
    have hac : attr_channel dev attr = some (some (none, none)) := by
      unfold attr_channel
      rw [hnone]
    have hga : get_attributes attr.type dev none = none := by
      unfold get_attributes
      rcases hcat with h | h <;> rw [h]
    unfold iio_read_attr iio_write_attr
    simp only [hget, hdev, hname, hres, if_false, hac, hga]
    exact ⟨trivial, trivial⟩
  · intro hcat
    obtain ⟨ch, ch_info, attributes, hac, hga⟩ := attr_channel_resolves dev attr hch hcat
    unfold iio_read_attr iio_write_attr
    simp only [hget, hdev, hname, hres, if_false, hac, hga, if_true, iio_read_all_attr,
      iio_write_all_attr]
    exact ⟨trivial, trivial⟩

/-- C26 on the ADXRS290: the empty name for the input-channel category without
a channel name is undefined in both directions; for the input channel "temp"
and for the device category it gives `-EINVAL`. -/
theorem iio_attr_empty_name_witness :
    (iio_read_attr (adxrs290_registry env_ok {}) "iio:device0".toList
        ⟨iio_attr_type.IIO_ATTR_TYPE_CH_IN, [], none⟩ 16 = none ∧
     iio_write_attr env_ok (adxrs290_registry env_ok {}) "iio:device0".toList
        ⟨iio_attr_type.IIO_ATTR_TYPE_CH_IN, [], none⟩ "1".toList 16 = none) ∧
    (iio_read_attr (adxrs290_registry env_ok {}) "iio:device0".toList
        ⟨iio_attr_type.IIO_ATTR_TYPE_CH_IN, [], some "temp".toList⟩ 16 =
      some (-EINVAL, [], adxrs290_registry env_ok {}) ∧
     iio_write_attr env_ok (adxrs290_registry env_ok {}) "iio:device0".toList
        ⟨iio_attr_type.IIO_ATTR_TYPE_CH_IN, [], some "temp".toList⟩ "1".toList 16 =
      some (-EINVAL, adxrs290_registry env_ok {})) ∧
    (iio_read_attr (adxrs290_registry env_ok {}) "iio:device0".toList
        ⟨iio_attr_type.IIO_ATTR_TYPE_DEVICE, [], none⟩ 16 =
      some (-EINVAL, [], adxrs290_registry env_ok {}) ∧
     iio_write_attr env_ok (adxrs290_registry env_ok {}) "iio:device0".toList
        ⟨iio_attr_type.IIO_ATTR_TYPE_DEVICE, [], none⟩ "1".toList 16 =
      some (-EINVAL, adxrs290_registry env_ok {})) :=
  ⟨(iio_attr_empty_name env_ok (adxrs290_registry env_ok {}) "iio:device0".toList
      ⟨iio_attr_type.IIO_ATTR_TYPE_CH_IN, [], none⟩ "1".toList 16 0
      ((adxrs290_registry env_ok {}).devs.getD 0 {}) rfl rfl rfl
      (fun nm h => by cases h)).1 rfl (Or.inl rfl),
   (iio_attr_empty_name env_ok (adxrs290_registry env_ok {}) "iio:device0".toList
      ⟨iio_attr_type.IIO_ATTR_TYPE_CH_IN, [], some "temp".toList⟩ "1".toList 16 0
      ((adxrs290_registry env_ok {}).devs.getD 0 {}) rfl rfl rfl
      (fun nm h => ⟨2, by cases h; decide⟩)).2 (fun h => by cases h),
   (iio_attr_empty_name env_ok (adxrs290_registry env_ok {}) "iio:device0".toList
      ⟨iio_attr_type.IIO_ATTR_TYPE_DEVICE, [], none⟩ "1".toList 16 0
      ((adxrs290_registry env_ok {}).devs.getD 0 {}) rfl rfl rfl
      (fun nm h => by cases h)).2 (fun _ => ⟨by decide, by decide⟩)⟩

/-! ## `iio_open_dev` after the storage is chosen -/

theorem trig_tail (desc : iio_desc) (i : Nat) (dev : iio_dev_priv) (ret : Int)
    (b : iio_buffer_priv) (h : heap) (tr : List iio_call) (htrig : dev_trig_ok desc dev) :
    (if dev.trig_idx = NO_TRIGGER then some (ret, put_dev desc i dev b h tr)
     else
      match desc.trigs[dev.trig_idx]? with
      | none => none
      | some trig =>
        if trig.descriptor.enable then
          some (ret, put_dev desc i dev b h (tr ++ [iio_call.trig_enable dev.trig_idx]))
        else some (ret, put_dev desc i dev b h tr)) =
      some (ret, put_dev desc i dev b h (tr ++ trig_enable_calls desc dev)) := by
  unfold trig_enable_calls
  by_cases hn : dev.trig_idx = NO_TRIGGER
  · simp [hn]
  · rcases htrig with h0 | ⟨t, ht⟩
    · exact absurd h0 hn
    · simp only [hn, if_false, ht]
      by_cases he : t.descriptor.enable = true
      · simp [he]
      · simp [he]

/-- Configuration fails: the error is returned after
`free(dev->buffer.cb.buff)` when the allocated flag is set. -/
theorem iio_open_dev_configure_cfg_fail (env : iio_env) (desc : iio_desc) (i : Nat)
    (dev : iio_dev_priv) (mask size : Nat) (buf : Option Nat) (b : iio_buffer_priv) (h : heap)
    (hcfg : IS_ERR_VALUE (env.cb_cfg_ret buf size) = true) :
    iio_open_dev_configure env desc i dev mask size buf b h =
      match release_allocated h b with
      | none => none
      | some (h5, b5) => some (env.cb_cfg_ret buf size, put_dev desc i dev b5 h5 desc.trace) := by
  unfold iio_open_dev_configure
  simp only [cb_cfg, hcfg, if_true]

/-- Configuration succeeds and there is no `pre_enable`. -/
theorem iio_open_dev_configure_no_pre (env : iio_env) (desc : iio_desc) (i : Nat)
    (dev : iio_dev_priv) (mask size : Nat) (buf : Option Nat) (b : iio_buffer_priv) (h : heap)
    (hcfg : IS_ERR_VALUE (env.cb_cfg_ret buf size) = false)
    (hpre : dev.dev_descriptor.pre_enable = none) (htrig : dev_trig_ok desc dev) :
    iio_open_dev_configure env desc i dev mask size buf b h =
      some (env.cb_cfg_ret buf size,
        put_dev desc i dev { b with cb := { size := size, buff := buf, data := [] } } h
          (desc.trace ++ trig_enable_calls desc dev)) := by
  unfold iio_open_dev_configure
  simp only [cb_cfg, hcfg, Bool.false_eq_true, if_false, hpre]
  exact trig_tail desc i dev _ _ h desc.trace htrig

/-- Configuration succeeds and `pre_enable` does not fail. -/
theorem iio_open_dev_configure_pre_ok (env : iio_env) (desc : iio_desc) (i : Nat)
    (dev : iio_dev_priv) (mask size : Nat) (buf : Option Nat) (b : iio_buffer_priv) (h : heap)
    (f : Nat → Nat → Int)
    (hcfg : IS_ERR_VALUE (env.cb_cfg_ret buf size) = false)
    (hpre : dev.dev_descriptor.pre_enable = some f)
    (hf : IS_ERR_VALUE (f dev.dev_instance mask) = false) (htrig : dev_trig_ok desc dev) :
    iio_open_dev_configure env desc i dev mask size buf b h =
      some (f dev.dev_instance mask,
        put_dev desc i dev { b with cb := { size := size, buff := buf, data := [] } } h
          (desc.trace ++ [iio_call.pre_enable i mask] ++ trig_enable_calls desc dev)) := by
  unfold iio_open_dev_configure
  simp only [cb_cfg, hcfg, Bool.false_eq_true, if_false, hpre, hf]
  exact trig_tail desc i dev _ _ h _ htrig

/-- Configuration succeeds and `pre_enable` fails. -/
theorem iio_open_dev_configure_pre_fail (env : iio_env) (desc : iio_desc) (i : Nat)
    (dev : iio_dev_priv) (mask size : Nat) (buf : Option Nat) (b b5 : iio_buffer_priv)
    (h h5 : heap) (f : Nat → Nat → Int)
    (hcfg : IS_ERR_VALUE (env.cb_cfg_ret buf size) = false)
    (hpre : dev.dev_descriptor.pre_enable = some f)
    (hf : IS_ERR_VALUE (f dev.dev_instance mask) = true)
    (hrel : release_allocated h { b with cb := { size := size, buff := buf, data := [] } } =
      some (h5, b5))
    (htrig : dev_trig_ok desc dev) :
    iio_open_dev_configure env desc i dev mask size buf b h =
      some (f dev.dev_instance mask,
        put_dev desc i dev b5 h5
          (desc.trace ++ [iio_call.pre_enable i mask] ++ trig_enable_calls desc dev)) := by
  unfold iio_open_dev_configure
  simp only [cb_cfg, hcfg, Bool.false_eq_true, if_false, hpre, hf, if_true, hrel]
  exact trig_tail desc i dev _ _ h5 _ htrig

/-- With caller-supplied storage that is large enough, `iio_open_dev` goes on
to the configuration over that storage. -/
theorem iio_open_dev_raw (env : iio_env) (desc : iio_desc) (device : List Char)
    (samples mask : Nat) (cyclic : Bool) (i : Nat) (dev : iio_dev_priv) (cm m bps p : Nat)
    (hget : get_iio_device desc device = some i) (hdev : desc.devs[i]? = some dev)
    (hinit : dev.buffer.initalized = true)
    (hcm : ch_mask_of dev.dev_descriptor.num_ch = some cm)
    (hm : mask &&& cm = m) (hm0 : m ≠ 0)
    (hbps : bytes_per_scan dev.dev_descriptor.channels m = some bps)
    (hraw : dev.buffer.raw_buf = some p) (hlen : dev.buffer.raw_buf_len ≠ 0)
    (hfit : ¬ dev.buffer.raw_buf_len < (bps * samples) % UINT32_MOD) :
    iio_open_dev env desc device samples mask cyclic =
      iio_open_dev_configure env desc i dev m ((bps * samples) % UINT32_MOD) (some p)
        (requested_buffer dev m bps samples) desc.hp := by
  unfold iio_open_dev requested_buffer
  simp only [hget, hdev, hinit, hcm, hm, hm0, hbps, Bool.not_true, Bool.false_eq_true,
    if_false, hraw, Option.isSome_some, Bool.true_and, bne_iff_ne, ne_eq, hlen,
    not_false_eq_true, if_true, hfit]

/-- Without caller-supplied storage, after the release of a block owned before
and a successful allocation, `iio_open_dev` goes on to the configuration over
the new block with the allocated flag set. -/
theorem iio_open_dev_alloc (env : iio_env) (desc : iio_desc) (device : List Char)
    (samples mask : Nat) (cyclic : Bool) (i : Nat) (dev : iio_dev_priv) (cm m bps : Nat)
    (h2 : heap) (b2 : iio_buffer_priv)
    (hget : get_iio_device desc device = some i) (hdev : desc.devs[i]? = some dev)
    (hinit : dev.buffer.initalized = true)
    (hcm : ch_mask_of dev.dev_descriptor.num_ch = some cm)
    (hm : mask &&& cm = m) (hm0 : m ≠ 0)
    (hbps : bytes_per_scan dev.dev_descriptor.channels m = some bps)
    (hraw : dev.buffer.raw_buf = none ∨ dev.buffer.raw_buf_len = 0)
    (hrel : release_allocated desc.hp (requested_buffer dev m bps samples) = some (h2, b2))
    (hcal : env.calloc_ok h2 ((bps * samples) % UINT32_MOD) 1 = true) :
    iio_open_dev env desc device samples mask cyclic =
      iio_open_dev_configure env desc i dev m ((bps * samples) % UINT32_MOD) (some h2.next)
        { b2 with allocated := true } { next := h2.next + 1, live := h2.next :: h2.live } := by
  have hcond : (dev.buffer.raw_buf.isSome && dev.buffer.raw_buf_len != 0) = false := by
    rcases hraw with h | h
    · rw [h]; rfl
    · rw [h]; simp
  unfold requested_buffer at hrel
  simp only [hinit] at hrel
  unfold iio_open_dev
  simp only [hget, hdev, hinit, hcm, hm, hm0, hbps, Bool.not_true, Bool.false_eq_true,
    if_false, hcond, hrel, calloc, hcal, if_true]

/-! ## Caller-supplied storage -/

/-- C22 as stated fails in the direction "returns `-ENOMEM` only if the
storage is too small": the device of `raw_pre_enable_registry` has 64 bytes of
caller-supplied storage, `iio_open_dev(dev, 4, 0b100)` needs 8 and configures
the ring over the caller's block, yet returns `-ENOMEM`, the result of the
driver's `pre_enable`. -/
theorem raw_storage_pre_enable_nomem :
    raw_pre_enable_registry.devs.map (fun d => (d.buffer.raw_buf, d.buffer.raw_buf_len)) =
      [(some 100, 64)] ∧
    (iio_open_dev env_ok raw_pre_enable_registry "iio:device0".toList 4 4 false).map
        (fun r => (r.1,
          r.2.devs.map (fun d => (d.buffer.pub.size, d.buffer.cb, d.buffer.allocated)))) =
      some (-ENOMEM, [(8, { size := 8, buff := some 100, data := [] }, false)]) := by
  refine ⟨by decide, by decide⟩

/-- C22, amended: for a buffer-capable device with caller-supplied storage of
length `L > 0` (allocated flag clear, as after registration) and a non-empty
truncated mask, `iio_open_dev` returns `-ENOMEM` before any configuration when
`L < bytes_per_scan * samples` (32-bit product); otherwise it configures the
ring over the caller's storage with exactly that size, allocates nothing and
leaves the allocated flag clear, and returns the result of the configuration
or, after a successful configuration, of the `pre_enable` callback if there is
one. -/
theorem iio_open_dev_caller_storage (env : iio_env) (desc : iio_desc) (device : List Char)
    (samples mask : Nat) (cyclic : Bool) (i : Nat) (dev : iio_dev_priv) (cm m bps p : Nat)
    (hget : get_iio_device desc device = some i) (hdev : desc.devs[i]? = some dev)
    (hinit : dev.buffer.initalized = true)
    (hcm : ch_mask_of dev.dev_descriptor.num_ch = some cm)
    (hm : mask &&& cm = m) (hm0 : m ≠ 0)
    (hbps : bytes_per_scan dev.dev_descriptor.channels m = some bps)
    (hraw : dev.buffer.raw_buf = some p) (hlen : dev.buffer.raw_buf_len ≠ 0)
    (halloc : dev.buffer.allocated = false) (htrig : dev_trig_ok desc dev) :
    (dev.buffer.raw_buf_len < (bps * samples) % UINT32_MOD →
      iio_open_dev env desc device samples mask cyclic =
        some (-ENOMEM,
          put_dev desc i dev (requested_buffer dev m bps samples) desc.hp desc.trace)) ∧
    (¬ dev.buffer.raw_buf_len < (bps * samples) % UINT32_MOD →
      (IS_ERR_VALUE (env.cb_cfg_ret (some p) ((bps * samples) % UINT32_MOD)) = true →
        iio_open_dev env desc device samples mask cyclic =
          some (env.cb_cfg_ret (some p) ((bps * samples) % UINT32_MOD),
            put_dev desc i dev (requested_buffer dev m bps samples) desc.hp desc.trace)) ∧
      (IS_ERR_VALUE (env.cb_cfg_ret (some p) ((bps * samples) % UINT32_MOD)) = false →
        ∃ tr, iio_open_dev env desc device samples mask cyclic =
          some ((match dev.dev_descriptor.pre_enable with
                 | none => env.cb_cfg_ret (some p) ((bps * samples) % UINT32_MOD)
                 | some f => f dev.dev_instance m),
            put_dev desc i dev
              { requested_buffer dev m bps samples with
                cb := { size := (bps * samples) % UINT32_MOD, buff := some p, data := [] } }
              desc.hp tr))) := by
  have hreq : (requested_buffer dev m bps samples).allocated = false := halloc
  constructor
  · intro hsmall
    exact (iio_open_dev_nomem_state env desc device samples mask cyclic i dev cm m bps hget hdev
      hinit hcm hm hm0 hbps).1 (by rw [hraw]; rfl) hlen hsmall
  · intro hfit
    have hopen := iio_open_dev_raw env desc device samples mask cyclic i dev cm m bps p hget hdev
      hinit hcm hm hm0 hbps hraw hlen hfit
    constructor
    · intro hcfg
      rw [hopen, iio_open_dev_configure_cfg_fail _ _ _ _ _ _ _ _ _ hcfg]
      simp only [release_allocated, hreq, Bool.false_eq_true, if_false]
    · intro hcfg
      rw [hopen]
      cases hpre : dev.dev_descriptor.pre_enable with
      | none =>
        exact ⟨_, iio_open_dev_configure_no_pre _ _ _ _ _ _ _ _ _ hcfg hpre htrig⟩
      | some f =>
        cases hf : IS_ERR_VALUE (f dev.dev_instance m) with
        | false =>
          exact ⟨_, iio_open_dev_configure_pre_ok _ _ _ _ _ _ _ _ _ f hcfg hpre hf htrig⟩
        | true =>
          refine ⟨_, iio_open_dev_configure_pre_fail _ _ _ _ _ _ _ _ _ _ _ f hcfg hpre hf ?_
            htrig⟩
          simp only [release_allocated, hreq, Bool.false_eq_true, if_false]

/-- C22, amended, on `raw_buf_registry` (4 bytes of caller storage): a request
of 8 bytes returns `-ENOMEM`, a request of 4 bytes configures the ring over
the caller's block 100. -/
theorem iio_open_dev_caller_storage_witness :
    iio_open_dev env_ok raw_buf_registry "iio:device0".toList 4 4 false =
      some (-ENOMEM,
        put_dev raw_buf_registry 0 (raw_buf_registry.devs.getD 0 {})
          (requested_buffer (raw_buf_registry.devs.getD 0 {}) 4 2 4) raw_buf_registry.hp
          raw_buf_registry.trace) ∧
    (iio_open_dev env_ok raw_buf_registry "iio:device0".toList 4 4 false).map
        (fun r => (r.1, r.2.devs.map (fun d => (d.buffer.cb, d.buffer.allocated)), r.2.hp)) =
      some (-ENOMEM, [({}, false)], raw_buf_registry.hp) ∧
    (iio_open_dev env_ok raw_buf_registry "iio:device0".toList 2 4 false).map
        (fun r => (r.1, r.2.devs.map (fun d => (d.buffer.cb, d.buffer.allocated)), r.2.hp)) =
      some (0, [({ size := 4, buff := some 100, data := [] }, false)], raw_buf_registry.hp) :=
  ⟨(iio_open_dev_caller_storage env_ok raw_buf_registry "iio:device0".toList 4 4 false
      0 (raw_buf_registry.devs.getD 0 {}) 7 4 2 100 rfl rfl rfl (by decide) (by decide)
      (by decide) (by decide) rfl (by decide) rfl (Or.inl rfl)).1 (by decide),
    by decide, by decide⟩

/-! ## A failing `pre_enable` -/

/-- C23: when `iio_open_dev` reaches the `pre_enable` callback (storage chosen,
ring configured) and the callback returns a negative `e`, `iio_open_dev`
returns exactly `e` and the device's allocated flag is clear afterwards, with
or without an associated trigger; on the allocation path the block just
allocated has been freed, so the live blocks are those from before the
allocation. -/
theorem iio_open_dev_pre_enable_error (env : iio_env) (desc : iio_desc) (device : List Char)
    (samples mask : Nat) (cyclic : Bool) (i : Nat) (dev : iio_dev_priv) (cm m bps : Nat)
    (f : Nat → Nat → Int)
    (hget : get_iio_device desc device = some i) (hdev : desc.devs[i]? = some dev)
    (hinit : dev.buffer.initalized = true)
    (hcm : ch_mask_of dev.dev_descriptor.num_ch = some cm)
    (hm : mask &&& cm = m) (hm0 : m ≠ 0)
    (hbps : bytes_per_scan dev.dev_descriptor.channels m = some bps)
    (hpre : dev.dev_descriptor.pre_enable = some f) (he : f dev.dev_instance m < 0)
    (htrig : dev_trig_ok desc dev) :
    (∀ p, dev.buffer.raw_buf = some p → dev.buffer.raw_buf_len ≠ 0 →
      ¬ dev.buffer.raw_buf_len < (bps * samples) % UINT32_MOD →
      dev.buffer.allocated = false →
      IS_ERR_VALUE (env.cb_cfg_ret (some p) ((bps * samples) % UINT32_MOD)) = false →
      ∃ b tr, iio_open_dev env desc device samples mask cyclic =
          some (f dev.dev_instance m, put_dev desc i dev b desc.hp tr) ∧
        b.allocated = false) ∧
    (∀ h2 b2, (dev.buffer.raw_buf = none ∨ dev.buffer.raw_buf_len = 0) →
      release_allocated desc.hp (requested_buffer dev m bps samples) = some (h2, b2) →
      env.calloc_ok h2 ((bps * samples) % UINT32_MOD) 1 = true →
      IS_ERR_VALUE (env.cb_cfg_ret (some h2.next) ((bps * samples) % UINT32_MOD)) = false →
      ∃ b tr, iio_open_dev env desc device samples mask cyclic =
          some (f dev.dev_instance m,
            put_dev desc i dev b { next := h2.next + 1, live := h2.live } tr) ∧
        b.allocated = false) := by
  have hf : IS_ERR_VALUE (f dev.dev_instance m) = true := by
    unfold IS_ERR_VALUE
    simpa using he
  constructor
  · intro p hraw hlen hfit halloc hcfg
    have hreq : (requested_buffer dev m bps samples).allocated = false := halloc
    rw [iio_open_dev_raw env desc device samples mask cyclic i dev cm m bps p hget hdev
      hinit hcm hm hm0 hbps hraw hlen hfit]
    refine ⟨{ requested_buffer dev m bps samples with
                cb := { size := (bps * samples) % UINT32_MOD, buff := some p, data := [] } },
      _, iio_open_dev_configure_pre_fail _ _ _ _ _ _ _ _ _ _ _ f hcfg hpre hf ?_ htrig, hreq⟩
    simp only [release_allocated, hreq, Bool.false_eq_true, if_false]
  · intro h2 b2 hraw hrel hcal hcfg
    rw [iio_open_dev_alloc env desc device samples mask cyclic i dev cm m bps h2 b2 hget hdev
      hinit hcm hm hm0 hbps hraw hrel hcal]
    refine ⟨_, _, iio_open_dev_configure_pre_fail _ _ _ _ _ _ _ _
      { b2 with cb := { size := (bps * samples) % UINT32_MOD, buff := some h2.next, data := [] },
                allocated := false }
      _ { next := h2.next + 1, live := h2.live } f hcfg hpre hf ?_ htrig, rfl⟩
    simp [release_allocated, free]

/-- C23 on `pre_enable_fail_registry` (no caller storage, no trigger,
`pre_enable` reporting `-EBUSY`): the open returns `-EBUSY`, the flag is clear
and the live blocks are those of the registry. -/
theorem iio_open_dev_pre_enable_error_witness :
    (∃ b tr, iio_open_dev env_ok pre_enable_fail_registry "iio:device0".toList 4 4 false =
        some (-EBUSY,
          put_dev pre_enable_fail_registry 0 (pre_enable_fail_registry.devs.getD 0 {}) b
            { next := pre_enable_fail_registry.hp.next + 1,
              live := pre_enable_fail_registry.hp.live } tr) ∧
      b.allocated = false) ∧
    (iio_open_dev env_ok pre_enable_fail_registry "iio:device0".toList 4 4 false).map
        (fun r => (r.1, r.2.devs.map (fun d => d.buffer.allocated), r.2.hp.live)) =
      some (-EBUSY, [false], pre_enable_fail_registry.hp.live) :=
  ⟨(iio_open_dev_pre_enable_error env_ok pre_enable_fail_registry
      "iio:device0".toList 4 4 false 0 (pre_enable_fail_registry.devs.getD 0 {}) 7 4 2
      (fun _ _ => -EBUSY) rfl rfl rfl (by decide) (by decide) (by decide) (by decide) rfl
      (by decide) (Or.inl rfl)).2 pre_enable_fail_registry.hp
      (requested_buffer (pre_enable_fail_registry.devs.getD 0 {}) 4 2 4) (Or.inl rfl) rfl rfl
      rfl,
    by decide⟩

/-! ## Refill and push through the bulk callbacks -/

theorem iio_call_submit_legacy_eq (env : iio_env) (desc : iio_desc) (device : List Char)
    (dir : iio_buffer_direction) (i : Nat) (dev : iio_dev_priv) (f : Nat → Nat → Int)
    (hget : get_iio_device desc device = some i) (hdev : desc.devs[i]? = some dev)
    (hinit : dev.buffer.initalized = true) (hleg : legacy_bulk dev dir f) :
    iio_call_submit env desc device dir =
      iio_call_submit_legacy env desc i dev dir
        { dev.buffer with pub := { dev.buffer.pub with dir := dir } } f := by
  obtain ⟨hsub, hcb⟩ := hleg
  unfold iio_call_submit
  simp only [hget, hdev, hinit, Bool.not_true, Bool.false_eq_true, if_false, hsub]
  rcases hcb with ⟨hd, hr⟩ | ⟨hd, hw⟩
  · subst hd
    simp only [hr]
  · subst hd
    simp only [hw]

theorem iio_buffer_get_block_eq (env : iio_env) (b : iio_buffer_priv) :
    iio_buffer_get_block env (some b) =
      if IS_ERR_VALUE (cb_prepare_async env b.pub.dir b.cb b.pub.size).1 then
        (cb_prepare_async env b.pub.dir b.cb b.pub.size).1
      else if (cb_prepare_async env b.pub.dir b.cb b.pub.size).2 % UINT32_MOD ≠ b.pub.size then
        -ENOMEM
      else SUCCESS := by
  unfold iio_buffer_get_block cb_prepare_async
  rfl

/-- C30 as stated fails when the bulk callback reports an error: on
`read_fail_opened` (opened for 4 samples of 2 bytes) the refill reserves 8
bytes and calls the bulk read with 4 samples, which returns `-EBUSY`; the
refill returns `-EBUSY` and the region is not committed. -/
theorem refill_without_commit :
    (iio_refill_buffer env_ok read_fail_opened "iio:device0".toList).map
        (fun r => (r.1, r.2.trace)) =
      some (-EBUSY,
        [iio_call.cb_prepare_async 0 iio_buffer_direction.IIO_DIRECTION_INPUT 8,
         iio_call.read_dev 0 4]) := by
  decide

/-- C30, amended: for a device without `submit` callback whose bulk callback
for the direction is `f`, opened for `S` samples of `B > 0` bytes
(`B * S < 2^32`), a refill (input, bulk read) or push (output, bulk write)
requests the whole buffer of `B * S` bytes from the reserve step; if that
fails its error is returned, and if the region granted is not `B * S` bytes
`-ENOMEM` is returned, in both cases without calling `f`; otherwise `f` is
called with the sample count exactly `S`, and the region is committed (the
commit's result being returned) unless `f` returns a negative value, which is
returned without committing. -/
theorem iio_call_submit_bulk (env : iio_env) (desc : iio_desc) (device : List Char)
    (dir : iio_buffer_direction) (i : Nat) (dev : iio_dev_priv) (f : Nat → Nat → Int)
    (B S : Nat)
    (hget : get_iio_device desc device = some i) (hdev : desc.devs[i]? = some dev)
    (hinit : dev.buffer.initalized = true) (hleg : legacy_bulk dev dir f)
    (hB : 0 < B) (hBS : B * S < UINT32_MOD)
    (hbps : dev.buffer.pub.bytes_per_scan = B) (hsize : dev.buffer.pub.size = B * S) :
    (IS_ERR_VALUE (cb_prepare_async env dir dev.buffer.cb (B * S)).1 = true →
      iio_call_submit env desc device dir =
        some ((cb_prepare_async env dir dev.buffer.cb (B * S)).1,
          put_dev desc i dev { dev.buffer with pub := { dev.buffer.pub with dir := dir } }
            desc.hp (desc.trace ++ [iio_call.cb_prepare_async i dir (B * S)]))) ∧
    (IS_ERR_VALUE (cb_prepare_async env dir dev.buffer.cb (B * S)).1 = false →
      ((cb_prepare_async env dir dev.buffer.cb (B * S)).2 % UINT32_MOD ≠ B * S →
        iio_call_submit env desc device dir =
          some (-ENOMEM,
            put_dev desc i dev { dev.buffer with pub := { dev.buffer.pub with dir := dir } }
              desc.hp (desc.trace ++ [iio_call.cb_prepare_async i dir (B * S)]))) ∧
      ((cb_prepare_async env dir dev.buffer.cb (B * S)).2 % UINT32_MOD = B * S →
        (IS_ERR_VALUE (f dev.dev_instance S) = true →
          iio_call_submit env desc device dir =
            some (f dev.dev_instance S,
              put_dev desc i dev { dev.buffer with pub := { dev.buffer.pub with dir := dir } }
                desc.hp
                (desc.trace ++ [iio_call.cb_prepare_async i dir (B * S),
                  bulk_call dir dev.dev_instance S]))) ∧
        (IS_ERR_VALUE (f dev.dev_instance S) = false →
          iio_call_submit env desc device dir =
            some ((cb_end_async env dir dev.buffer.cb).1,
              put_dev desc i dev
                { dev.buffer with
                  pub := { dev.buffer.pub with dir := dir }
                  cb := (cb_end_async env dir dev.buffer.cb).2 }
                desc.hp
                (desc.trace ++ [iio_call.cb_prepare_async i dir (B * S),
                  bulk_call dir dev.dev_instance S, iio_call.cb_end_async i dir]))))) := by
  have hS : B * S / B = S := Nat.mul_div_cancel_left S hB
  have hB0 : B ≠ 0 := by omega
  have hnm : IS_ERR_VALUE (-ENOMEM) = true := by decide
  have hok : IS_ERR_VALUE SUCCESS = false := by decide
  rw [iio_call_submit_legacy_eq env desc device dir i dev f hget hdev hinit hleg]
  unfold iio_call_submit_legacy
  rw [iio_buffer_get_block_eq]
  simp only [hbps, hsize, hS, hB0, if_false]
  refine ⟨?_, ?_⟩
  · intro hp
    simp only [hp, if_true]
  · intro hp
    refine ⟨?_, ?_⟩
    · intro hne
      simp only [hp, Bool.false_eq_true, if_false, hne, ne_eq, not_false_eq_true, if_true, hnm]
    · intro heq
      refine ⟨?_, ?_⟩
      · intro hf
        simp only [hp, Bool.false_eq_true, if_false, heq, ne_eq, not_true_eq_false, hok, hf,
          if_true, bulk_call]
      · intro hf
        simp only [hp, Bool.false_eq_true, if_false, heq, ne_eq, not_true_eq_false, hok, hf,
          iio_buffer_block_done, cb_end_async, bulk_call]
        cases dir <;> rfl

/-- C30, amended, on the ADXRS290 opened for 4 samples of 2 bytes: the refill
requests 8 bytes, calls the bulk read with 4 samples and commits. -/
theorem iio_call_submit_bulk_witness :
    iio_call_submit env_ok session_d1 "iio:device0".toList
        iio_buffer_direction.IIO_DIRECTION_INPUT =
      some ((cb_end_async env_ok iio_buffer_direction.IIO_DIRECTION_INPUT
              (session_d1.devs.getD 0 {}).buffer.cb).1,
        put_dev session_d1 0 (session_d1.devs.getD 0 {})
          { (session_d1.devs.getD 0 {}).buffer with
            pub := { (session_d1.devs.getD 0 {}).buffer.pub with
                     dir := iio_buffer_direction.IIO_DIRECTION_INPUT }
            cb := (cb_end_async env_ok iio_buffer_direction.IIO_DIRECTION_INPUT
                    (session_d1.devs.getD 0 {}).buffer.cb).2 }
          session_d1.hp
          (session_d1.trace ++
            [iio_call.cb_prepare_async 0 iio_buffer_direction.IIO_DIRECTION_INPUT (2 * 4),
             bulk_call iio_buffer_direction.IIO_DIRECTION_INPUT
               (session_d1.devs.getD 0 {}).dev_instance 4,
             iio_call.cb_end_async 0 iio_buffer_direction.IIO_DIRECTION_INPUT])) ∧
    (iio_refill_buffer env_ok session_d1 "iio:device0".toList).map
        (fun r => (r.1, r.2.trace)) =
      some (0,
        [iio_call.cb_prepare_async 0 iio_buffer_direction.IIO_DIRECTION_INPUT 8,
         iio_call.read_dev 0 4,
         iio_call.cb_end_async 0 iio_buffer_direction.IIO_DIRECTION_INPUT]) :=
  ⟨((iio_call_submit_bulk env_ok session_d1 "iio:device0".toList
      iio_buffer_direction.IIO_DIRECTION_INPUT 0 (session_d1.devs.getD 0 {})
      (fun _ nb_samples => nb_samples) 2 4 rfl rfl rfl ⟨rfl, Or.inl ⟨rfl, rfl⟩⟩ (by decide)
      (by decide) rfl rfl).2 rfl).2 rfl |>.2 rfl,
    by decide⟩

/-! ## The active mask in every reachable state -/

theorem mask_inv_of_set (desc d1 : iio_desc) (i : Nat) (dev' : iio_dev_priv)
    (hinv : mask_inv desc) (hok : dev_mask_ok dev') (hd : d1.devs = desc.devs.set i dev') :
    mask_inv d1 := by
  intro d hdm
  rw [hd] at hdm
  rcases List.mem_or_eq_of_mem_set hdm with h | h
  · exact hinv d h
  · rw [h]; exact hok

theorem mask_inv_of_devs_eq (desc d1 : iio_desc) (hinv : mask_inv desc)
    (hd : d1.devs = desc.devs) : mask_inv d1 := by
  intro d hdm
  rw [hd] at hdm
  exact hinv d hdm

theorem mask_inv_put_dev (desc : iio_desc) (i : Nat) (dev : iio_dev_priv) (b : iio_buffer_priv)
    (h : heap) (tr : List iio_call) (hinv : mask_inv desc)
    (hok : dev_mask_ok { dev with buffer := b }) : mask_inv (put_dev desc i dev b h tr) :=
  mask_inv_of_set desc _ i { dev with buffer := b } hinv hok rfl

theorem dev_mask_ok_same (desc : iio_desc) (i : Nat) (dev dev' : iio_dev_priv)
    (hinv : mask_inv desc) (hdev : desc.devs[i]? = some dev)
    (hd : dev'.dev_descriptor = dev.dev_descriptor)
    (hm : dev'.buffer.pub.active_mask = dev.buffer.pub.active_mask) : dev_mask_ok dev' := by
  have := hinv dev (List.getElem?_mem hdev)
  unfold dev_mask_ok at this ⊢
  rw [hd, hm]
  exact this

theorem dev_mask_ok_zero (dev' : iio_dev_priv) (hm : dev'.buffer.pub.active_mask = 0) :
    dev_mask_ok dev' := by
  intro _ _
  rw [hm]
  exact Nat.pow_pos (by decide)

theorem dev_mask_ok_and (dev' : iio_dev_priv) (mask cm : Nat)
    (hcm : ch_mask_of dev'.dev_descriptor.num_ch = some cm)
    (hm : dev'.buffer.pub.active_mask = mask &&& cm) : dev_mask_ok dev' := by
  intro h1 h2
  rw [ch_mask_of_eq _ h1 h2] at hcm
  simp only [Option.some.injEq] at hcm
  rw [hm, ← hcm]
  have hle : mask &&& (2 ^ dev'.dev_descriptor.num_ch - 1) ≤ 2 ^ dev'.dev_descriptor.num_ch - 1 :=
    Nat.and_le_right
  have hpos : 0 < 2 ^ dev'.dev_descriptor.num_ch := Nat.pow_pos (by decide)
  omega

theorem iio_open_dev_configure_shape (env : iio_env) (desc d1 : iio_desc) (i : Nat)
    (dev : iio_dev_priv) (mask size : Nat) (buf : Option Nat) (b : iio_buffer_priv) (hp : heap)
    (r : Int) (h : iio_open_dev_configure env desc i dev mask size buf b hp = some (r, d1)) :
    ∃ b' h' tr, d1 = put_dev desc i dev b' h' tr ∧ b'.pub = b.pub := by
  unfold iio_open_dev_configure at h
  by_cases hcfg : IS_ERR_VALUE (cb_cfg env b.cb buf size).1 = true
  · simp only [hcfg, if_true] at h
    split at h
    · exact Option.noConfusion h
    · rename_i h5 b5 hrel
      simp only [Option.some.injEq, Prod.mk.injEq] at h
      obtain ⟨e1, -⟩ := release_allocated_fields _ _ _ _ hrel
      exact ⟨b5, h5, _, h.2.symm, e1⟩
  · simp only [hcfg, Bool.false_eq_true, if_false] at h
    split at h
    · exact Option.noConfusion h
    · rename_i ret b6 h6 tr hpre
      have hb6 : b6.pub = b.pub := by
        split at hpre
        · simp only [Option.some.injEq, Prod.mk.injEq] at hpre
          obtain ⟨-, rfl, -, -⟩ := hpre
          rfl
        · split at hpre
          · split at hpre
            · exact Option.noConfusion hpre
            · rename_i h5 b5 hrel
              simp only [Option.some.injEq, Prod.mk.injEq] at hpre
              obtain ⟨-, rfl, -, -⟩ := hpre
              obtain ⟨e1, -⟩ := release_allocated_fields _ _ _ _ hrel
              exact e1
          · simp only [Option.some.injEq, Prod.mk.injEq] at hpre
            obtain ⟨-, rfl, -, -⟩ := hpre
            rfl
      have fin : ∀ tr', some (ret, put_dev desc i dev b6 h6 tr') = some (r, d1) →
          ∃ b' h' tr, d1 = put_dev desc i dev b' h' tr ∧ b'.pub = b.pub := by
        intro tr' he
        simp only [Option.some.injEq, Prod.mk.injEq] at he
        exact ⟨b6, h6, tr', he.2.symm, hb6⟩
      split at h
      · exact fin _ h
      · split at h
        · exact Option.noConfusion h
        · split at h
          · exact fin _ h
          · exact fin _ h

theorem iio_open_dev_mask_inv (env : iio_env) (desc d1 : iio_desc) (device : List Char)
    (samples mask : Nat) (cyclic : Bool) (r : Int)
    (h : iio_open_dev env desc device samples mask cyclic = some (r, d1))
    (hinv : mask_inv desc) : mask_inv d1 := by
  unfold iio_open_dev at h
  split at h
  · simp only [Option.some.injEq, Prod.mk.injEq] at h
    rw [← h.2]; exact hinv
  · rename_i i hget
    split at h
    · exact Option.noConfusion h
    · rename_i dev hdev
      by_cases hinit : dev.buffer.initalized = true
      · simp only [hinit, Bool.not_true, Bool.false_eq_true, if_false] at h
        split at h
        · exact Option.noConfusion h
        · rename_i cm hcm
          by_cases hm : mask &&& cm = 0
          · simp only [hm, if_true, Option.some.injEq, Prod.mk.injEq] at h
            rw [← h.2]; exact hinv
          · simp only [hm, if_false] at h
            split at h
            · exact Option.noConfusion h
            · rename_i bps hbps
              have key : ∀ (b : iio_buffer_priv) hp tr, b.pub.active_mask = mask &&& cm →
                  mask_inv (put_dev desc i dev b hp tr) := by
                intro b hp tr hb
                exact mask_inv_put_dev desc i dev b hp tr hinv
                  (dev_mask_ok_and { dev with buffer := b } mask cm hcm hb)
              have keyc : ∀ buf (b : iio_buffer_priv) hp,
                  iio_open_dev_configure env desc i dev (mask &&& cm)
                    ((bps * samples) % UINT32_MOD) buf b hp = some (r, d1) →
                  b.pub.active_mask = mask &&& cm → mask_inv d1 := by
                intro buf b hp hc hb
                obtain ⟨b', h', tr, rfl, e1⟩ :=
                  iio_open_dev_configure_shape env desc d1 i dev _ _ buf b hp r hc
                exact key b' h' tr (by rw [e1, hb])
              split at h
              · split at h
                · simp only [Option.some.injEq, Prod.mk.injEq] at h
                  rw [← h.2]
                  exact key _ _ _ rfl
                · exact keyc _ _ _ h rfl
              · split at h
                · exact Option.noConfusion h
                · rename_i h2 b2 hrel
                  obtain ⟨e1, -⟩ := release_allocated_fields _ _ _ _ hrel
                  split at h
                  · simp only [Option.some.injEq, Prod.mk.injEq] at h
                    rw [← h.2]
                    exact key _ _ _ (by rw [e1])
                  · exact keyc _ _ _ h (by simp only [e1])
      · simp only [hinit, Bool.not_false, if_true, Option.some.injEq, Prod.mk.injEq] at h
        rw [← h.2]; exact hinv

theorem iio_close_dev_mask_inv (desc d1 : iio_desc) (device : List Char) (r : Int)
    (h : iio_close_dev desc device = some (r, d1)) (hinv : mask_inv desc) : mask_inv d1 := by
  unfold iio_close_dev at h
  split at h
  · simp only [Option.some.injEq, Prod.mk.injEq] at h
    rw [← h.2]; exact hinv
  · rename_i i hget
    split at h
    · exact Option.noConfusion h
    · rename_i dev hdev
      split at h
      · simp only [Option.some.injEq, Prod.mk.injEq] at h
        rw [← h.2]; exact hinv
      · split at h
        · exact Option.noConfusion h
        · have key : ∀ (b : iio_buffer_priv) hp tr, b.pub.active_mask = 0 →
              mask_inv (put_dev desc i dev b hp tr) := by
            intro b hp tr hb
            exact mask_inv_put_dev desc i dev b hp tr hinv
              (dev_mask_ok_zero { dev with buffer := b } hb)
          split at h
          · simp only [Option.some.injEq, Prod.mk.injEq] at h
            rw [← h.2]
            exact key _ _ _ rfl
          · split at h
            · exact Option.noConfusion h
            · split at h
              · simp only [Option.some.injEq, Prod.mk.injEq] at h
                rw [← h.2]
                exact key _ _ _ rfl
              · simp only [Option.some.injEq, Prod.mk.injEq] at h
                rw [← h.2]
                exact key _ _ _ rfl

theorem iio_call_submit_legacy_mask_inv (env : iio_env) (desc d1 : iio_desc) (i : Nat)
    (dev : iio_dev_priv) (dir : iio_buffer_direction) (b : iio_buffer_priv)
    (f : Nat → Nat → Int) (r : Int)
    (h : iio_call_submit_legacy env desc i dev dir b f = some (r, d1))
    (hinv : mask_inv desc) (hdev : desc.devs[i]? = some dev)
    (hb : b.pub.active_mask = dev.buffer.pub.active_mask) : mask_inv d1 := by
  have key : ∀ (b' : iio_buffer_priv) hp tr, b'.pub.active_mask = dev.buffer.pub.active_mask →
      mask_inv (put_dev desc i dev b' hp tr) := by
    intro b' hp tr hb'
    exact mask_inv_put_dev desc i dev b' hp tr hinv
      (dev_mask_ok_same desc i dev { dev with buffer := b' } hinv hdev rfl hb')
  unfold iio_call_submit_legacy at h
  split at h
  · simp only [Option.some.injEq, Prod.mk.injEq] at h
    rw [← h.2]
    exact key _ _ _ hb
  · split at h
    · exact Option.noConfusion h
    · split at h
      · simp only [Option.some.injEq, Prod.mk.injEq] at h
        rw [← h.2]
        exact key _ _ _ hb
      · split at h
        · rename_i r' b' hdone
          simp only [Option.some.injEq, Prod.mk.injEq] at h
          rw [← h.2]
          apply key
          unfold iio_buffer_block_done at hdone
          simp only [] at hdone
          split at hdone
          · simp only [Prod.mk.injEq, Option.some.injEq] at hdone
            rw [← hdone.2]
            exact hb
          · simp only [Prod.mk.injEq, Option.some.injEq] at hdone
            rw [← hdone.2]
            exact hb
        · exact Option.noConfusion h

theorem iio_call_submit_mask_inv (env : iio_env) (desc d1 : iio_desc) (device : List Char)
    (dir : iio_buffer_direction) (r : Int)
    (h : iio_call_submit env desc device dir = some (r, d1)) (hinv : mask_inv desc) :
    mask_inv d1 := by
  unfold iio_call_submit at h
  split at h
  · simp only [Option.some.injEq, Prod.mk.injEq] at h
    rw [← h.2]; exact hinv
  · rename_i i hget
    split at h
    · exact Option.noConfusion h
    · rename_i dev hdev
      have key : ∀ (b' : iio_buffer_priv) hp tr,
          b'.pub.active_mask = dev.buffer.pub.active_mask →
          mask_inv (put_dev desc i dev b' hp tr) := by
        intro b' hp tr hb'
        exact mask_inv_put_dev desc i dev b' hp tr hinv
          (dev_mask_ok_same desc i dev { dev with buffer := b' } hinv hdev rfl hb')
      split at h
      · simp only [Option.some.injEq, Prod.mk.injEq] at h
        rw [← h.2]; exact hinv
      · split at h
        · simp only [Option.some.injEq, Prod.mk.injEq] at h
          rw [← h.2]
          exact key _ _ _ rfl
        · split at h
          · exact iio_call_submit_legacy_mask_inv env desc d1 i dev _ _ _ r h hinv hdev rfl
          · exact iio_call_submit_legacy_mask_inv env desc d1 i dev _ _ _ r h hinv hdev rfl
          · simp only [Option.some.injEq, Prod.mk.injEq] at h
            rw [← h.2]
            exact key _ _ _ rfl

theorem mask_inv_set_buffer (desc : iio_desc) (i : Nat) (dev : iio_dev_priv)
    (b : iio_buffer_priv) (hinv : mask_inv desc) (hdev : desc.devs[i]? = some dev)
    (hb : b.pub.active_mask = dev.buffer.pub.active_mask) :
    mask_inv { desc with devs := desc.devs.set i { dev with buffer := b } } :=
  mask_inv_of_set desc _ i { dev with buffer := b } hinv
    (dev_mask_ok_same desc i dev { dev with buffer := b } hinv hdev rfl hb) rfl

theorem iio_read_buffer_mask_inv (desc : iio_desc) (device : List Char) (bytes : Nat)
    (hinv : mask_inv desc) : mask_inv (iio_read_buffer desc device bytes).2.2 := by
  unfold iio_read_buffer
  simp only [cb_size, cb_read]
  repeat' split
  all_goals
    first
    | exact hinv
    | exact mask_inv_set_buffer desc _ _ _ hinv (by assumption) rfl

theorem iio_write_buffer_mask_inv (desc d1 : iio_desc) (device : List Char) (buf : List Nat)
    (bytes : Nat) (r : Int) (h : iio_write_buffer desc device buf bytes = some (r, d1))
    (hinv : mask_inv desc) : mask_inv d1 := by
  unfold iio_write_buffer at h
  split at h
  · simp only [Option.some.injEq, Prod.mk.injEq] at h
    rw [← h.2]; exact hinv
  · rename_i i hget
    split at h
    · exact Option.noConfusion h
    · rename_i dev hdev
      split at h
      · simp only [Option.some.injEq, Prod.mk.injEq] at h
        rw [← h.2]; exact hinv
      · simp only [cb_size] at h
        split at h
        · simp only [Option.some.injEq, Prod.mk.injEq] at h
          rw [← h.2]; exact hinv
        · split at h
          · exact Option.noConfusion h
          · split at h
            · simp only [Option.some.injEq, Prod.mk.injEq] at h
              rw [← h.2]; exact hinv
            · simp only [Option.some.injEq, Prod.mk.injEq] at h
              rw [← h.2]
              refine mask_inv_of_set desc _ i _ hinv ?_ rfl
              exact dev_mask_ok_same desc i dev _ hinv hdev rfl rfl

theorem iio_set_trigger_mask_inv (desc d1 : iio_desc) (device trigger : List Char) (len : Nat)
    (r : Int) (h : iio_set_trigger desc device trigger len = some (r, d1))
    (hinv : mask_inv desc) : mask_inv d1 := by
  unfold iio_set_trigger at h
  split at h
  · simp only [Option.some.injEq, Prod.mk.injEq] at h
    rw [← h.2]; exact hinv
  · rename_i i hget
    split at h
    · exact Option.noConfusion h
    · rename_i dev hdev
      split at h
      · simp only [Option.some.injEq, Prod.mk.injEq] at h
        rw [← h.2]
        refine mask_inv_of_set desc _ i _ hinv ?_ rfl
        exact dev_mask_ok_same desc i dev _ hinv hdev rfl rfl
      · split at h
        · simp only [Option.some.injEq, Prod.mk.injEq] at h
          rw [← h.2]; exact hinv
        · simp only [Option.some.injEq, Prod.mk.injEq] at h
          rw [← h.2]
          refine mask_inv_of_set desc _ i _ hinv ?_ rfl
          exact dev_mask_ok_same desc i dev _ hinv hdev rfl rfl

theorem iio_step_devs (env : iio_env) (desc d1 : iio_desc) (r : Int)
    (h : iio_step env desc = some (r, d1)) : d1.devs = desc.devs := by
  unfold iio_step at h
  split at h
  · exact Option.noConfusion h
  · rename_i dp hp
    have hdp : dp.devs = desc.devs := by
      unfold iio_process_triggers at hp
      split at hp
      · exact Option.noConfusion hp
      · simp only [Option.some.injEq] at hp
        rw [← hp]
    have hpop : (_pop_conn dp).2.2.devs = dp.devs := by
      unfold _pop_conn
      split
      · rfl
      · rfl
    split at h
    rename_i ret conn_id d2 hpc
    have hd2 : d2.devs = desc.devs := by
      have := hpop
      rw [hpc] at this
      simpa [hdp] using this
    split at h
    · simp only [Option.some.injEq, Prod.mk.injEq] at h
      rw [← h.2]; exact hd2
    · split at h
      · simp only [Option.some.injEq, Prod.mk.injEq] at h
        rw [← h.2]; exact hd2
      · simp only [] at h
        split at h
        · exact Option.noConfusion h
        · rename_i x d4 hpush
          simp only [Option.some.injEq, Prod.mk.injEq] at h
          rw [← h.2]
          unfold _push_conn at hpush
          split at hpush
          · exact Option.noConfusion hpush
          · simp only [Option.some.injEq, Prod.mk.injEq] at hpush
            rw [← hpush.2]
            exact hd2

theorem init_devs_loop_mask (desc : iio_desc) (l : List iio_device_init) (i : Nat) :
    ∀ d ∈ init_devs_loop desc l i, d.buffer.pub.active_mask = 0 := by
  induction l generalizing i with
  | nil => intro d hd; simp [init_devs_loop] at hd
  | cons nd nds ih =>
    intro d hd
    simp only [init_devs_loop, List.mem_cons] at hd
    rcases hd with rfl | hd
    · unfold init_dev
      simp only []
      split <;> rfl
    · exact ih (i + 1) d hd

theorem mask_inv_registered (env : iio_env) (trigs : List iio_trigger_init)
    (devs : List iio_device_init) : mask_inv (registered env trigs devs) := by
  intro d hd
  apply dev_mask_ok_zero
  unfold registered iio_init_devs at hd
  split at hd
  · simp at hd
  · exact init_devs_loop_mask _ _ _ d hd

theorem iio_apply_mask_inv (env : iio_env) (desc d1 : iio_desc) (op : iio_op)
    (h : iio_apply env desc op = some d1) (hinv : mask_inv desc) : mask_inv d1 := by
  cases op with
  | open_dev device samples mask cyclic =>
    simp only [iio_apply, Option.map_eq_some'] at h
    obtain ⟨⟨r, d⟩, h1, h2⟩ := h
    subst h2
    exact iio_open_dev_mask_inv env desc d device samples mask cyclic r h1 hinv
  | close_dev device =>
    simp only [iio_apply, Option.map_eq_some'] at h
    obtain ⟨⟨r, d⟩, h1, h2⟩ := h
    subst h2
    exact iio_close_dev_mask_inv desc d device r h1 hinv
  | call_submit device dir =>
    simp only [iio_apply, Option.map_eq_some'] at h
    obtain ⟨⟨r, d⟩, h1, h2⟩ := h
    subst h2
    exact iio_call_submit_mask_inv env desc d device dir r h1 hinv
  | read_buffer device bytes =>
    simp only [iio_apply, Option.some.injEq] at h
    rw [← h]
    exact iio_read_buffer_mask_inv desc device bytes hinv
  | write_buffer device buf bytes =>
    simp only [iio_apply, Option.map_eq_some'] at h
    obtain ⟨⟨r, d⟩, h1, h2⟩ := h
    subst h2
    exact iio_write_buffer_mask_inv desc d device buf bytes r h1 hinv
  | set_trigger device trigger len =>
    simp only [iio_apply, Option.map_eq_some'] at h
    obtain ⟨⟨r, d⟩, h1, h2⟩ := h
    subst h2
    exact iio_set_trigger_mask_inv desc d device trigger len r h1 hinv
  | step =>
    simp only [iio_apply, Option.map_eq_some'] at h
    obtain ⟨⟨r, d⟩, h1, h2⟩ := h
    subst h2
    exact mask_inv_of_devs_eq desc d hinv (iio_step_devs env desc d r h1)

theorem iio_run_mask_inv (env : iio_env) (ops : List iio_op) :
    ∀ desc d, iio_run env ops desc = some d → mask_inv desc → mask_inv d := by
  induction ops with
  | nil =>
    intro desc d h hinv
    simp only [iio_run, Option.some.injEq] at h
    rw [← h]; exact hinv
  | cons op ops ih =>
    intro desc d h hinv
    rw [iio_run] at h
    split at h
    · exact Option.noConfusion h
    · rename_i d1 h1
      exact ih d1 d h (iio_apply_mask_inv env desc d1 op h1 hinv)

/-- C25: in every state reached from registration by any sequence of open,
close, submit, read_buffer, write_buffer, set_trigger and step operations,
every device with 1..32 channels has an active mask below `2 ^ num_ch`, that
is, no bit of the mask at or above the channel count is set. -/
theorem active_mask_within_channels (env : iio_env) (trigs : List iio_trigger_init)
    (devs : List iio_device_init) (ops : List iio_op) (d : iio_desc)
    (h : iio_run env ops (registered env trigs devs) = some d) :
    ∀ dev ∈ d.devs, 1 ≤ dev.dev_descriptor.num_ch → dev.dev_descriptor.num_ch ≤ 32 →
      dev.buffer.pub.active_mask < 2 ^ dev.dev_descriptor.num_ch ∧
      ∀ k, dev.dev_descriptor.num_ch ≤ k → dev.buffer.pub.active_mask.testBit k = false := by
  intro dev hdev h1 h2
  have hlt := iio_run_mask_inv env ops _ d h (mask_inv_registered env trigs devs) dev hdev h1 h2
  refine ⟨hlt, ?_⟩
  intro k hk
  apply Nat.testBit_eq_false_of_lt
  exact lt_of_lt_of_le hlt (Nat.pow_le_pow_right (by decide) hk)

/-- C25 on the ADXRS290: after an open with mask 0b1100, a refill, a read and a
step the active mask is 0b100, below 2^3. -/
theorem active_mask_within_channels_witness :
    (iio_run env_ok
        [iio_op.open_dev "iio:device0".toList 4 12 false,
         iio_op.call_submit "iio:device0".toList iio_buffer_direction.IIO_DIRECTION_INPUT,
         iio_op.read_buffer "iio:device0".toList 5, iio_op.step]
        (registered env_ok []
          [{ name := "adxrs290".toList, dev_descriptor := adxrs290_iio_descriptor {} }])).map
      (fun d => d.devs.map (fun dev => (dev.dev_descriptor.num_ch, dev.buffer.pub.active_mask))) =
      some [(3, 4)] ∧
    ∃ d, iio_run env_ok
        [iio_op.open_dev "iio:device0".toList 4 12 false,
         iio_op.call_submit "iio:device0".toList iio_buffer_direction.IIO_DIRECTION_INPUT,
         iio_op.read_buffer "iio:device0".toList 5, iio_op.step]
        (registered env_ok []
          [{ name := "adxrs290".toList, dev_descriptor := adxrs290_iio_descriptor {} }]) =
        some d ∧
      ∀ dev ∈ d.devs, 1 ≤ dev.dev_descriptor.num_ch → dev.dev_descriptor.num_ch ≤ 32 →
        dev.buffer.pub.active_mask < 2 ^ dev.dev_descriptor.num_ch ∧
        ∀ k, dev.dev_descriptor.num_ch ≤ k → dev.buffer.pub.active_mask.testBit k = false := by
  refine ⟨by decide, ?_⟩
  cases hrun : iio_run env_ok
        [iio_op.open_dev "iio:device0".toList 4 12 false,
         iio_op.call_submit "iio:device0".toList iio_buffer_direction.IIO_DIRECTION_INPUT,
         iio_op.read_buffer "iio:device0".toList 5, iio_op.step]
        (registered env_ok []
          [{ name := "adxrs290".toList, dev_descriptor := adxrs290_iio_descriptor {} }]) with
  | none =>
    have hs : (iio_run env_ok
        [iio_op.open_dev "iio:device0".toList 4 12 false,
         iio_op.call_submit "iio:device0".toList iio_buffer_direction.IIO_DIRECTION_INPUT,
         iio_op.read_buffer "iio:device0".toList 5, iio_op.step]
        (registered env_ok []
          [{ name := "adxrs290".toList, dev_descriptor := adxrs290_iio_descriptor {} }])).isSome =
        true := by decide
    rw [hrun] at hs
    cases hs
  | some d =>
    exact ⟨d, rfl, active_mask_within_channels env_ok [] _ _ d hrun⟩

/-! ## Core-allocated storage when the ring configuration fails -/

/-- The failure path of the ring configuration (lines 911-918) frees
`dev->buffer.cb.buff`, not the local `buf`: it frees the new block only if
`cb_cfg` has set the ring over it.  With the `cb_cfg` of the model, which
leaves the ring as it was when it fails, and a configuration that rejects size
0 on the ADXRS290 registry (no caller storage; block 0 holds the device array):
a first `iio_open_dev(dev, 0, 0b100)` allocates block 1, sets the allocated
flag (line 907), fails at the configuration, frees `cb.buff`, which is null,
clears the flag and returns `-EINVAL` with block 1 still live; and after a
successful `iio_open_dev(dev, 4, 0b100)`, which owns block 1, a re-open with 0
samples frees block 1, allocates block 2, fails at the configuration and frees
`cb.buff`, still block 1, a second time, which is undefined. -/
theorem iio_open_dev_cfg_failure_frees_old_block :
    (adxrs290_registry env_ok {}).hp.live = [0] ∧
    (iio_open_dev env_cfg_reject_zero (adxrs290_registry env_ok {}) "iio:device0".toList 0 4
        false).map
      (fun r => (r.1, r.2.devs.map (fun d => (d.buffer.allocated, d.buffer.cb.buff)),
        r.2.hp.live)) = some (-EINVAL, [(false, none)], [1, 0]) ∧
    (cfg_opened.devs.map (fun d => (d.buffer.allocated, d.buffer.cb.buff)), cfg_opened.hp.live) =
      ([(true, some 1)], [1, 0]) ∧
    (iio_open_dev env_cfg_reject_zero cfg_opened "iio:device0".toList 0 4 false).isNone = true := by
  refine ⟨by decide, by decide, by decide, by decide⟩

theorem get_iio_device_put_dev (desc : iio_desc) (device : List Char) (i : Nat)
    (dev : iio_dev_priv) (b : iio_buffer_priv) (h : heap) (tr : List iio_call)
    (hdev : desc.devs[i]? = some dev) :
    get_iio_device (put_dev desc i dev b h tr) device = get_iio_device desc device :=
  get_iio_device_set desc device i dev { dev with buffer := b } hdev rfl _ rfl
    (put_dev desc i dev b h tr) rfl

theorem put_dev_getElem (desc : iio_desc) (i : Nat) (dev : iio_dev_priv) (b : iio_buffer_priv)
    (h : heap) (tr : List iio_call) (hdev : desc.devs[i]? = some dev) :
    (put_dev desc i dev b h tr).devs[i]? = some { dev with buffer := b } := by
  unfold put_dev
  simp only []
  rw [List.getElem?_set_self (getElem?_lt_of_some _ _ _ hdev)]

/-- The release at the start of the allocation path leaves exactly the blocks
`L0` live. -/
theorem release_owned (desc : iio_desc) (i : Nat) (dev : iio_dev_priv) (L0 : List Nat)
    (b : iio_buffer_priv) (hown : owns_storage desc i dev L0)
    (hb1 : b.allocated = dev.buffer.allocated) (hb2 : b.cb = dev.buffer.cb) :
    ∃ h2, release_allocated desc.hp b = some (h2, { b with allocated := false }) ∧
      h2.live = L0 := by
  obtain ⟨-, -, -, hcase⟩ := hown
  unfold release_allocated
  rcases hcase with ⟨ha, p, hp, hl⟩ | ⟨ha, hl⟩
  · rw [hb1, ha, hb2, hp]
    simp only [if_true, free, hl, List.mem_cons, true_or, List.erase_cons_head]
    exact ⟨_, rfl, rfl⟩
  · rw [hb1, ha]
    simp only [Bool.false_eq_true, if_false]
    refine ⟨desc.hp, ?_, hl⟩
    congr 2
    cases b
    simp only [iio_buffer_priv.mk.injEq, true_and] at *
    rw [← ha, ← hb1]

/-- With a ring configuration that never fails, an open of a device without
caller-supplied storage is defined and keeps the ownership of storage: the
block owned before is freed once, and afterwards the device owns the new
block, or none when the open failed. -/
theorem iio_open_dev_owns (env : iio_env) (desc : iio_desc) (device : List Char)
    (samples mask : Nat) (cyclic : Bool) (i : Nat) (dev : iio_dev_priv) (L0 : List Nat)
    (cm bps : Nat)
    (hget : get_iio_device desc device = some i) (hown : owns_storage desc i dev L0)
    (hcm : ch_mask_of dev.dev_descriptor.num_ch = some cm)
    (hbps : mask &&& cm ≠ 0 → bytes_per_scan dev.dev_descriptor.channels (mask &&& cm) = some bps)
    (htrig : dev_trig_ok desc dev)
    (hcfg : ∀ b s, IS_ERR_VALUE (env.cb_cfg_ret b s) = false) :
    ∃ r d1 dev1, iio_open_dev env desc device samples mask cyclic = some (r, d1) ∧
      owns_storage d1 i dev1 L0 ∧ dev1.dev_descriptor = dev.dev_descriptor ∧
      dev1.trig_idx = dev.trig_idx ∧ d1.trigs = desc.trigs ∧
      get_iio_device d1 device = some i := by
  have hown' := hown
  obtain ⟨hdev, hinit, hraw, hcase⟩ := hown
  by_cases hm0 : mask &&& cm = 0
  · refine ⟨-ENOENT, desc, dev, ?_, hown', rfl, rfl, rfl, hget⟩
    unfold iio_open_dev
    simp only [hget, hdev, hinit, hcm, hm0, Bool.not_true, Bool.false_eq_true, if_false, if_true]
  · have hb := hbps hm0
    obtain ⟨h2, hrel, hl2⟩ := release_owned desc i dev L0
      (requested_buffer dev (mask &&& cm) bps samples) hown' rfl rfl
    have hfin : ∀ (r : Int) (b : iio_buffer_priv) (h : heap) (tr : List iio_call),
        b.initalized = true → b.raw_buf = dev.buffer.raw_buf →
        b.raw_buf_len = dev.buffer.raw_buf_len →
        ((b.allocated = true ∧ ∃ p, b.cb.buff = some p ∧ h.live = p :: L0) ∨
          (b.allocated = false ∧ h.live = L0)) →
        iio_open_dev env desc device samples mask cyclic =
          some (r, put_dev desc i dev b h tr) →
        ∃ r d1 dev1, iio_open_dev env desc device samples mask cyclic = some (r, d1) ∧
          owns_storage d1 i dev1 L0 ∧ dev1.dev_descriptor = dev.dev_descriptor ∧
          dev1.trig_idx = dev.trig_idx ∧ d1.trigs = desc.trigs ∧
          get_iio_device d1 device = some i := by
      intro r b h tr hbi hbr hbl hbc ho
      refine ⟨r, _, { dev with buffer := b }, ho,
        ⟨put_dev_getElem desc i dev b h tr hdev, hbi, ?_, hbc⟩, rfl, rfl, rfl, ?_⟩
      · simp only [hbr, hbl]; exact hraw
      · rw [get_iio_device_set desc device i dev { dev with buffer := b } hdev rfl _ rfl
          (put_dev desc i dev b h tr) rfl]
        exact hget
    by_cases hcal : env.calloc_ok h2 ((bps * samples) % UINT32_MOD) 1 = true
    · have hopen := iio_open_dev_alloc env desc device samples mask cyclic i dev cm
        (mask &&& cm) bps h2 _ hget hdev hinit hcm rfl hm0 hb hraw hrel hcal
      have hc := hcfg (some h2.next) ((bps * samples) % UINT32_MOD)
      cases hpre : dev.dev_descriptor.pre_enable with
      | none =>
        rw [iio_open_dev_configure_no_pre _ _ _ _ _ _ _ _ _ hc hpre htrig] at hopen
        refine hfin _ _ _ _ ?_ ?_ ?_ ?_ hopen
        · exact hinit
        · rfl
        · rfl
        · exact Or.inl ⟨rfl, h2.next, rfl, by rw [hl2]⟩
      | some f =>
        cases hf : IS_ERR_VALUE (f dev.dev_instance (mask &&& cm)) with
        | false =>
          rw [iio_open_dev_configure_pre_ok _ _ _ _ _ _ _ _ _ f hc hpre hf htrig] at hopen
          refine hfin _ _ _ _ ?_ ?_ ?_ ?_ hopen
          · exact hinit
          · rfl
          · rfl
          · exact Or.inl ⟨rfl, h2.next, rfl, by rw [hl2]⟩
        | true =>
          have hrel5 : release_allocated { next := h2.next + 1, live := h2.next :: h2.live }
              { ({ ({ requested_buffer dev (mask &&& cm) bps samples with
                        allocated := false } : iio_buffer_priv) with
                    allocated := true } : iio_buffer_priv) with
                cb := { size := (bps * samples) % UINT32_MOD, buff := some h2.next,
                        data := [] } } =
              some ({ next := h2.next + 1, live := h2.live },
                { requested_buffer dev (mask &&& cm) bps samples with
                  cb := { size := (bps * samples) % UINT32_MOD, buff := some h2.next,
                          data := [] },
                  allocated := false }) := by
            simp [release_allocated, free]
          rw [iio_open_dev_configure_pre_fail _ _ _ _ _ _ _ _ _ _ _ f hc hpre hf hrel5 htrig]
            at hopen
          refine hfin _ _ _ _ ?_ ?_ ?_ ?_ hopen
          · exact hinit
          · rfl
          · rfl
          · exact Or.inr ⟨rfl, hl2⟩
    · have hcal' : env.calloc_ok h2 ((bps * samples) % UINT32_MOD) 1 = false := by
        simpa using hcal
      have hcond : (dev.buffer.raw_buf.isSome && dev.buffer.raw_buf_len != 0) = false := by
        rcases hraw with h | h
        · rw [h]; rfl
        · rw [h]; simp
      have hrel' := hrel
      unfold requested_buffer at hrel'
      simp only [hinit] at hrel'
      have hopen : iio_open_dev env desc device samples mask cyclic =
          some (-ENOMEM,
            put_dev desc i dev
              { requested_buffer dev (mask &&& cm) bps samples with allocated := false } h2
              desc.trace) := by
        unfold iio_open_dev requested_buffer
        simp only [hget, hdev, hinit, hcm, hm0, hb, Bool.not_true, Bool.false_eq_true,
          if_false, hcond, hrel', calloc, hcal']
      refine hfin _ _ _ _ ?_ ?_ ?_ ?_ hopen
      · exact hinit
      · rfl
      · rfl
      · exact Or.inr ⟨rfl, hl2⟩

/-- A close of a device without caller-supplied storage is defined when the
device has a `post_disable` callback or a registered trigger, and frees the
block the device owns exactly once: afterwards the device owns none. -/
theorem iio_close_dev_owns (desc : iio_desc) (device : List Char) (i : Nat)
    (dev : iio_dev_priv) (L0 : List Nat)
    (hget : get_iio_device desc device = some i) (hown : owns_storage desc i dev L0)
    (hclose : dev.dev_descriptor.post_disable.isSome = true ∨
      ∃ t, desc.trigs[dev.trig_idx]? = some t) :
    ∃ r d1 dev1, iio_close_dev desc device = some (r, d1) ∧
      owns_storage d1 i dev1 L0 ∧ dev1.buffer.allocated = false ∧ d1.hp.live = L0 ∧
      dev1.dev_descriptor = dev.dev_descriptor ∧
      dev1.trig_idx = dev.trig_idx ∧ d1.trigs = desc.trigs ∧
      get_iio_device d1 device = some i := by
  obtain ⟨h2, hrel, hl2⟩ := release_owned desc i dev L0 dev.buffer hown rfl rfl
  obtain ⟨hdev, hinit, hraw, -⟩ := hown
  have hfin : ∀ (r : Int) (tr : List iio_call),
      iio_close_dev desc device =
        some (r, put_dev desc i dev
          { ({ dev.buffer with allocated := false } : iio_buffer_priv) with
            pub := { dev.buffer.pub with active_mask := 0 } } h2 tr) →
      ∃ r d1 dev1, iio_close_dev desc device = some (r, d1) ∧
        owns_storage d1 i dev1 L0 ∧ dev1.buffer.allocated = false ∧ d1.hp.live = L0 ∧
        dev1.dev_descriptor = dev.dev_descriptor ∧
        dev1.trig_idx = dev.trig_idx ∧ d1.trigs = desc.trigs ∧
        get_iio_device d1 device = some i := by
    intro r tr ho
    refine ⟨r, _, { dev with buffer := _ }, ho,
      ⟨put_dev_getElem desc i dev _ h2 tr hdev, hinit, hraw, Or.inr ⟨rfl, hl2⟩⟩, rfl, hl2,
      rfl, rfl, rfl, ?_⟩
    exact (get_iio_device_put_dev desc device i dev _ h2 tr hdev).trans hget
  cases hpost : dev.dev_descriptor.post_disable with
  | some f =>
    refine hfin (f dev.dev_instance) (desc.trace ++ [iio_call.post_disable i]) ?_
    unfold iio_close_dev
    simp only [hget, hdev, hinit, hrel, hpost, Bool.not_true, Bool.false_eq_true, if_false]
  | none =>
    rw [hpost] at hclose
    rcases hclose with hc | ⟨t, ht⟩
    · exact absurd hc (by simp)
    · by_cases hd : t.descriptor.disable = true
      · refine hfin SUCCESS (desc.trace ++ [iio_call.trig_disable dev.trig_idx]) ?_
        unfold iio_close_dev
        simp only [hget, hdev, hinit, hrel, hpost, ht, hd, Bool.not_true, Bool.false_eq_true,
          if_false, if_true]
      · refine hfin SUCCESS desc.trace ?_
        unfold iio_close_dev
        simp only [hget, hdev, hinit, hrel, hpost, ht, hd, Bool.not_true, Bool.false_eq_true,
          if_false]

/-- Exactly-once ownership with the `cb_cfg` of the model: with a
`cb_cfg` that never fails, every sequence of opens and closes of a device
without caller-supplied storage is defined (no block is freed twice) and
leaves the device owning at most one block, the only live block besides those
live before (no block is leaked). The device has 1..32 channels, all with a
scan type, and a registered trigger or a `post_disable` callback. -/
theorem session_run_owns (env : iio_env) (device : List Char) (i : Nat) (L0 : List Nat)
    (hcfg : ∀ b s, IS_ERR_VALUE (env.cb_cfg_ret b s) = false)
    (ops : List (Option (Nat × Nat))) :
    ∀ (desc : iio_desc) (dev : iio_dev_priv),
      get_iio_device desc device = some i → owns_storage desc i dev L0 →
      1 ≤ dev.dev_descriptor.num_ch → dev.dev_descriptor.num_ch ≤ 32 →
      dev.dev_descriptor.num_ch = (dev.dev_descriptor.channels.getD []).length →
      (∀ c ∈ dev.dev_descriptor.channels.getD [], c.scan_type.isSome = true) →
      ((dev.dev_descriptor.post_disable.isSome = true ∧ dev.trig_idx = NO_TRIGGER) ∨
        ∃ t, desc.trigs[dev.trig_idx]? = some t) →
      ∃ d1 dev1, session_run env device ops desc = some d1 ∧ owns_storage d1 i dev1 L0 := by
  induction ops with
  | nil => intro desc dev _ hown _ _ _ _ _; exact ⟨desc, dev, rfl, hown⟩
  | cons op ops ih =>
    intro desc dev hget hown h1 h32 hlen hst hwf
    have htrig : dev_trig_ok desc dev := by
      rcases hwf with ⟨-, h⟩ | h
      · exact Or.inl h
      · exact Or.inr h
    have hclose : dev.dev_descriptor.post_disable.isSome = true ∨
        ∃ t, desc.trigs[dev.trig_idx]? = some t := by
      rcases hwf with ⟨h, -⟩ | h
      · exact Or.inl h
      · exact Or.inr h
    have hstep : ∃ d1 dev1, session_step env device desc op = some d1 ∧
        owns_storage d1 i dev1 L0 ∧ dev1.dev_descriptor = dev.dev_descriptor ∧
        dev1.trig_idx = dev.trig_idx ∧ d1.trigs = desc.trigs ∧
        get_iio_device d1 device = some i := by
      cases op with
      | none =>
        obtain ⟨r, d1, dev1, ho, hown1, -, -, hd, ht, htr, hg⟩ :=
          iio_close_dev_owns desc device i dev L0 hget hown hclose
        exact ⟨d1, dev1, by simp only [session_step, ho, Option.map_some'], hown1, hd, ht, htr, hg⟩
      | some sm =>
        obtain ⟨samples, mask⟩ := sm
        have hpos : 0 < 2 ^ dev.dev_descriptor.num_ch := Nat.pow_pos (by decide)
        have hlt : mask &&& (2 ^ dev.dev_descriptor.num_ch - 1) <
            2 ^ (dev.dev_descriptor.channels.getD []).length := by
          rw [← hlen]
          have := @Nat.and_le_right mask (2 ^ dev.dev_descriptor.num_ch - 1)
          omega
        have hb : bytes_per_scan dev.dev_descriptor.channels
            (mask &&& (2 ^ dev.dev_descriptor.num_ch - 1)) =
            some ((0 + position_bytes (dev.dev_descriptor.channels.getD [])
              (mask &&& (2 ^ dev.dev_descriptor.num_ch - 1))) % UINT32_MOD) := by
          unfold bytes_per_scan
          exact bytes_per_scan_loop_eq _ _ 0 hlt (by decide)
            (fun k c hk _ => hst c (List.getElem?_mem hk))
        obtain ⟨r, d1, dev1, ho, hown1, hd, ht, htr, hg⟩ :=
          iio_open_dev_owns env desc device samples mask false i dev L0 _ _ hget hown
            (ch_mask_of_eq _ h1 h32) (fun _ => hb) htrig hcfg
        exact ⟨d1, dev1, by simp only [session_step, ho, Option.map_some'], hown1, hd, ht, htr, hg⟩
    obtain ⟨d1, dev1, hs, hown1, hd, ht, htr, hg⟩ := hstep
    obtain ⟨d2, dev2, hr, hown2⟩ := ih d1 dev1 hg hown1 (by rw [hd]; exact h1)
      (by rw [hd]; exact h32) (by rw [hd]; exact hlen) (by rw [hd]; exact hst)
      (by rw [hd, ht, htr]; exact hwf)
    exact ⟨d2, dev2, by simp only [session_run, hs]; exact hr, hown2⟩

/-- The ownership theorem at the device of `post_disable_registry`: two opens,
a close and a further open are defined and leave the device owning at most
one block besides block 0, which was live before. -/
theorem session_run_owns_post_disable :
    ∃ d1 dev1,
      session_run env_ok "iio:device0".toList [some (4, 4), some (2, 7), none, some (1, 1)]
        post_disable_registry = some d1 ∧ owns_storage d1 0 dev1 [0] :=
  session_run_owns env_ok "iio:device0".toList 0 [0] (fun _ _ => rfl) _ post_disable_registry
    (post_disable_registry.devs.getD 0 {}) (by decide)
    ⟨rfl, by decide, Or.inl (by decide), Or.inr ⟨by decide, by decide⟩⟩
    (by decide) (by decide) (by decide) (by decide) (Or.inl ⟨by decide, by decide⟩)

/-! ## Core-allocated storage over an arbitrary `cb_cfg` -/

/-- The definitions over a `cb_cfg` given agree with `iio_open_dev` at the
`cb_cfg` of the model. -/
theorem iio_open_dev_over_cb_cfg (env : iio_env) (desc : iio_desc) (device : List Char)
    (samples mask : Nat) (cyclic : Bool) :
    iio_open_dev_over env (cb_cfg env) desc device samples mask cyclic =
      iio_open_dev env desc device samples mask cyclic := rfl

theorem session_run_over_cb_cfg (env : iio_env) (device : List Char)
    (ops : List (Option (Nat × Nat))) :
    ∀ desc, session_run_over env (cb_cfg env) device ops desc = session_run env device ops desc := by
  induction ops with
  | nil => intro desc; rfl
  | cons op ops ih =>
    intro desc
    have hstep : session_step_over env (cb_cfg env) device desc op =
        session_step env device desc op := by
      cases op with
      | none => rfl
      | some sm => rfl
    simp only [session_run_over, session_run, hstep]
    cases session_step env device desc op with
    | none => rfl
    | some d1 => exact ih d1

/-- C35 fails: for every buffer-capable device without `post_disable` callback
whose trigger index is `NO_TRIGGER` (in a registry of at most 2^32 - 1
triggers), `iio_close_dev` goes on to `desc->trigs[dev->trig_idx]` with the
index `NO_TRIGGER`, which lies past the trigger array, and reads the
`descriptor` member of that element: the call is undefined instead of
returning `SUCCESS`. -/
theorem iio_close_dev_no_trigger_undefined (desc : iio_desc) (device : List Char) (i : Nat)
    (dev : iio_dev_priv)
    (hget : get_iio_device desc device = some i) (hdev : desc.devs[i]? = some dev)
    (hinit : dev.buffer.initalized = true)
    (hpost : dev.dev_descriptor.post_disable = none)
    (htrig : dev.trig_idx = NO_TRIGGER) (hlen : desc.trigs.length ≤ NO_TRIGGER) :
    desc.trigs[dev.trig_idx]? = none ∧ iio_close_dev desc device = none := by
  have hnone : desc.trigs[dev.trig_idx]? = none := by
    rw [htrig]
    exact List.getElem?_eq_none hlen
  refine ⟨hnone, ?_⟩
  unfold iio_close_dev
  simp only [hget, hdev, hinit, Bool.not_true, Bool.false_eq_true, if_false]
  cases hrel : release_allocated desc.hp dev.buffer with
  | none => rfl
  | some r =>
    obtain ⟨h1, b1⟩ := r
    simp only [hpost, hnone]

/-- The ADXRS290 registry: its device is buffer-capable, has no `post_disable`
and no trigger, and closing it is undefined, also right after a successful
open. -/
theorem iio_close_dev_no_trigger_undefined_witness :
    desc_trig_facts (adxrs290_registry env_ok {}) = [(true, false, NO_TRIGGER)] ∧
    (adxrs290_registry env_ok {}).trigs[NO_TRIGGER]? = none ∧
    iio_close_dev (adxrs290_registry env_ok {}) "iio:device0".toList = none ∧
    (iio_close_dev cfg_opened "iio:device0".toList).isNone = true :=
  ⟨by decide,
   (iio_close_dev_no_trigger_undefined (adxrs290_registry env_ok {}) "iio:device0".toList 0
      ((adxrs290_registry env_ok {}).devs.getD 0 {}) (by decide) rfl (by decide) rfl
      (by decide) (by decide)).1,
   (iio_close_dev_no_trigger_undefined (adxrs290_registry env_ok {}) "iio:device0".toList 0
      ((adxrs290_registry env_ok {}).devs.getD 0 {}) (by decide) rfl (by decide) rfl
      (by decide) (by decide)).2,
   by decide⟩

/-! ## Attribute categories without a list -/

/-- With the attribute list of the request null, or the channel of a channel
category null, a request with a non-empty name (the register pseudo-attribute
apart) is undefined for both dispatchers. -/
theorem iio_attr_null_list (env : iio_env) (desc : iio_desc) (device : List Char)
    (attr : iiod_attr) (buf : List Char) (len : Nat) (i : Nat) (dev : iio_dev_priv)
    (ch : Option iio_channel) (ci : Option iio_ch_info)
    (hget : get_iio_device desc device = some i) (hdev : desc.devs[i]? = some dev)
    (hname : attr.name ≠ [])
    (hreg : ¬ (attr.type = iio_attr_type.IIO_ATTR_TYPE_DEBUG ∧ attr.name = REG_ACCESS_ATTRIBUTE))
    (hac : attr_channel dev attr = some (some (ch, ci)))
    (hga : get_attributes attr.type dev ch = some none ∨ get_attributes attr.type dev ch = none) :
    iio_read_attr desc device attr len = none ∧
    iio_write_attr env desc device attr buf len = none := by
  unfold iio_read_attr iio_write_attr
  rcases hga with hga | hga
  · simp only [hget, hdev, hreg, if_false, hac, hga, hname, iio_rd_wr_attribute]
    exact ⟨trivial, trivial⟩
  · simp only [hget, hdev, hreg, if_false, hac, hga]
    exact ⟨trivial, trivial⟩

/-- C36 fails: for a known device and a request with a non-empty attribute name
(the register pseudo-attribute apart), `iio_read_attr` and `iio_write_attr`
hand the list of the category to `iio_rd_wr_attribute` unchecked, which reads
`attributes[0].name`.  With a null device, debug or buffer list, or a null list
of the resolved channel, that is a null dereference, and a channel category
without channel dereferences the null channel in `get_attributes`: every such
request is undefined instead of returning an error. -/
theorem iio_attr_absent_list_undefined (env : iio_env) (desc : iio_desc) (device : List Char)
    (attr : iiod_attr) (buf : List Char) (len : Nat) (i : Nat) (dev : iio_dev_priv)
    (hget : get_iio_device desc device = some i) (hdev : desc.devs[i]? = some dev)
    (hname : attr.name ≠ [])
    (hreg : ¬ (attr.type = iio_attr_type.IIO_ATTR_TYPE_DEBUG ∧
      attr.name = REG_ACCESS_ATTRIBUTE)) :
    (attr.channel = none → attr.type = iio_attr_type.IIO_ATTR_TYPE_DEVICE →
      dev.dev_descriptor.attributes = none →
      iio_read_attr desc device attr len = none ∧
      iio_write_attr env desc device attr buf len = none) ∧
    (attr.channel = none → attr.type = iio_attr_type.IIO_ATTR_TYPE_DEBUG →
      dev.dev_descriptor.debug_attributes = none →
      iio_read_attr desc device attr len = none ∧
      iio_write_attr env desc device attr buf len = none) ∧
    (attr.channel = none → attr.type = iio_attr_type.IIO_ATTR_TYPE_BUFFER →
      dev.dev_descriptor.buffer_attributes = none →
      iio_read_attr desc device attr len = none ∧
      iio_write_attr env desc device attr buf len = none) ∧
    (∀ (nm : List Char) (j : Nat) (c : iio_channel), attr.channel = some nm →
      (attr.type = iio_attr_type.IIO_ATTR_TYPE_CH_IN ∨
        attr.type = iio_attr_type.IIO_ATTR_TYPE_CH_OUT) →
      iio_get_channel nm dev.dev_descriptor
        (decide (attr.type = iio_attr_type.IIO_ATTR_TYPE_CH_OUT)) = some (some j) →
      (dev.dev_descriptor.channels.getD [])[j]? = some c → c.attributes = none →
      iio_read_attr desc device attr len = none ∧
      iio_write_attr env desc device attr buf len = none) ∧
    (attr.channel = none →
      (attr.type = iio_attr_type.IIO_ATTR_TYPE_CH_IN ∨
        attr.type = iio_attr_type.IIO_ATTR_TYPE_CH_OUT) →
      iio_read_attr desc device attr len = none ∧
      iio_write_attr env desc device attr buf len = none) := by
  have hnoch : attr.channel = none → attr_channel dev attr = some (some (none, none)) := by
    intro h
    unfold attr_channel
    rw [h]
  refine ⟨?_, ?_, ?_, ?_, ?_⟩
  · intro hc ht ha
    refine iio_attr_null_list env desc device attr buf len i dev none none hget hdev hname hreg
      (hnoch hc) (Or.inl ?_)
    rw [ht]
    simp only [get_attributes, ha]
  · intro hc ht ha
    refine iio_attr_null_list env desc device attr buf len i dev none none hget hdev hname hreg
      (hnoch hc) (Or.inl ?_)
    rw [ht]
    simp only [get_attributes, ha]
  · intro hc ht ha
    refine iio_attr_null_list env desc device attr buf len i dev none none hget hdev hname hreg
      (hnoch hc) (Or.inl ?_)
    rw [ht]
    simp only [get_attributes, ha]
  · intro nm j c hc ht hj hcj ha
    refine iio_attr_null_list env desc device attr buf len i dev (some c)
      (some { ch_out := decide (attr.type = iio_attr_type.IIO_ATTR_TYPE_CH_OUT),
              ch_num := c.channel, type := c.ch_type, differential := c.diferential,
              address := c.address })
      hget hdev hname hreg ?_ (Or.inl ?_)
    · unfold attr_channel
      simp only [hc, hj, hcj]
    · rcases ht with ht | ht <;> rw [ht] <;> simp only [get_attributes, ha]
  · intro hc ht
    refine iio_attr_null_list env desc device attr buf len i dev none none hget hdev hname hreg
      (hnoch hc) (Or.inr ?_)
    rcases ht with ht | ht <;> rw [ht] <;> rfl

/-- C36 on the ADXRS290, whose descriptor has no device-level list: reading or
writing the device attribute "sampling_frequency" is undefined, and so is a
request for the channel attribute "raw" that names no channel. -/
theorem iio_attr_absent_list_undefined_witness :
    (iio_read_attr (adxrs290_registry env_ok {}) "iio:device0".toList
        ⟨iio_attr_type.IIO_ATTR_TYPE_DEVICE, "sampling_frequency".toList, none⟩ 16 = none ∧
     iio_write_attr env_ok (adxrs290_registry env_ok {}) "iio:device0".toList
        ⟨iio_attr_type.IIO_ATTR_TYPE_DEVICE, "sampling_frequency".toList, none⟩ "1".toList 1 =
      none) ∧
    (iio_read_attr (adxrs290_registry env_ok {}) "iio:device0".toList
        ⟨iio_attr_type.IIO_ATTR_TYPE_CH_IN, "raw".toList, none⟩ 16 = none ∧
     iio_write_attr env_ok (adxrs290_registry env_ok {}) "iio:device0".toList
        ⟨iio_attr_type.IIO_ATTR_TYPE_CH_IN, "raw".toList, none⟩ "1".toList 1 = none) :=
  ⟨(iio_attr_absent_list_undefined env_ok (adxrs290_registry env_ok {}) "iio:device0".toList
      ⟨iio_attr_type.IIO_ATTR_TYPE_DEVICE, "sampling_frequency".toList, none⟩ "1".toList 16 0
      ((adxrs290_registry env_ok {}).devs.getD 0 {}) rfl rfl (by decide)
      (fun h => absurd h.1 (by decide))).1 rfl rfl rfl |>.1 |> fun h1 =>
        ⟨h1, ((iio_attr_absent_list_undefined env_ok (adxrs290_registry env_ok {})
          "iio:device0".toList
          ⟨iio_attr_type.IIO_ATTR_TYPE_DEVICE, "sampling_frequency".toList, none⟩ "1".toList 1 0
          ((adxrs290_registry env_ok {}).devs.getD 0 {}) rfl rfl (by decide)
          (fun h => absurd h.1 (by decide))).1 rfl rfl rfl).2⟩,
   (iio_attr_absent_list_undefined env_ok (adxrs290_registry env_ok {}) "iio:device0".toList
      ⟨iio_attr_type.IIO_ATTR_TYPE_CH_IN, "raw".toList, none⟩ "1".toList 16 0
      ((adxrs290_registry env_ok {}).devs.getD 0 {}) rfl rfl (by decide)
      (fun h => absurd h.1 (by decide))).2.2.2.2 rfl (Or.inl rfl) |>.1 |> fun h1 =>
        ⟨h1, ((iio_attr_absent_list_undefined env_ok (adxrs290_registry env_ok {})
          "iio:device0".toList
          ⟨iio_attr_type.IIO_ATTR_TYPE_CH_IN, "raw".toList, none⟩ "1".toList 1 0
          ((adxrs290_registry env_ok {}).devs.getD 0 {}) rfl rfl (by decide)
          (fun h => absurd h.1 (by decide))).2.2.2.2 rfl (Or.inl rfl)).2⟩⟩

/-! ## Trigger association -/

theorem iio_get_trig_idx_mem (desc : iio_desc) (name : List Char)
    (hlen : desc.trigs.length < UINT32_MOD) (h : ∃ t ∈ desc.trigs, t.name = name) :
    ∃ t, desc.trigs[iio_get_trig_idx desc (some name)]? = some t ∧ t.name = name ∧
      iio_get_trig_idx desc (some name) ≠ NO_TRIGGER := by
  cases hf : find_from (fun (t : iio_trig_priv) => decide (t.name = name)) desc.trigs 0 with
  | none =>
    obtain ⟨t, ht, hn⟩ := h
    have := find_from_none _ _ _ hf t ht
    simp [hn] at this
  | some k =>
    obtain ⟨-, h2, ⟨x, hx, hp⟩, -⟩ := find_from_some _ _ _ _ hf
    simp only [Nat.sub_zero] at h2 hx
    have hku : k < UINT32_MOD := by omega
    have hidx : iio_get_trig_idx desc (some name) = k := by
      unfold iio_get_trig_idx
      simp only [hf, Nat.mod_eq_of_lt hku]
    rw [hidx]
    refine ⟨x, hx, by simpa using hp, ?_⟩
    unfold NO_TRIGGER
    unfold UINT32_MOD at hlen
    omega

theorem iio_get_trigger_after_set (desc : iio_desc) (device : List Char) (i : Nat)
    (dev : iio_dev_priv) (k glen : Nat)
    (hget : get_iio_device desc device = some i) (hdev : desc.devs[i]? = some dev) :
    iio_get_trigger { desc with devs := desc.devs.set i { dev with trig_idx := k } } device glen =
      if k = NO_TRIGGER then some (0, some [])
      else
        match desc.trigs[k]? with
        | none => none
        | some trig =>
          some ((c_snprintf glen trig.name).1,
            if glen = 0 then none else some (c_snprintf glen trig.name).2) := by
  have hg : get_iio_device { desc with devs := desc.devs.set i { dev with trig_idx := k } }
      device = some i :=
    (get_iio_device_set desc device i dev { dev with trig_idx := k } hdev rfl _ rfl _ rfl).trans
      hget
  unfold iio_get_trigger
  simp only [hg, List.getElem?_set_self (getElem?_lt_of_some _ _ _ hdev)]

/-- C37: on a known device, `iio_set_trigger` with a registered non-empty
trigger name returns the given length (as `int`) and a following
`iio_get_trigger` into a buffer that holds the name yields exactly that name;
with the empty string it returns `SUCCESS` and `iio_get_trigger` then yields
the empty string with result 0; with an unregistered non-empty name it returns
`-EINVAL` and leaves the registry as it was; and no call changes the trigger
array or the record of another device. -/
theorem iio_set_get_trigger (desc : iio_desc) (device : List Char) (trigger : List Char)
    (len glen : Nat) (i : Nat) (dev : iio_dev_priv)
    (hget : get_iio_device desc device = some i) (hdev : desc.devs[i]? = some dev)
    (hlen : desc.trigs.length < UINT32_MOD) :
    (trigger ≠ [] → (∃ t ∈ desc.trigs, t.name = trigger) →
      ∃ d1, iio_set_trigger desc device trigger len = some (int_of_u32 len, d1) ∧
        (len < 2147483648 → int_of_u32 len = (len : Int)) ∧
        (trigger.length < glen →
          iio_get_trigger d1 device glen = some ((trigger.length : Int), some trigger))) ∧
    (∃ d1, iio_set_trigger desc device [] len = some (SUCCESS, d1) ∧
      iio_get_trigger d1 device glen = some (0, some [])) ∧
    (trigger ≠ [] → (∀ t ∈ desc.trigs, t.name ≠ trigger) →
      iio_set_trigger desc device trigger len = some (-EINVAL, desc)) ∧
    (∀ r d1, iio_set_trigger desc device trigger len = some (r, d1) →
      d1.trigs = desc.trigs ∧ ∀ j, j ≠ i → d1.devs[j]? = desc.devs[j]?) := by
  refine ⟨?_, ?_, ?_, ?_⟩
  · intro hne hreg
    obtain ⟨t, ht, hn, hno⟩ := iio_get_trig_idx_mem desc trigger hlen hreg
    refine ⟨{ desc with
              devs := desc.devs.set i
                { dev with trig_idx := iio_get_trig_idx desc (some trigger) } }, ?_, ?_, ?_⟩
    · unfold iio_set_trigger
      simp only [hget, hdev, hne, if_false, hno]
    · intro hl
      unfold int_of_u32 UINT32_MOD
      have : len % 4294967296 = len := Nat.mod_eq_of_lt (by omega)
      simp only [this, hl, if_true]
    · intro hg
      rw [iio_get_trigger_after_set desc device i dev _ glen hget hdev]
      simp only [hno, if_false, ht, c_snprintf, hn]
      have h0 : glen ≠ 0 := by omega
      simp only [h0, if_false]
      rw [List.take_of_length_le (by omega)]
  · refine ⟨{ desc with devs := desc.devs.set i { dev with trig_idx := NO_TRIGGER } }, ?_, ?_⟩
    · unfold iio_set_trigger
      simp only [hget, hdev, if_true]
    · rw [iio_get_trigger_after_set desc device i dev _ glen hget hdev]
      simp only [if_true]
  · intro hne habs
    unfold iio_set_trigger
    simp only [hget, hdev, hne, if_false, iio_get_trig_idx_absent desc trigger habs, if_true]
  · intro r d1 h
    unfold iio_set_trigger at h
    simp only [hget, hdev] at h
    split at h
    · simp only [Option.some.injEq, Prod.mk.injEq] at h
      obtain ⟨-, rfl⟩ := h
      exact ⟨rfl, fun j hj => List.getElem?_set_ne (Ne.symm hj)⟩
    · split at h
      · simp only [Option.some.injEq, Prod.mk.injEq] at h
        obtain ⟨-, rfl⟩ := h
        exact ⟨rfl, fun j hj => rfl⟩
      · simp only [Option.some.injEq, Prod.mk.injEq] at h
        obtain ⟨-, rfl⟩ := h
        exact ⟨rfl, fun j hj => List.getElem?_set_ne (Ne.symm hj)⟩

/-- C37 on `trig_registry` (trigger "t", devices "a" and "b"): device 1 is
associated with "t", reads it back, and is dissociated again; the unregistered
name "u" is refused; device 0 keeps its trigger throughout. -/
theorem iio_set_get_trigger_witness :
    (∃ d1, iio_set_trigger trig_registry "iio:device1".toList "t".toList 1 =
        some (int_of_u32 1, d1) ∧
      (1 < 2147483648 → int_of_u32 1 = ((1 : Nat) : Int)) ∧
      ("t".toList.length < 8 →
        iio_get_trigger d1 "iio:device1".toList 8 =
          some (("t".toList.length : Int), some "t".toList))) ∧
    (iio_set_trigger trig_registry "iio:device1".toList "t".toList 1).map
        (fun r => (r.1, r.2.devs.map (fun d => d.trig_idx),
          iio_get_trigger r.2 "iio:device1".toList 8)) =
      some (1, [0, 0], some (1, some "t".toList)) ∧
    (iio_set_trigger trig_registry "iio:device1".toList "u".toList 1).map
        (fun r => (r.1, r.2.devs.map (fun d => d.trig_idx))) =
      some (-EINVAL, [0, NO_TRIGGER]) ∧
    (iio_set_trigger trig_registry "iio:device0".toList [] 0).map
        (fun r => (r.1, r.2.devs.map (fun d => d.trig_idx),
          iio_get_trigger r.2 "iio:device0".toList 8)) =
      some (SUCCESS, [NO_TRIGGER, NO_TRIGGER], some (0, some [])) :=
  ⟨(iio_set_get_trigger trig_registry "iio:device1".toList "t".toList 1 8 1
      (trig_registry.devs.getD 1 {}) (by decide) rfl (by decide)).1 (by decide)
      ⟨trig_registry.trigs.getD 0 {},
        List.getElem?_mem (rfl : trig_registry.trigs[0]? = some (trig_registry.trigs.getD 0 {})),
        by decide⟩,
   rfl, by decide, rfl⟩

/-! ## ADXRS290: the raw attribute of the temperature channel -/

theorem int16_of_shifted (x : Int) (h0 : 0 ≤ x) (h1 : x ≤ 32767) :
    int16_of_int (x * 16 / 16) = x := by
  rw [Int.mul_ediv_cancel x (by decide : (16 : Int) ≠ 0)]
  unfold int16_of_int
  omega

/-- C39 fails for the temperature channel: `(data << 4) >> 4` is evaluated
after promotion of the `int16_t` sample to `int`, so for every non-negative
sample the shifts cancel and the sample is emitted unchanged, without sign
extension from bit 11; for a negative sample the left shift is undefined. -/
theorem get_adxrs290_iio_ch_raw_temp (hw : adxrs290_hw) (device len : Nat) (ch : iio_ch_info)
    (priv : Int) (hch : ch.ch_num = ADXRS290_CHANNEL_TEMP) :
    (0 ≤ hw.rate_data ch.ch_num → hw.rate_data ch.ch_num ≤ 32767 →
      get_adxrs290_iio_ch_raw hw device len (some ch) priv =
        some (c_snprintf len (fmt_d (hw.rate_data ch.ch_num)))) ∧
    (hw.rate_data ch.ch_num < 0 →
      get_adxrs290_iio_ch_raw hw device len (some ch) priv = none) := by
  unfold get_adxrs290_iio_ch_raw
  constructor
  · intro h0 h1
    have hn : ¬ hw.rate_data ch.ch_num < 0 := by omega
    simp only [hch, if_true]
    rw [hch] at hn h0 h1
    simp only [hn, if_false, int16_of_shifted _ h0 h1]
  · intro hneg
    simp only [hch, if_true]
    rw [hch] at hneg
    simp only [hneg, if_true]

/-- C39 at the sample 0x0FFF of the temperature channel: the text emitted is
"4095", where the 12-bit two's-complement value of the sample is -1. -/
theorem get_adxrs290_iio_ch_raw_temp_witness :
    get_adxrs290_iio_ch_raw { rate_data := fun _ => 4095 } 0 16
        (some temp_ch_info) 0 =
      some (c_snprintf 16 (fmt_d 4095)) ∧
    c_snprintf 16 (fmt_d 4095) = (4, "4095".toList) ∧
    fmt_d (sign_extend_12 4095) = "-1".toList :=
  ⟨(get_adxrs290_iio_ch_raw_temp { rate_data := fun _ => 4095 } 0 16
      temp_ch_info 0 rfl).1 (by decide) (by decide),
   by decide, by decide⟩

/-- Through `iio_read_attr` the callback is not handed the temperature
channel's number: the channel table leaves `.channel` at 0 for all three
channels, so `ch_num` is 0 and the raw read of channel "temp" prints the sample
of channel 0 (here 7, where the temperature sample is 4095). -/
theorem adxrs290_temp_raw_reads_channel_zero :
    (iio_read_attr
        (adxrs290_registry env_ok { rate_data := fun c => if c = 2 then 4095 else 7 })
        "iio:device0".toList
        ⟨iio_attr_type.IIO_ATTR_TYPE_CH_IN, "raw".toList, some "temp".toList⟩ 16).map
      (fun r => (r.1, r.2.1)) = some (1, "7".toList) := by
  rfl

/-- The angular-velocity channels: the sample is emitted unchanged. -/
theorem get_adxrs290_iio_ch_raw_vel (hw : adxrs290_hw) (device len : Nat) (ch : iio_ch_info)
    (priv : Int) (hch : ch.ch_num ≠ ADXRS290_CHANNEL_TEMP) :
    get_adxrs290_iio_ch_raw hw device len (some ch) priv =
      some (c_snprintf len (fmt_d (hw.rate_data ch.ch_num))) := by
  unfold get_adxrs290_iio_ch_raw
  simp only [hch, if_false]

/-! ## ADXRS290: the filter frequencies -/

/-- C40 fails for the high-pass filter: the read clamps the index to the table
(indices above 10 read entry 10, above 7 entry 7 for the low-pass filter), but
prints the micro part with `%d`, without the leading zeros of a six-digit
fraction.  For the high-pass indices 1 to 4 the text denotes ten times the
fraction of the table (index 1, entry {0, 11000}: "0.11000", that is 0.11
instead of 0.011); the other high-pass entries and all low-pass entries, whose
micro part is 0 or has six digits, are denoted correctly. -/
theorem adxrs290_filter_read_text :
    (∀ (hw : adxrs290_hw) (device len : Nat) (ch : Option iio_ch_info) (priv : Int),
      get_adxrs290_iio_ch_hpf hw device len ch priv =
        get_adxrs290_iio_ch_hpf { hw with hpf := min hw.hpf 10 } device len ch priv ∧
      get_adxrs290_iio_ch_lpf hw device len ch priv =
        get_adxrs290_iio_ch_lpf { hw with lpf := min hw.lpf 7 } device len ch priv ∧
      (get_adxrs290_iio_ch_hpf hw device len ch priv).isSome = true ∧
      (get_adxrs290_iio_ch_lpf hw device len ch priv).isSome = true) ∧
    (List.range 11).map (filter_text get_adxrs290_iio_ch_hpf (fun k => { hpf := k })) =
      [some "0.0".toList, some "0.11000".toList, some "0.22000".toList, some "0.44000".toList,
       some "0.87000".toList, some "0.175000".toList, some "0.350000".toList,
       some "0.700000".toList, some "1.400000".toList, some "2.800000".toList,
       some "11.300000".toList] ∧
    (List.range 11).map (fun k => denotes_entry adxrs290_hpf_3db_freq_hz_table k
        (filter_text get_adxrs290_iio_ch_hpf (fun k => { hpf := k }) k)) =
      [true, false, false, false, false, true, true, true, true, true, true] ∧
    denotes "0.11000".toList 110000 1000000 = true ∧
    (List.range 8).map (filter_text get_adxrs290_iio_ch_lpf (fun k => { lpf := k })) =
      [some "480.0".toList, some "320.0".toList, some "160.0".toList, some "80.0".toList,
       some "56.600000".toList, some "40.0".toList, some "28.300000".toList,
       some "20.0".toList] ∧
    (List.range 8).map (fun k => denotes_entry adxrs290_lpf_3db_freq_hz_table k
        (filter_text get_adxrs290_iio_ch_lpf (fun k => { lpf := k }) k)) =
      [true, true, true, true, true, true, true, true] := by
  refine ⟨?_, by decide, by decide, by decide, by decide, by decide⟩
  intro hw device len ch priv
  unfold get_adxrs290_iio_ch_hpf get_adxrs290_iio_ch_lpf
  simp only []
  refine ⟨?_, ?_, ?_, ?_⟩
  · by_cases h : hw.hpf > 10
    · have : min hw.hpf 10 = 10 := by omega
      simp only [h, if_true, this, gt_iff_lt, lt_self_iff_false, if_false]
    · have : min hw.hpf 10 = hw.hpf := by omega
      simp only [h, if_false, this]
  · by_cases h : hw.lpf > 7
    · have : min hw.lpf 7 = 7 := by omega
      simp only [h, if_true, this, gt_iff_lt, lt_self_iff_false, if_false]
    · have : min hw.lpf 7 = hw.lpf := by omega
      simp only [h, if_false, this]
  · by_cases h : hw.hpf > 10
    · simp only [h, if_true]
      rfl
    · simp only [h, if_false]
      have hk : hw.hpf ≤ 10 := by omega
      generalize hw.hpf = k at hk
      interval_cases k <;> rfl
  · by_cases h : hw.lpf > 7
    · simp only [h, if_true]
      rfl
    · simp only [h, if_false]
      have hk : hw.lpf ≤ 7 := by omega
      generalize hw.lpf = k at hk
      interval_cases k <;> rfl

/-! ## Maxim SPI: the result of a transfer -/

theorem max_spi_ret_some (ret r : Int) (h : max_spi_ret ret = some r) :
    (ret = E_BAD_PARAM ∧ r = -EINVAL) ∨ (ret = E_BAD_STATE ∧ r = -EBUSY) := by
  unfold max_spi_ret at h
  split at h
  · rename_i h1
    simp only [Option.some.injEq] at h
    exact Or.inl ⟨h1, h.symm⟩
  · split at h
    · rename_i h2
      simp only [Option.some.injEq] at h
      exact Or.inr ⟨h2, h.symm⟩
    · exact Option.noConfusion h

theorem max_spi_ret_none (ret : Int) (h1 : ret ≠ E_BAD_PARAM) (h2 : ret ≠ E_BAD_STATE) :
    max_spi_ret ret = none := by
  unfold max_spi_ret
  simp only [h1, h2, if_false]

theorem max_spi_transfer_loop_spec (sdk : mxc_sdk) (spi : Nat) (ms : List no_os_spi_msg) :
    ∀ (k : Nat) (issued : List mxc_spi_req_t) (r : Int) (out : List mxc_spi_req_t),
      max_spi_transfer_loop sdk spi ms k issued = some (r, out) →
      ∃ new, out = issued ++ new ∧ new.length ≤ k ∧
        (r = 0 ∨ r = -EINVAL ∨ r = -EBUSY) ∧
        (r = 0 ↔ all_pass sdk issued new = true) ∧ (r = 0 → new.length = k) := by
  induction ms with
  | nil =>
    intro k issued r out h
    cases k with
    | zero =>
      simp only [max_spi_transfer_loop, Option.some.injEq, Prod.mk.injEq] at h
      obtain ⟨rfl, rfl⟩ := h
      exact ⟨[], by simp, by simp, Or.inl rfl, by simp [all_pass], fun _ => rfl⟩
    | succ k => simp [max_spi_transfer_loop] at h
  | cons m ms ih =>
    intro k issued r out h
    cases k with
    | zero =>
      simp only [max_spi_transfer_loop, Option.some.injEq, Prod.mk.injEq] at h
      obtain ⟨rfl, rfl⟩ := h
      exact ⟨[], by simp, by simp, Or.inl rfl, by simp [all_pass], fun _ => rfl⟩
    | succ k =>
      simp only [max_spi_transfer_loop] at h
      split at h
      · rename_i r1 hr1
        simp only [Option.some.injEq, Prod.mk.injEq] at h
        obtain ⟨rfl, rfl⟩ := h
        have hne : r1 ≠ 0 ∧ (r1 = -EINVAL ∨ r1 = -EBUSY) := by
          rcases max_spi_ret_some _ _ hr1 with ⟨-, h⟩ | ⟨-, h⟩
          · exact ⟨by rw [h]; decide, Or.inl h⟩
          · exact ⟨by rw [h]; decide, Or.inr h⟩
        refine ⟨[_], rfl, by simp, Or.inr hne.2, ?_, fun h0 => absurd h0 hne.1⟩
        simp only [all_pass, hr1, Option.isNone_some, Bool.false_and, Bool.false_eq_true,
          iff_false]
        exact hne.1
      · rename_i hr1
        obtain ⟨new, hout, hlen, hr, hiff, hk⟩ := ih k _ r out h
        refine ⟨({ spi := spi, ssIdx := none, txData := m.tx_buff, rxData := m.rx_buff,
                   txCnt := 0, rxCnt := 0, ssDeassert := m.cs_change,
                   txLen := m.bytes_number, rxLen := m.bytes_number } : mxc_spi_req_t) :: new,
          by rw [hout]; simp, by simp; omega, hr, ?_, fun h0 => by simp [hk h0]⟩
        simp only [all_pass, hr1, Option.isNone_none, Bool.true_and]
        exact hiff

/-- C34 fails for a transaction result that is neither success nor one of the
two codes tested: with the SDK reporting the failure -10 for every
transaction, `max_spi_write_and_read` and `max_spi_transfer` (two messages)
issue their transactions and return 0, the value their documentation reserves
for success ("0 in case of success, errno codes otherwise"). -/
theorem max_spi_other_failure_returns_zero :
    sdk_timeout.MXC_SPI_MasterTransaction [] ⟨0, some 0, some [1, 2], some [1, 2], 0, 0, 1, 2, 2⟩ =
      -10 ∧
    max_spi_write_and_read sdk_timeout (some {}) (some [1, 2]) 2 =
      (0, [⟨0, some 0, some [1, 2], some [1, 2], 0, 0, 1, 2, 2⟩]) ∧
    (max_spi_transfer sdk_timeout (some {})
        (some [{ tx_buff := some [1], bytes_number := 1 },
               { rx_buff := some [0], bytes_number := 1, cs_change := 1 }]) 2).map
      (fun r => (r.1, r.2.length)) = some (0, 2) := by
  refine ⟨rfl, by decide, by decide⟩

/-- The result mapping of the two transfer functions, for every SDK: with null
`desc` or `data` (`msgs`) both functions return
`-EINVAL` without a transaction.  Otherwise `max_spi_write_and_read` issues one
transaction and returns `-EINVAL` if its result is `E_BAD_PARAM`, `-EBUSY` if
it is `E_BAD_STATE`, and 0 for every other result, success or not; and
`max_spi_transfer`, when it returns, returns 0, `-EINVAL` or `-EBUSY`, and 0
exactly when no transaction it issued had one of those two results, in which
case it issued one transaction per message; with `len` messages present it
does return. -/
theorem max_spi_result_mapping (sdk : mxc_sdk) (d : no_os_spi_desc) (bytes : List Nat)
    (bytes_number : Nat) (ms : List no_os_spi_msg) (len : Nat) :
    (∀ data, max_spi_write_and_read sdk none data bytes_number = (-EINVAL, [])) ∧
    (∀ desc, max_spi_write_and_read sdk desc none bytes_number = (-EINVAL, [])) ∧
    (∃ req, (max_spi_write_and_read sdk (some d) (some bytes) bytes_number).2 = [req] ∧
      (sdk.MXC_SPI_MasterTransaction [] req = E_BAD_PARAM →
        (max_spi_write_and_read sdk (some d) (some bytes) bytes_number).1 = -EINVAL) ∧
      (sdk.MXC_SPI_MasterTransaction [] req = E_BAD_STATE →
        (max_spi_write_and_read sdk (some d) (some bytes) bytes_number).1 = -EBUSY) ∧
      (sdk.MXC_SPI_MasterTransaction [] req ≠ E_BAD_PARAM →
        sdk.MXC_SPI_MasterTransaction [] req ≠ E_BAD_STATE →
        (max_spi_write_and_read sdk (some d) (some bytes) bytes_number).1 = 0)) ∧
    (∀ msgs, max_spi_transfer sdk none msgs len = some (-EINVAL, [])) ∧
    (∀ desc, max_spi_transfer sdk desc none len = some (-EINVAL, [])) ∧
    (∀ r issued, max_spi_transfer sdk (some d) (some ms) len = some (r, issued) →
      (r = 0 ∨ r = -EINVAL ∨ r = -EBUSY) ∧
      (r = 0 ↔ all_pass sdk [] issued = true) ∧ (r = 0 → issued.length = len)) ∧
    (len ≤ ms.length → (max_spi_transfer sdk (some d) (some ms) len).isSome = true) := by
  refine ⟨fun data => rfl, fun desc => by cases desc <;> rfl, ?_, fun msgs => rfl,
    fun desc => by cases desc <;> rfl, ?_, ?_⟩
  · refine ⟨{ spi := d.device_id, ssIdx := some d.chip_select, txData := some bytes, txCnt := 0,
              rxData := some bytes, rxCnt := 0, ssDeassert := 1,
              txLen := bytes_number % 65536, rxLen := bytes_number % 65536 }, ?_, ?_, ?_, ?_⟩
    · unfold max_spi_write_and_read
      simp only []
      split <;> rfl
    · intro h
      unfold max_spi_write_and_read
      simp only [h, max_spi_ret, if_true]
    · intro h
      unfold max_spi_write_and_read
      have hne : E_BAD_STATE ≠ E_BAD_PARAM := by decide
      simp only [h, max_spi_ret, hne, if_false, if_true]
    · intro h1 h2
      unfold max_spi_write_and_read
      simp only [max_spi_ret_none _ h1 h2]
  · intro r issued h
    unfold max_spi_transfer at h
    simp only [] at h
    obtain ⟨new, hout, -, hr, hiff, hk⟩ := max_spi_transfer_loop_spec sdk _ ms len [] r issued h
    simp only [List.nil_append] at hout
    subst hout
    exact ⟨hr, hiff, hk⟩
  · intro hlen
    unfold max_spi_transfer
    simp only []
    have hdef : ∀ (l : List no_os_spi_msg) (k : Nat) (issued : List mxc_spi_req_t),
        k ≤ l.length → (max_spi_transfer_loop sdk d.device_id l k issued).isSome = true := by
      intro l
      induction l with
      | nil =>
        intro k issued hk
        have : k = 0 := by simpa using hk
        subst this
        rfl
      | cons m l ih =>
        intro k issued hk
        cases k with
        | zero => rfl
        | succ k =>
          simp only [max_spi_transfer_loop]
          split
          · rfl
          · exact ih k _ (by simpa using hk)
    exact hdef ms len [] hlen

/-- The result mapping at an SDK that reports `E_BAD_STATE` from the second
request on: a transfer of three messages returns `-EBUSY` after two
transactions. -/
theorem max_spi_result_mapping_witness :
    max_spi_transfer sdk_busy_after_one (some {}) (some [{}, {}, {}]) 3 =
      some (-EBUSY, [⟨0, none, none, none, 0, 0, 0, 0, 0⟩, ⟨0, none, none, none, 0, 0, 0, 0, 0⟩]) ∧
    ((-EBUSY : Int) = 0 ∨ -EBUSY = -EINVAL ∨ -EBUSY = -EBUSY) ∧
    ((-EBUSY : Int) = 0 ↔
      all_pass sdk_busy_after_one []
        [⟨0, none, none, none, 0, 0, 0, 0, 0⟩, ⟨0, none, none, none, 0, 0, 0, 0, 0⟩] = true) ∧
    ((-EBUSY : Int) = 0 →
      [(⟨0, none, none, none, 0, 0, 0, 0, 0⟩ : mxc_spi_req_t),
        ⟨0, none, none, none, 0, 0, 0, 0, 0⟩].length = 3) :=
  ⟨by decide,
   (max_spi_result_mapping sdk_busy_after_one {} [] 0 [{}, {}, {}] 3).2.2.2.2.2.1 (-EBUSY)
     [⟨0, none, none, none, 0, 0, 0, 0, 0⟩, ⟨0, none, none, none, 0, 0, 0, 0, 0⟩] (by decide)⟩

/-! ## Context document generator: emit into a short buffer -/

theorem xml_trunc_mem_length (n : Nat) (mem0 t : List Char) (h1 : 1 ≤ n)
    (hcap : n ≤ mem0.length) : (xml_trunc_mem n mem0 t).length = mem0.length := by
  unfold xml_trunc_mem
  simp only [List.length_append, List.length_take, List.length_drop, List.length_singleton]
  omega

theorem xml_snprintf_first (n : Nat) (mem0 s : List Char) (h1 : 1 ≤ n)
    (hcap : n ≤ mem0.length) (hmax : (s.length : Int) ≤ INT32_MAX) :
    xml_snprintf n { i := 0, mem := mem0 } s =
      some { i := s.length, mem := xml_trunc_mem n mem0 s } := by
  have h0 : ¬ (((0 : Nat) : Int) + s.length > INT32_MAX) := by omega
  have h2 : ¬ ((n : Int) - ((0 : Nat) : Int)).toNat = 0 := by omega
  have h3 : ((n : Int) - ((0 : Nat) : Int)).toNat - 1 = n - 1 := by omega
  have eL : (s.take (n - 1)).length = min s.length (n - 1) := by
    rw [List.length_take, Nat.min_comm]
  have h4 : min s.length (n - 1) + 1 ≤ mem0.length := by omega
  simp only [xml_snprintf, h0, if_false, h2, h3, if_true, List.take_zero, List.nil_append,
    Nat.zero_add, xml_trunc_mem, eL, h4]

theorem xml_snprintf_trunc (n : Nat) (mem0 t s : List Char) (h1 : 1 ≤ n)
    (hcap : n ≤ mem0.length) (hmax : (t.length : Int) + s.length ≤ INT32_MAX) :
    xml_snprintf n { i := t.length, mem := xml_trunc_mem n mem0 t } s =
      some { i := (t ++ s).length, mem := xml_trunc_mem n mem0 (t ++ s) } := by
  have h0 : ¬ ((t.length : Int) + s.length > INT32_MAX) := by omega
  by_cases hfull : n ≤ t.length
  · have h2 : ((n : Int) - (t.length : Int)).toNat = 0 := by omega
    have e1 : (t ++ s).take (n - 1) = t.take (n - 1) :=
      List.take_append_of_le_length (by omega)
    have e2 : min (t.length + s.length) (n - 1) = min t.length (n - 1) := by omega
    simp only [xml_snprintf, h0, if_false, h2, if_true, xml_trunc_mem, e1, e2,
      List.length_append]
  · have hk : ((n : Int) - (t.length : Int)).toNat - 1 = n - 1 - t.length := by omega
    have h2 : ¬ ((n : Int) - (t.length : Int)).toNat = 0 := by omega
    have ht : t.take (n - 1) = t := List.take_of_length_le (by omega)
    have hmin : min t.length (n - 1) = t.length := by omega
    have hmem : xml_trunc_mem n mem0 t = t ++ ([Char.ofNat 0] ++ mem0.drop (t.length + 1)) := by
      unfold xml_trunc_mem
      rw [ht, hmin, List.append_assoc]
    have h4 : t.length + (s.take (n - 1 - t.length)).length + 1 ≤
        (xml_trunc_mem n mem0 t).length := by
      rw [xml_trunc_mem_length n mem0 t h1 hcap]
      simp only [List.length_take]; omega
    have e1 : (t ++ s).take (n - 1) = t ++ s.take (n - 1 - t.length) := by
      rw [List.take_append_eq_append_take, ht]
    have e2 : min (t.length + s.length) (n - 1) =
        t.length + (s.take (n - 1 - t.length)).length := by
      simp only [List.length_take]; omega
    have e3 : (xml_trunc_mem n mem0 t).take t.length = t := by
      rw [hmem]; exact List.take_left' rfl
    have e4 : (xml_trunc_mem n mem0 t).drop
        (t.length + (s.take (n - 1 - t.length)).length + 1) =
        mem0.drop (t.length + (s.take (n - 1 - t.length)).length + 1) := by
      rw [hmem]
      have : t.length + (s.take (n - 1 - t.length)).length + 1 =
          t.length + (1 + (s.take (n - 1 - t.length)).length) := by omega
      rw [this, List.drop_append, List.drop_append_eq_append_drop]
      simp only [List.length_singleton, List.drop_drop]
      have hd : List.drop (1 + (s.take (n - 1 - t.length)).length) [Char.ofNat 0] = [] :=
        List.drop_of_length_le (by simp)
      rw [hd, List.nil_append]
      congr 1
      omega
    simp only [xml_snprintf, h0, if_false, h2, hk, h4, if_true, e3, e4]
    simp only [xml_trunc_mem, e1, e2, List.length_append]

theorem xml_emit_trunc (n : Nat) (mem0 : List Char) (h1 : 1 ≤ n) (hcap : n ≤ mem0.length)
    (frags : List (List Char)) :
    ∀ t : List Char, (t.length : Int) + frags.flatten.length ≤ INT32_MAX →
      xml_emit n { i := t.length, mem := xml_trunc_mem n mem0 t } frags =
        some { i := (t ++ frags.flatten).length,
               mem := xml_trunc_mem n mem0 (t ++ frags.flatten) } := by
  induction frags with
  | nil => intro t _; simp [xml_emit]
  | cons s ss ih =>
    intro t hmax
    simp only [List.flatten_cons, List.length_append, Nat.cast_add] at hmax
    simp only [xml_emit, xml_snprintf_trunc n mem0 t s h1 hcap (by omega)]
    rw [ih (t ++ s) (by simp only [List.length_append, Nat.cast_add]; omega)]
    simp only [List.flatten_cons, List.append_assoc]

theorem xml_emit_from_start (n : Nat) (mem0 : List Char) (h1 : 1 ≤ n) (hcap : n ≤ mem0.length)
    (frags : List (List Char)) (hne : frags ≠ [])
    (hmax : (frags.flatten.length : Int) ≤ INT32_MAX) :
    xml_emit n { i := 0, mem := mem0 } frags =
      some { i := frags.flatten.length, mem := xml_trunc_mem n mem0 frags.flatten } := by
  cases frags with
  | nil => exact absurd rfl hne
  | cons s ss =>
    simp only [List.flatten_cons, List.length_append, Nat.cast_add] at hmax
    simp only [xml_emit, xml_snprintf_first n mem0 s h1 hcap (by omega)]
    rw [xml_emit_trunc n mem0 h1 hcap ss s (by omega)]
    simp only [List.flatten_cons]

theorem xml_trunc_mem_drop (n : Nat) (mem0 t : List Char) (h1 : 1 ≤ n) :
    (xml_trunc_mem n mem0 t).drop n = mem0.drop n := by
  unfold xml_trunc_mem
  have hl : (t.take (n - 1) ++ [Char.ofNat 0]).length = min t.length (n - 1) + 1 := by
    simp only [List.length_append, List.length_take, List.length_singleton]
    omega
  have hn : (t.take (n - 1) ++ [Char.ofNat 0]).length + (n - (min t.length (n - 1) + 1)) = n := by
    rw [hl]; omega
  have e := @List.drop_append _ (t.take (n - 1) ++ [Char.ofNat 0])
    (mem0.drop (min t.length (n - 1) + 1)) (n - (min t.length (n - 1) + 1))
  rw [hn] at e
  rw [e, List.drop_drop]
  congr 1
  omega

theorem iio_generate_device_xml_trunc (device : iio_device) (name id mem : List Char) (n : Nat)
    (w : xml_walk) (hw : xml_device_frags device name id = some w)
    (h1 : 1 ≤ n) (hn : n < 2147483648) (hcap : n ≤ mem.length)
    (hL : w.frags.flatten.length < 2147483648) :
    iio_generate_device_xml device name id (some mem) n =
      some (if w.einval then u32_of_int (-EINVAL) else w.frags.flatten.length,
        some (xml_trunc_mem n mem w.frags.flatten)) := by
  have hmodL : w.frags.flatten.length % UINT32_MOD = w.frags.flatten.length :=
    Nat.mod_eq_of_lt (by unfold UINT32_MOD; omega)
  have hi : int_of_u32 n = n := int_of_u32_small _ hn
  have h2 : ¬ ((n : Int) = -1) := by omega
  have hc := xml_emit_from_start n mem h1 hcap w.frags
    (xml_device_frags_ne_nil device name id w hw) (by simp only [INT32_MAX]; omega)
  simp only [iio_generate_device_xml, hi, h2, if_false, hw, Option.isNone_some,
    Bool.false_and, Bool.false_eq_true, Option.getD_some, hc, hmodL, Option.map_some']

set_option maxRecDepth 100000 in
/-- C38 as stated fails for a descriptor on which the generator returns
`-EINVAL`: for the device with a differential channel that is not indexed, emit
mode into 256 bytes returns 4294967274, and the string left has 92 characters,
not min(4294967274, 255) = 255. -/
theorem xml_emit_einval_text :
    (iio_generate_device_xml diff_plain_dev "d".toList "iio:device0".toList
        (some (List.replicate 256 (Char.ofNat 0))) 256).map
      (fun r => (r.1, r.2.map (fun m => (c_str m).length))) = some (4294967274, some 92) ∧
    min 4294967274 (256 - 1) = 255 := by
  refine ⟨by rfl, by decide⟩

/-- C38, amended: for every descriptor on which the generator's walk is
defined, whose fragments have fewer than 2^31 characters in all, and every
buffer of capacity `n`, `1 <= n < 2^31`, emit mode leaves in the buffer the
first `min(T, n - 1)` characters of the text of the fragments (`T` its length)
followed by the terminator, and every byte behind the terminator, in particular
every byte at offset `n` or beyond, as it was; the buffer keeps its length.  If
the walk does not end at the `-EINVAL` return, the text is the full device
element and the value returned is its length; otherwise the value returned is
`-EINVAL` as `uint32_t`. -/
theorem iio_generate_device_xml_bounded (device : iio_device) (name id mem : List Char)
    (n : Nat) (w : xml_walk) (hw : xml_device_frags device name id = some w)
    (h1 : 1 ≤ n) (hn : n < 2147483648) (hcap : n ≤ mem.length)
    (hL : w.frags.flatten.length < 2147483648) :
    ∃ ret out, iio_generate_device_xml device name id (some mem) n = some (ret, some out) ∧
      out = w.frags.flatten.take (min w.frags.flatten.length (n - 1)) ++ [Char.ofNat 0] ++
        mem.drop (min w.frags.flatten.length (n - 1) + 1) ∧
      out.length = mem.length ∧ out.drop n = mem.drop n ∧
      (w.einval = false →
        ret = (xml_element device name id).length ∧
        w.frags.flatten = xml_element device name id) ∧
      (w.einval = true → ret = 4294967274) := by
  refine ⟨_, _, iio_generate_device_xml_trunc device name id mem n w hw h1 hn hcap hL, ?_,
    xml_trunc_mem_length n mem _ h1 hcap, xml_trunc_mem_drop n mem _ h1, ?_, ?_⟩
  · unfold xml_trunc_mem
    congr 2
    by_cases h : w.frags.flatten.length ≤ n - 1
    · rw [Nat.min_eq_left h, List.take_of_length_le h, List.take_of_length_le (le_refl _)]
    · rw [Nat.min_eq_right (by omega)]
  · intro he
    simp only [he, Bool.false_eq_true, if_false, xml_element, hw]
    exact ⟨trivial, trivial⟩
  · intro he
    simp only [he, if_true]
    decide

set_option maxRecDepth 100000 in
/-- C38 on the ADXRS290 with a buffer of 64 bytes of which 32 are offered: the
first 31 characters of the element and the terminator are stored, the other 32
bytes keep their content, and the full length 1095 is returned. -/
theorem iio_generate_device_xml_bounded_witness :
    (∃ ret out, iio_generate_device_xml (adxrs290_iio_descriptor {}) "adxrs290".toList
          "iio:device0".toList (some (List.replicate 64 'z')) 32 = some (ret, some out) ∧
        out = (adxrs290_frags.frags.flatten).take (min adxrs290_frags.frags.flatten.length
            (32 - 1)) ++ [Char.ofNat 0] ++
          (List.replicate 64 'z').drop (min adxrs290_frags.frags.flatten.length (32 - 1) + 1) ∧
        out.length = (List.replicate 64 'z').length ∧
        out.drop 32 = (List.replicate 64 'z').drop 32 ∧
        (adxrs290_frags.einval = false →
          ret = (xml_element (adxrs290_iio_descriptor {}) "adxrs290".toList
            "iio:device0".toList).length ∧
          adxrs290_frags.frags.flatten =
            xml_element (adxrs290_iio_descriptor {}) "adxrs290".toList "iio:device0".toList) ∧
        (adxrs290_frags.einval = true → ret = 4294967274)) ∧
    (iio_generate_device_xml (adxrs290_iio_descriptor {}) "adxrs290".toList
        "iio:device0".toList (some (List.replicate 64 'z')) 32).map
      (fun r => (r.1, r.2.map (fun m => m.take 33))) =
      some (1095, some ("<device id=\"iio:device0\" name=\"".toList ++ [Char.ofNat 0, 'z'])) :=
  ⟨iio_generate_device_xml_bounded (adxrs290_iio_descriptor {}) "adxrs290".toList
      "iio:device0".toList (List.replicate 64 'z') 32 adxrs290_frags (by rfl) (by decide)
      (by decide) (by decide) (by decide),
   by rfl⟩

/-! ## Formatting and parsing of integers -/

theorem fmt_loop_head (fuel n : Nat) (h0 : 0 < n) (hn : n < 10 ^ fuel) :
    ∃ d r, 1 ≤ d ∧ d ≤ 9 ∧ fmt_loop 10 digit_char fuel n [] = digit_char d :: r := by
  induction fuel generalizing n with
  | zero => simp at hn; omega
  | succ f ih =>
    rw [fmt_loop_succ]
    by_cases h : n < 10
    · exact ⟨n, [], h0, by omega, by simp [h]⟩
    · simp only [h, if_false]
      obtain ⟨d, r, hd1, hd9, hr⟩ := ih (n / 10) (by omega)
        (by rw [Nat.pow_succ] at hn; omega)
      exact ⟨d, r ++ [digit_char (n % 10)], hd1, hd9, by rw [hr]; rfl⟩

theorem digit_char_nonzero (d : Nat) (h1 : 1 ≤ d) (h9 : d ≤ 9) :
    digit_char d ≠ '0' ∧ (digit_of 10 (digit_char d)).isSome = true := by
  unfold digit_char
  interval_cases d <;> exact ⟨by decide, by decide⟩

/-- `strtol` with base 0 on an optional minus sign followed by a run of decimal
digits that does not begin with `0`: the base detected is 10. -/
theorem strtol_decimal (long_bits : Nat) (neg : Bool) (c : Char) (r : List Char)
    (hc : c ≠ '0') (hdig : ∀ x ∈ c :: r, (digit_of 10 x).isSome = true) :
    strtol long_bits (if neg then '-' :: c :: r else c :: r) =
      (if (if neg then -((digits_val 10 (c :: r) : Nat) : Int)
            else ((digits_val 10 (c :: r) : Nat) : Int)) > 2 ^ (long_bits - 1) - 1 then
          2 ^ (long_bits - 1) - 1
       else if (if neg then -((digits_val 10 (c :: r) : Nat) : Int)
            else ((digits_val 10 (c :: r) : Nat) : Int)) < -(2 ^ (long_bits - 1)) then
          -(2 ^ (long_bits - 1))
       else (if neg then -((digits_val 10 (c :: r) : Nat) : Int)
            else ((digits_val 10 (c :: r) : Nat) : Int))) := by
  have hcd := hdig c (List.mem_cons_self _ _)
  have hsign : scan_sign (skip_space (if neg then '-' :: c :: r else c :: r)) = (neg, c :: r) := by
    cases neg with
    | true =>
      have hs : skip_space ('-' :: c :: r) = '-' :: c :: r := by
        unfold skip_space
        rw [List.dropWhile_cons_of_neg (by decide)]
      simp only [if_true, hs]
      rfl
    | false =>
      simp only [Bool.false_eq_true, if_false, skip_space_digit 10 c r hcd,
        scan_sign_digit 10 c r hcd]
  have htw : (c :: r).takeWhile (fun x => (digit_of 10 x).isSome) = c :: r := by
    have := (takeWhile_append_digits (fun x => (digit_of 10 x).isSome) (c :: r) [] hdig
      (by intro x hx; simp at hx)).1
    simpa using this
  have hbase : (match c :: r with
      | '0' :: x :: d :: r' =>
        if (x = 'x' ∨ x = 'X') ∧ (digit_of 16 d).isSome then (16, d :: r') else (8, c :: r)
      | '0' :: r' => (8, c :: r)
      | _ => ((10 : Nat), c :: r)) = (10, c :: r) := by
    split
    · rename_i heq
      simp only [List.cons.injEq] at heq
      exact absurd heq.1 hc
    · rename_i heq
      simp only [List.cons.injEq] at heq
      exact absurd heq.1 hc
    · rfl
  unfold strtol
  simp only [hsign, hbase, htw]

theorem strtol_zero (long_bits : Nat) : strtol long_bits ['0'] = 0 := by
  have hp : (0 : Int) < 2 ^ (long_bits - 1) := by positivity
  have h1 : ¬ ((0 : Int) > 2 ^ (long_bits - 1) - 1) := by omega
  have h2 : ¬ ((0 : Int) < -(2 ^ (long_bits - 1))) := by omega
  have hs : scan_sign (skip_space ['0']) = (false, ['0']) := by decide
  have hd : digits_val 8 (['0'].takeWhile (fun c => (digit_of 8 c).isSome)) = 0 := by decide
  unfold strtol
  simp only [hs, hd, Bool.false_eq_true, if_false, Nat.cast_zero, h1, h2]

/-- The `%d` text of a 32-bit integer is read back by `strtol` with base 0,
for every width of `long` from 32 bits on. -/
theorem strtol_fmt_d (long_bits : Nat) (hl : 32 ≤ long_bits) (v : Int)
    (h1 : -2147483648 ≤ v) (h2 : v ≤ 2147483647) : strtol long_bits (fmt_d v) = v := by
  have hpow : (2 : Int) ^ 31 ≤ 2 ^ (long_bits - 1) :=
    pow_le_pow_right₀ (by decide) (by omega)
  have hp31 : (2 : Int) ^ 31 = 2147483648 := by norm_num
  have hmod : v.natAbs % UINT32_MOD = v.natAbs := Nat.mod_eq_of_lt (by unfold UINT32_MOD; omega)
  by_cases h0 : v = 0
  · subst h0
    exact strtol_zero long_bits
  · have hpos : 0 < v.natAbs := Int.natAbs_pos.2 h0
    obtain ⟨d, r, hd1, hd9, hr⟩ := fmt_loop_head 10 v.natAbs hpos (by omega)
    have hdigs : ∀ x ∈ fmt_loop 10 digit_char 10 v.natAbs [], (digit_of 10 x).isSome = true :=
      fmt_loop_digits 10 digit_char (by decide) digit_of_digit_char 10 _
    have hval : digits_val 10 (fmt_loop 10 digit_char 10 v.natAbs []) = v.natAbs :=
      digits_val_fmt_loop 10 digit_char (by decide) digit_of_digit_char 10 _ (by omega)
    have hfmt : fmt_d v = if decide (v < 0) then '-' :: digit_char d :: r
        else digit_char d :: r := by
      unfold fmt_d
      rw [hmod, fmt_u_loop_eq, hr]
      by_cases hv : v < 0 <;> simp [hv]
    rw [hfmt, strtol_decimal long_bits (decide (v < 0)) (digit_char d) r
      (digit_char_nonzero d hd1 hd9).1 (by rw [← hr]; exact hdigs)]
    rw [← hr, hval]
    by_cases hv : v < 0
    · have e : -((v.natAbs : Nat) : Int) = v := by omega
      simp only [hv, decide_True, if_true, e]
      have c1 : ¬ (v > 2 ^ (long_bits - 1) - 1) := by omega
      have c2 : ¬ (v < -(2 ^ (long_bits - 1))) := by omega
      simp only [c1, c2, if_false]
    · have e : ((v.natAbs : Nat) : Int) = v := by omega
      simp only [hv, decide_False, Bool.false_eq_true, if_false, e]
      have c1 : ¬ (v > 2 ^ (long_bits - 1) - 1) := by omega
      have c2 : ¬ (v < -(2 ^ (long_bits - 1))) := by omega
      simp only [c1, c2, if_false]

theorem int32_of_int_id (v : Int) (h1 : -2147483648 ≤ v) (h2 : v ≤ 2147483647) :
    int32_of_int v = v := by
  unfold int32_of_int
  omega

/-- C33: for every 32-bit signed integer `v`, a buffer that holds the text and
a `long` of at least 32 bits, `iio_format_value` with `IIO_VAL_INT` stores the
decimal text of `v`, and `iio_parse_value` with `IIO_VAL_INT` on that text
returns success with `val = v`. -/
theorem iio_parse_format_int (long_bits len : Nat) (size : Int) (v : Int) (rest : List Int)
    (hl : 32 ≤ long_bits) (h1 : -2147483648 ≤ v) (h2 : v ≤ 2147483647)
    (hlen : (fmt_d v).length < len) :
    iio_format_value len iio_val.IIO_VAL_INT size (v :: rest) =
      some (((fmt_d v).length : Int), fmt_d v) ∧
    iio_parse_value long_bits (fmt_d v) iio_val.IIO_VAL_INT = some (0, some (v, 0)) := by
  constructor
  · have h0 : len ≠ 0 := by omega
    simp only [iio_format_value, c_snprintf, h0, if_false]
    rw [List.take_of_length_le (by omega)]
  · simp only [iio_parse_value, strtol_fmt_d long_bits hl v h1 h2, int32_of_int_id v h1 h2]

/-- C33 at the extremes and at zero, with a `long` of 32 bits. -/
theorem iio_parse_format_int_witness :
    (iio_format_value 16 iio_val.IIO_VAL_INT 1 [-2147483648] =
        some (((fmt_d (-2147483648)).length : Int), fmt_d (-2147483648)) ∧
      iio_parse_value 32 (fmt_d (-2147483648)) iio_val.IIO_VAL_INT =
        some (0, some (-2147483648, 0))) ∧
    fmt_d (-2147483648) = "-2147483648".toList ∧
    iio_parse_value 32 "0".toList iio_val.IIO_VAL_INT = some (0, some (0, 0)) ∧
    iio_parse_value 64 "2147483647".toList iio_val.IIO_VAL_INT = some (0, some (2147483647, 0)) :=
  ⟨iio_parse_format_int 32 16 1 (-2147483648) [] (by decide) (by decide) (by decide) (by decide),
   by decide, by decide, by decide⟩

/-! ## Parsing of the integer-plus-fraction formats -/

theorem parse_scaled_dvd (r : Except Int (Int × Int)) (scale ret v f : Int)
    (h : parse_scaled r scale = some (ret, some (v, f))) : scale ∣ f := by
  unfold parse_scaled at h
  split at h
  · simp at h
  · split at h
    · simp only [Option.some.injEq, Prod.mk.injEq] at h
      obtain ⟨-, -, rfl⟩ := h
      exact Dvd.intro_left _ rfl
    · exact Option.noConfusion h

/-- The fraction that `iio_parse_value` returns: it reads the digits after the
point as one integer (with the base detection of `strtol`, so a leading zero
means octal) and multiplies it by 10^5 (10^8 for the nano format), whatever the
number of digits, so the fraction is always a multiple of 10^5 (10^8). -/
theorem iio_parse_value_fraction_scaled (long_bits : Nat) (buf : List Char) (ret v f : Int) :
    (iio_parse_value long_bits buf iio_val.IIO_VAL_INT_PLUS_MICRO = some (ret, some (v, f)) →
      (100000 : Int) ∣ f) ∧
    (iio_parse_value long_bits buf iio_val.IIO_VAL_INT_PLUS_MICRO_DB = some (ret, some (v, f)) →
      (100000 : Int) ∣ f) ∧
    (iio_parse_value long_bits buf iio_val.IIO_VAL_INT_PLUS_NANO = some (ret, some (v, f)) →
      (100000000 : Int) ∣ f) := by
  refine ⟨?_, ?_, ?_⟩ <;> intro h <;> exact parse_scaled_dvd _ _ ret v f h

/-- Examples of parsed fractions.  The text "3.500000" makes `iio_parse_value`
multiply 500000 by 100000, which overflows `int32_t`; the text "3.000005" is
parsed to the fraction 500000, the text "3.000008" to the fraction 0 (an octal
run that ends at the 8); the dB and nano formats behave alike. -/
theorem iio_parse_value_fraction_examples :
    (iio_parse_value 32 "3.000005".toList iio_val.IIO_VAL_INT_PLUS_MICRO =
        some (0, some (3, 500000)) ∧ (100000 : Int) ∣ 500000) ∧
    (iio_format_value 32 iio_val.IIO_VAL_INT_PLUS_MICRO 2 [3, 500000] =
        some (8, "3.500000".toList) ∧
      (iio_parse_value 32 "3.500000".toList iio_val.IIO_VAL_INT_PLUS_MICRO).isNone = true ∧
      (iio_parse_value 64 "3.500000".toList iio_val.IIO_VAL_INT_PLUS_MICRO).isNone = true) ∧
    (iio_format_value 32 iio_val.IIO_VAL_INT_PLUS_MICRO 2 [3, 5] = some (8, "3.000005".toList) ∧
      iio_format_value 32 iio_val.IIO_VAL_INT_PLUS_MICRO 2 [3, 8] = some (8, "3.000008".toList) ∧
      iio_parse_value 32 "3.000008".toList iio_val.IIO_VAL_INT_PLUS_MICRO =
        some (0, some (3, 0))) ∧
    (iio_format_value 32 iio_val.IIO_VAL_INT_PLUS_MICRO_DB 2 [3, 5] =
        some (11, "3.000005 dB".toList) ∧
      iio_parse_value 32 "3.000005 dB".toList iio_val.IIO_VAL_INT_PLUS_MICRO_DB =
        some (0, some (3, 500000))) ∧
    (iio_format_value 32 iio_val.IIO_VAL_INT_PLUS_NANO 2 [3, 1] =
        some (11, "3.000000001".toList) ∧
      iio_parse_value 32 "3.000000001".toList iio_val.IIO_VAL_INT_PLUS_NANO =
        some (0, some (3, 100000000))) ∧
    (iio_format_value 32 iio_val.IIO_VAL_INT_PLUS_MICRO 2 [3, 0] = some (8, "3.000000".toList) ∧
      iio_parse_value 32 "3.000000".toList iio_val.IIO_VAL_INT_PLUS_MICRO =
        some (0, some (3, 0))) :=
  ⟨⟨by decide, (iio_parse_value_fraction_scaled 32 "3.000005".toList 0 3 500000).1 (by decide)⟩,
   ⟨by decide, by decide, by decide⟩, ⟨by decide, by decide, by decide⟩,
   ⟨by decide, by decide⟩, ⟨by decide, by decide⟩, ⟨by decide, by decide⟩⟩

/-! ## The fractional format -/

theorem fmt_loop_length (fuel : Nat) :
    ∀ n k : Nat, 1 ≤ k → n < 10 ^ k → k ≤ fuel →
      (fmt_loop 10 digit_char fuel n []).length ≤ k := by
  induction fuel with
  | zero => intro n k h1 _ hk; omega
  | succ f ih =>
    intro n k h1 hn hk
    rw [fmt_loop_succ]
    by_cases h : n < 10
    · simp only [h, if_true, List.length_singleton]
      exact h1
    · simp only [h, if_false, List.length_append, List.length_singleton]
      have hk2 : 2 ≤ k := by
        by_contra hc
        have : k = 1 := by omega
        subst this
        simp at hn
        omega
      have hlt : n / 10 < 10 ^ (k - 1) := by
        rw [Nat.div_lt_iff_lt_mul (by norm_num)]
        calc n < 10 ^ k := hn
          _ = 10 ^ (k - 1 + 1) := by rw [Nat.sub_add_cancel h1]
          _ = 10 ^ (k - 1) * 10 := by ring
      have := ih (n / 10) (k - 1) (by omega) hlt (by omega)
      omega

theorem digit10_is_digit (c : Char) (h : (digit_of 10 c).isSome = true) : is_digit c = true := by
  unfold digit_of at h
  unfold is_digit
  split at h
  · simp only [decide_eq_true_eq]; omega
  · split at h
    · omega
    · split at h
      · omega
      · simp at h

theorem dec_val_zero_cons (s : List Char) : dec_val ('0' :: s) = dec_val s := by
  simp [dec_val]

theorem dec_val_pad0 (w : Nat) (s : List Char) : dec_val (fmt_pad0 w s) = dec_val s := by
  unfold fmt_pad0
  induction w - s.length with
  | zero => rfl
  | succ k ih => rw [List.replicate_succ, List.cons_append, dec_val_zero_cons, ih]

theorem fmt_pad0_digits (w : Nat) (s : List Char) (hs : ∀ c ∈ s, is_digit c = true) :
    ∀ c ∈ fmt_pad0 w s, is_digit c = true := by
  intro c hc
  unfold fmt_pad0 at hc
  rcases List.mem_append.1 hc with h | h
  · rw [(List.mem_replicate.1 h).2]
    decide
  · exact hs c h

theorem fmt_pad0_length (w : Nat) (s : List Char) (hs : s.length ≤ w) :
    (fmt_pad0 w s).length = w := by
  unfold fmt_pad0
  simp only [List.length_append, List.length_replicate]
  omega

/-- The number denoted by a text "0.<digits>". -/
theorem decimal_value_zero_point (p : List Char) (hne : p ≠ [])
    (hp : ∀ c ∈ p, is_digit c = true) :
    decimal_value ('0' :: '.' :: p) = some (((dec_val p : Nat) : Int), p.length) := by
  have hall : p.all is_digit = true := List.all_eq_true.2 hp
  have hemp : p.isEmpty = false := by
    cases p with
    | nil => exact absurd rfl hne
    | cons c r => rfl
  have h1 : ('0' != '.') = true := by decide
  have h2 : ('.' != '.') = false := by decide
  have h3 : (some '0' == some '-') = false := by decide
  have htw : List.takeWhile (fun c => c != '.') ('0' :: '.' :: p) = ['0'] := by
    simp only [List.takeWhile_cons, h1, h2, if_true, Bool.false_eq_true, if_false]
  have hdw : List.dropWhile (fun c => c != '.') ('0' :: '.' :: p) = '.' :: p := by
    simp only [List.dropWhile_cons, h1, h2, if_true, Bool.false_eq_true, if_false]
  unfold decimal_value
  simp only [List.head?_cons, h3, Bool.false_eq_true, if_false, htw, hdw, List.drop_succ_cons,
    List.drop_zero, hall, hemp, List.isEmpty_cons, List.all_cons, List.all_nil,
    Bool.not_false, Bool.not_true, Bool.or_false, Bool.and_false, Bool.and_true,
    List.singleton_append, dec_val_zero_cons]
  have hd0 : is_digit '0' = true := by decide
  simp only [hd0, Bool.not_true, Bool.false_eq_true, if_false, Bool.or_self]

/-- C31 fails for every ratio of magnitude below 1: the integer part printed is
0 and the fraction is printed through `abs`, so the text is "0." followed by
the nine digits of the magnitude of the truncated ratio, whatever the sign of
`a / b`; read as a decimal number it denotes the magnitude. -/
theorem iio_format_value_fractional_small (len : Nat) (size : Int) (a b : Int)
    (rest : List Int) (hb : b ≠ 0) (hab : a.natAbs < b.natAbs) (hlen : 11 < len) :
    ∃ text, iio_format_value len iio_val.IIO_VAL_FRACTIONAL size (a :: b :: rest) =
        some (11, text) ∧
      text.head? = some '0' ∧
      decimal_value text = some ((((a * 1000000000).tdiv b).natAbs : Int), 9) := by
  have hbpos : 0 < b.natAbs := Int.natAbs_pos.2 hb
  have hm : ((a * 1000000000).tdiv b).natAbs = a.natAbs * 1000000000 / b.natAbs := by
    rw [Int.natAbs_tdiv, Int.natAbs_mul]
    rfl
  have hmlt : a.natAbs * 1000000000 / b.natAbs < 1000000000 := by
    rw [Nat.div_lt_iff_lt_mul hbpos]
    omega
  have hq : ((a * 1000000000).tdiv b).tdiv 1000000000 = 0 := by
    apply Int.natAbs_eq_zero.1
    rw [Int.natAbs_tdiv, hm]
    exact Nat.div_eq_of_lt hmlt
  have hr : ((a * 1000000000).tdiv b).tmod 1000000000 = (a * 1000000000).tdiv b := by
    have := Int.tmod_add_tdiv ((a * 1000000000).tdiv b) 1000000000
    rw [hq] at this
    simpa using this
  have hdig : ∀ c ∈ fmt_u32 (a.natAbs * 1000000000 / b.natAbs), is_digit c = true :=
    fun c hc => digit10_is_digit c ((fmt_u32_digits _).2 c hc)
  have hlen9 : (fmt_u32 (a.natAbs * 1000000000 / b.natAbs)).length ≤ 9 := by
    unfold fmt_u32
    rw [fmt_u_loop_eq, Nat.mod_eq_of_lt (by unfold UINT32_MOD; omega)]
    exact fmt_loop_length 10 _ 9 (by decide) (by omega) (by decide)
  have hpl := fmt_pad0_length 9 _ hlen9
  have hpne : fmt_pad0 9 (fmt_u32 (a.natAbs * 1000000000 / b.natAbs)) ≠ [] := by
    intro h
    rw [h] at hpl
    simp at hpl
  have htext : fmt_fixed9 (int32_of_int 0) ((a * 1000000000).tdiv b) =
      '0' :: '.' :: fmt_pad0 9 (fmt_u32 (a.natAbs * 1000000000 / b.natAbs)) := by
    unfold fmt_fixed9
    rw [hm]
    rfl
  refine ⟨'0' :: '.' :: fmt_pad0 9 (fmt_u32 (a.natAbs * 1000000000 / b.natAbs)), ?_, rfl, ?_⟩
  · have h0 : len ≠ 0 := by omega
    simp only [iio_format_value, div_s64, div_s64_rem, hb, if_false, Option.map_some',
      (by decide : ¬ ((1000000000 : Int) = 0)), hq, hr, htext, c_snprintf, h0,
      List.length_cons, hpl]
    rw [List.take_of_length_le (by simp only [List.length_cons, hpl]; omega)]
    rfl
  · rw [decimal_value_zero_point _ hpne (fmt_pad0_digits 9 _ hdig), dec_val_pad0,
      dec_val_fmt_u32 _ (by unfold UINT32_MOD; omega), hpl, hm]

/-- C31 at the claim's own example `a = -1`, `b = 2`: the text is
"0.500000000", which denotes 1/2 and not -1/2; and at `a = -2147483648`,
`b = -1`, where the integer part 2147483648 does not fit `int32_t`, the text is
"-2147483648.000000000". -/
theorem iio_format_value_fractional_small_witness :
    (∃ text, iio_format_value 32 iio_val.IIO_VAL_FRACTIONAL 2 [-1, 2] = some (11, text) ∧
      text.head? = some '0' ∧
      decimal_value text = some (((((-1 : Int) * 1000000000).tdiv 2).natAbs : Int), 9)) ∧
    iio_format_value 32 iio_val.IIO_VAL_FRACTIONAL 2 [-1, 2] =
      some (11, "0.500000000".toList) ∧
    iio_format_value 32 iio_val.IIO_VAL_FRACTIONAL 2 [1, 2] =
      some (11, "0.500000000".toList) ∧
    denotes "0.500000000".toList (-1) 2 = false ∧
    denotes "0.500000000".toList 1 2 = true ∧
    denotes "-0.500000000".toList (-1) 2 = true ∧
    iio_format_value 32 iio_val.IIO_VAL_FRACTIONAL 2 [-2147483648, -1] =
      some (21, "-2147483648.000000000".toList) ∧
    iio_format_value 32 iio_val.IIO_VAL_FRACTIONAL 2 [-3, 2] =
      some (12, "-1.500000000".toList) :=
  ⟨iio_format_value_fractional_small 32 2 (-1) 2 [] (by decide) (by decide) (by decide),
   by decide, by decide, by decide, by decide, by decide, by decide, by decide⟩

/-! ## Round trip through the integer-plus-fraction formats -/

theorem fmt_d_chars (v : Int) :
    fmt_d v ≠ [] ∧ ∀ c ∈ fmt_d v, c = '-' ∨ (digit_of 10 c).isSome = true := by
  have hd : ∀ c ∈ fmt_u_loop 10 (v.natAbs % UINT32_MOD) [], (digit_of 10 c).isSome = true := by
    rw [fmt_u_loop_eq]
    exact fmt_loop_digits 10 digit_char (by decide) digit_of_digit_char 10 _
  have hne : fmt_u_loop 10 (v.natAbs % UINT32_MOD) [] ≠ [] := by
    rw [fmt_u_loop_eq]
    exact fmt_loop_ne_nil 10 digit_char 9 _
  unfold fmt_d
  split
  · exact ⟨by simp, fun c hc => by
      rcases List.mem_cons.1 hc with h | h
      · exact Or.inl h
      · exact Or.inr (hd c h)⟩
  · exact ⟨hne, fun c hc => Or.inr (hd c hc)⟩

theorem not_delim_of_digit (c d : Char) (hd : d.toNat < 45 ∨ d.toNat = 46)
    (h : c = '-' ∨ (digit_of 10 c).isSome = true) : ([d].contains c) = false := by
  have hne : c ≠ d := by
    intro hcd
    subst hcd
    rcases h with h | h
    · subst h
      revert hd
      decide
    · have := digit_of_range 10 c h
      omega
  simp [hne]

/-- `strtok` on a first field that holds no delimiter, followed by the
delimiter and the rest of the text. -/
theorem strtok_field (s rest : List Char) (d : Char) (hne : s ≠ [])
    (hs : ∀ c ∈ s, ([d].contains c) = false) :
    strtok (s ++ d :: rest) [d] = (some s, rest) := by
  cases s with
  | nil => exact absurd rfl hne
  | cons c r =>
    have hc := hs c (List.mem_cons_self _ _)
    have hdw : (c :: r ++ d :: rest).dropWhile (fun x => [d].contains x) = c :: r ++ d :: rest := by
      rw [List.cons_append, List.dropWhile_cons_of_neg (by
        simp only [hc]
        exact Bool.false_ne_true)]
    have hsplit := takeWhile_append_digits (fun x => !(([d] : List Char).contains x)) (c :: r)
      (d :: rest)
      (fun x hx => by simp only [hs x hx, Bool.not_false]) (fun x hx => by
        simp only [List.head?_cons, Option.some.injEq] at hx
        subst hx
        simp)
    simp only [List.cons_append] at hdw hsplit
    unfold strtok
    simp only [List.cons_append, hdw, hsplit.1, hsplit.2, List.isEmpty_cons, Bool.false_eq_true,
      if_false, List.drop_succ_cons, List.drop_zero]

/-- `strtok` on a last field that holds no delimiter. -/
theorem strtok_last (s : List Char) (d : Char) (hne : s ≠ [])
    (hs : ∀ c ∈ s, ([d].contains c) = false) : (strtok s [d]).1 = some s := by
  cases s with
  | nil => exact absurd rfl hne
  | cons c r =>
    have hc := hs c (List.mem_cons_self _ _)
    have hdw : (c :: r).dropWhile (fun x => [d].contains x) = c :: r := by
      rw [List.dropWhile_cons_of_neg (by
        simp only [hc]
        exact Bool.false_ne_true)]
    have hsplit := takeWhile_append_digits (fun x => !(([d] : List Char).contains x)) (c :: r) []
      (fun x hx => by simp only [hs x hx, Bool.not_false]) (fun x hx => by simp at hx)
    unfold strtok
    simp only [hdw, List.isEmpty_cons, Bool.false_eq_true, if_false]
    have := hsplit.1
    simp only [List.append_nil] at this
    rw [this]

/-- The two fields `__iio_str_parse` reads from the `%d` text of a 32-bit
integer, a point and a run of decimal digits. -/
theorem iio_str_parse_fields (long_bits : Nat) (hl : 32 ≤ long_bits) (v : Int)
    (h1 : -2147483648 ≤ v) (h2 : v ≤ 2147483647) (p : List Char) (hne : p ≠ [])
    (hp : ∀ c ∈ p, (digit_of 10 c).isSome = true) :
    __iio_str_parse long_bits (fmt_d v ++ ".".toList ++ p) false =
      Except.ok (v, int32_of_int (strtol long_bits p)) := by
  have hf := strtok_field (fmt_d v) p '.' (fmt_d_chars v).1
    (fun c hc => not_delim_of_digit c '.' (Or.inr rfl) ((fmt_d_chars v).2 c hc))
  have hlst := strtok_last p '\n' hne
    (fun c hc => not_delim_of_digit c '\n' (Or.inl (by decide)) (Or.inr (hp c hc)))
  have htext : fmt_d v ++ ".".toList ++ p = fmt_d v ++ '.' :: p := by simp
  have hdot : ".".toList = ['.'] := rfl
  have hnl : "\n".toList = ['\n'] := rfl
  unfold __iio_str_parse
  rw [htext]
  simp only [hdot, hnl, hf, Bool.false_eq_true, if_false, hlst,
    strtol_fmt_d long_bits hl v h1 h2, int32_of_int_id v h1 h2]

theorem strtol_zeros (long_bits : Nat) (k : Nat) :
    strtol long_bits (List.replicate (k + 1) '0') = 0 := by
  have hp : (0 : Int) < 2 ^ (long_bits - 1) := by positivity
  have h1 : ¬ ((0 : Int) > 2 ^ (long_bits - 1) - 1) := by omega
  have h2 : ¬ ((0 : Int) < -(2 ^ (long_bits - 1))) := by omega
  have hs : scan_sign (skip_space (List.replicate (k + 1) '0')) =
      (false, List.replicate (k + 1) '0') := by
    rw [List.replicate_succ, skip_space_digit 10 '0' _ (by decide),
      scan_sign_digit 10 '0' _ (by decide)]
  have hall : ∀ c ∈ List.replicate (k + 1) '0', (digit_of 8 c).isSome = true := by
    intro c hc
    rw [(List.mem_replicate.1 hc).2]
    decide
  have htw : (List.replicate (k + 1) '0').takeWhile (fun c => (digit_of 8 c).isSome) =
      List.replicate (k + 1) '0' := by
    have := (takeWhile_append_digits (fun c => (digit_of 8 c).isSome)
      (List.replicate (k + 1) '0') [] hall (by intro x hx; simp at hx)).1
    simpa using this
  have hval : ∀ j, digits_val 8 (List.replicate j '0') = 0 := by
    intro j
    induction j with
    | zero => rfl
    | succ j ih =>
      rw [List.replicate_succ']
      rw [digits_val_snoc, ih]
      rfl
  have hbase : (match List.replicate (k + 1) '0' with
      | '0' :: x :: d :: r' =>
        if (x = 'x' ∨ x = 'X') ∧ (digit_of 16 d).isSome then (16, d :: r')
        else (8, List.replicate (k + 1) '0')
      | '0' :: r' => (8, List.replicate (k + 1) '0')
      | _ => ((10 : Nat), List.replicate (k + 1) '0')) = (8, List.replicate (k + 1) '0') := by
    split
    · rename_i x d r' heq
      have hx : x = '0' := by
        cases k with
        | zero => simp [List.replicate] at heq
        | succ k =>
          simp only [List.replicate_succ, List.cons.injEq, true_and] at heq
          exact heq.1.symm
      have hnx : ¬ ((x = 'x' ∨ x = 'X') ∧ (digit_of 16 d).isSome = true) := by
        rw [hx]
        intro h
        rcases h.1 with h | h <;> exact absurd h (by decide)
      simp only [hnx, if_false]
    · rfl
    · rename_i hn1 hn2
      exact absurd (List.replicate_succ (n := k) (a := '0')) (by
        intro h
        exact hn2 _ h)
  unfold strtol
  simp only [hs, hbase, htw, hval, Bool.false_eq_true, if_false, Nat.cast_zero, h1, h2]

theorem parse_scaled_overflow (v x scale : Int) (h : 2147483647 < x * scale) :
    parse_scaled (Except.ok (v, x)) scale = none := by
  have hn : in_int32 (x * scale) = false := by
    unfold in_int32
    simp only [decide_eq_false_iff_not]
    omega
  simp only [parse_scaled, hn, Bool.false_eq_true, if_false]

theorem fmt_pad0_decimal (w n : Nat) :
    fmt_pad0 w (fmt_u32 n) ≠ [] ∧
      ∀ c ∈ fmt_pad0 w (fmt_u32 n), (digit_of 10 c).isSome = true := by
  constructor
  · unfold fmt_pad0
    intro h
    exact (fmt_u32_digits n).1 (List.append_eq_nil.1 h).2
  · intro c hc
    unfold fmt_pad0 at hc
    rcases List.mem_append.1 hc with h | h
    · rw [(List.mem_replicate.1 h).2]
      decide
    · exact (fmt_u32_digits n).2 c h

theorem u32_of_int_natCast (f : Nat) (h : f < 4294967296) : u32_of_int (f : Int) = f := by
  unfold u32_of_int
  omega

/-- The micro format through both functions, for every 32-bit integer `v` and
every fraction `f` below 10^6: the text is the `%d` text of `v`, a point and
the six digits of `f`; it is read back for `f = 0`, and for no other `f` does
`iio_parse_value` return success with `val2 = f`. -/
theorem iio_parse_format_micro (long_bits len : Nat) (size : Int) (v : Int) (f : Nat)
    (rest : List Int) (hl : 32 ≤ long_bits) (h1 : -2147483648 ≤ v) (h2 : v ≤ 2147483647)
    (hf : f < 1000000)
    (hlen : (fmt_d v ++ ".".toList ++ fmt_pad0 6 (fmt_u32 f)).length < len) :
    iio_format_value len iio_val.IIO_VAL_INT_PLUS_MICRO size (v :: (f : Int) :: rest) =
      some (((fmt_d v ++ ".".toList ++ fmt_pad0 6 (fmt_u32 f)).length : Int),
        fmt_d v ++ ".".toList ++ fmt_pad0 6 (fmt_u32 f)) ∧
    (f = 0 →
      iio_parse_value long_bits (fmt_d v ++ ".".toList ++ fmt_pad0 6 (fmt_u32 f))
        iio_val.IIO_VAL_INT_PLUS_MICRO = some (0, some (v, 0))) ∧
    (f ≠ 0 →
      iio_parse_value long_bits (fmt_d v ++ ".".toList ++ fmt_pad0 6 (fmt_u32 f))
        iio_val.IIO_VAL_INT_PLUS_MICRO ≠ some (0, some (v, (f : Int)))) := by
  have hP := fmt_pad0_decimal 6 f
  have hparse : iio_parse_value long_bits (fmt_d v ++ ".".toList ++ fmt_pad0 6 (fmt_u32 f))
      iio_val.IIO_VAL_INT_PLUS_MICRO =
      parse_scaled (Except.ok (v, int32_of_int (strtol long_bits (fmt_pad0 6 (fmt_u32 f)))))
        100000 := by
    simp only [iio_parse_value, iio_str_parse_fields long_bits hl v h1 h2 _ hP.1 hP.2]
  refine ⟨?_, ?_, ?_⟩
  · have h0 : len ≠ 0 := by omega
    simp only [iio_format_value, u32_of_int_natCast f (by omega), c_snprintf, h0, if_false]
    rw [List.take_of_length_le (by omega)]
  · intro hf0
    subst hf0
    rw [hparse]
    have hz : fmt_pad0 6 (fmt_u32 0) = List.replicate (5 + 1) '0' := by decide
    rw [hz, strtol_zeros long_bits 5]
    rfl
  · intro hf0 heq
    rw [hparse] at heq
    have hdvd := parse_scaled_dvd _ _ _ _ _ heq
    have hd2 : (100000 : Nat) ∣ f := by exact_mod_cast hdvd
    obtain ⟨k, hk⟩ := hd2
    subst hk
    clear hdvd
    have hk1 : 1 ≤ k := by omega
    have hk9 : k ≤ 9 := by omega
    have hs : strtol long_bits (fmt_pad0 6 (fmt_u32 (100000 * k))) = ((100000 * k : Nat) : Int) := by
      have hd : fmt_pad0 6 (fmt_u32 (100000 * k)) = fmt_d ((100000 * k : Nat) : Int) := by
        interval_cases k <;> decide
      rw [hd]
      exact strtol_fmt_d long_bits hl _ (by omega) (by omega)
    rw [hs, int32_of_int_id _ (by omega) (by omega),
      parse_scaled_overflow _ _ _ (by push_cast; omega)] at heq
    exact Option.noConfusion heq

/-- The nano format through both functions: the text is read back for
`f = 0`, and for no other `f` below 10^9 does `iio_parse_value` return success
with `val2 = f`. -/
theorem iio_parse_format_nano (long_bits len : Nat) (size : Int) (v : Int) (f : Nat)
    (rest : List Int) (hl : 32 ≤ long_bits) (h1 : -2147483648 ≤ v) (h2 : v ≤ 2147483647)
    (hf : f < 1000000000)
    (hlen : (fmt_d v ++ ".".toList ++ fmt_pad0 9 (fmt_u32 f)).length < len) :
    iio_format_value len iio_val.IIO_VAL_INT_PLUS_NANO size (v :: (f : Int) :: rest) =
      some (((fmt_d v ++ ".".toList ++ fmt_pad0 9 (fmt_u32 f)).length : Int),
        fmt_d v ++ ".".toList ++ fmt_pad0 9 (fmt_u32 f)) ∧
    (f = 0 →
      iio_parse_value long_bits (fmt_d v ++ ".".toList ++ fmt_pad0 9 (fmt_u32 f))
        iio_val.IIO_VAL_INT_PLUS_NANO = some (0, some (v, 0))) ∧
    (f ≠ 0 →
      iio_parse_value long_bits (fmt_d v ++ ".".toList ++ fmt_pad0 9 (fmt_u32 f))
        iio_val.IIO_VAL_INT_PLUS_NANO ≠ some (0, some (v, (f : Int)))) := by
  have hP := fmt_pad0_decimal 9 f
  have hparse : iio_parse_value long_bits (fmt_d v ++ ".".toList ++ fmt_pad0 9 (fmt_u32 f))
      iio_val.IIO_VAL_INT_PLUS_NANO =
      parse_scaled (Except.ok (v, int32_of_int (strtol long_bits (fmt_pad0 9 (fmt_u32 f)))))
        100000000 := by
    simp only [iio_parse_value, iio_str_parse_fields long_bits hl v h1 h2 _ hP.1 hP.2]
  refine ⟨?_, ?_, ?_⟩
  · have h0 : len ≠ 0 := by omega
    simp only [iio_format_value, u32_of_int_natCast f (by omega), c_snprintf, h0, if_false]
    rw [List.take_of_length_le (by omega)]
  · intro hf0
    subst hf0
    rw [hparse]
    have hz : fmt_pad0 9 (fmt_u32 0) = List.replicate (8 + 1) '0' := by decide
    rw [hz, strtol_zeros long_bits 8]
    rfl
  · intro hf0 heq
    rw [hparse] at heq
    have hdvd := parse_scaled_dvd _ _ _ _ _ heq
    have hd2 : (100000000 : Nat) ∣ f := by exact_mod_cast hdvd
    obtain ⟨k, hk⟩ := hd2
    subst hk
    clear hdvd
    have hk1 : 1 ≤ k := by omega
    have hk9 : k ≤ 9 := by omega
    have hs : strtol long_bits (fmt_pad0 9 (fmt_u32 (100000000 * k))) =
        ((100000000 * k : Nat) : Int) := by
      have hd : fmt_pad0 9 (fmt_u32 (100000000 * k)) = fmt_d ((100000000 * k : Nat) : Int) := by
        interval_cases k <;> decide
      rw [hd]
      exact strtol_fmt_d long_bits hl _ (by omega) (by omega)
    rw [hs, int32_of_int_id _ (by omega) (by omega),
      parse_scaled_overflow _ _ _ (by push_cast; omega)] at heq
    exact Option.noConfusion heq

/-- C32 fails for every fraction but 0: for every 32-bit integer `v` and every
`f` with `0 < f < 10^6`, `iio_format_value` produces the text of `v`, a point
and the six (micro) or nine (nano) digits of `f`, and `iio_parse_value` on that
text does not return success with `val2 = f`: it reads the digits as one
integer, in octal after a leading zero, and multiplies it by 10^5 (10^8), which
yields another value or overflows `int32_t`. -/
theorem iio_parse_format_fraction (long_bits len : Nat) (size : Int) (v : Int) (f : Nat)
    (rest : List Int) (hl : 32 ≤ long_bits) (h1 : -2147483648 ≤ v) (h2 : v ≤ 2147483647)
    (hf0 : f ≠ 0) (hf : f < 1000000)
    (hlen : (fmt_d v ++ ".".toList ++ fmt_pad0 9 (fmt_u32 f)).length < len) :
    (iio_format_value len iio_val.IIO_VAL_INT_PLUS_MICRO size (v :: (f : Int) :: rest) =
        some (((fmt_d v ++ ".".toList ++ fmt_pad0 6 (fmt_u32 f)).length : Int),
          fmt_d v ++ ".".toList ++ fmt_pad0 6 (fmt_u32 f)) ∧
      iio_parse_value long_bits (fmt_d v ++ ".".toList ++ fmt_pad0 6 (fmt_u32 f))
        iio_val.IIO_VAL_INT_PLUS_MICRO ≠ some (0, some (v, (f : Int)))) ∧
    (iio_format_value len iio_val.IIO_VAL_INT_PLUS_NANO size (v :: (f : Int) :: rest) =
        some (((fmt_d v ++ ".".toList ++ fmt_pad0 9 (fmt_u32 f)).length : Int),
          fmt_d v ++ ".".toList ++ fmt_pad0 9 (fmt_u32 f)) ∧
      iio_parse_value long_bits (fmt_d v ++ ".".toList ++ fmt_pad0 9 (fmt_u32 f))
        iio_val.IIO_VAL_INT_PLUS_NANO ≠ some (0, some (v, (f : Int)))) := by
  have hlen6 : (fmt_d v ++ ".".toList ++ fmt_pad0 6 (fmt_u32 f)).length < len := by
    have h6 : (fmt_pad0 6 (fmt_u32 f)).length ≤ (fmt_pad0 9 (fmt_u32 f)).length := by
      unfold fmt_pad0
      simp only [List.length_append, List.length_replicate]
      omega
    simp only [List.length_append] at hlen ⊢
    omega
  have hm := iio_parse_format_micro long_bits len size v f rest hl h1 h2 hf hlen6
  have hn := iio_parse_format_nano long_bits len size v f rest hl h1 h2 (by omega) hlen
  exact ⟨⟨hm.1, hm.2.2 hf0⟩, ⟨hn.1, hn.2.2 hf0⟩⟩

/-- C32 at the claim's own example `v = 3`, `f = 500000`: the micro text is
"3.500000", on which `iio_parse_value` is undefined (500000 * 100000 overflows
`int32_t`), and the nano text is "3.000500000", whose digits are read in octal
as 163840 and multiplied by 10^8, which overflows as well. -/
theorem iio_parse_format_fraction_witness :
    ((iio_format_value 32 iio_val.IIO_VAL_INT_PLUS_MICRO 2 [3, ((500000 : Nat) : Int)] =
        some (((fmt_d 3 ++ ".".toList ++ fmt_pad0 6 (fmt_u32 500000)).length : Int),
          fmt_d 3 ++ ".".toList ++ fmt_pad0 6 (fmt_u32 500000)) ∧
      iio_parse_value 32 (fmt_d 3 ++ ".".toList ++ fmt_pad0 6 (fmt_u32 500000))
        iio_val.IIO_VAL_INT_PLUS_MICRO ≠ some (0, some (3, ((500000 : Nat) : Int)))) ∧
    (iio_format_value 32 iio_val.IIO_VAL_INT_PLUS_NANO 2 [3, ((500000 : Nat) : Int)] =
        some (((fmt_d 3 ++ ".".toList ++ fmt_pad0 9 (fmt_u32 500000)).length : Int),
          fmt_d 3 ++ ".".toList ++ fmt_pad0 9 (fmt_u32 500000)) ∧
      iio_parse_value 32 (fmt_d 3 ++ ".".toList ++ fmt_pad0 9 (fmt_u32 500000))
        iio_val.IIO_VAL_INT_PLUS_NANO ≠ some (0, some (3, ((500000 : Nat) : Int))))) ∧
    fmt_d 3 ++ ".".toList ++ fmt_pad0 6 (fmt_u32 500000) = "3.500000".toList ∧
    (iio_parse_value 32 "3.500000".toList iio_val.IIO_VAL_INT_PLUS_MICRO).isNone = true ∧
    fmt_d 3 ++ ".".toList ++ fmt_pad0 9 (fmt_u32 500000) = "3.000500000".toList ∧
    (iio_parse_value 32 "3.000500000".toList iio_val.IIO_VAL_INT_PLUS_NANO).isNone = true :=
  ⟨iio_parse_format_fraction 32 32 2 3 500000 [] (by decide) (by decide) (by decide)
      (by decide) (by decide) (by decide),
   by decide, by decide, by decide, by decide⟩

end IIO
